import Mathlib

/-!
# RESTerX persistence layer

A shallow embedding of `pkg/storage.go` (the two storage adapters and the
failover `StorageManager`) and of `pkg/room.go` with the tables of
`pkg/database.go` (rooms, devices and the room sync), followed by the
properties proved about them.

Conventions of the embedding:

* a Go method with a pointer argument it mutates returns the pointee as it
  leaves it, next to the method's own results;
* a Go `error` is `Option String`, `none` being `nil`;
* everything outside the repository that a method consults (the wall clock,
  the ObjectID generator, whether a driver call goes through, bcrypt, the
  token service) is read from an `Env` of oracles, indexed by how many of
  them the world has consumed so far.
-/

namespace RESTerX

/-! ## Go values -/

/-- Go `error`: `none` is `nil`, `some msg` an error whose text is `msg`. -/
abbrev GoError := Option String

/-- Instants of `time.Time`, as a count of clock units; `0` is the zero Time. -/
abbrev Time := Nat

/-- Go `Time.IsZero`. -/
def Time.IsZero (t : Time) : Bool := t == 0

/-- The dynamic values held by a `map[string]interface{}`. The first six
are what `encoding/json` hands out when it decodes into an `interface{}`:
`nil`, a `bool`, a `float64` (`number n` is the float64 whose value is the
integer `n`; fractional numbers are left out), a `string`, a `[]interface{}`
and a `map[string]interface{}` (distinct keys, listed in key order). Go code
can also put in a value of an integer type (`integer n`: an `int`, an
`int64`, ...) and a float64 that is not a number (`notANumber`: NaN, and
likewise an infinity). -/
inductive JSONValue where
  | null
  | bool (b : Bool)
  | number (n : Int)
  | string (s : String)
  | array (xs : List JSONValue)
  | object (fields : List (String × JSONValue))
  | integer (n : Int)
  | notANumber

mutual
/-- Decidable equality of dynamic values. -/
def JSONValue.decEq : (a b : JSONValue) → Decidable (a = b)
  | .null, .null => isTrue rfl
  | .bool a, .bool b =>
    if h : a = b then isTrue (congrArg _ h) else isFalse (fun h' => h (JSONValue.bool.inj h'))
  | .number a, .number b =>
    if h : a = b then isTrue (congrArg _ h) else isFalse (fun h' => h (JSONValue.number.inj h'))
  | .string a, .string b =>
    if h : a = b then isTrue (congrArg _ h) else isFalse (fun h' => h (JSONValue.string.inj h'))
  | .array a, .array b =>
    match JSONValue.decEqList a b with
    | isTrue h => isTrue (congrArg _ h)
    | isFalse h => isFalse (fun h' => h (JSONValue.array.inj h'))
  | .object a, .object b =>
    match JSONValue.decEqFields a b with
    | isTrue h => isTrue (congrArg _ h)
    | isFalse h => isFalse (fun h' => h (JSONValue.object.inj h'))
  | .integer a, .integer b =>
    if h : a = b then isTrue (congrArg _ h) else isFalse (fun h' => h (JSONValue.integer.inj h'))
  | .notANumber, .notANumber => isTrue rfl
  | .null, .bool _ | .null, .number _ | .null, .string _ | .null, .array _
  | .null, .object _ | .null, .integer _ | .null, .notANumber
  | .bool _, .null | .bool _, .number _ | .bool _, .string _ | .bool _, .array _
  | .bool _, .object _ | .bool _, .integer _ | .bool _, .notANumber
  | .number _, .null | .number _, .bool _ | .number _, .string _ | .number _, .array _
  | .number _, .object _ | .number _, .integer _ | .number _, .notANumber
  | .string _, .null | .string _, .bool _ | .string _, .number _ | .string _, .array _
  | .string _, .object _ | .string _, .integer _ | .string _, .notANumber
  | .array _, .null | .array _, .bool _ | .array _, .number _ | .array _, .string _
  | .array _, .object _ | .array _, .integer _ | .array _, .notANumber
  | .object _, .null | .object _, .bool _ | .object _, .number _ | .object _, .string _
  | .object _, .array _ | .object _, .integer _ | .object _, .notANumber
  | .integer _, .null | .integer _, .bool _ | .integer _, .number _ | .integer _, .string _
  | .integer _, .array _ | .integer _, .object _ | .integer _, .notANumber
  | .notANumber, .null | .notANumber, .bool _ | .notANumber, .number _ | .notANumber, .string _
  | .notANumber, .array _ | .notANumber, .object _ | .notANumber, .integer _ => isFalse (fun h => JSONValue.noConfusion h)
/-- Decidable equality of lists of dynamic values. -/
def JSONValue.decEqList : (a b : List JSONValue) → Decidable (a = b)
  | [], [] => isTrue rfl
  | [], _ :: _ => isFalse (fun h => List.noConfusion h)
  | _ :: _, [] => isFalse (fun h => List.noConfusion h)
  | x :: xs, y :: ys =>
    match JSONValue.decEq x y, JSONValue.decEqList xs ys with
    | isTrue h, isTrue hs => isTrue (by rw [h, hs])
    | isFalse h, _ => isFalse (fun h' => h (List.cons.inj h').1)
    | _, isFalse hs => isFalse (fun h' => hs (List.cons.inj h').2)
/-- Decidable equality of the field lists of dynamic values. -/
def JSONValue.decEqFields : (a b : List (String × JSONValue)) → Decidable (a = b)
  | [], [] => isTrue rfl
  | [], _ :: _ => isFalse (fun h => List.noConfusion h)
  | _ :: _, [] => isFalse (fun h => List.noConfusion h)
  | (k, x) :: xs, (l, y) :: ys =>
    if hk : k = l then
      match JSONValue.decEq x y, JSONValue.decEqFields xs ys with
      | isTrue h, isTrue hs => isTrue (by rw [hk, h, hs])
      | isFalse h, _ => isFalse (fun h' => h (Prod.mk.inj (List.cons.inj h').1).2)
      | _, isFalse hs => isFalse (fun h' => hs (List.cons.inj h').2)
    else isFalse (fun h' => hk (Prod.mk.inj (List.cons.inj h').1).1)
end

instance : DecidableEq JSONValue := JSONValue.decEq

/-- The values a JSON text denotes; `number n` is the number literal whose
digits are those of the integer `n`. -/
inductive JSONDocument where
  | null
  | bool (b : Bool)
  | number (n : Int)
  | string (s : String)
  | array (xs : List JSONDocument)
  | object (fields : List (String × JSONDocument))

mutual
/-- Decidable equality of JSON documents. -/
def JSONDocument.decEq : (a b : JSONDocument) → Decidable (a = b)
  | .null, .null => isTrue rfl
  | .bool a, .bool b =>
    if h : a = b then isTrue (congrArg _ h) else isFalse (fun h' => h (JSONDocument.bool.inj h'))
  | .number a, .number b =>
    if h : a = b then isTrue (congrArg _ h) else isFalse (fun h' => h (JSONDocument.number.inj h'))
  | .string a, .string b =>
    if h : a = b then isTrue (congrArg _ h) else isFalse (fun h' => h (JSONDocument.string.inj h'))
  | .array a, .array b =>
    match JSONDocument.decEqList a b with
    | isTrue h => isTrue (congrArg _ h)
    | isFalse h => isFalse (fun h' => h (JSONDocument.array.inj h'))
  | .object a, .object b =>
    match JSONDocument.decEqFields a b with
    | isTrue h => isTrue (congrArg _ h)
    | isFalse h => isFalse (fun h' => h (JSONDocument.object.inj h'))
  | .null, .bool _ | .null, .number _ | .null, .string _ | .null, .array _
  | .null, .object _
  | .bool _, .null | .bool _, .number _ | .bool _, .string _ | .bool _, .array _
  | .bool _, .object _
  | .number _, .null | .number _, .bool _ | .number _, .string _ | .number _, .array _
  | .number _, .object _
  | .string _, .null | .string _, .bool _ | .string _, .number _ | .string _, .array _
  | .string _, .object _
  | .array _, .null | .array _, .bool _ | .array _, .number _ | .array _, .string _
  | .array _, .object _
  | .object _, .null | .object _, .bool _ | .object _, .number _ | .object _, .string _
  | .object _, .array _ => isFalse (fun h => JSONDocument.noConfusion h)
/-- Decidable equality of lists of JSON documents. -/
def JSONDocument.decEqList : (a b : List JSONDocument) → Decidable (a = b)
  | [], [] => isTrue rfl
  | [], _ :: _ => isFalse (fun h => List.noConfusion h)
  | _ :: _, [] => isFalse (fun h => List.noConfusion h)
  | x :: xs, y :: ys =>
    match JSONDocument.decEq x y, JSONDocument.decEqList xs ys with
    | isTrue h, isTrue hs => isTrue (by rw [h, hs])
    | isFalse h, _ => isFalse (fun h' => h (List.cons.inj h').1)
    | _, isFalse hs => isFalse (fun h' => hs (List.cons.inj h').2)
/-- Decidable equality of the field lists of JSON documents. -/
def JSONDocument.decEqFields : (a b : List (String × JSONDocument)) → Decidable (a = b)
  | [], [] => isTrue rfl
  | [], _ :: _ => isFalse (fun h => List.noConfusion h)
  | _ :: _, [] => isFalse (fun h => List.noConfusion h)
  | (k, x) :: xs, (l, y) :: ys =>
    if hk : k = l then
      match JSONDocument.decEq x y, JSONDocument.decEqFields xs ys with
      | isTrue h, isTrue hs => isTrue (by rw [hk, h, hs])
      | isFalse h, _ => isFalse (fun h' => h (Prod.mk.inj (List.cons.inj h').1).2)
      | _, isFalse hs => isFalse (fun h' => hs (List.cons.inj h').2)
    else isFalse (fun h' => hk (Prod.mk.inj (List.cons.inj h').1).1)
end

instance : DecidableEq JSONDocument := JSONDocument.decEq

/-- The number of binary digits of `a`, for `a` below `2 ^ fuel`. -/
def bitLength : Nat → Nat → Nat
  | 0, _ => 0
  | fuel + 1, a => if a = 0 then 0 else bitLength fuel (a / 2) + 1

/-- The integer value of the float64 nearest to the integer `n` (53 binary
digits are kept, a tie goes to the even neighbour), for `n` within the range
of the finite float64 values: what `strconv.ParseFloat` makes of the digits
of `n`. -/
def float64Nearest (n : Int) : Int :=
  if n.natAbs ≤ 2 ^ 53 then n
  else
    let k := bitLength 1024 n.natAbs - 53
    let q := n.natAbs / 2 ^ k
    let r := n.natAbs % 2 ^ k
    let q := if 2 * r > 2 ^ k ∨ (2 * r = 2 ^ k ∧ q % 2 = 1) then q + 1 else q
    if n < 0 then -((q * 2 ^ k : Nat) : Int) else ((q * 2 ^ k : Nat) : Int)

mutual
/-- Library `json.Marshal` on a dynamic value: the document it writes, or
`none` when it refuses the value (`json: unsupported value: NaN`). An integer
is written with its digits, a float64 with the shortest digits that denote it. -/
def JSONValue.marshal : JSONValue → Option JSONDocument
  | .null => some .null
  | .bool b => some (.bool b)
  | .number n => some (.number n)
  | .string s => some (.string s)
  | .array xs => (JSONValue.marshalList xs).map JSONDocument.array
  | .object fields => (JSONValue.marshalFields fields).map JSONDocument.object
  | .integer n => some (.number n)
  | .notANumber => none
/-- Library `json.Marshal` on the elements of a slice. -/
def JSONValue.marshalList : List JSONValue → Option (List JSONDocument)
  | [] => some []
  | x :: xs =>
    match JSONValue.marshal x, JSONValue.marshalList xs with
    | some d, some ds => some (d :: ds)
    | _, _ => none
/-- Library `json.Marshal` on the entries of a map. -/
def JSONValue.marshalFields : List (String × JSONValue) → Option (List (String × JSONDocument))
  | [] => some []
  | (k, x) :: xs =>
    match JSONValue.marshal x, JSONValue.marshalFields xs with
    | some d, some ds => some ((k, d) :: ds)
    | _, _ => none
end

mutual
/-- Library `json.Unmarshal` into an `interface{}`: every number becomes a
float64, an array a `[]interface{}`, an object a `map[string]interface{}`. -/
def JSONDocument.unmarshal : JSONDocument → JSONValue
  | .null => .null
  | .bool b => .bool b
  | .number n => .number (float64Nearest n)
  | .string s => .string s
  | .array xs => .array (JSONDocument.unmarshalList xs)
  | .object fields => .object (JSONDocument.unmarshalFields fields)
/-- Library `json.Unmarshal` on the elements of an array. -/
def JSONDocument.unmarshalList : List JSONDocument → List JSONValue
  | [] => []
  | x :: xs => JSONDocument.unmarshal x :: JSONDocument.unmarshalList xs
/-- Library `json.Unmarshal` on the members of an object. -/
def JSONDocument.unmarshalFields : List (String × JSONDocument) → List (String × JSONValue)
  | [] => []
  | (k, x) :: xs => (k, JSONDocument.unmarshal x) :: JSONDocument.unmarshalFields xs
end

/-- Go `[]string`; `none` is the nil slice. -/
abbrev StringSlice := Option (List String)

/-- Go `map[string]interface{}`; `none` is the nil map, `some kvs` a map with
the entries `kvs` (distinct keys, listed in key order). -/
abbrev StringMap := Option (List (String × JSONValue))

/-! ## Storage models (`storage.go`, lines 54-101) -/

/-- Go struct `StorageCollection`. -/
structure StorageCollection where
  ID : String
  Name : String
  Description : String
  RoomID : String
  Requests : StringSlice
  Metadata : StringMap
  CreatedAt : Time
  UpdatedAt : Time
deriving DecidableEq

/-- Go struct `StorageEnvironment`. -/
structure StorageEnvironment where
  ID : String
  Name : String
  Variables : StringMap
  RoomID : String
  IsActive : Bool
  CreatedAt : Time
  UpdatedAt : Time
deriving DecidableEq

/-- Go struct `StorageRequest`. -/
structure StorageRequest where
  ID : String
  CollectionID : String
  Name : String
  Method : String
  URL : String
  Headers : StringMap
  Body : String
  QueryParams : StringMap
  AuthType : String
  AuthData : StringMap
  CreatedAt : Time
  UpdatedAt : Time
deriving DecidableEq

/-- Go struct `StorageHistory`. Of the `time.Time` in the field `Timestamp`,
`Timestamp` is the instant and `TimestampZone` the offset east of UTC, in
clock units, of the location the value carries (zero for UTC). -/
structure StorageHistory where
  ID : String
  RoomID : String
  Method : String
  URL : String
  StatusCode : Int
  ResponseTime : Int
  Timestamp : Time
  TimestampZone : Int := 0
  Headers : StringMap
  Response : String
deriving DecidableEq

/-! ## The document store -/

/-- BSON values, as far as the four storage models produce them. -/
inductive BSONValue where
  | null
  | string (s : String)
  | boolean (b : Bool)
  | int (n : Int)
  | dateTime (t : Time)
  | strings (xs : List String)
  | document (m : List (String × JSONValue))
deriving DecidableEq

/-- One stored BSON document: its fields in order. -/
abbrev Document := List (String × BSONValue)

/-- The string under key `k`, the zero value when absent or of another type. -/
def Document.str (d : Document) (k : String) : String :=
  match d.lookup k with
  | some (.string s) => s
  | _ => ""

/-- The boolean under key `k`. -/
def Document.boolean (d : Document) (k : String) : Bool :=
  match d.lookup k with
  | some (.boolean b) => b
  | _ => false

/-- The integer under key `k`. -/
def Document.int (d : Document) (k : String) : Int :=
  match d.lookup k with
  | some (.int n) => n
  | _ => 0

/-- The time under key `k`. -/
def Document.time (d : Document) (k : String) : Time :=
  match d.lookup k with
  | some (.dateTime t) => t
  | _ => 0

/-- The string slice under key `k`; BSON null and an absent key decode to nil. -/
def Document.strings (d : Document) (k : String) : StringSlice :=
  match d.lookup k with
  | some (.strings xs) => some xs
  | _ => none

/-- The map under key `k`; BSON null and an absent key decode to nil. -/
def Document.stringMap (d : Document) (k : String) : StringMap :=
  match d.lookup k with
  | some (.document m) => some m
  | _ => none

/-- Assign one field, as one entry of a `$set` does. -/
def Document.setField (d : Document) (k : String) (v : BSONValue) : Document :=
  if d.any (fun kv => kv.1 == k) then d.map (fun kv => if kv.1 == k then (k, v) else kv)
  else d ++ [(k, v)]

/-- Apply the update `{"$set": fields}` to document `d`. -/
def Document.applySet (d : Document) (fields : Document) : Document :=
  fields.foldl (fun acc kv => acc.setField kv.1 kv.2) d

/-- A string field tagged `omitempty`: left out when empty. -/
def bsonOmitEmptyString (k : String) (s : String) : Document :=
  if s = "" then [] else [(k, .string s)]

/-- A map field without `omitempty`: a nil map is written as BSON null. -/
def bsonMap (k : String) (m : StringMap) : Document :=
  match m with
  | none => [(k, .null)]
  | some kvs => [(k, .document kvs)]

/-- A map field tagged `omitempty`: left out when nil or of length zero. -/
def bsonOmitEmptyMap (k : String) (m : StringMap) : Document :=
  match m with
  | none => []
  | some [] => []
  | some kvs => [(k, .document kvs)]

/-- A slice field without `omitempty`: a nil slice is written as BSON null. -/
def bsonStrings (k : String) (xs : StringSlice) : Document :=
  match xs with
  | none => [(k, .null)]
  | some l => [(k, .strings l)]

/-- The BSON encoding of a `StorageCollection`, following its `bson` tags. -/
def StorageCollection.toBSON (c : StorageCollection) : Document :=
  bsonOmitEmptyString "_id" c.ID ++
  [("name", .string c.Name), ("description", .string c.Description)] ++
  bsonOmitEmptyString "roomId" c.RoomID ++
  bsonStrings "requests" c.Requests ++
  bsonOmitEmptyMap "metadata" c.Metadata ++
  [("createdAt", .dateTime c.CreatedAt), ("updatedAt", .dateTime c.UpdatedAt)]

/-- Decoding a document into a `StorageCollection`. -/
def StorageCollection.fromBSON (d : Document) : StorageCollection :=
  { ID := d.str "_id", Name := d.str "name", Description := d.str "description",
    RoomID := d.str "roomId", Requests := d.strings "requests",
    Metadata := d.stringMap "metadata",
    CreatedAt := d.time "createdAt", UpdatedAt := d.time "updatedAt" }

/-- The BSON encoding of a `StorageEnvironment`. -/
def StorageEnvironment.toBSON (e : StorageEnvironment) : Document :=
  bsonOmitEmptyString "_id" e.ID ++
  [("name", .string e.Name)] ++
  bsonMap "variables" e.Variables ++
  bsonOmitEmptyString "roomId" e.RoomID ++
  [("isActive", .boolean e.IsActive),
   ("createdAt", .dateTime e.CreatedAt), ("updatedAt", .dateTime e.UpdatedAt)]

/-- Decoding a document into a `StorageEnvironment`. -/
def StorageEnvironment.fromBSON (d : Document) : StorageEnvironment :=
  { ID := d.str "_id", Name := d.str "name", Variables := d.stringMap "variables",
    RoomID := d.str "roomId", IsActive := d.boolean "isActive",
    CreatedAt := d.time "createdAt", UpdatedAt := d.time "updatedAt" }

/-- The BSON encoding of a `StorageRequest`. -/
def StorageRequest.toBSON (r : StorageRequest) : Document :=
  bsonOmitEmptyString "_id" r.ID ++
  [("collectionId", .string r.CollectionID), ("name", .string r.Name),
   ("method", .string r.Method), ("url", .string r.URL)] ++
  bsonMap "headers" r.Headers ++
  bsonOmitEmptyString "body" r.Body ++
  bsonOmitEmptyMap "queryParams" r.QueryParams ++
  bsonOmitEmptyString "authType" r.AuthType ++
  bsonOmitEmptyMap "authData" r.AuthData ++
  [("createdAt", .dateTime r.CreatedAt), ("updatedAt", .dateTime r.UpdatedAt)]

/-- Decoding a document into a `StorageRequest`. -/
def StorageRequest.fromBSON (d : Document) : StorageRequest :=
  { ID := d.str "_id", CollectionID := d.str "collectionId", Name := d.str "name",
    Method := d.str "method", URL := d.str "url", Headers := d.stringMap "headers",
    Body := d.str "body", QueryParams := d.stringMap "queryParams",
    AuthType := d.str "authType", AuthData := d.stringMap "authData",
    CreatedAt := d.time "createdAt", UpdatedAt := d.time "updatedAt" }

/-- The BSON encoding of a `StorageHistory`. -/
def StorageHistory.toBSON (h : StorageHistory) : Document :=
  bsonOmitEmptyString "_id" h.ID ++
  bsonOmitEmptyString "roomId" h.RoomID ++
  [("method", .string h.Method), ("url", .string h.URL),
   ("statusCode", .int h.StatusCode), ("responseTime", .int h.ResponseTime),
   ("timestamp", .dateTime h.Timestamp)] ++
  bsonOmitEmptyMap "headers" h.Headers ++
  bsonOmitEmptyString "response" h.Response

/-- Decoding a document into a `StorageHistory`; a BSON date holds the
instant only and is decoded in UTC. -/
def StorageHistory.fromBSON (d : Document) : StorageHistory :=
  { ID := d.str "_id", RoomID := d.str "roomId", Method := d.str "method",
    URL := d.str "url", StatusCode := d.int "statusCode",
    ResponseTime := d.int "responseTime", Timestamp := d.time "timestamp",
    TimestampZone := 0,
    Headers := d.stringMap "headers", Response := d.str "response" }

/-- Whether document `d` satisfies the equality filter `{k: v}` for a string `v`. -/
def Document.matchesString (d : Document) (k v : String) : Bool :=
  d.lookup k == some (BSONValue.string v)

/-- The four collections of the Mongo database the adapter talks to. -/
structure MongoDatabase where
  collections : List Document
  environments : List Document
  requests : List Document
  history : List Document
deriving DecidableEq

/-- Driver `InsertOne`: a document whose `_id` is already present is refused. -/
def mongoInsertOne (docs : List Document) (doc : Document) : List Document × GoError :=
  match doc.lookup "_id" with
  | some id =>
    if docs.any (fun d => d.lookup "_id" == some id) then
      (docs, some "E11000 duplicate key error")
    else (docs ++ [doc], none)
  | none => (docs ++ [doc], none)

/-- Replace the first element satisfying `p` by its image under `f`. -/
def modifyFirst {α : Type} (p : α → Bool) (f : α → α) : List α → List α
  | [] => []
  | x :: xs => if p x then f x :: xs else x :: modifyFirst p f xs

/-- Driver `UpdateOne(filter {"_id": id}, {"$set": fields})` with the upsert
option: the first document with that `_id` gets the fields assigned; when
there is none, a document made of the filter and the fields is inserted. -/
def mongoUpsertSet (docs : List Document) (id : String) (fields : Document) : List Document :=
  if docs.any (fun d => d.matchesString "_id" id) then
    modifyFirst (fun d => d.matchesString "_id" id) (fun d => d.applySet fields) docs
  else docs ++ [Document.applySet [("_id", .string id)] fields]

/-- Driver `DeleteOne(filter {"_id": id})`: removes the first match, if any. -/
def mongoDeleteOne (docs : List Document) (id : String) : List Document :=
  docs.eraseP (fun d => d.matchesString "_id" id)

/-! ## The relational store -/

/-- What a text column written by `toJSON` can hold: the empty string, a
JSON text (identified with the document it denotes), or text that is not
JSON. -/
inductive JSONText where
  | empty
  | json (v : JSONDocument)
  | malformed (s : String)
deriving DecidableEq

/-- Go struct `SQLiteCollection` (table `storage_collections`). -/
structure SQLiteCollection where
  ID : String
  Name : String
  Description : String
  RoomID : String
  Requests : JSONText
  Metadata : JSONText
  CreatedAt : Time
  UpdatedAt : Time
deriving DecidableEq

/-- Go struct `SQLiteEnvironment` (table `storage_environments`). -/
structure SQLiteEnvironment where
  ID : String
  Name : String
  Variables : JSONText
  RoomID : String
  IsActive : Bool
  CreatedAt : Time
  UpdatedAt : Time
deriving DecidableEq

/-- Go struct `SQLiteRequest` (table `storage_requests`). -/
structure SQLiteRequest where
  ID : String
  CollectionID : String
  Name : String
  Method : String
  URL : String
  Headers : JSONText
  Body : String
  QueryParams : JSONText
  AuthType : String
  AuthData : JSONText
  CreatedAt : Time
  UpdatedAt : Time
deriving DecidableEq

/-- Go struct `SQLiteHistory` (table `storage_history`). The column
`timestamp` holds the text the driver writes for the `time.Time`: the wall
clock of the value's own location followed by its offset; `Timestamp` is the
instant and `TimestampZone` the offset. -/
structure SQLiteHistory where
  ID : String
  RoomID : String
  Method : String
  URL : String
  StatusCode : Int
  ResponseTime : Int
  Timestamp : Time
  TimestampZone : Int := 0
  Headers : JSONText
  Response : String
deriving DecidableEq

/-- The four tables of the SQLite storage file, rows in insertion order. -/
structure SQLiteTables where
  collections : List SQLiteCollection
  environments : List SQLiteEnvironment
  requests : List SQLiteRequest
  history : List SQLiteHistory
deriving DecidableEq

/-- The values `toJSON` is called on (its parameter is `interface{}`). -/
inductive GoValue where
  | strings (xs : StringSlice)
  | stringMap (m : StringMap)
deriving DecidableEq

/-- Library `json.Marshal` on the values above: a nil slice or map encodes as
`null`, a slice as an array of strings, a map as an object of its marshalled
values; the call fails when a value of the map is refused. -/
def jsonMarshal (v : GoValue) : Except String JSONText :=
  match v with
  | .strings none => .ok (.json .null)
  | .strings (some xs) => .ok (.json (.array (xs.map JSONDocument.string)))
  | .stringMap none => .ok (.json .null)
  | .stringMap (some kvs) =>
    match JSONValue.marshalFields kvs with
    | some fields => .ok (.json (.object fields))
    | none => .error "json: unsupported value: NaN"

/-- Go `toJSON` (storage.go:561): `"{}"` for the nil interface, else the
marshalled text, the error of `json.Marshal` being dropped (an empty text
results). The argument is `none` for the nil interface; a typed nil slice or
map is `some`. -/
def toJSON (v : Option GoValue) : JSONText :=
  match v with
  | none => .json (.object [])
  | some x =>
    match jsonMarshal x with
    | .ok b => b
    | .error _ => .empty

/-- Library `json.Unmarshal` into a `*[]string`: `null` makes the slice nil,
an array is decoded element by element (an element that is not a string
leaves the zero value and is reported, `null` leaves it silently), anything
else is an error that leaves the target alone. -/
def jsonUnmarshalStrings (s : JSONText) (target : StringSlice) : StringSlice × GoError :=
  match s with
  | .json .null => (none, none)
  | .json (.array xs) =>
    (some (xs.map (fun x => match x with | .string a => a | _ => "")),
     if xs.all (fun x => match x with | .string _ => true | .null => true | _ => false)
     then none else some "json: cannot unmarshal into Go value of type string")
  | .json _ => (target, some "json: cannot unmarshal into Go value of type []string")
  | _ => (target, some "invalid character looking for beginning of value")

/-- Library `json.Unmarshal` into a `*map[string]interface{}`: `null` makes
the map nil, an object fills the map with its members decoded into
`interface{}` values (allocating it when nil, its own keys winning over those
already there), anything else is an error. -/
def jsonUnmarshalMap (s : JSONText) (target : StringMap) : StringMap × GoError :=
  match s with
  | .json .null => (none, none)
  | .json (.object fields) =>
    match target with
    | none => (some (JSONDocument.unmarshalFields fields), none)
    | some old =>
      (some (old.filter (fun kv => !(fields.any (fun n => n.1 == kv.1))) ++
        JSONDocument.unmarshalFields fields), none)
  | .json _ => (target, some "json: cannot unmarshal into Go value of type map")
  | _ => (target, some "invalid character looking for beginning of value")

/-- Go `fromJSON` (storage.go:569) with a `*[]string` target: the empty text is
left undecoded. -/
def fromJSONStrings (s : JSONText) (target : StringSlice) : StringSlice × GoError :=
  if s = .empty then (target, none) else jsonUnmarshalStrings s target

/-- Go `fromJSON` (storage.go:569) with a `*map[string]interface{}` target. -/
def fromJSONMap (s : JSONText) (target : StringMap) : StringMap × GoError :=
  if s = .empty then (target, none) else jsonUnmarshalMap s target

/-! ## The world the adapters run in -/

/-- Everything outside the repository that the storage layer consults. -/
structure Env where
  /-- Reading number `i` of the wall clock is `clock i + 1` (never the zero Time). -/
  clock : Nat → Nat
  /-- The number drawn by the `i`-th `primitive.NewObjectID()`. -/
  objectID : Nat → Nat
  /-- Whether the `i`-th call of the Mongo driver fails (unreachable, timed out). -/
  mongoFault : Nat → Bool
  /-- Whether the `i`-th gorm call on the SQLite storage file fails. -/
  sqliteFault : Nat → Bool
  /-- The process environment variables `MONGODB_URI`, `MONGODB_DATABASE`, `SQLITE_PATH`. -/
  getenv : String → String
  /-- Whether `NewMongoStorage` can connect and ping for a URI and database name. -/
  mongoConnects : String → String → Bool
  /-- Whether `NewSQLiteStorage` can open and migrate the file at a path. -/
  sqliteOpens : String → Bool
  /-- The offset east of UTC of the local time zone at reading number `i` of
  the wall clock (`time.Now()` is a time in the local zone). -/
  localOffset : Nat → Int := fun _ => 0

/-- The state of the two stores, and how many oracle answers were consumed. -/
structure World where
  mongo : MongoDatabase
  sqlite : SQLiteTables
  clockReads : Nat
  objectIDs : Nat
  mongoCalls : Nat
  sqliteCalls : Nat

/-- Go `time.Now()`. -/
def timeNow (env : Env) (w : World) : World × Time :=
  ({ w with clockReads := w.clockReads + 1 }, env.clock w.clockReads + 1)

/-- Lower-case hexadecimal rendering of `n` on `width` digits, as `Hex()` gives. -/
def hexString (width n : Nat) : String :=
  String.mk ((List.range width).map (fun i => Nat.digitChar (n / 16 ^ (width - 1 - i) % 16)))

/-- Go `primitive.NewObjectID().Hex()`: 24 hexadecimal digits. -/
def NewObjectIDHex (env : Env) (w : World) : World × String :=
  ({ w with objectIDs := w.objectIDs + 1 }, hexString 24 (env.objectID w.objectIDs))

/-- One call of the Mongo driver: whether it fails. -/
def mongoCall (env : Env) (w : World) : World × Bool :=
  ({ w with mongoCalls := w.mongoCalls + 1 }, env.mongoFault w.mongoCalls)

/-- One gorm call on the SQLite storage file: whether it fails. -/
def sqliteCall (env : Env) (w : World) : World × Bool :=
  ({ w with sqliteCalls := w.sqliteCalls + 1 }, env.sqliteFault w.sqliteCalls)

/-- The error of a Mongo driver call that did not go through. -/
def mongoUnavailable : String := "mongo: server selection error: context deadline exceeded"

/-- The error of a gorm call that did not go through. -/
def sqliteUnavailable : String := "sqlite: disk I/O error"

/-- Stable sort by decreasing instant (`SetSort timestamp -1` on BSON dates,
`ORDER BY last_active DESC`). -/
def insertByTimeDesc {α : Type} (ts : α → Time) (x : α) : List α → List α
  | [] => [x]
  | y :: ys => if ts x < ts y then y :: insertByTimeDesc ts x ys else x :: y :: ys

/-- Sort newest first, earlier-stored entries first among equal times. -/
def sortByTimeDesc {α : Type} (ts : α → Time) (l : List α) : List α :=
  l.foldr (insertByTimeDesc ts) []

/-- The order of the texts the SQLite driver writes for two `time.Time`
values, an instant with its offset each (the format is
"2006-01-02 15:04:05.999999999-07:00": the wall clock in the value's own
location, then the offset): the earlier wall clock comes first; with equal
wall clocks the offsets decide, "+" before "-", then their digits. -/
def timestampTextLt (t1 : Time) (z1 : Int) (t2 : Time) (z2 : Int) : Bool :=
  if (t1 : Int) + z1 ≠ (t2 : Int) + z2 then decide ((t1 : Int) + z1 < (t2 : Int) + z2)
  else if 0 ≤ z1 ∧ z2 < 0 then true
  else if z1 < 0 ∧ 0 ≤ z2 then false
  else decide (z1.natAbs < z2.natAbs)

/-- One more row in a list ordered by decreasing timestamp text: it goes
before the first row whose text is not greater than its own. -/
def insertByTimestampText (x : SQLiteHistory) : List SQLiteHistory → List SQLiteHistory
  | [] => [x]
  | y :: ys =>
    if timestampTextLt x.Timestamp x.TimestampZone y.Timestamp y.TimestampZone then
      y :: insertByTimestampText x ys
    else x :: y :: ys

/-- SQL `ORDER BY timestamp DESC` on the table `storage_history`: the column
is text, so the rows come by decreasing text of the time stamp; rows of equal
text come latest-stored first. -/
def orderByTimestampDesc (rows : List SQLiteHistory) : List SQLiteHistory :=
  rows.foldl (fun acc x => insertByTimestampText x acc) []

/-! ## MongoStorage (`storage.go`, lines 151-473) -/

namespace MongoStorage

/-- The head of `MongoStorage.SaveCollection` (storage.go:156-159): the time stamps. -/
def stampCollection (env : Env) (w : World) (collection : StorageCollection) : World × StorageCollection :=
  let t := timeNow env w
  let collection := { collection with UpdatedAt := t.2 }
  if Time.IsZero collection.CreatedAt then
    ((timeNow env t.1).1, { collection with CreatedAt := (timeNow env t.1).2 })
  else (t.1, collection)

/-- Go `MongoStorage.SaveCollection`. -/
def SaveCollection (env : Env) (w : World) (collection : StorageCollection) :
    World × StorageCollection × GoError :=
  let s := stampCollection env w collection
  if s.2.ID = "" then
    let m := NewObjectIDHex env s.1
    let collection := { s.2 with ID := m.2 }
    let c := mongoCall env m.1
    if c.2 then (c.1, collection, some mongoUnavailable)
    else
      let r := mongoInsertOne c.1.mongo.collections collection.toBSON
      ({ c.1 with mongo := { c.1.mongo with collections := r.1 } }, collection, r.2)
  else
    let c := mongoCall env s.1
    if c.2 then (c.1, s.2, some mongoUnavailable)
    else
      ({ c.1 with mongo := { c.1.mongo with
            collections := mongoUpsertSet c.1.mongo.collections s.2.ID s.2.toBSON } },
        s.2, none)

/-- Go `MongoStorage.GetCollection`. -/
def GetCollection (env : Env) (w : World) (id : String) :
    World × Option StorageCollection × GoError :=
  let c := mongoCall env w
  if c.2 then (c.1, none, some mongoUnavailable)
  else
    match c.1.mongo.collections.find? (fun d => d.matchesString "_id" id) with
    | some d => (c.1, some (StorageCollection.fromBSON d), none)
    | none => (c.1, none, some "mongo: no documents in result")

/-- Go `MongoStorage.GetCollectionsByRoom`. -/
def GetCollectionsByRoom (env : Env) (w : World) (roomID : String) :
    World × List StorageCollection × GoError :=
  let c := mongoCall env w
  if c.2 then (c.1, [], some mongoUnavailable)
  else
    (c.1, (c.1.mongo.collections.filter (fun d => d.matchesString "roomId" roomID)).map
      StorageCollection.fromBSON, none)

/-- Go `MongoStorage.GetAllCollections`. -/
def GetAllCollections (env : Env) (w : World) : World × List StorageCollection × GoError :=
  let c := mongoCall env w
  if c.2 then (c.1, [], some mongoUnavailable)
  else (c.1, c.1.mongo.collections.map StorageCollection.fromBSON, none)

/-- Go `MongoStorage.DeleteCollection`. -/
def DeleteCollection (env : Env) (w : World) (id : String) : World × GoError :=
  let c := mongoCall env w
  if c.2 then (c.1, some mongoUnavailable)
  else
    ({ c.1 with mongo := { c.1.mongo with
          collections := mongoDeleteOne c.1.mongo.collections id } }, none)

/-- The head of `MongoStorage.SaveEnvironment` (storage.go:235-238): the time stamps. -/
def stampEnvironment (env : Env) (w : World) (e : StorageEnvironment) : World × StorageEnvironment :=
  let t := timeNow env w
  let e := { e with UpdatedAt := t.2 }
  if Time.IsZero e.CreatedAt then
    ((timeNow env t.1).1, { e with CreatedAt := (timeNow env t.1).2 })
  else (t.1, e)

/-- Go `MongoStorage.SaveEnvironment`. -/
def SaveEnvironment (env : Env) (w : World) (e : StorageEnvironment) :
    World × StorageEnvironment × GoError :=
  let s := stampEnvironment env w e
  if s.2.ID = "" then
    let m := NewObjectIDHex env s.1
    let e := { s.2 with ID := m.2 }
    let c := mongoCall env m.1
    if c.2 then (c.1, e, some mongoUnavailable)
    else
      let r := mongoInsertOne c.1.mongo.environments e.toBSON
      ({ c.1 with mongo := { c.1.mongo with environments := r.1 } }, e, r.2)
  else
    let c := mongoCall env s.1
    if c.2 then (c.1, s.2, some mongoUnavailable)
    else
      ({ c.1 with mongo := { c.1.mongo with
            environments := mongoUpsertSet c.1.mongo.environments s.2.ID s.2.toBSON } },
        s.2, none)

/-- Go `MongoStorage.GetEnvironment`. -/
def GetEnvironment (env : Env) (w : World) (id : String) :
    World × Option StorageEnvironment × GoError :=
  let c := mongoCall env w
  if c.2 then (c.1, none, some mongoUnavailable)
  else
    match c.1.mongo.environments.find? (fun d => d.matchesString "_id" id) with
    | some d => (c.1, some (StorageEnvironment.fromBSON d), none)
    | none => (c.1, none, some "mongo: no documents in result")

/-- Go `MongoStorage.GetEnvironmentsByRoom`. -/
def GetEnvironmentsByRoom (env : Env) (w : World) (roomID : String) :
    World × List StorageEnvironment × GoError :=
  let c := mongoCall env w
  if c.2 then (c.1, [], some mongoUnavailable)
  else
    (c.1, (c.1.mongo.environments.filter (fun d => d.matchesString "roomId" roomID)).map
      StorageEnvironment.fromBSON, none)

/-- Go `MongoStorage.GetAllEnvironments`. -/
def GetAllEnvironments (env : Env) (w : World) : World × List StorageEnvironment × GoError :=
  let c := mongoCall env w
  if c.2 then (c.1, [], some mongoUnavailable)
  else (c.1, c.1.mongo.environments.map StorageEnvironment.fromBSON, none)

/-- Go `MongoStorage.DeleteEnvironment`. -/
def DeleteEnvironment (env : Env) (w : World) (id : String) : World × GoError :=
  let c := mongoCall env w
  if c.2 then (c.1, some mongoUnavailable)
  else
    ({ c.1 with mongo := { c.1.mongo with
          environments := mongoDeleteOne c.1.mongo.environments id } }, none)

/-- The head of `MongoStorage.SaveRequest` (storage.go:314-317): the time stamps. -/
def stampRequest (env : Env) (w : World) (req : StorageRequest) : World × StorageRequest :=
  let t := timeNow env w
  let req := { req with UpdatedAt := t.2 }
  if Time.IsZero req.CreatedAt then
    ((timeNow env t.1).1, { req with CreatedAt := (timeNow env t.1).2 })
  else (t.1, req)

/-- Go `MongoStorage.SaveRequest`. -/
def SaveRequest (env : Env) (w : World) (req : StorageRequest) :
    World × StorageRequest × GoError :=
  let s := stampRequest env w req
  if s.2.ID = "" then
    let m := NewObjectIDHex env s.1
    let req := { s.2 with ID := m.2 }
    let c := mongoCall env m.1
    if c.2 then (c.1, req, some mongoUnavailable)
    else
      let r := mongoInsertOne c.1.mongo.requests req.toBSON
      ({ c.1 with mongo := { c.1.mongo with requests := r.1 } }, req, r.2)
  else
    let c := mongoCall env s.1
    if c.2 then (c.1, s.2, some mongoUnavailable)
    else
      ({ c.1 with mongo := { c.1.mongo with
            requests := mongoUpsertSet c.1.mongo.requests s.2.ID s.2.toBSON } },
        s.2, none)

/-- Go `MongoStorage.GetRequest`. -/
def GetRequest (env : Env) (w : World) (id : String) :
    World × Option StorageRequest × GoError :=
  let c := mongoCall env w
  if c.2 then (c.1, none, some mongoUnavailable)
  else
    match c.1.mongo.requests.find? (fun d => d.matchesString "_id" id) with
    | some d => (c.1, some (StorageRequest.fromBSON d), none)
    | none => (c.1, none, some "mongo: no documents in result")

/-- Go `MongoStorage.GetRequestsByCollection`. -/
def GetRequestsByCollection (env : Env) (w : World) (collectionID : String) :
    World × List StorageRequest × GoError :=
  let c := mongoCall env w
  if c.2 then (c.1, [], some mongoUnavailable)
  else
    (c.1, (c.1.mongo.requests.filter
      (fun d => d.matchesString "collectionId" collectionID)).map StorageRequest.fromBSON, none)

/-- Go `MongoStorage.GetAllRequests`. -/
def GetAllRequests (env : Env) (w : World) : World × List StorageRequest × GoError :=
  let c := mongoCall env w
  if c.2 then (c.1, [], some mongoUnavailable)
  else (c.1, c.1.mongo.requests.map StorageRequest.fromBSON, none)

/-- Go `MongoStorage.DeleteRequest`. -/
def DeleteRequest (env : Env) (w : World) (id : String) : World × GoError :=
  let c := mongoCall env w
  if c.2 then (c.1, some mongoUnavailable)
  else
    ({ c.1 with mongo := { c.1.mongo with
          requests := mongoDeleteOne c.1.mongo.requests id } }, none)

/-- The head of `MongoStorage.SaveHistory` (storage.go:393-395): the time stamp. -/
def stampHistory (env : Env) (w : World) (history : StorageHistory) :
    World × StorageHistory :=
  if Time.IsZero history.Timestamp then
    ((timeNow env w).1, { history with Timestamp := (timeNow env w).2,
                                       TimestampZone := env.localOffset w.clockReads })
  else (w, history)

/-- Go `MongoStorage.SaveHistory`. -/
def SaveHistory (env : Env) (w : World) (history : StorageHistory) :
    World × StorageHistory × GoError :=
  let s := stampHistory env w history
  if s.2.ID = "" then
    let m := NewObjectIDHex env s.1
    let history := { s.2 with ID := m.2 }
    let c := mongoCall env m.1
    if c.2 then (c.1, history, some mongoUnavailable)
    else
      let r := mongoInsertOne c.1.mongo.history history.toBSON
      ({ c.1 with mongo := { c.1.mongo with history := r.1 } }, history, r.2)
  else
    let c := mongoCall env s.1
    if c.2 then (c.1, s.2, some mongoUnavailable)
    else
      ({ c.1 with mongo := { c.1.mongo with
            history := mongoUpsertSet c.1.mongo.history s.2.ID s.2.toBSON } },
        s.2, none)

/-- Go `MongoStorage.GetHistoryByRoom`. -/
def GetHistoryByRoom (env : Env) (w : World) (roomID : String) (limit : Int) :
    World × List StorageHistory × GoError :=
  let limit := if limit ≤ 0 then 100 else limit
  let c := mongoCall env w
  if c.2 then (c.1, [], some mongoUnavailable)
  else
    (c.1, ((sortByTimeDesc (fun d => Document.time d "timestamp")
      (c.1.mongo.history.filter (fun d => d.matchesString "roomId" roomID))).take
        limit.toNat).map StorageHistory.fromBSON, none)

/-- Go `MongoStorage.GetAllHistory`. -/
def GetAllHistory (env : Env) (w : World) (limit : Int) :
    World × List StorageHistory × GoError :=
  let limit := if limit ≤ 0 then 100 else limit
  let c := mongoCall env w
  if c.2 then (c.1, [], some mongoUnavailable)
  else
    (c.1, ((sortByTimeDesc (fun d => Document.time d "timestamp")
      c.1.mongo.history).take limit.toNat).map StorageHistory.fromBSON, none)

/-- Go `MongoStorage.DeleteHistory`. -/
def DeleteHistory (env : Env) (w : World) (id : String) : World × GoError :=
  let c := mongoCall env w
  if c.2 then (c.1, some mongoUnavailable)
  else
    ({ c.1 with mongo := { c.1.mongo with
          history := mongoDeleteOne c.1.mongo.history id } }, none)

/-- Go `MongoStorage.Ping`. -/
def Ping (env : Env) (w : World) : World × GoError :=
  let c := mongoCall env w
  (c.1, if c.2 then some mongoUnavailable else none)

/-- Go `MongoStorage.Close`. -/
def Close (env : Env) (w : World) : World × GoError :=
  let c := mongoCall env w
  (c.1, if c.2 then some mongoUnavailable else none)

end MongoStorage

/-! ## SQLiteStorage (`storage.go`, lines 475-979) -/

/-- gorm `db.Save(&row)` on a table keyed by `key`: an `UPDATE` of every
column of the rows with that key, gorm assigning its own `now` to the tracked
`UpdatedAt` column and to the field of `row` (`touch`); when that `UPDATE`
affected no row, an `INSERT` of the row as the `UPDATE` left it, in which gorm
replaces zero values of columns that declare a default (`defaults`). -/
def gormSave {α : Type} (key : α → String) (touch : Time → α → α) (defaults : α → α)
    (rows : List α) (row : α) (now : Time) : List α :=
  if rows.any (fun r => key r == key row) then
    rows.map (fun r => if key r == key row then touch now row else r)
  else rows ++ [defaults (touch now row)]

/-- gorm `db.Create(&row)` on a table keyed by `key`: the primary key is unique. -/
def gormCreate {α : Type} (key : α → String) (table : String) (rows : List α) (row : α) :
    List α × GoError :=
  if rows.any (fun r => key r == key row) then
    (rows, some ("UNIQUE constraint failed: " ++ table ++ ".id"))
  else (rows ++ [row], none)

/-- The record `GetCollection`, `GetCollectionsByRoom` and `GetAllCollections`
build from a row (the errors of `fromJSON` are dropped there). -/
def SQLiteCollection.toStorage (sc : SQLiteCollection) : StorageCollection :=
  let c : StorageCollection :=
    { ID := sc.ID, Name := sc.Name, Description := sc.Description, RoomID := sc.RoomID,
      Requests := none, Metadata := none, CreatedAt := sc.CreatedAt, UpdatedAt := sc.UpdatedAt }
  let c := { c with Requests := (fromJSONStrings sc.Requests c.Requests).1 }
  { c with Metadata := (fromJSONMap sc.Metadata c.Metadata).1 }

/-- The record the environment getters build from a row. -/
def SQLiteEnvironment.toStorage (se : SQLiteEnvironment) : StorageEnvironment :=
  let e : StorageEnvironment :=
    { ID := se.ID, Name := se.Name, Variables := none, RoomID := se.RoomID,
      IsActive := se.IsActive, CreatedAt := se.CreatedAt, UpdatedAt := se.UpdatedAt }
  { e with Variables := (fromJSONMap se.Variables e.Variables).1 }

/-- The record the request getters build from a row. -/
def SQLiteRequest.toStorage (sr : SQLiteRequest) : StorageRequest :=
  let r : StorageRequest :=
    { ID := sr.ID, CollectionID := sr.CollectionID, Name := sr.Name, Method := sr.Method,
      URL := sr.URL, Headers := none, Body := sr.Body, QueryParams := none,
      AuthType := sr.AuthType, AuthData := none,
      CreatedAt := sr.CreatedAt, UpdatedAt := sr.UpdatedAt }
  let r := { r with Headers := (fromJSONMap sr.Headers r.Headers).1 }
  let r := { r with QueryParams := (fromJSONMap sr.QueryParams r.QueryParams).1 }
  { r with AuthData := (fromJSONMap sr.AuthData r.AuthData).1 }

/-- The record the history getters build from a row. -/
def SQLiteHistory.toStorage (sh : SQLiteHistory) : StorageHistory :=
  let h : StorageHistory :=
    { ID := sh.ID, RoomID := sh.RoomID, Method := sh.Method, URL := sh.URL,
      StatusCode := sh.StatusCode, ResponseTime := sh.ResponseTime,
      Timestamp := sh.Timestamp, TimestampZone := sh.TimestampZone, Headers := none,
      Response := sh.Response }
  { h with Headers := (fromJSONMap sh.Headers h.Headers).1 }

namespace SQLiteStorage

/-- The head of `SQLiteStorage.SaveCollection` (storage.go:578-584): the
time stamps and the minted ID. -/
def prepareCollection (env : Env) (w : World) (collection : StorageCollection) :
    World × StorageCollection :=
  let t := timeNow env w
  let collection := { collection with UpdatedAt := t.2 }
  let s : World × StorageCollection :=
    if Time.IsZero collection.CreatedAt then
      ((timeNow env t.1).1, { collection with CreatedAt := (timeNow env t.1).2 })
    else (t.1, collection)
  if s.2.ID = "" then
    ((NewObjectIDHex env s.1).1, { s.2 with ID := (NewObjectIDHex env s.1).2 })
  else s

/-- The row `SQLiteStorage.SaveCollection` builds (storage.go:586-595). -/
def collectionRow (collection : StorageCollection) : SQLiteCollection :=
  { ID := collection.ID, Name := collection.Name, Description := collection.Description,
    RoomID := collection.RoomID,
    Requests := toJSON (some (.strings collection.Requests)),
    Metadata := toJSON (some (.stringMap collection.Metadata)),
    CreatedAt := collection.CreatedAt, UpdatedAt := collection.UpdatedAt }

/-- Go `SQLiteStorage.SaveCollection`. -/
def SaveCollection (env : Env) (w : World) (collection : StorageCollection) :
    World × StorageCollection × GoError :=
  let m := prepareCollection env w collection
  let collection := m.2
  let sqlCollection := collectionRow collection
  let c := sqliteCall env m.1
  if c.2 then (c.1, collection, some sqliteUnavailable)
  else
    let n := timeNow env c.1
    ({ n.1 with sqlite := { n.1.sqlite with
          collections := gormSave SQLiteCollection.ID
            (fun now r => { r with UpdatedAt := now }) id
            n.1.sqlite.collections sqlCollection n.2 } }, collection, none)

/-- Go `SQLiteStorage.GetCollection`. -/
def GetCollection (env : Env) (w : World) (id : String) :
    World × Option StorageCollection × GoError :=
  let c := sqliteCall env w
  if c.2 then (c.1, none, some sqliteUnavailable)
  else
    match c.1.sqlite.collections.find? (fun r => r.ID == id) with
    | some sqlCollection => (c.1, some sqlCollection.toStorage, none)
    | none => (c.1, none, some "record not found")

/-- Go `SQLiteStorage.GetCollectionsByRoom`. -/
def GetCollectionsByRoom (env : Env) (w : World) (roomID : String) :
    World × List StorageCollection × GoError :=
  let c := sqliteCall env w
  if c.2 then (c.1, [], some sqliteUnavailable)
  else
    (c.1, (c.1.sqlite.collections.filter (fun r => r.RoomID == roomID)).map
      SQLiteCollection.toStorage, none)

/-- Go `SQLiteStorage.GetAllCollections`. -/
def GetAllCollections (env : Env) (w : World) : World × List StorageCollection × GoError :=
  let c := sqliteCall env w
  if c.2 then (c.1, [], some sqliteUnavailable)
  else (c.1, c.1.sqlite.collections.map SQLiteCollection.toStorage, none)

/-- Go `SQLiteStorage.DeleteCollection`. -/
def DeleteCollection (env : Env) (w : World) (id : String) : World × GoError :=
  let c := sqliteCall env w
  if c.2 then (c.1, some sqliteUnavailable)
  else
    ({ c.1 with sqlite := { c.1.sqlite with
          collections := c.1.sqlite.collections.filter (fun r => !(r.ID == id)) } }, none)

/-- The head of `SQLiteStorage.SaveEnvironment` (storage.go:675-681). -/
def prepareEnvironment (env : Env) (w : World) (e : StorageEnvironment) :
    World × StorageEnvironment :=
  let t := timeNow env w
  let e := { e with UpdatedAt := t.2 }
  let s : World × StorageEnvironment :=
    if Time.IsZero e.CreatedAt then
      ((timeNow env t.1).1, { e with CreatedAt := (timeNow env t.1).2 })
    else (t.1, e)
  if s.2.ID = "" then
    ((NewObjectIDHex env s.1).1, { s.2 with ID := (NewObjectIDHex env s.1).2 })
  else s

/-- The row `SQLiteStorage.SaveEnvironment` builds (storage.go:683-691). -/
def environmentRow (e : StorageEnvironment) : SQLiteEnvironment :=
  { ID := e.ID, Name := e.Name, Variables := toJSON (some (.stringMap e.Variables)),
    RoomID := e.RoomID, IsActive := e.IsActive,
    CreatedAt := e.CreatedAt, UpdatedAt := e.UpdatedAt }

/-- Go `SQLiteStorage.SaveEnvironment`; the column `is_active` declares
`default:true`, which gorm writes in place of `false` when it inserts. -/
def SaveEnvironment (env : Env) (w : World) (e : StorageEnvironment) :
    World × StorageEnvironment × GoError :=
  let m := prepareEnvironment env w e
  let e := m.2
  let sqlEnv := environmentRow e
  let c := sqliteCall env m.1
  if c.2 then (c.1, e, some sqliteUnavailable)
  else
    let n := timeNow env c.1
    ({ n.1 with sqlite := { n.1.sqlite with
          environments := gormSave SQLiteEnvironment.ID
            (fun now r => { r with UpdatedAt := now })
            (fun r => { r with IsActive := true })
            n.1.sqlite.environments sqlEnv n.2 } }, e, none)

/-- Go `SQLiteStorage.GetEnvironment`. -/
def GetEnvironment (env : Env) (w : World) (id : String) :
    World × Option StorageEnvironment × GoError :=
  let c := sqliteCall env w
  if c.2 then (c.1, none, some sqliteUnavailable)
  else
    match c.1.sqlite.environments.find? (fun r => r.ID == id) with
    | some sqlEnv => (c.1, some sqlEnv.toStorage, none)
    | none => (c.1, none, some "record not found")

/-- Go `SQLiteStorage.GetEnvironmentsByRoom`. -/
def GetEnvironmentsByRoom (env : Env) (w : World) (roomID : String) :
    World × List StorageEnvironment × GoError :=
  let c := sqliteCall env w
  if c.2 then (c.1, [], some sqliteUnavailable)
  else
    (c.1, (c.1.sqlite.environments.filter (fun r => r.RoomID == roomID)).map
      SQLiteEnvironment.toStorage, none)

/-- Go `SQLiteStorage.GetAllEnvironments`. -/
def GetAllEnvironments (env : Env) (w : World) : World × List StorageEnvironment × GoError :=
  let c := sqliteCall env w
  if c.2 then (c.1, [], some sqliteUnavailable)
  else (c.1, c.1.sqlite.environments.map SQLiteEnvironment.toStorage, none)

/-- Go `SQLiteStorage.DeleteEnvironment`. -/
def DeleteEnvironment (env : Env) (w : World) (id : String) : World × GoError :=
  let c := sqliteCall env w
  if c.2 then (c.1, some sqliteUnavailable)
  else
    ({ c.1 with sqlite := { c.1.sqlite with
          environments := c.1.sqlite.environments.filter (fun r => !(r.ID == id)) } }, none)

/-- The head of `SQLiteStorage.SaveRequest` (storage.go:768-774). -/
def prepareRequest (env : Env) (w : World) (req : StorageRequest) :
    World × StorageRequest :=
  let t := timeNow env w
  let req := { req with UpdatedAt := t.2 }
  let s : World × StorageRequest :=
    if Time.IsZero req.CreatedAt then
      ((timeNow env t.1).1, { req with CreatedAt := (timeNow env t.1).2 })
    else (t.1, req)
  if s.2.ID = "" then
    ((NewObjectIDHex env s.1).1, { s.2 with ID := (NewObjectIDHex env s.1).2 })
  else s

/-- The row `SQLiteStorage.SaveRequest` builds (storage.go:776-789). -/
def requestRow (req : StorageRequest) : SQLiteRequest :=
  { ID := req.ID, CollectionID := req.CollectionID, Name := req.Name, Method := req.Method,
    URL := req.URL, Headers := toJSON (some (.stringMap req.Headers)), Body := req.Body,
    QueryParams := toJSON (some (.stringMap req.QueryParams)), AuthType := req.AuthType,
    AuthData := toJSON (some (.stringMap req.AuthData)),
    CreatedAt := req.CreatedAt, UpdatedAt := req.UpdatedAt }

/-- Go `SQLiteStorage.SaveRequest`. -/
def SaveRequest (env : Env) (w : World) (req : StorageRequest) :
    World × StorageRequest × GoError :=
  let m := prepareRequest env w req
  let req := m.2
  let sqlReq := requestRow req
  let c := sqliteCall env m.1
  if c.2 then (c.1, req, some sqliteUnavailable)
  else
    let n := timeNow env c.1
    ({ n.1 with sqlite := { n.1.sqlite with
          requests := gormSave SQLiteRequest.ID
            (fun now r => { r with UpdatedAt := now }) id
            n.1.sqlite.requests sqlReq n.2 } }, req, none)

/-- Go `SQLiteStorage.GetRequest`. -/
def GetRequest (env : Env) (w : World) (id : String) :
    World × Option StorageRequest × GoError :=
  let c := sqliteCall env w
  if c.2 then (c.1, none, some sqliteUnavailable)
  else
    match c.1.sqlite.requests.find? (fun r => r.ID == id) with
    | some sqlReq => (c.1, some sqlReq.toStorage, none)
    | none => (c.1, none, some "record not found")

/-- Go `SQLiteStorage.GetRequestsByCollection`. -/
def GetRequestsByCollection (env : Env) (w : World) (collectionID : String) :
    World × List StorageRequest × GoError :=
  let c := sqliteCall env w
  if c.2 then (c.1, [], some sqliteUnavailable)
  else
    (c.1, (c.1.sqlite.requests.filter (fun r => r.CollectionID == collectionID)).map
      SQLiteRequest.toStorage, none)

/-- Go `SQLiteStorage.GetAllRequests`. -/
def GetAllRequests (env : Env) (w : World) : World × List StorageRequest × GoError :=
  let c := sqliteCall env w
  if c.2 then (c.1, [], some sqliteUnavailable)
  else (c.1, c.1.sqlite.requests.map SQLiteRequest.toStorage, none)

/-- Go `SQLiteStorage.DeleteRequest`. -/
def DeleteRequest (env : Env) (w : World) (id : String) : World × GoError :=
  let c := sqliteCall env w
  if c.2 then (c.1, some sqliteUnavailable)
  else
    ({ c.1 with sqlite := { c.1.sqlite with
          requests := c.1.sqlite.requests.filter (fun r => !(r.ID == id)) } }, none)

/-- Go `SQLiteStorage.SaveHistory`: the row is written with `db.Create`. -/
def SaveHistory (env : Env) (w : World) (history : StorageHistory) :
    World × StorageHistory × GoError :=
  let s : World × StorageHistory :=
    if Time.IsZero history.Timestamp then
      ((timeNow env w).1, { history with Timestamp := (timeNow env w).2,
                                         TimestampZone := env.localOffset w.clockReads })
    else (w, history)
  let m : World × StorageHistory :=
    if s.2.ID = "" then
      ((NewObjectIDHex env s.1).1, { s.2 with ID := (NewObjectIDHex env s.1).2 })
    else s
  let history := m.2
  let sqlHistory : SQLiteHistory :=
    { ID := history.ID, RoomID := history.RoomID, Method := history.Method,
      URL := history.URL, StatusCode := history.StatusCode,
      ResponseTime := history.ResponseTime, Timestamp := history.Timestamp,
      TimestampZone := history.TimestampZone,
      Headers := toJSON (some (.stringMap history.Headers)), Response := history.Response }
  let c := sqliteCall env m.1
  if c.2 then (c.1, history, some sqliteUnavailable)
  else
    let r := gormCreate SQLiteHistory.ID "storage_history" c.1.sqlite.history sqlHistory
    ({ c.1 with sqlite := { c.1.sqlite with history := r.1 } }, history, r.2)

/-- Go `SQLiteStorage.GetHistoryByRoom`. -/
def GetHistoryByRoom (env : Env) (w : World) (roomID : String) (limit : Int) :
    World × List StorageHistory × GoError :=
  let limit := if limit ≤ 0 then 100 else limit
  let c := sqliteCall env w
  if c.2 then (c.1, [], some sqliteUnavailable)
  else
    (c.1, ((orderByTimestampDesc
      (c.1.sqlite.history.filter (fun r => r.RoomID == roomID))).take limit.toNat).map
        SQLiteHistory.toStorage, none)

/-- Go `SQLiteStorage.GetAllHistory`. -/
def GetAllHistory (env : Env) (w : World) (limit : Int) :
    World × List StorageHistory × GoError :=
  let limit := if limit ≤ 0 then 100 else limit
  let c := sqliteCall env w
  if c.2 then (c.1, [], some sqliteUnavailable)
  else
    (c.1, ((orderByTimestampDesc c.1.sqlite.history).take limit.toNat).map
      SQLiteHistory.toStorage, none)

/-- Go `SQLiteStorage.DeleteHistory`. -/
def DeleteHistory (env : Env) (w : World) (id : String) : World × GoError :=
  let c := sqliteCall env w
  if c.2 then (c.1, some sqliteUnavailable)
  else
    ({ c.1 with sqlite := { c.1.sqlite with
          history := c.1.sqlite.history.filter (fun r => !(r.ID == id)) } }, none)

/-- Go `SQLiteStorage.Ping`. -/
def Ping (env : Env) (w : World) : World × GoError :=
  let c := sqliteCall env w
  (c.1, if c.2 then some sqliteUnavailable else none)

/-- Go `SQLiteStorage.Close`. -/
def Close (env : Env) (w : World) : World × GoError :=
  let c := sqliteCall env w
  (c.1, if c.2 then some sqliteUnavailable else none)

end SQLiteStorage

/-! ## StorageBackend and StorageManager (`storage.go`, lines 20-52 and 981-1206) -/

/-- Go interface `StorageBackend`: each method runs in a world of type `ω`
and returns the world it leaves. -/
structure StorageBackend (ω : Type) where
  SaveCollection : ω → StorageCollection → ω × StorageCollection × GoError
  GetCollection : ω → String → ω × Option StorageCollection × GoError
  GetCollectionsByRoom : ω → String → ω × List StorageCollection × GoError
  GetAllCollections : ω → ω × List StorageCollection × GoError
  DeleteCollection : ω → String → ω × GoError
  SaveEnvironment : ω → StorageEnvironment → ω × StorageEnvironment × GoError
  GetEnvironment : ω → String → ω × Option StorageEnvironment × GoError
  GetEnvironmentsByRoom : ω → String → ω × List StorageEnvironment × GoError
  GetAllEnvironments : ω → ω × List StorageEnvironment × GoError
  DeleteEnvironment : ω → String → ω × GoError
  SaveRequest : ω → StorageRequest → ω × StorageRequest × GoError
  GetRequest : ω → String → ω × Option StorageRequest × GoError
  GetRequestsByCollection : ω → String → ω × List StorageRequest × GoError
  GetAllRequests : ω → ω × List StorageRequest × GoError
  DeleteRequest : ω → String → ω × GoError
  SaveHistory : ω → StorageHistory → ω × StorageHistory × GoError
  GetHistoryByRoom : ω → String → Int → ω × List StorageHistory × GoError
  GetAllHistory : ω → Int → ω × List StorageHistory × GoError
  DeleteHistory : ω → String → ω × GoError
  Ping : ω → ω × GoError
  Close : ω → ω × GoError

/-- The document adapter as a `StorageBackend`. -/
def MongoStorage.backend (env : Env) : StorageBackend World where
  SaveCollection := MongoStorage.SaveCollection env
  GetCollection := MongoStorage.GetCollection env
  GetCollectionsByRoom := MongoStorage.GetCollectionsByRoom env
  GetAllCollections := MongoStorage.GetAllCollections env
  DeleteCollection := MongoStorage.DeleteCollection env
  SaveEnvironment := MongoStorage.SaveEnvironment env
  GetEnvironment := MongoStorage.GetEnvironment env
  GetEnvironmentsByRoom := MongoStorage.GetEnvironmentsByRoom env
  GetAllEnvironments := MongoStorage.GetAllEnvironments env
  DeleteEnvironment := MongoStorage.DeleteEnvironment env
  SaveRequest := MongoStorage.SaveRequest env
  GetRequest := MongoStorage.GetRequest env
  GetRequestsByCollection := MongoStorage.GetRequestsByCollection env
  GetAllRequests := MongoStorage.GetAllRequests env
  DeleteRequest := MongoStorage.DeleteRequest env
  SaveHistory := MongoStorage.SaveHistory env
  GetHistoryByRoom := MongoStorage.GetHistoryByRoom env
  GetAllHistory := MongoStorage.GetAllHistory env
  DeleteHistory := MongoStorage.DeleteHistory env
  Ping := MongoStorage.Ping env
  Close := MongoStorage.Close env

/-- The relational adapter as a `StorageBackend`. -/
def SQLiteStorage.backend (env : Env) : StorageBackend World where
  SaveCollection := SQLiteStorage.SaveCollection env
  GetCollection := SQLiteStorage.GetCollection env
  GetCollectionsByRoom := SQLiteStorage.GetCollectionsByRoom env
  GetAllCollections := SQLiteStorage.GetAllCollections env
  DeleteCollection := SQLiteStorage.DeleteCollection env
  SaveEnvironment := SQLiteStorage.SaveEnvironment env
  GetEnvironment := SQLiteStorage.GetEnvironment env
  GetEnvironmentsByRoom := SQLiteStorage.GetEnvironmentsByRoom env
  GetAllEnvironments := SQLiteStorage.GetAllEnvironments env
  DeleteEnvironment := SQLiteStorage.DeleteEnvironment env
  SaveRequest := SQLiteStorage.SaveRequest env
  GetRequest := SQLiteStorage.GetRequest env
  GetRequestsByCollection := SQLiteStorage.GetRequestsByCollection env
  GetAllRequests := SQLiteStorage.GetAllRequests env
  DeleteRequest := SQLiteStorage.DeleteRequest env
  SaveHistory := SQLiteStorage.SaveHistory env
  GetHistoryByRoom := SQLiteStorage.GetHistoryByRoom env
  GetAllHistory := SQLiteStorage.GetAllHistory env
  DeleteHistory := SQLiteStorage.DeleteHistory env
  Ping := SQLiteStorage.Ping env
  Close := SQLiteStorage.Close env

/-- Go struct `StorageManager`; a nil `fallback` is `none`. -/
structure StorageManager (ω : Type) where
  primary : StorageBackend ω
  fallback : Option (StorageBackend ω)
  usePrimary : Bool

namespace StorageManager

variable {ω : Type}

/-- Go `StorageManager.SaveCollection`. -/
def SaveCollection (sm : StorageManager ω) (w : ω) (x : StorageCollection) : ω × StorageCollection × GoError :=
  let r := sm.primary.SaveCollection w x
  match r.2.2, sm.fallback with
  | some _, some fb => fb.SaveCollection r.1 r.2.1
  | _, _ => r

/-- Go `StorageManager.GetCollection`. -/
def GetCollection (sm : StorageManager ω) (w : ω) (a : String) : ω × Option StorageCollection × GoError :=
  let r := sm.primary.GetCollection w a
  match r.2.2, sm.fallback with
  | some _, some fb => fb.GetCollection r.1 a
  | _, _ => r

/-- Go `StorageManager.GetCollectionsByRoom`. -/
def GetCollectionsByRoom (sm : StorageManager ω) (w : ω) (a : String) : ω × List StorageCollection × GoError :=
  let r := sm.primary.GetCollectionsByRoom w a
  match r.2.2, sm.fallback with
  | some _, some fb => fb.GetCollectionsByRoom r.1 a
  | _, _ => r

/-- Go `StorageManager.GetAllCollections`. -/
def GetAllCollections (sm : StorageManager ω) (w : ω) : ω × List StorageCollection × GoError :=
  let r := sm.primary.GetAllCollections w
  match r.2.2, sm.fallback with
  | some _, some fb => fb.GetAllCollections r.1
  | _, _ => r

/-- Go `StorageManager.DeleteCollection`. -/
def DeleteCollection (sm : StorageManager ω) (w : ω) (id : String) : ω × GoError :=
  let r := sm.primary.DeleteCollection w id
  match r.2, sm.fallback with
  | some _, some fb => fb.DeleteCollection r.1 id
  | _, _ => r

/-- Go `StorageManager.SaveEnvironment`. -/
def SaveEnvironment (sm : StorageManager ω) (w : ω) (x : StorageEnvironment) : ω × StorageEnvironment × GoError :=
  let r := sm.primary.SaveEnvironment w x
  match r.2.2, sm.fallback with
  | some _, some fb => fb.SaveEnvironment r.1 r.2.1
  | _, _ => r

/-- Go `StorageManager.GetEnvironment`. -/
def GetEnvironment (sm : StorageManager ω) (w : ω) (a : String) : ω × Option StorageEnvironment × GoError :=
  let r := sm.primary.GetEnvironment w a
  match r.2.2, sm.fallback with
  | some _, some fb => fb.GetEnvironment r.1 a
  | _, _ => r

/-- Go `StorageManager.GetEnvironmentsByRoom`. -/
def GetEnvironmentsByRoom (sm : StorageManager ω) (w : ω) (a : String) : ω × List StorageEnvironment × GoError :=
  let r := sm.primary.GetEnvironmentsByRoom w a
  match r.2.2, sm.fallback with
  | some _, some fb => fb.GetEnvironmentsByRoom r.1 a
  | _, _ => r

/-- Go `StorageManager.GetAllEnvironments`. -/
def GetAllEnvironments (sm : StorageManager ω) (w : ω) : ω × List StorageEnvironment × GoError :=
  let r := sm.primary.GetAllEnvironments w
  match r.2.2, sm.fallback with
  | some _, some fb => fb.GetAllEnvironments r.1
  | _, _ => r

/-- Go `StorageManager.DeleteEnvironment`. -/
def DeleteEnvironment (sm : StorageManager ω) (w : ω) (id : String) : ω × GoError :=
  let r := sm.primary.DeleteEnvironment w id
  match r.2, sm.fallback with
  | some _, some fb => fb.DeleteEnvironment r.1 id
  | _, _ => r

/-- Go `StorageManager.SaveRequest`. -/
def SaveRequest (sm : StorageManager ω) (w : ω) (x : StorageRequest) : ω × StorageRequest × GoError :=
  let r := sm.primary.SaveRequest w x
  match r.2.2, sm.fallback with
  | some _, some fb => fb.SaveRequest r.1 r.2.1
  | _, _ => r

/-- Go `StorageManager.GetRequest`. -/
def GetRequest (sm : StorageManager ω) (w : ω) (a : String) : ω × Option StorageRequest × GoError :=
  let r := sm.primary.GetRequest w a
  match r.2.2, sm.fallback with
  | some _, some fb => fb.GetRequest r.1 a
  | _, _ => r

/-- Go `StorageManager.GetRequestsByCollection`. -/
def GetRequestsByCollection (sm : StorageManager ω) (w : ω) (a : String) : ω × List StorageRequest × GoError :=
  let r := sm.primary.GetRequestsByCollection w a
  match r.2.2, sm.fallback with
  | some _, some fb => fb.GetRequestsByCollection r.1 a
  | _, _ => r

/-- Go `StorageManager.GetAllRequests`. -/
def GetAllRequests (sm : StorageManager ω) (w : ω) : ω × List StorageRequest × GoError :=
  let r := sm.primary.GetAllRequests w
  match r.2.2, sm.fallback with
  | some _, some fb => fb.GetAllRequests r.1
  | _, _ => r

/-- Go `StorageManager.DeleteRequest`. -/
def DeleteRequest (sm : StorageManager ω) (w : ω) (id : String) : ω × GoError :=
  let r := sm.primary.DeleteRequest w id
  match r.2, sm.fallback with
  | some _, some fb => fb.DeleteRequest r.1 id
  | _, _ => r

/-- Go `StorageManager.SaveHistory`. -/
def SaveHistory (sm : StorageManager ω) (w : ω) (x : StorageHistory) : ω × StorageHistory × GoError :=
  let r := sm.primary.SaveHistory w x
  match r.2.2, sm.fallback with
  | some _, some fb => fb.SaveHistory r.1 r.2.1
  | _, _ => r

/-- Go `StorageManager.GetHistoryByRoom`. -/
def GetHistoryByRoom (sm : StorageManager ω) (w : ω) (roomID : String) (limit : Int) :
    ω × List StorageHistory × GoError :=
  let r := sm.primary.GetHistoryByRoom w roomID limit
  match r.2.2, sm.fallback with
  | some _, some fb => fb.GetHistoryByRoom r.1 roomID limit
  | _, _ => r

/-- Go `StorageManager.GetAllHistory`. -/
def GetAllHistory (sm : StorageManager ω) (w : ω) (a : Int) : ω × List StorageHistory × GoError :=
  let r := sm.primary.GetAllHistory w a
  match r.2.2, sm.fallback with
  | some _, some fb => fb.GetAllHistory r.1 a
  | _, _ => r

/-- Go `StorageManager.DeleteHistory`. -/
def DeleteHistory (sm : StorageManager ω) (w : ω) (id : String) : ω × GoError :=
  let r := sm.primary.DeleteHistory w id
  match r.2, sm.fallback with
  | some _, some fb => fb.DeleteHistory r.1 id
  | _, _ => r

/-- Go `StorageManager.Ping`. -/
def Ping (sm : StorageManager ω) (w : ω) : ω × GoError :=
  sm.primary.Ping w

/-- Go `StorageManager.Close`. -/
def Close (sm : StorageManager ω) (w : ω) : ω × GoError :=
  let p := sm.primary.Close w
  let errs : List String := match p.2 with
    | some err => [err]
    | none => []
  let f : ω × List String :=
    match sm.fallback with
    | some fb =>
      match (fb.Close p.1).2 with
      | some err => ((fb.Close p.1).1, errs ++ [err])
      | none => ((fb.Close p.1).1, errs)
    | none => (p.1, errs)
  if f.2.length > 0 then (f.1, some "failed to close storage backends") else (f.1, none)

end StorageManager

/-- Go `NewStorageManager` (storage.go:989): the manager it builds, or the
error of the SQLite initialisation. -/
def NewStorageManager (env : Env) : Except String (StorageManager World) :=
  let mongoURI := env.getenv "MONGODB_URI"
  let mongoDBName := env.getenv "MONGODB_DATABASE"
  let sqlitePath := env.getenv "SQLITE_PATH"
  let sqlitePath := if sqlitePath = "" then "resterx_storage.db" else sqlitePath
  let p : Option (StorageBackend World) × Bool :=
    if mongoURI ≠ "" then
      if env.mongoConnects mongoURI mongoDBName then (some (MongoStorage.backend env), true)
      else (none, false)
    else (none, false)
  if env.sqliteOpens sqlitePath then
    let sqlite := SQLiteStorage.backend env
    let q : StorageBackend World × Bool :=
      match p.1 with
      | none => (sqlite, true)
      | some primary => (primary, p.2)
    .ok { primary := q.1, fallback := some sqlite, usePrimary := q.2 }
  else .error "failed to initialize fallback storage"

/-! ## The calls of the interface, as data -/

/-- One call of a `StorageBackend` method with its arguments. -/
inductive Call where
  | SaveCollection (collection : StorageCollection)
  | GetCollection (id : String)
  | GetCollectionsByRoom (roomID : String)
  | GetAllCollections
  | DeleteCollection (id : String)
  | SaveEnvironment (e : StorageEnvironment)
  | GetEnvironment (id : String)
  | GetEnvironmentsByRoom (roomID : String)
  | GetAllEnvironments
  | DeleteEnvironment (id : String)
  | SaveRequest (req : StorageRequest)
  | GetRequest (id : String)
  | GetRequestsByCollection (collectionID : String)
  | GetAllRequests
  | DeleteRequest (id : String)
  | SaveHistory (history : StorageHistory)
  | GetHistoryByRoom (roomID : String) (limit : Int)
  | GetAllHistory (limit : Int)
  | DeleteHistory (id : String)
deriving DecidableEq

/-- What a call hands back: the results, and for a save the entity as the
method left it behind the pointer. -/
inductive Reply where
  | savedCollection (collection : StorageCollection) (err : GoError)
  | collection (result : Option StorageCollection) (err : GoError)
  | collections (result : List StorageCollection) (err : GoError)
  | savedEnvironment (e : StorageEnvironment) (err : GoError)
  | environment (result : Option StorageEnvironment) (err : GoError)
  | environments (result : List StorageEnvironment) (err : GoError)
  | savedRequest (req : StorageRequest) (err : GoError)
  | request (result : Option StorageRequest) (err : GoError)
  | requests (result : List StorageRequest) (err : GoError)
  | savedHistory (history : StorageHistory) (err : GoError)
  | histories (result : List StorageHistory) (err : GoError)
  | done (err : GoError)
deriving DecidableEq

/-- The error a reply carries. -/
def Reply.err : Reply → GoError
  | .savedCollection _ e => e
  | .collection _ e => e
  | .collections _ e => e
  | .savedEnvironment _ e => e
  | .environment _ e => e
  | .environments _ e => e
  | .savedRequest _ e => e
  | .request _ e => e
  | .requests _ e => e
  | .savedHistory _ e => e
  | .histories _ e => e
  | .done e => e

/-- The call as it stands after a first attempt replied `r`: the same method
and arguments, a pointer argument now pointing at what the attempt left. -/
def Call.after : Call → Reply → Call
  | .SaveCollection _, .savedCollection c _ => .SaveCollection c
  | .SaveEnvironment _, .savedEnvironment e _ => .SaveEnvironment e
  | .SaveRequest _, .savedRequest q _ => .SaveRequest q
  | .SaveHistory _, .savedHistory h _ => .SaveHistory h
  | c, _ => c

/-- Run a call on a backend. -/
def StorageBackend.invoke {ω : Type} (b : StorageBackend ω) (w : ω) : Call → ω × Reply
  | .SaveCollection c => ((b.SaveCollection w c).1,
      .savedCollection (b.SaveCollection w c).2.1 (b.SaveCollection w c).2.2)
  | .GetCollection id => ((b.GetCollection w id).1,
      .collection (b.GetCollection w id).2.1 (b.GetCollection w id).2.2)
  | .GetCollectionsByRoom r => ((b.GetCollectionsByRoom w r).1,
      .collections (b.GetCollectionsByRoom w r).2.1 (b.GetCollectionsByRoom w r).2.2)
  | .GetAllCollections => ((b.GetAllCollections w).1,
      .collections (b.GetAllCollections w).2.1 (b.GetAllCollections w).2.2)
  | .DeleteCollection id => ((b.DeleteCollection w id).1, .done (b.DeleteCollection w id).2)
  | .SaveEnvironment e => ((b.SaveEnvironment w e).1,
      .savedEnvironment (b.SaveEnvironment w e).2.1 (b.SaveEnvironment w e).2.2)
  | .GetEnvironment id => ((b.GetEnvironment w id).1,
      .environment (b.GetEnvironment w id).2.1 (b.GetEnvironment w id).2.2)
  | .GetEnvironmentsByRoom r => ((b.GetEnvironmentsByRoom w r).1,
      .environments (b.GetEnvironmentsByRoom w r).2.1 (b.GetEnvironmentsByRoom w r).2.2)
  | .GetAllEnvironments => ((b.GetAllEnvironments w).1,
      .environments (b.GetAllEnvironments w).2.1 (b.GetAllEnvironments w).2.2)
  | .DeleteEnvironment id => ((b.DeleteEnvironment w id).1, .done (b.DeleteEnvironment w id).2)
  | .SaveRequest q => ((b.SaveRequest w q).1,
      .savedRequest (b.SaveRequest w q).2.1 (b.SaveRequest w q).2.2)
  | .GetRequest id => ((b.GetRequest w id).1,
      .request (b.GetRequest w id).2.1 (b.GetRequest w id).2.2)
  | .GetRequestsByCollection c => ((b.GetRequestsByCollection w c).1,
      .requests (b.GetRequestsByCollection w c).2.1 (b.GetRequestsByCollection w c).2.2)
  | .GetAllRequests => ((b.GetAllRequests w).1,
      .requests (b.GetAllRequests w).2.1 (b.GetAllRequests w).2.2)
  | .DeleteRequest id => ((b.DeleteRequest w id).1, .done (b.DeleteRequest w id).2)
  | .SaveHistory h => ((b.SaveHistory w h).1,
      .savedHistory (b.SaveHistory w h).2.1 (b.SaveHistory w h).2.2)
  | .GetHistoryByRoom r l => ((b.GetHistoryByRoom w r l).1,
      .histories (b.GetHistoryByRoom w r l).2.1 (b.GetHistoryByRoom w r l).2.2)
  | .GetAllHistory l => ((b.GetAllHistory w l).1,
      .histories (b.GetAllHistory w l).2.1 (b.GetAllHistory w l).2.2)
  | .DeleteHistory id => ((b.DeleteHistory w id).1, .done (b.DeleteHistory w id).2)

/-- Run a call on the manager, through its wrapper method. -/
def StorageManager.invoke {ω : Type} (sm : StorageManager ω) (w : ω) : Call → ω × Reply
  | .SaveCollection c => ((sm.SaveCollection w c).1,
      .savedCollection (sm.SaveCollection w c).2.1 (sm.SaveCollection w c).2.2)
  | .GetCollection id => ((sm.GetCollection w id).1,
      .collection (sm.GetCollection w id).2.1 (sm.GetCollection w id).2.2)
  | .GetCollectionsByRoom r => ((sm.GetCollectionsByRoom w r).1,
      .collections (sm.GetCollectionsByRoom w r).2.1 (sm.GetCollectionsByRoom w r).2.2)
  | .GetAllCollections => ((sm.GetAllCollections w).1,
      .collections (sm.GetAllCollections w).2.1 (sm.GetAllCollections w).2.2)
  | .DeleteCollection id => ((sm.DeleteCollection w id).1, .done (sm.DeleteCollection w id).2)
  | .SaveEnvironment e => ((sm.SaveEnvironment w e).1,
      .savedEnvironment (sm.SaveEnvironment w e).2.1 (sm.SaveEnvironment w e).2.2)
  | .GetEnvironment id => ((sm.GetEnvironment w id).1,
      .environment (sm.GetEnvironment w id).2.1 (sm.GetEnvironment w id).2.2)
  | .GetEnvironmentsByRoom r => ((sm.GetEnvironmentsByRoom w r).1,
      .environments (sm.GetEnvironmentsByRoom w r).2.1 (sm.GetEnvironmentsByRoom w r).2.2)
  | .GetAllEnvironments => ((sm.GetAllEnvironments w).1,
      .environments (sm.GetAllEnvironments w).2.1 (sm.GetAllEnvironments w).2.2)
  | .DeleteEnvironment id => ((sm.DeleteEnvironment w id).1, .done (sm.DeleteEnvironment w id).2)
  | .SaveRequest q => ((sm.SaveRequest w q).1,
      .savedRequest (sm.SaveRequest w q).2.1 (sm.SaveRequest w q).2.2)
  | .GetRequest id => ((sm.GetRequest w id).1,
      .request (sm.GetRequest w id).2.1 (sm.GetRequest w id).2.2)
  | .GetRequestsByCollection c => ((sm.GetRequestsByCollection w c).1,
      .requests (sm.GetRequestsByCollection w c).2.1 (sm.GetRequestsByCollection w c).2.2)
  | .GetAllRequests => ((sm.GetAllRequests w).1,
      .requests (sm.GetAllRequests w).2.1 (sm.GetAllRequests w).2.2)
  | .DeleteRequest id => ((sm.DeleteRequest w id).1, .done (sm.DeleteRequest w id).2)
  | .SaveHistory h => ((sm.SaveHistory w h).1,
      .savedHistory (sm.SaveHistory w h).2.1 (sm.SaveHistory w h).2.2)
  | .GetHistoryByRoom r l => ((sm.GetHistoryByRoom w r l).1,
      .histories (sm.GetHistoryByRoom w r l).2.1 (sm.GetHistoryByRoom w r l).2.2)
  | .GetAllHistory l => ((sm.GetAllHistory w l).1,
      .histories (sm.GetAllHistory w l).2.1 (sm.GetAllHistory w l).2.2)
  | .DeleteHistory id => ((sm.DeleteHistory w id).1, .done (sm.DeleteHistory w id).2)

/-! ## Tables of `database.go` used by the room service

Rows are taken without their gorm association fields (`Room.Devices`,
`DBCollection.Requests`, `DBCollection.Room`, ...): gorm skips an association
whose value is unset, and the room service never sets one. A batch handed to
`SyncRoomData` is likewise taken as rows whose association fields are unset. -/

/-- Go struct `Room`. -/
structure Room where
  ID : Nat
  RoomID : String
  Name : String
  Password : String
  Description : String
  RoomType : String
  DeviceLimit : Int
  IsActive : Bool
  CreatedAt : Time
  UpdatedAt : Time
deriving DecidableEq

/-- Go struct `RoomDevice`. -/
structure RoomDevice where
  ID : Nat
  RoomID : Nat
  DeviceName : String
  DeviceID : String
  LastActive : Time
  CreatedAt : Time
deriving DecidableEq

/-- Go struct `DBCollection`. -/
structure DBCollection where
  ID : Nat
  Name : String
  Description : String
  WorkspaceID : Nat
  RoomID : Nat
  CreatedBy : Nat
  Version : Int
  IsPublic : Bool
  Tags : String
  CreatedAt : Time
  UpdatedAt : Time
deriving DecidableEq

/-- Go struct `DBRequest`. -/
structure DBRequest where
  ID : Nat
  CollectionID : Nat
  Name : String
  Method : String
  URL : String
  Headers : String
  Body : String
  AuthType : String
  AuthData : String
  Tests : String
  PreScript : String
  PostScript : String
  Variables : String
  Order : Int
  CreatedBy : Nat
  CreatedAt : Time
  UpdatedAt : Time
deriving DecidableEq

/-- Go struct `DBEnvironment`. -/
structure DBEnvironment where
  ID : Nat
  WorkspaceID : Nat
  RoomID : Nat
  Name : String
  Variables : String
  IsActive : Bool
  CreatedBy : Nat
  CreatedAt : Time
  UpdatedAt : Time
deriving DecidableEq

/-- Go struct `User`, the fields `GenerateRoomToken` fills. -/
structure User where
  ID : Nat
  Username : String
  Email : String
  Role : String
deriving DecidableEq

/-- A table with an auto-incremented numeric key: its rows in insertion order
and the largest key handed out so far. -/
structure Table (α : Type) where
  rows : List α
  seq : Nat
deriving DecidableEq

/-- The tables behind the global `DB` handle that the room service touches. -/
structure Database where
  rooms : Table Room
  roomDevices : Table RoomDevice
  collections : Table DBCollection
  environments : Table DBEnvironment
  requests : Table DBRequest
deriving DecidableEq

/-- The claims `AuthService.ValidateToken` decodes from a token, the fields
`ValidateRoomToken` reads. -/
structure Claims where
  Role : String
  WorkspaceID : Nat
deriving DecidableEq

/-- Everything outside `room.go` and `database.go` that the room service consults. -/
structure RoomEnv where
  /-- Reading number `i` of the wall clock is `clock i + 1`. -/
  clock : Nat → Nat
  /-- The six bytes the `i`-th `rand.Read` delivers, as a number; `none` when it fails. -/
  randRead : Nat → Option Nat
  /-- The `i`-th `bcrypt.GenerateFromPassword` (salted) on a password. -/
  bcryptGenerate : Nat → String → String × GoError
  /-- Whether `bcrypt.CompareHashAndPassword hash password` returns nil. -/
  bcryptCompare : String → String → Bool
  /-- The `i`-th `AuthService.GenerateToken(user, workspaceID)`; the
  auth service is a collaborator outside these sources. -/
  GenerateToken : Nat → User → Nat → String × GoError
  /-- The collaborator's `AuthService.ValidateToken(tokenString)`: the claims
  of the token, or the error. -/
  ValidateToken : String → Except String Claims
  /-- Whether the `i`-th gorm call on `DB` fails. -/
  dbFault : Nat → Bool

/-- The tables and how many oracle answers were consumed. -/
structure RoomWorld where
  DB : Database
  clockReads : Nat
  randReads : Nat
  bcryptCalls : Nat
  tokenCalls : Nat
  dbCalls : Nat

/-- How a room-service method ends: with a value and a nil error, with an
error, or in a run-time panic. -/
inductive Result (α : Type) where
  | ok (v : α)
  | err (msg : String)
  | panic (msg : String)
deriving DecidableEq

namespace RoomWorld

/-- Go `time.Now()`. -/
def now (env : RoomEnv) (w : RoomWorld) : RoomWorld × Time :=
  ({ w with clockReads := w.clockReads + 1 }, env.clock w.clockReads + 1)

/-- One gorm call on `DB`: whether it fails. -/
def dbCall (env : RoomEnv) (w : RoomWorld) : RoomWorld × Bool :=
  ({ w with dbCalls := w.dbCalls + 1 }, env.dbFault w.dbCalls)

end RoomWorld

/-- The error of a gorm call on `DB` that did not go through. -/
def dbUnavailable : String := "database is locked"

/-- gorm `First`: of the rows satisfying the conditions, the one with the
least primary key. -/
def gormFirst {α : Type} (pk : α → Nat) (p : α → Bool) (rows : List α) : Option α :=
  (rows.filter p).foldl
    (fun best r =>
      match best with
      | none => some r
      | some b => if pk r < pk b then some r else some b)
    none

/-- gorm `Create` of a row whose key is unset: the row is stored under the
next key of the sequence. -/
def Table.insert {α : Type} (setID : Nat → α → α) (t : Table α) (row : α) : Table α × α :=
  ({ rows := t.rows ++ [setID (t.seq + 1) row], seq := t.seq + 1 }, setID (t.seq + 1) row)

/-- gorm `Save` of a row whose key `id` is set: every column of the rows with
that key is written (`updated`, the row with gorm's `now` as `UpdatedAt`);
when there is none the row, as that `UPDATE` left it, is inserted under that
key (`inserted`). -/
def Table.save {α : Type} (pk : α → Nat) (t : Table α) (id : Nat) (updated inserted : α) :
    Table α :=
  if t.rows.any (fun r => pk r == id) then
    { t with rows := t.rows.map (fun r => if pk r == id then updated else r) }
  else { rows := t.rows ++ [inserted], seq := max t.seq id }

/-- Columns gorm fills when it inserts a `Room`: the tracked times when
zero, and the declared defaults in place of zero values. -/
def Room.onCreate (now : Time) (r : Room) : Room :=
  { r with
    RoomType := if r.RoomType = "" then "free" else r.RoomType,
    DeviceLimit := if r.DeviceLimit = 0 then 3 else r.DeviceLimit,
    IsActive := true,
    CreatedAt := if Time.IsZero r.CreatedAt then now else r.CreatedAt,
    UpdatedAt := if Time.IsZero r.UpdatedAt then now else r.UpdatedAt }

/-- Columns gorm fills when it inserts a `RoomDevice`. -/
def RoomDevice.onCreate (now : Time) (d : RoomDevice) : RoomDevice :=
  { d with CreatedAt := if Time.IsZero d.CreatedAt then now else d.CreatedAt }

/-- Columns gorm fills when it inserts a `DBCollection` (`version` defaults to 1). -/
def DBCollection.onCreate (now : Time) (c : DBCollection) : DBCollection :=
  { c with
    Version := if c.Version = 0 then 1 else c.Version,
    CreatedAt := if Time.IsZero c.CreatedAt then now else c.CreatedAt,
    UpdatedAt := if Time.IsZero c.UpdatedAt then now else c.UpdatedAt }

/-- Columns gorm fills when it inserts a `DBEnvironment`. -/
def DBEnvironment.onCreate (now : Time) (e : DBEnvironment) : DBEnvironment :=
  { e with
    CreatedAt := if Time.IsZero e.CreatedAt then now else e.CreatedAt,
    UpdatedAt := if Time.IsZero e.UpdatedAt then now else e.UpdatedAt }

/-- Columns gorm fills when it inserts a `DBRequest`. -/
def DBRequest.onCreate (now : Time) (r : DBRequest) : DBRequest :=
  { r with
    CreatedAt := if Time.IsZero r.CreatedAt then now else r.CreatedAt,
    UpdatedAt := if Time.IsZero r.UpdatedAt then now else r.UpdatedAt }

/-! ### Transactions -/

/-- A gorm transaction handle: the tables as they stood at `Begin`, and the
error `Begin` left in the handle, if any. Statements run through the handle
write to the world's tables; `Rollback` puts the snapshot back. -/
structure Tx where
  snapshot : Database
  broken : GoError

namespace Tx

/-- gorm `DB.Begin()`. -/
def Begin (env : RoomEnv) (w : RoomWorld) : RoomWorld × Tx :=
  let c := RoomWorld.dbCall env w
  (c.1, { snapshot := w.DB, broken := if c.2 then some dbUnavailable else none })

/-- One statement run through the handle: the error it ends with, if any. -/
def call (env : RoomEnv) (w : RoomWorld) (tx : Tx) : RoomWorld × GoError :=
  match tx.broken with
  | some err => (w, some err)
  | none =>
    let c := RoomWorld.dbCall env w
    (c.1, if c.2 then some dbUnavailable else none)

/-- gorm `tx.Rollback()`. -/
def Rollback (w : RoomWorld) (tx : Tx) : RoomWorld :=
  { w with DB := tx.snapshot }

/-- gorm `tx.Commit()` and its `.Error`: a commit that fails leaves nothing written. -/
def Commit (env : RoomEnv) (w : RoomWorld) (tx : Tx) : RoomWorld × GoError :=
  match (call env w tx).2 with
  | some err => ({ (call env w tx).1 with DB := tx.snapshot }, some err)
  | none => ((call env w tx).1, none)

/-- gorm `tx.Save(&collection)` for a collection whose ID is set. -/
def SaveCollection (env : RoomEnv) (w : RoomWorld) (tx : Tx) (collection : DBCollection) :
    RoomWorld × GoError :=
  let c := call env w tx
  match c.2 with
  | some err => (c.1, some err)
  | none =>
    let n := RoomWorld.now env c.1
    ({ n.1 with DB := { n.1.DB with
          collections := Table.save DBCollection.ID n.1.DB.collections collection.ID
            { collection with UpdatedAt := n.2 }
            (DBCollection.onCreate n.2 { collection with UpdatedAt := n.2 }) } }, none)

/-- gorm `tx.Create(&collection)` for a collection whose ID is unset. -/
def CreateCollection (env : RoomEnv) (w : RoomWorld) (tx : Tx) (collection : DBCollection) :
    RoomWorld × GoError :=
  let c := call env w tx
  match c.2 with
  | some err => (c.1, some err)
  | none =>
    let n := RoomWorld.now env c.1
    ({ n.1 with DB := { n.1.DB with
          collections := (Table.insert (fun i r => { r with ID := i }) n.1.DB.collections
            (collection.onCreate n.2)).1 } }, none)

/-- gorm `tx.Save(&env)` for an environment whose ID is set. -/
def SaveEnvironment (env : RoomEnv) (w : RoomWorld) (tx : Tx) (e : DBEnvironment) :
    RoomWorld × GoError :=
  let c := call env w tx
  match c.2 with
  | some err => (c.1, some err)
  | none =>
    let n := RoomWorld.now env c.1
    ({ n.1 with DB := { n.1.DB with
          environments := Table.save DBEnvironment.ID n.1.DB.environments e.ID
            { e with UpdatedAt := n.2 }
            (DBEnvironment.onCreate n.2 { e with UpdatedAt := n.2 }) } }, none)

/-- gorm `tx.Create(&env)` for an environment whose ID is unset. -/
def CreateEnvironment (env : RoomEnv) (w : RoomWorld) (tx : Tx) (e : DBEnvironment) :
    RoomWorld × GoError :=
  let c := call env w tx
  match c.2 with
  | some err => (c.1, some err)
  | none =>
    let n := RoomWorld.now env c.1
    ({ n.1 with DB := { n.1.DB with
          environments := (Table.insert (fun i r => { r with ID := i }) n.1.DB.environments
            (e.onCreate n.2)).1 } }, none)

/-- gorm `tx.Save(&request)` for a request whose ID is set. -/
def SaveRequest (env : RoomEnv) (w : RoomWorld) (tx : Tx) (request : DBRequest) :
    RoomWorld × GoError :=
  let c := call env w tx
  match c.2 with
  | some err => (c.1, some err)
  | none =>
    let n := RoomWorld.now env c.1
    ({ n.1 with DB := { n.1.DB with
          requests := Table.save DBRequest.ID n.1.DB.requests request.ID
            { request with UpdatedAt := n.2 }
            (DBRequest.onCreate n.2 { request with UpdatedAt := n.2 }) } }, none)

/-- gorm `tx.Create(&request)` for a request whose ID is unset. -/
def CreateRequest (env : RoomEnv) (w : RoomWorld) (tx : Tx) (request : DBRequest) :
    RoomWorld × GoError :=
  let c := call env w tx
  match c.2 with
  | some err => (c.1, some err)
  | none =>
    let n := RoomWorld.now env c.1
    ({ n.1 with DB := { n.1.DB with
          requests := (Table.insert (fun i r => { r with ID := i }) n.1.DB.requests
            (request.onCreate n.2)).1 } }, none)

/-- gorm `tx.Where("room_id = ?", roomID).Delete(&RoomDevice{})`. -/
def DeleteDevicesOfRoom (env : RoomEnv) (w : RoomWorld) (tx : Tx) (roomID : Nat) :
    RoomWorld × GoError :=
  let c := call env w tx
  match c.2 with
  | some err => (c.1, some err)
  | none =>
    ({ c.1 with DB := { c.1.DB with roomDevices := { c.1.DB.roomDevices with
          rows := c.1.DB.roomDevices.rows.filter (fun d => !(d.RoomID == roomID)) } } }, none)

/-- gorm `tx.Where("room_id = ?", roomID).Delete(&DBCollection{})`. -/
def DeleteCollectionsOfRoom (env : RoomEnv) (w : RoomWorld) (tx : Tx) (roomID : Nat) :
    RoomWorld × GoError :=
  let c := call env w tx
  match c.2 with
  | some err => (c.1, some err)
  | none =>
    ({ c.1 with DB := { c.1.DB with collections := { c.1.DB.collections with
          rows := c.1.DB.collections.rows.filter (fun x => !(x.RoomID == roomID)) } } }, none)

/-- gorm `tx.Where("room_id = ?", roomID).Delete(&DBEnvironment{})`. -/
def DeleteEnvironmentsOfRoom (env : RoomEnv) (w : RoomWorld) (tx : Tx) (roomID : Nat) :
    RoomWorld × GoError :=
  let c := call env w tx
  match c.2 with
  | some err => (c.1, some err)
  | none =>
    ({ c.1 with DB := { c.1.DB with environments := { c.1.DB.environments with
          rows := c.1.DB.environments.rows.filter (fun x => !(x.RoomID == roomID)) } } }, none)

/-- gorm `tx.Delete(&room)`: the row with the room's primary key goes. -/
def DeleteRoom (env : RoomEnv) (w : RoomWorld) (tx : Tx) (room : Room) :
    RoomWorld × GoError :=
  let c := call env w tx
  match c.2 with
  | some err => (c.1, some err)
  | none =>
    ({ c.1 with DB := { c.1.DB with rooms := { c.1.DB.rooms with
          rows := c.1.DB.rooms.rows.filter (fun r => !(r.ID == room.ID)) } } }, none)

end Tx

/-! ## RoomService (`room.go`) -/

/-- Go struct `CreateRoomRequest`. -/
structure CreateRoomRequest where
  Name : String
  Password : String
  Description : String
  RoomType : String
  DeviceLimit : Int
deriving DecidableEq

/-- Go struct `JoinRoomRequest`. -/
structure JoinRoomRequest where
  RoomID : String
  Password : String
  DeviceID : String
  DeviceName : String
deriving DecidableEq

/-- Go struct `RoomResponse`. -/
structure RoomResponse where
  Room : Room
  Token : String
  RoomID : String
deriving DecidableEq

/-- Go struct `RoomDataResponse`. -/
structure RoomDataResponse where
  Collections : List DBCollection
  Environments : List DBEnvironment
  Requests : List DBRequest
deriving DecidableEq

/-- The characters of `cs` that fit whole in the first `n` bytes of their
UTF-8 encoding. -/
def takeBytes : Nat → List Char → List Char
  | _, [] => []
  | n, c :: cs => if c.utf8Size ≤ n then c :: takeBytes (n - c.utf8Size) cs else []

/-- Go `s[:n]` on a string: `none` when `n` exceeds the length in bytes (the
run-time panic), else the first `n` bytes. A cut that falls inside a
multi-byte character keeps the whole characters before it. -/
def sliceTo (s : String) (n : Nat) : Option String :=
  if s.utf8ByteSize < n then none else some (String.mk (takeBytes n s.data))

namespace RoomService

/-- Go `RoomService.generateRoomID`: six random bytes in hexadecimal. -/
def generateRoomID (env : RoomEnv) (w : RoomWorld) : RoomWorld × String × GoError :=
  match env.randRead w.randReads with
  | none => ({ w with randReads := w.randReads + 1 }, "", some "rand: read failed")
  | some n => ({ w with randReads := w.randReads + 1 }, hexString 12 n, none)

/-- Go `RoomService.HashPassword`. -/
def HashPassword (env : RoomEnv) (w : RoomWorld) (password : String) :
    RoomWorld × String × GoError :=
  ({ w with bcryptCalls := w.bcryptCalls + 1 }, env.bcryptGenerate w.bcryptCalls password)

/-- Go `RoomService.CheckPassword`: `none` when the password matches the hash. -/
def CheckPassword (env : RoomEnv) (hashedPassword password : String) : GoError :=
  if env.bcryptCompare hashedPassword password then none
  else some "crypto/bcrypt: hashedPassword is not the hash of the given password"

/-- Go `RoomService.GenerateRoomToken`. -/
def GenerateRoomToken (env : RoomEnv) (w : RoomWorld) (roomDBID : Nat) (roomID : String) :
    RoomWorld × String × GoError :=
  let pseudoUser : User :=
    { ID := (roomDBID + 1000000) % 2 ^ 64,
      Username := "room_" ++ roomID,
      Email := roomID ++ "@room.resterx.com",
      Role := "room" }
  ({ w with tokenCalls := w.tokenCalls + 1 }, env.GenerateToken w.tokenCalls pseudoUser roomDBID)

/-- gorm `DB.Create(&room)`: the column `room_id` carries a unique index. -/
def dbCreateRoom (env : RoomEnv) (w : RoomWorld) (room : Room) : RoomWorld × Room × GoError :=
  let c := RoomWorld.dbCall env w
  if c.2 then (c.1, room, some dbUnavailable)
  else if c.1.DB.rooms.rows.any (fun r => r.RoomID == room.RoomID) then
    (c.1, room, some "UNIQUE constraint failed: rooms.room_id")
  else
    let n := RoomWorld.now env c.1
    let r := Table.insert (fun i r => { r with ID := i }) n.1.DB.rooms (room.onCreate n.2)
    ({ n.1 with DB := { n.1.DB with rooms := r.1 } }, r.2, none)

/-- Go `RoomService.CreateRoom`. -/
def CreateRoom (env : RoomEnv) (w : RoomWorld) (req : CreateRoomRequest) :
    RoomWorld × Result RoomResponse :=
  if req.Name = "" then (w, .err "room name is required")
  else if req.Password = "" then (w, .err "password is required")
  else if req.Password.utf8ByteSize < 6 then
    (w, .err "password must be at least 6 characters")
  else
    let g := generateRoomID env w
    match g.2.2 with
    | some err => (g.1, .err err)
    | none =>
      let roomID := g.2.1
      let h := HashPassword env g.1 req.Password
      match h.2.2 with
      | some err => (h.1, .err err)
      | none =>
        let hashedPassword := h.2.1
        let deviceLimit := if req.DeviceLimit = 0 then 3 else req.DeviceLimit
        let roomType := if req.RoomType = "" then "free" else req.RoomType
        let room : Room :=
          { ID := 0, RoomID := roomID, Name := req.Name, Password := hashedPassword,
            Description := req.Description, RoomType := roomType,
            DeviceLimit := deviceLimit, IsActive := true, CreatedAt := 0, UpdatedAt := 0 }
        let c := dbCreateRoom env h.1 room
        match c.2.2 with
        | some err => (c.1, .err err)
        | none =>
          let room := c.2.1
          let t := GenerateRoomToken env c.1 room.ID roomID
          match t.2.2 with
          | some err => (t.1, .err err)
          | none =>
            (t.1, .ok { Room := { room with Password := "" }, Token := t.2.1, RoomID := roomID })

/-- The query `DB.Where("room_id = ?", req.RoomID).First(&room)`. -/
def findRoomByRoomID (env : RoomEnv) (w : RoomWorld) (roomID : String) :
    RoomWorld × Option Room :=
  let c := RoomWorld.dbCall env w
  (c.1, if c.2 then none else gormFirst Room.ID (fun r => r.RoomID == roomID) c.1.DB.rooms.rows)

/-- The query `DB.Model(&RoomDevice{}).Where("room_id = ?", room.ID).Count(&deviceCount)`;
its error is not looked at, a count that fails leaves `deviceCount` at 0. -/
def countDevices (env : RoomEnv) (w : RoomWorld) (roomID : Nat) : RoomWorld × Int :=
  let c := RoomWorld.dbCall env w
  (c.1, if c.2 then 0
        else ((c.1.DB.roomDevices.rows.filter (fun d => d.RoomID == roomID)).length : Int))

/-- The query `DB.Where("room_id = ? AND device_id = ?", ...).First(&existingDevice)`. -/
def findDevice (env : RoomEnv) (w : RoomWorld) (roomID : Nat) (deviceID : String) :
    RoomWorld × Option RoomDevice :=
  let c := RoomWorld.dbCall env w
  (c.1, if c.2 then none
        else gormFirst RoomDevice.ID (fun d => d.RoomID == roomID && d.DeviceID == deviceID)
          c.1.DB.roomDevices.rows)

/-- The statement `DB.Model(&existingDevice).Update(column, value)`, whose
error is not looked at: `f` is the assignment to the column. -/
def updateDevice (env : RoomEnv) (w : RoomWorld) (existingDevice : RoomDevice)
    (f : RoomDevice → RoomDevice) : RoomWorld :=
  let c := RoomWorld.dbCall env w
  if c.2 then c.1
  else
    { c.1 with DB := { c.1.DB with roomDevices := { c.1.DB.roomDevices with
        rows := c.1.DB.roomDevices.rows.map
          (fun d => if d.ID == existingDevice.ID then f d else d) } } }

/-- gorm `DB.Create(&device)`. -/
def dbCreateDevice (env : RoomEnv) (w : RoomWorld) (device : RoomDevice) :
    RoomWorld × GoError :=
  let c := RoomWorld.dbCall env w
  if c.2 then (c.1, some dbUnavailable)
  else
    let n := RoomWorld.now env c.1
    ({ n.1 with DB := { n.1.DB with
          roomDevices := (Table.insert (fun i d => { d with ID := i }) n.1.DB.roomDevices
            (device.onCreate n.2)).1 } }, none)

/-- The tail of `JoinRoom` (room.go:197): token, cleared password, response. -/
def joinRoomResponse (env : RoomEnv) (w : RoomWorld) (room : Room) :
    RoomWorld × Result RoomResponse :=
  let t := GenerateRoomToken env w room.ID room.RoomID
  match t.2.2 with
  | some err => (t.1, .err err)
  | none => (t.1, .ok { Room := { room with Password := "" }, Token := t.2.1,
                        RoomID := room.RoomID })

/-- Go `RoomService.JoinRoom`. -/
def JoinRoom (env : RoomEnv) (w : RoomWorld) (req : JoinRoomRequest) :
    RoomWorld × Result RoomResponse :=
  if req.RoomID = "" then (w, .err "room ID is required")
  else if req.Password = "" then (w, .err "password is required")
  else if req.DeviceID = "" then (w, .err "device ID is required")
  else
    let f := findRoomByRoomID env w req.RoomID
    match f.2 with
    | none => (f.1, .err "room not found")
    | some room =>
      if !room.IsActive then (f.1, .err "room is not active")
      else
        match CheckPassword env room.Password req.Password with
        | some _ => (f.1, .err "invalid password")
        | none =>
          let k := countDevices env f.1 room.ID
          let deviceCount := k.2
          let x := findDevice env k.1 room.ID req.DeviceID
          match x.2 with
          | none =>
            if deviceCount ≥ room.DeviceLimit then
              (x.1, .err "device limit reached for this room")
            else
              match (if req.DeviceName = "" then
                      (sliceTo req.DeviceID 8).map (fun p => "Device " ++ p)
                    else some req.DeviceName) with
              | none => (x.1, .panic "runtime error: slice bounds out of range")
              | some deviceName =>
                let t := RoomWorld.now env x.1
                let device : RoomDevice :=
                  { ID := 0, RoomID := room.ID, DeviceID := req.DeviceID,
                    DeviceName := deviceName, LastActive := t.2, CreatedAt := 0 }
                let c := dbCreateDevice env t.1 device
                match c.2 with
                | some err => (c.1, .err err)
                | none => joinRoomResponse env c.1 room
          | some existingDevice =>
            let t := RoomWorld.now env x.1
            let u := updateDevice env t.1 existingDevice (fun d => { d with LastActive := t.2 })
            let v := if req.DeviceName ≠ "" then
                updateDevice env u existingDevice (fun d => { d with DeviceName := req.DeviceName })
              else u
            joinRoomResponse env v room

/-- Go `RoomService.GetRoomData`: the second component of a collection is
what `Preload("Requests")` attaches to it. -/
def GetRoomData (env : RoomEnv) (w : RoomWorld) (roomID : Nat) :
    RoomWorld × Result RoomDataResponse :=
  let c := RoomWorld.dbCall env w
  if c.2 then (c.1, .err dbUnavailable)
  else
    let collections := c.1.DB.collections.rows.filter (fun x => x.RoomID == roomID)
    let e := RoomWorld.dbCall env c.1
    if e.2 then (e.1, .err dbUnavailable)
    else
      let environments := e.1.DB.environments.rows.filter (fun x => x.RoomID == roomID)
      let requests := collections.flatMap
        (fun col => e.1.DB.requests.rows.filter (fun r => r.CollectionID == col.ID))
      (e.1, .ok { Collections := collections, Environments := environments,
                  Requests := requests })

/-- The loop over `data.Collections` in `SyncRoomData`: the error that
stops it, if any. -/
def syncCollections (env : RoomEnv) (tx : Tx) (roomID : Nat) :
    List DBCollection → RoomWorld → RoomWorld × GoError
  | [], w => (w, none)
  | collection :: rest, w =>
    let collection := { collection with RoomID := roomID, WorkspaceID := 0 }
    let r := if collection.ID > 0 then Tx.SaveCollection env w tx collection
             else Tx.CreateCollection env w tx collection
    match r.2 with
    | some err => (r.1, some err)
    | none => syncCollections env tx roomID rest r.1

/-- The loop over `data.Environments` in `SyncRoomData`. -/
def syncEnvironments (env : RoomEnv) (tx : Tx) (roomID : Nat) :
    List DBEnvironment → RoomWorld → RoomWorld × GoError
  | [], w => (w, none)
  | e :: rest, w =>
    let e := { e with RoomID := roomID, WorkspaceID := 0 }
    let r := if e.ID > 0 then Tx.SaveEnvironment env w tx e
             else Tx.CreateEnvironment env w tx e
    match r.2 with
    | some err => (r.1, some err)
    | none => syncEnvironments env tx roomID rest r.1

/-- The loop over `data.Requests` in `SyncRoomData`. -/
def syncRequests (env : RoomEnv) (tx : Tx) :
    List DBRequest → RoomWorld → RoomWorld × GoError
  | [], w => (w, none)
  | request :: rest, w =>
    let r := if request.ID > 0 then Tx.SaveRequest env w tx request
             else Tx.CreateRequest env w tx request
    match r.2 with
    | some err => (r.1, some err)
    | none => syncRequests env tx rest r.1

/-- Go `RoomService.SyncRoomData`. -/
def SyncRoomData (env : RoomEnv) (w : RoomWorld) (roomID : Nat) (data : RoomDataResponse) :
    RoomWorld × Result Unit :=
  let b := Tx.Begin env w
  let tx := b.2
  let c := syncCollections env tx roomID data.Collections b.1
  match c.2 with
  | some err => (Tx.Rollback c.1 tx, .err err)
  | none =>
    let e := syncEnvironments env tx roomID data.Environments c.1
    match e.2 with
    | some err => (Tx.Rollback e.1 tx, .err err)
    | none =>
      let r := syncRequests env tx data.Requests e.1
      match r.2 with
      | some err => (Tx.Rollback r.1 tx, .err err)
      | none =>
        match (Tx.Commit env r.1 tx).2 with
        | some err => ((Tx.Commit env r.1 tx).1, .err err)
        | none => ((Tx.Commit env r.1 tx).1, .ok ())

/-- Go `RoomService.GetRoomDevices`. -/
def GetRoomDevices (env : RoomEnv) (w : RoomWorld) (roomID : Nat) :
    RoomWorld × Result (List RoomDevice) :=
  let c := RoomWorld.dbCall env w
  if c.2 then (c.1, .err dbUnavailable)
  else
    (c.1, .ok (sortByTimeDesc RoomDevice.LastActive
      (c.1.DB.roomDevices.rows.filter (fun d => d.RoomID == roomID))))

/-- Go `RoomService.RemoveDevice`. -/
def RemoveDevice (env : RoomEnv) (w : RoomWorld) (roomID : Nat) (deviceID : String) :
    RoomWorld × Result Unit :=
  let c := RoomWorld.dbCall env w
  if c.2 then (c.1, .err dbUnavailable)
  else
    ({ c.1 with DB := { c.1.DB with roomDevices := { c.1.DB.roomDevices with
          rows := c.1.DB.roomDevices.rows.filter
            (fun d => !(d.RoomID == roomID && d.DeviceID == deviceID)) } } }, .ok ())

/-- Go `RoomService.GetRoomByRoomID`. -/
def GetRoomByRoomID (env : RoomEnv) (w : RoomWorld) (roomID : String) :
    RoomWorld × Result Room :=
  let f := findRoomByRoomID env w roomID
  match f.2 with
  | none => (f.1, .err "room not found")
  | some room => (f.1, .ok { room with Password := "" })

/-- Go `RoomService.ValidateRoomToken`. -/
def ValidateRoomToken (env : RoomEnv) (w : RoomWorld) (tokenString : String) :
    RoomWorld × Result Room :=
  match env.ValidateToken tokenString with
  | .error err => (w, .err err)
  | .ok claims =>
    if claims.Role ≠ "room" then (w, .err "invalid room token")
    else
      let roomDBID := claims.WorkspaceID
      let f := RoomWorld.dbCall env w
      match (if f.2 then none
             else gormFirst Room.ID (fun r => r.ID == roomDBID) f.1.DB.rooms.rows) with
      | none => (f.1, .err "room not found")
      | some room => (f.1, .ok room)

/-- Go `RoomService.DeleteRoom`. -/
def DeleteRoom (env : RoomEnv) (w : RoomWorld) (roomID : Nat) (password : String) :
    RoomWorld × Result Unit :=
  let f := RoomWorld.dbCall env w
  match (if f.2 then none else gormFirst Room.ID (fun r => r.ID == roomID) f.1.DB.rooms.rows) with
  | none => (f.1, .err "room not found")
  | some room =>
    match CheckPassword env room.Password password with
    | some _ => (f.1, .err "invalid password")
    | none =>
      let b := Tx.Begin env f.1
      let tx := b.2
      let d := Tx.DeleteDevicesOfRoom env b.1 tx roomID
      match d.2 with
      | some err => (Tx.Rollback d.1 tx, .err err)
      | none =>
        let c := Tx.DeleteCollectionsOfRoom env d.1 tx roomID
        match c.2 with
        | some err => (Tx.Rollback c.1 tx, .err err)
        | none =>
          let e := Tx.DeleteEnvironmentsOfRoom env c.1 tx roomID
          match e.2 with
          | some err => (Tx.Rollback e.1 tx, .err err)
          | none =>
            let r := Tx.DeleteRoom env e.1 tx room
            match r.2 with
            | some err => (Tx.Rollback r.1 tx, .err err)
            | none =>
              match (Tx.Commit env r.1 tx).2 with
              | some err => ((Tx.Commit env r.1 tx).1, .err err)
              | none => ((Tx.Commit env r.1 tx).1, .ok ())

end RoomService

/-! ## Comparisons used in the statements -/

/-- Two collections agree in every field but `UpdatedAt`. -/
def StorageCollection.agreesWith (a b : StorageCollection) : Prop :=
  a.ID = b.ID ∧ a.Name = b.Name ∧ a.Description = b.Description ∧ a.RoomID = b.RoomID ∧
  a.Requests = b.Requests ∧ a.Metadata = b.Metadata ∧ a.CreatedAt = b.CreatedAt

mutual
/-- Whether a dynamic value is one that `encoding/json` hands out when it
decodes into an `interface{}`: `nil`, a `bool`, a `string`, a float64 (the
integer `n` of `number n` is the value of a float64), or a slice or map of
such values; not an integer, not a NaN. -/
def JSONValue.isDecoded : JSONValue → Bool
  | .null => true
  | .bool _ => true
  | .number n => float64Nearest n == n
  | .string _ => true
  | .array xs => JSONValue.isDecodedList xs
  | .object fields => JSONValue.isDecodedFields fields
  | .integer _ => false
  | .notANumber => false
/-- Whether the elements of a slice are decoded values. -/
def JSONValue.isDecodedList : List JSONValue → Bool
  | [] => true
  | x :: xs => JSONValue.isDecoded x && JSONValue.isDecodedList xs
/-- Whether the values of a map are decoded values. -/
def JSONValue.isDecodedFields : List (String × JSONValue) → Bool
  | [] => true
  | (_, x) :: xs => JSONValue.isDecoded x && JSONValue.isDecodedFields xs
end

/-- A map as `encoding/json` decodes one (a request body, say): nil, or a map
whose values are decoded values. -/
def StringMap.IsDecoded (m : StringMap) : Prop :=
  (match m with
   | none => true
   | some fields => JSONValue.isDecodedFields fields) = true

instance (m : StringMap) : Decidable (StringMap.IsDecoded m) :=
  inferInstanceAs (Decidable (_ = true))

/-- The manager `NewStorageManager` builds when the document store is
reachable: document adapter first, relational adapter as fallback. -/
def failoverManager (env : Env) : StorageManager World :=
  { primary := MongoStorage.backend env, fallback := some (SQLiteStorage.backend env),
    usePrimary := true }

/-! ## Example environments and worlds -/

/-- An environment with a ticking clock and counting ObjectIDs, in which the
Mongo driver calls listed in `mongoDown` and the gorm calls listed in
`sqliteDown` fail, and `MONGODB_URI` is `uri`. -/
def exampleEnv (mongoDown sqliteDown : List Nat) (uri : String) : Env :=
  { clock := fun i => i,
    objectID := fun i => i,
    mongoFault := fun i => mongoDown.contains i,
    sqliteFault := fun i => sqliteDown.contains i,
    getenv := fun k => if k = "MONGODB_URI" then uri else "",
    mongoConnects := fun _ _ => true,
    sqliteOpens := fun _ => true }

/-- Both stores empty, no oracle consumed. -/
def World.empty : World :=
  { mongo := { collections := [], environments := [], requests := [], history := [] },
    sqlite := { collections := [], environments := [], requests := [], history := [] },
    clockReads := 0, objectIDs := 0, mongoCalls := 0, sqliteCalls := 0 }

/-- A collection named `name` under the ID `c1`, scoped to room `roomID`. -/
def exampleCollection (name roomID : String) (metadata : StringMap) : StorageCollection :=
  { ID := "c1", Name := name, Description := "", RoomID := roomID, Requests := some ["r1"],
    Metadata := metadata, CreatedAt := 5, UpdatedAt := 5 }

/-- A world whose document store already holds `c` and whose relational store is empty. -/
def worldWithMongoCollection (c : StorageCollection) : World :=
  { World.empty with mongo := { World.empty.mongo with collections := [c.toBSON] } }

/-- Two environments agree in the ID, name, variables, room and creation time. -/
def StorageEnvironment.agreesWith (a b : StorageEnvironment) : Prop :=
  a.ID = b.ID ∧ a.Name = b.Name ∧ a.Variables = b.Variables ∧ a.RoomID = b.RoomID ∧
  a.CreatedAt = b.CreatedAt

/-- Two requests agree in every field but `UpdatedAt`. -/
def StorageRequest.agreesWith (a b : StorageRequest) : Prop :=
  a.ID = b.ID ∧ a.CollectionID = b.CollectionID ∧ a.Name = b.Name ∧ a.Method = b.Method ∧
  a.URL = b.URL ∧ a.Headers = b.Headers ∧ a.Body = b.Body ∧
  a.QueryParams = b.QueryParams ∧ a.AuthType = b.AuthType ∧ a.AuthData = b.AuthData ∧
  a.CreatedAt = b.CreatedAt

/-- The relational counterpart of `worldWithMongoCollection`: the empty world
after `c` was saved through the relational adapter. -/
def worldWithSQLiteCollection (c : StorageCollection) : World :=
  (SQLiteStorage.SaveCollection (exampleEnv [] [] "") World.empty c).1

/-- A history entry under the ID `h1` for the URL `url`. -/
def exampleHistory (url : String) : StorageHistory :=
  { ID := "h1", RoomID := "room-1", Method := "GET", URL := url, StatusCode := 200,
    ResponseTime := 12, Timestamp := 7, Headers := none, Response := "" }

/-- A stand-in for a password hash in the example environment. -/
def exampleDigest (password : String) : String :=
  "$2a$10$" ++ toString (password.data.foldl (fun a ch => (a * 31 + ch.toNat) % 1000003) 7)

/-- An environment for the room service with a ticking clock, counting random
bytes, a token service that always issues and that decodes the token of the
room "000000000000" to the room key 1, and the gorm calls listed in `dbDown`
failing. -/
def exampleRoomEnv (dbDown : List Nat) : RoomEnv :=
  { clock := fun i => i,
    randRead := fun i => some i,
    bcryptGenerate := fun _ password => (exampleDigest password, none),
    bcryptCompare := fun hash password => hash == exampleDigest password,
    GenerateToken := fun _ user _ => ("token-for-" ++ user.Username, none),
    ValidateToken := fun token =>
      if token = "token-for-room_000000000000" then .ok { Role := "room", WorkspaceID := 1 }
      else .error "token is malformed",
    dbFault := fun i => dbDown.contains i }

/-- The collaborator's decoding inverts its issuing: every token
`GenerateToken` issued for a user and a workspace key decodes to the role of
that user and to that workspace key. -/
def RoomEnv.DecodingInvertsIssuing (env : RoomEnv) : Prop :=
  ∀ (i : Nat) (user : User) (workspaceID : Nat) (token : String),
    env.GenerateToken i user workspaceID = (token, none) →
    env.ValidateToken token = .ok { Role := user.Role, WorkspaceID := workspaceID }

/-- The example environment with a token service whose decoding inverts its
issuing: a token is the workspace key in unary, a dot, and the role. -/
def invertingRoomEnv : RoomEnv :=
  { exampleRoomEnv [] with
    GenerateToken := fun _ user workspaceID =>
      (String.mk (List.replicate workspaceID 'w' ++ '.' :: user.Role.data), none),
    ValidateToken := fun token =>
      match token.data.dropWhile (fun c => c == 'w') with
      | '.' :: role =>
        .ok { Role := String.mk role,
              WorkspaceID := (token.data.takeWhile (fun c => c == 'w')).length }
      | _ => .error "token is malformed" }

/-- No rows in any table, no oracle consumed. -/
def RoomWorld.empty : RoomWorld :=
  { DB := { rooms := { rows := [], seq := 0 }, roomDevices := { rows := [], seq := 0 },
            collections := { rows := [], seq := 0 }, environments := { rows := [], seq := 0 },
            requests := { rows := [], seq := 0 } },
    clockReads := 0, randReads := 0, bcryptCalls := 0, tokenCalls := 0, dbCalls := 0 }

/-- The world after a room "team" with password "secret1" and the given
device limit was created in the empty world; its public id is "000000000000". -/
def worldWithRoom (deviceLimit : Int) : RoomWorld :=
  (RoomService.CreateRoom (exampleRoomEnv []) RoomWorld.empty
    { Name := "team", Password := "secret1", Description := "", RoomType := "",
      DeviceLimit := deviceLimit }).1

/-- A join request for the room of `worldWithRoom`. -/
def exampleJoin (deviceID deviceName : String) : JoinRoomRequest :=
  { RoomID := "000000000000", Password := "secret1", DeviceID := deviceID,
    DeviceName := deviceName }

/-- A collection row named `name` with the key `id`. -/
def exampleDBCollection (id : Nat) (name : String) : DBCollection :=
  { ID := id, Name := name, Description := "", WorkspaceID := 4, RoomID := 0, CreatedBy := 1,
    Version := 1, IsPublic := false, Tags := "", CreatedAt := 0, UpdatedAt := 0 }

/-- The value a method returned with a nil error, if it did. -/
def Result.value {α : Type} : Result α → Option α
  | .ok v => some v
  | _ => none

/-- Whether a method ended with a value and a nil error. -/
def Result.isOk {α : Type} : Result α → Bool
  | .ok _ => true
  | _ => false

/-- The world after the given join requests were served one after the other. -/
def joinAll (env : RoomEnv) (w : RoomWorld) : List JoinRoomRequest → RoomWorld
  | [] => w
  | req :: rest => joinAll env (RoomService.JoinRoom env w req).1 rest

/-- The number of devices registered in the room with key `roomID`. -/
def deviceCount (w : RoomWorld) (roomID : Nat) : Nat :=
  (w.DB.roomDevices.rows.filter (fun d => d.RoomID == roomID)).length

namespace RoomService

/-- The worlds the room service reaches from empty tables by a sequential run
of `CreateRoom`, `JoinRoom`, `RemoveDevice` and `DeleteRoom` calls. -/
inductive Reachable (env : RoomEnv) : RoomWorld → Prop where
  | start (w : RoomWorld) (h : w.DB = RoomWorld.empty.DB) : Reachable env w
  | createRoom {w : RoomWorld} (req : CreateRoomRequest) :
      Reachable env w → Reachable env (CreateRoom env w req).1
  | joinRoom {w : RoomWorld} (req : JoinRoomRequest) :
      Reachable env w → Reachable env (JoinRoom env w req).1
  | removeDevice {w : RoomWorld} (roomID : Nat) (deviceID : String) :
      Reachable env w → Reachable env (RemoveDevice env w roomID deviceID).1
  | deleteRoom {w : RoomWorld} (roomID : Nat) (password : String) :
      Reachable env w → Reachable env (DeleteRoom env w roomID password).1

end RoomService

/-- The room keys of the registered devices, one entry per device. -/
def deviceRooms (w : RoomWorld) : List Nat := w.DB.roomDevices.rows.map RoomDevice.RoomID

/-- The invariant behind the device limit: room keys are distinct and were
handed out by the sequence, every device belongs to a key handed out, and
no room holds more devices than its limit allows. -/
structure RoomInv (w : RoomWorld) : Prop where
  ids_le : ∀ r ∈ w.DB.rooms.rows, r.ID ≤ w.DB.rooms.seq
  ids_nodup : (w.DB.rooms.rows.map Room.ID).Nodup
  dev_le : ∀ i ∈ deviceRooms w, i ≤ w.DB.rooms.seq
  count_le : ∀ r ∈ w.DB.rooms.rows, ((deviceRooms w).count r.ID : Int) ≤ max r.DeviceLimit 0

/-- The world of `worldWithRoom 2` after the devices "A" and "B" joined and a
batch of one collection was synchronised into the room. -/
def worldWithRoomData : RoomWorld :=
  (RoomService.SyncRoomData (exampleRoomEnv [])
    (joinAll (exampleRoomEnv []) (worldWithRoom 2)
      [exampleJoin "A" "phone", exampleJoin "B" "tablet"]) 1
    { Collections := [exampleDBCollection 0 "shared"], Environments := [], Requests := [] }).1

/-- The manager `NewStorageManager` builds without a document store: the
relational adapter is both primary and fallback. -/
def relationalOnlyManager (env : Env) : StorageManager World :=
  { primary := SQLiteStorage.backend env, fallback := some (SQLiteStorage.backend env),
    usePrimary := true }


/-! ## Statement helpers for `SyncRoomData` -/

/-- One entity of a batch written to a table at the clock reading `now`, the
way the loops of `SyncRoomData` write it: gorm `Save` under its key when the
key is set, gorm `Create` under the next key of the sequence when it is not. -/
def Table.upsert {α : Type} (pk : α → Nat) (setID : Nat → α → α)
    (touch onCreate : Time → α → α) (t : Table α) (x : α) (now : Time) : Table α :=
  if pk x > 0 then Table.save pk t (pk x) (touch now x) (onCreate now (touch now x))
  else (Table.insert setID t (onCreate now x)).1

/-- The table reached by writing the entities of a batch one after the
other, each at some clock reading. -/
inductive Table.Upserts {α : Type} (pk : α → Nat) (setID : Nat → α → α)
    (touch onCreate : Time → α → α) : Table α → List α → Table α → Prop
  | nil (t : Table α) : Table.Upserts pk setID touch onCreate t [] t
  | cons (t : Table α) (x : α) (now : Time) (xs : List α) (t' : Table α) :
      Table.Upserts pk setID touch onCreate (Table.upsert pk setID touch onCreate t x now) xs t' →
      Table.Upserts pk setID touch onCreate t (x :: xs) t'

/-- No row of the table has a key beyond the last one the sequence handed out. -/
def Table.KeysIssued {α : Type} (pk : α → Nat) (t : Table α) : Prop :=
  ∀ r ∈ t.rows, pk r ≤ t.seq

/-- An environment row named `name` with the key `id`, sent with foreign keys of its own. -/
def exampleDBEnvironment (id : Nat) (name : String) : DBEnvironment :=
  { ID := id, WorkspaceID := 4, RoomID := 9, Name := name, Variables := "", IsActive := false,
    CreatedBy := 1, CreatedAt := 0, UpdatedAt := 0 }

/-- A request row named `name` with the key `id` in the collection `collectionID`. -/
def exampleDBRequest (id collectionID : Nat) (name : String) : DBRequest :=
  { ID := id, CollectionID := collectionID, Name := name, Method := "GET", URL := "/x",
    Headers := "", Body := "", AuthType := "", AuthData := "", Tests := "", PreScript := "",
    PostScript := "", Variables := "", Order := 0, CreatedBy := 1, CreatedAt := 0,
    UpdatedAt := 0 }

/-- The world of `worldWithRoomData` after two more batches were
synchronised: the request "list" into the collection 1 of the room 1, and a
collection "other" with its request "foreign" into a room with the key 2. -/
def worldWithTwoRooms : RoomWorld :=
  (RoomService.SyncRoomData (exampleRoomEnv [])
    (RoomService.SyncRoomData (exampleRoomEnv []) worldWithRoomData 1
      { Collections := [], Environments := [exampleDBEnvironment 0 "staging"],
        Requests := [exampleDBRequest 0 1 "list"] }).1 2
    { Collections := [exampleDBCollection 0 "other"], Environments := [],
      Requests := [exampleDBRequest 0 2 "foreign"] }).1

/-- The example environment with a token service that refuses to issue. -/
def tokenFailingRoomEnv : RoomEnv :=
  { exampleRoomEnv [] with GenerateToken := fun _ _ _ => ("", some "token signing failed") }

/-- The rows a table holds under the key `k`. -/
def Table.rowsAt {α : Type} (pk : α → Nat) (t : Table α) (k : Nat) : List α :=
  t.rows.filter (fun r => pk r == k)

/-- The number of entries a history query asked with `limit` returns at most. -/
def historyLimit (limit : Int) : Nat :=
  if limit > 0 then limit.toNat else 100

/-- The list `result` holds the `n` newest of the `stored` entries, newest
first: together with the entries left out it is a rearrangement of `stored`,
it is as long as `n` and `stored` allow, its times never increase, and no
entry left out is newer than one returned. -/
def IsNewestFirst {α : Type} (ts : α → Time) (n : Nat) (stored result : List α) : Prop :=
  ∃ rest, (result ++ rest).Perm stored ∧ result.length = min n stored.length ∧
    result.Pairwise (fun a b => ts b ≤ ts a) ∧ ∀ x ∈ rest, ∀ y ∈ result, ts x ≤ ts y

/-- A history entry of the room `roomID` under the ID `id`, sent at `time`. -/
def historyAt (id roomID : String) (time : Time) : StorageHistory :=
  { ID := id, RoomID := roomID, Method := "GET", URL := "/" ++ id, StatusCode := 200,
    ResponseTime := 12, Timestamp := time, Headers := none, Response := "" }

/-- The world after the given history entries were saved through the document adapter. -/
def mongoHistoryWorld (env : Env) (w : World) : List StorageHistory → World
  | [] => w
  | h :: rest => mongoHistoryWorld env (MongoStorage.SaveHistory env w h).1 rest

/-- The world after the given history entries were saved through the relational adapter. -/
def sqliteHistoryWorld (env : Env) (w : World) : List StorageHistory → World
  | [] => w
  | h :: rest => sqliteHistoryWorld env (SQLiteStorage.SaveHistory env w h).1 rest

/-- The outcome `res` of a get is a record, returned without error, whose
creation time is `createdAt` and is not later than its update time. -/
def ReadBackInOrder {α : Type} (created updated : α → Time) (createdAt : Time)
    (res : Option α × GoError) : Prop :=
  ∃ r, res = (some r, none) ∧ created r = createdAt ∧ created r ≤ updated r

/-- The four kinds of entities the storage backends hold. -/
inductive EntityKind where
  | collection
  | environment
  | request
  | history
deriving DecidableEq

/-- The delete call for an entity of the given kind. -/
def EntityKind.deleteCall : EntityKind → String → Call
  | .collection, id => .DeleteCollection id
  | .environment, id => .DeleteEnvironment id
  | .request, id => .DeleteRequest id
  | .history, id => .DeleteHistory id

/-- Whether the document store holds a document of the kind under `id`. -/
def MongoDatabase.stores (db : MongoDatabase) : EntityKind → String → Bool
  | .collection, id => db.collections.any (fun d => d.matchesString "_id" id)
  | .environment, id => db.environments.any (fun d => d.matchesString "_id" id)
  | .request, id => db.requests.any (fun d => d.matchesString "_id" id)
  | .history, id => db.history.any (fun d => d.matchesString "_id" id)

/-- Whether the relational store holds a row of the kind under `id`. -/
def SQLiteTables.stores (t : SQLiteTables) : EntityKind → String → Bool
  | .collection, id => t.collections.any (fun r => r.ID == id)
  | .environment, id => t.environments.any (fun r => r.ID == id)
  | .request, id => t.requests.any (fun r => r.ID == id)
  | .history, id => t.history.any (fun r => r.ID == id)

/-- What a get by `id` may return over the `stored` records: either a record
and no error, the record then being a stored one whose ID is `id`, or no
record and an error, never neither; and no record and an error when no
stored record has the ID. -/
def GetContract {α : Type} (idOf : α → String) (stored : List α) (id : String)
    (res : Option α × GoError) : Prop :=
  ((∃ r, res = (some r, none) ∧ r ∈ stored ∧ idOf r = id) ∨ (∃ e, res = (none, some e))) ∧
  ((∀ r ∈ stored, idOf r ≠ id) → ∃ e, res = (none, some e))

/-- The get-by-id call for an entity of the given kind; the interface has
none for history entries. -/
def EntityKind.getCall : EntityKind → String → Option Call
  | .collection, id => some (.GetCollection id)
  | .environment, id => some (.GetEnvironment id)
  | .request, id => some (.GetRequest id)
  | .history, _ => none

/-- The documents of the kind the document store holds under `id`. -/
def MongoDatabase.matching (db : MongoDatabase) : EntityKind → String → List Document
  | .collection, id => db.collections.filter (fun d => d.matchesString "_id" id)
  | .environment, id => db.environments.filter (fun d => d.matchesString "_id" id)
  | .request, id => db.requests.filter (fun d => d.matchesString "_id" id)
  | .history, id => db.history.filter (fun d => d.matchesString "_id" id)

/-! ## The two persistence layers side by side -/

/-- The state of a running server: the database behind the global handle
`DB` of `database.go`, on which the room service works, and the stores behind
the storage manager of `storage.go` (its own SQLite file with the tables
`storage_*`, and the Mongo database). No statement of `room.go` refers to a
storage backend, and none of `storage.go` to `DB`. -/
structure Server where
  rooms : RoomWorld
  storage : World

/-- A call of `RoomService.DeleteRoom` in a running server. -/
def Server.DeleteRoom (renv : RoomEnv) (s : Server) (roomID : Nat) (password : String) :
    Server × Result Unit :=
  ({ s with rooms := (RoomService.DeleteRoom renv s.rooms roomID password).1 },
   (RoomService.DeleteRoom renv s.rooms roomID password).2)

/-- A call of `RoomService.GetRoomDevices` in a running server. -/
def Server.GetRoomDevices (renv : RoomEnv) (s : Server) (roomID : Nat) :
    Server × Result (List RoomDevice) :=
  ({ s with rooms := (RoomService.GetRoomDevices renv s.rooms roomID).1 },
   (RoomService.GetRoomDevices renv s.rooms roomID).2)

/-- A call of `StorageManager.GetCollectionsByRoom` in a running server. -/
def Server.GetCollectionsByRoom (sm : StorageManager World) (s : Server) (roomID : String) :
    Server × List StorageCollection × GoError :=
  ({ s with storage := (sm.GetCollectionsByRoom s.storage roomID).1 },
   (sm.GetCollectionsByRoom s.storage roomID).2)

/-- A server in which the room "team" (key 1, public id "000000000000") has
two devices and one synchronised collection, and in which the collection
`c1` was saved through the storage manager with that room's public id as its
`roomId`. -/
def serverWithRoomAndCollection : Server :=
  { rooms := worldWithRoomData,
    storage := ((failoverManager (exampleEnv [] [] "")).SaveCollection World.empty
      (exampleCollection "a" "000000000000" none)).1 }
/-! ## Helper lemmas: the JSON columns and gorm `Save` -/

theorem fromJSONStrings_toJSON (xs : StringSlice) (target : StringSlice) :
    fromJSONStrings (toJSON (some (.strings xs))) target = (xs, none) := by
  cases xs with
  | none => simp [toJSON, jsonMarshal, fromJSONStrings, jsonUnmarshalStrings]
  | some l =>
    simp [toJSON, jsonMarshal, fromJSONStrings, jsonUnmarshalStrings, Function.comp_def]

mutual
/-- A decoded value is marshalled, and what is written decodes to it. -/
theorem JSONValue.unmarshal_marshal :
    ∀ v : JSONValue, v.isDecoded = true → ∃ d, v.marshal = some d ∧ d.unmarshal = v
  | .null, _ => ⟨.null, rfl, rfl⟩
  | .bool b, _ => ⟨.bool b, rfl, rfl⟩
  | .number n, h => by
    refine ⟨.number n, rfl, ?_⟩
    simp only [JSONValue.isDecoded, beq_iff_eq] at h
    simp only [JSONDocument.unmarshal, h]
  | .string s, _ => ⟨.string s, rfl, rfl⟩
  | .array xs, h => by
    simp only [JSONValue.isDecoded] at h
    obtain ⟨ds, h1, h2⟩ := JSONValue.unmarshalList_marshalList xs h
    exact ⟨.array ds, by simp [JSONValue.marshal, h1], by simp [JSONDocument.unmarshal, h2]⟩
  | .object fields, h => by
    simp only [JSONValue.isDecoded] at h
    obtain ⟨ds, h1, h2⟩ := JSONValue.unmarshalFields_marshalFields fields h
    exact ⟨.object ds, by simp [JSONValue.marshal, h1], by simp [JSONDocument.unmarshal, h2]⟩
  | .integer _, h => by simp [JSONValue.isDecoded] at h
  | .notANumber, h => by simp [JSONValue.isDecoded] at h
/-- The elements of a slice of decoded values. -/
theorem JSONValue.unmarshalList_marshalList :
    ∀ xs : List JSONValue, JSONValue.isDecodedList xs = true →
      ∃ ds, JSONValue.marshalList xs = some ds ∧ JSONDocument.unmarshalList ds = xs
  | [], _ => ⟨[], rfl, rfl⟩
  | x :: xs, h => by
    simp only [JSONValue.isDecodedList, Bool.and_eq_true] at h
    obtain ⟨d, h1, h2⟩ := JSONValue.unmarshal_marshal x h.1
    obtain ⟨ds, h3, h4⟩ := JSONValue.unmarshalList_marshalList xs h.2
    exact ⟨d :: ds, by simp [JSONValue.marshalList, h1, h3],
      by simp [JSONDocument.unmarshalList, h2, h4]⟩
/-- The entries of a map of decoded values. -/
theorem JSONValue.unmarshalFields_marshalFields :
    ∀ xs : List (String × JSONValue), JSONValue.isDecodedFields xs = true →
      ∃ ds, JSONValue.marshalFields xs = some ds ∧ JSONDocument.unmarshalFields ds = xs
  | [], _ => ⟨[], rfl, rfl⟩
  | (k, x) :: xs, h => by
    simp only [JSONValue.isDecodedFields, Bool.and_eq_true] at h
    obtain ⟨d, h1, h2⟩ := JSONValue.unmarshal_marshal x h.1
    obtain ⟨ds, h3, h4⟩ := JSONValue.unmarshalFields_marshalFields xs h.2
    exact ⟨(k, d) :: ds, by simp [JSONValue.marshalFields, h1, h3],
      by simp [JSONDocument.unmarshalFields, h2, h4]⟩
end

/-- `fromJSON` reads back the map `toJSON` wrote when the map is one that
`encoding/json` decodes. -/
theorem fromJSONMap_toJSON (m : StringMap) (hm : StringMap.IsDecoded m) :
    fromJSONMap (toJSON (some (.stringMap m))) none = (m, none) := by
  cases m with
  | none => simp [toJSON, jsonMarshal, fromJSONMap, jsonUnmarshalMap]
  | some l =>
    obtain ⟨ds, h1, h2⟩ := JSONValue.unmarshalFields_marshalFields l hm
    simp [toJSON, jsonMarshal, fromJSONMap, jsonUnmarshalMap, h1, h2]

theorem find?_map_replace {α : Type} (p : α → Bool) (x : α) (hx : p x = true) :
    ∀ rows : List α, rows.any p = true →
      (rows.map (fun r => if p r then x else r)).find? p = some x
  | [], h => by simp at h
  | r :: rs, h => by
    by_cases hr : p r = true
    · simp [hr, hx]
    · have hrs : rs.any p = true := by simpa [hr] using h
      simp [hr, find?_map_replace p x hx rs hrs]

theorem find?_append_new {α : Type} (p : α → Bool) (x : α) (hx : p x = true)
    (rows : List α) (h : rows.any p = false) :
    (rows ++ [x]).find? p = some x := by
  have hn : rows.find? p = none := by
    rw [List.find?_eq_none]
    intro r hr hp
    have : rows.any p = true := List.any_eq_true.mpr ⟨r, hr, hp⟩
    rw [h] at this
    exact Bool.noConfusion this
  simp [List.find?_append, hn, hx]

/-- After gorm `Save`, looking a row up by the saved key finds the saved row:
the refreshed one when the key was present, the inserted one otherwise. -/
theorem gormSave_find? {α : Type} (key : α → String) (touch : Time → α → α)
    (defaults : α → α) (rows : List α) (row : α) (now : Time)
    (ht : key (touch now row) = key row) (hd : key (defaults (touch now row)) = key row) :
    (gormSave key touch defaults rows row now).find? (fun r => key r == key row) =
      some (if rows.any (fun r => key r == key row) then touch now row
        else defaults (touch now row)) := by
  unfold gormSave
  by_cases h : rows.any (fun r => key r == key row) = true
  · simp only [h, if_true]
    exact find?_map_replace (fun r => key r == key row) (touch now row) (by simp [ht]) rows h
  · have h' : rows.any (fun r => key r == key row) = false := by simpa using h
    simp only [h', Bool.false_eq_true, if_false]
    exact find?_append_new (fun r => key r == key row) (defaults (touch now row))
      (by simp [hd]) rows h'

/-- On the relational adapter, a `GetCollection` that goes through right after
a successful `SaveCollection` returns the saved record, when its metadata
map is one that `encoding/json` decodes. -/
theorem SQLiteStorage.get_after_save_collection (env : Env) (w : World)
    (c : StorageCollection)
    (hs : (SQLiteStorage.SaveCollection env w c).2.2 = none)
    (hg : env.sqliteFault (SQLiteStorage.SaveCollection env w c).1.sqliteCalls = false)
    (hm : StringMap.IsDecoded (SQLiteStorage.prepareCollection env w c).2.Metadata) :
    ∃ r, (SQLiteStorage.GetCollection env (SQLiteStorage.SaveCollection env w c).1
            (SQLiteStorage.SaveCollection env w c).2.1.ID).2 = (some r, none) ∧
      r.agreesWith (SQLiteStorage.SaveCollection env w c).2.1 := by
  unfold SQLiteStorage.SaveCollection at hs hg ⊢
  generalize SQLiteStorage.prepareCollection env w c = m at hs hg hm ⊢
  simp only [] at hs hg ⊢
  split at hs
  · simp at hs
  · rename_i hf
    simp only [hf] at hg ⊢
    simp only [SQLiteStorage.GetCollection, sqliteCall, timeNow] at hg ⊢
    simp only [hg]
    have hk := gormSave_find? SQLiteCollection.ID (fun now r => { r with UpdatedAt := now }) id
      m.1.sqlite.collections (SQLiteStorage.collectionRow m.2) (env.clock m.1.clockReads + 1)
      rfl rfl
    simp only [SQLiteStorage.collectionRow] at hk ⊢
    simp only [Bool.false_eq_true, if_false]
    rw [hk]
    refine ⟨_, rfl, ?_⟩
    split <;>
      simp [StorageCollection.agreesWith, SQLiteCollection.toStorage, fromJSONStrings_toJSON,
        fromJSONMap_toJSON _ hm]

/-! ## Helper lemmas: failover between the two adapters -/

theorem mongoInsertOne_error (docs : List Document) (doc : Document)
    (h : (mongoInsertOne docs doc).2 ≠ none) : (mongoInsertOne docs doc).1 = docs := by
  unfold mongoInsertOne at h ⊢
  split
  · split
    · rfl
    · rename_i hid hany
      simp [hid, hany] at h
  · rename_i hid
    simp [hid] at h

theorem MongoStorage.stampCollection_stores (env : Env) (w : World) (c : StorageCollection) :
    (MongoStorage.stampCollection env w c).1.mongo = w.mongo ∧
    (MongoStorage.stampCollection env w c).1.sqlite = w.sqlite := by
  unfold MongoStorage.stampCollection
  simp only []
  split <;> simp [timeNow]

/-- A `SaveCollection` of the document adapter that returns an error has
written nothing, in either store. -/
theorem MongoStorage.SaveCollection_error_unchanged (env : Env) (w : World)
    (c : StorageCollection) (h : (MongoStorage.SaveCollection env w c).2.2 ≠ none) :
    (MongoStorage.SaveCollection env w c).1.mongo = w.mongo ∧
    (MongoStorage.SaveCollection env w c).1.sqlite = w.sqlite := by
  have hst := MongoStorage.stampCollection_stores env w c
  unfold MongoStorage.SaveCollection at h ⊢
  generalize MongoStorage.stampCollection env w c = s at h hst ⊢
  simp only [] at h ⊢
  split
  · split
    · simpa [mongoCall, NewObjectIDHex] using hst
    · rename_i hid hf
      simp only [hid, hf, if_true, Bool.false_eq_true, if_false] at h
      have hi := mongoInsertOne_error _ _ h
      rw [hi]
      simpa [mongoCall, NewObjectIDHex] using hst
  · split
    · simpa [mongoCall, NewObjectIDHex] using hst
    · rename_i hid hf
      simp [hid, hf] at h

theorem SQLiteStorage.SaveCollection_mongo (env : Env) (w : World) (c : StorageCollection) :
    (SQLiteStorage.SaveCollection env w c).1.mongo = w.mongo := by
  unfold SQLiteStorage.SaveCollection SQLiteStorage.prepareCollection
  simp only []
  split <;> split <;> split <;> simp [sqliteCall, NewObjectIDHex, timeNow]

theorem MongoStorage.GetCollection_world (env : Env) (w : World) (id : String) :
    (MongoStorage.GetCollection env w id).1 = { w with mongoCalls := w.mongoCalls + 1 } := by
  unfold MongoStorage.GetCollection
  simp only [mongoCall]
  split
  · rfl
  · split <;> rfl

theorem SQLiteStorage.GetCollection_mongoCalls (env : Env) (w : World) (n : Nat)
    (id : String) :
    (SQLiteStorage.GetCollection env { w with mongoCalls := n } id).2 =
      (SQLiteStorage.GetCollection env w id).2 := by
  unfold SQLiteStorage.GetCollection
  simp only [sqliteCall]
  split
  · rfl
  · split <;> rfl

theorem hexString_ne_empty (n : Nat) : hexString 24 n ≠ "" := by
  intro h
  have hl := congrArg String.length h
  simp [hexString, String.length] at hl

theorem SQLiteStorage.prepareCollection_spec (env : Env) (w : World) (c : StorageCollection) :
    ((SQLiteStorage.prepareCollection env w c).2.ID ≠ "") ∧
    (SQLiteStorage.prepareCollection env w c).2.Name = c.Name ∧
    (SQLiteStorage.prepareCollection env w c).2.Description = c.Description ∧
    (SQLiteStorage.prepareCollection env w c).2.RoomID = c.RoomID ∧
    (SQLiteStorage.prepareCollection env w c).2.Requests = c.Requests ∧
    (SQLiteStorage.prepareCollection env w c).2.Metadata = c.Metadata := by
  unfold SQLiteStorage.prepareCollection
  simp only []
  split <;> split <;> simp_all [NewObjectIDHex, hexString_ne_empty]

theorem SQLiteStorage.SaveCollection_entity (env : Env) (w : World) (c : StorageCollection) :
    (SQLiteStorage.SaveCollection env w c).2.1 = (SQLiteStorage.prepareCollection env w c).2 := by
  unfold SQLiteStorage.SaveCollection
  simp only []
  split <;> rfl

theorem SQLiteStorage.get_after_save_environment (env : Env) (w : World)
    (e : StorageEnvironment)
    (hs : (SQLiteStorage.SaveEnvironment env w e).2.2 = none)
    (hg : env.sqliteFault (SQLiteStorage.SaveEnvironment env w e).1.sqliteCalls = false)
    (hm : StringMap.IsDecoded (SQLiteStorage.prepareEnvironment env w e).2.Variables) :
    ∃ r, (SQLiteStorage.GetEnvironment env (SQLiteStorage.SaveEnvironment env w e).1
            (SQLiteStorage.SaveEnvironment env w e).2.1.ID).2 = (some r, none) ∧
      r.agreesWith (SQLiteStorage.SaveEnvironment env w e).2.1 := by
  unfold SQLiteStorage.SaveEnvironment at hs hg ⊢
  generalize SQLiteStorage.prepareEnvironment env w e = m at hs hg hm ⊢
  simp only [] at hs hg ⊢
  split at hs
  · simp at hs
  · rename_i hf
    simp only [hf] at hg ⊢
    simp only [SQLiteStorage.GetEnvironment, sqliteCall, timeNow] at hg ⊢
    simp only [hg]
    have hk := gormSave_find? SQLiteEnvironment.ID (fun now r => { r with UpdatedAt := now })
      (fun r => { r with IsActive := true })
      m.1.sqlite.environments (SQLiteStorage.environmentRow m.2) (env.clock m.1.clockReads + 1)
      rfl rfl
    simp only [SQLiteStorage.environmentRow] at hk ⊢
    simp only [Bool.false_eq_true, if_false]
    rw [hk]
    refine ⟨_, rfl, ?_⟩
    split <;>
      simp [StorageEnvironment.agreesWith, SQLiteEnvironment.toStorage, fromJSONMap_toJSON _ hm]

theorem SQLiteStorage.get_after_save_request (env : Env) (w : World)
    (q : StorageRequest)
    (hs : (SQLiteStorage.SaveRequest env w q).2.2 = none)
    (hg : env.sqliteFault (SQLiteStorage.SaveRequest env w q).1.sqliteCalls = false)
    (hh : StringMap.IsDecoded (SQLiteStorage.prepareRequest env w q).2.Headers)
    (hp : StringMap.IsDecoded (SQLiteStorage.prepareRequest env w q).2.QueryParams)
    (ha : StringMap.IsDecoded (SQLiteStorage.prepareRequest env w q).2.AuthData) :
    ∃ r, (SQLiteStorage.GetRequest env (SQLiteStorage.SaveRequest env w q).1
            (SQLiteStorage.SaveRequest env w q).2.1.ID).2 = (some r, none) ∧
      r.agreesWith (SQLiteStorage.SaveRequest env w q).2.1 := by
  unfold SQLiteStorage.SaveRequest at hs hg ⊢
  generalize SQLiteStorage.prepareRequest env w q = m at hs hg hh hp ha ⊢
  simp only [] at hs hg ⊢
  split at hs
  · simp at hs
  · rename_i hf
    simp only [hf] at hg ⊢
    simp only [SQLiteStorage.GetRequest, sqliteCall, timeNow] at hg ⊢
    simp only [hg]
    have hk := gormSave_find? SQLiteRequest.ID (fun now r => { r with UpdatedAt := now }) id
      m.1.sqlite.requests (SQLiteStorage.requestRow m.2) (env.clock m.1.clockReads + 1)
      rfl rfl
    simp only [SQLiteStorage.requestRow] at hk ⊢
    simp only [Bool.false_eq_true, if_false]
    rw [hk]
    refine ⟨_, rfl, ?_⟩
    split <;>
      simp [StorageRequest.agreesWith, SQLiteRequest.toStorage, fromJSONMap_toJSON _ hh,
        fromJSONMap_toJSON _ hp, fromJSONMap_toJSON _ ha]

theorem SQLiteStorage.prepareEnvironment_spec (env : Env) (w : World) (e : StorageEnvironment) :
    ((SQLiteStorage.prepareEnvironment env w e).2.ID ≠ "") ∧
    (SQLiteStorage.prepareEnvironment env w e).2.Name = e.Name ∧
    (SQLiteStorage.prepareEnvironment env w e).2.Variables = e.Variables ∧
    (SQLiteStorage.prepareEnvironment env w e).2.RoomID = e.RoomID := by
  unfold SQLiteStorage.prepareEnvironment
  simp only []
  split <;> split <;> simp_all [NewObjectIDHex, hexString_ne_empty]

theorem SQLiteStorage.SaveEnvironment_entity (env : Env) (w : World) (e : StorageEnvironment) :
    (SQLiteStorage.SaveEnvironment env w e).2.1 =
      (SQLiteStorage.prepareEnvironment env w e).2 := by
  unfold SQLiteStorage.SaveEnvironment
  simp only []
  split <;> rfl

theorem SQLiteStorage.prepareRequest_spec (env : Env) (w : World) (q : StorageRequest) :
    ((SQLiteStorage.prepareRequest env w q).2.ID ≠ "") ∧
    (SQLiteStorage.prepareRequest env w q).2.CollectionID = q.CollectionID ∧
    (SQLiteStorage.prepareRequest env w q).2.Name = q.Name ∧
    (SQLiteStorage.prepareRequest env w q).2.Method = q.Method ∧
    (SQLiteStorage.prepareRequest env w q).2.URL = q.URL ∧
    (SQLiteStorage.prepareRequest env w q).2.Headers = q.Headers ∧
    (SQLiteStorage.prepareRequest env w q).2.Body = q.Body ∧
    (SQLiteStorage.prepareRequest env w q).2.QueryParams = q.QueryParams ∧
    (SQLiteStorage.prepareRequest env w q).2.AuthType = q.AuthType ∧
    (SQLiteStorage.prepareRequest env w q).2.AuthData = q.AuthData := by
  unfold SQLiteStorage.prepareRequest
  simp only []
  split <;> split <;> simp_all [NewObjectIDHex, hexString_ne_empty]

theorem SQLiteStorage.SaveRequest_entity (env : Env) (w : World) (q : StorageRequest) :
    (SQLiteStorage.SaveRequest env w q).2.1 = (SQLiteStorage.prepareRequest env w q).2 := by
  unfold SQLiteStorage.SaveRequest
  simp only []
  split <;> rfl


/-! ## Helper lemmas: transactions and gorm `First` -/

theorem Tx.Commit_error (env : RoomEnv) (w : RoomWorld) (tx : Tx)
    (h : (Tx.Commit env w tx).2 ≠ none) : (Tx.Commit env w tx).1.DB = tx.snapshot := by
  unfold Tx.Commit at h ⊢
  split
  · rfl
  · rename_i hk
    simp [hk] at h

theorem Tx.Begin_snapshot (env : RoomEnv) (w : RoomWorld) :
    (Tx.Begin env w).2.snapshot = w.DB := rfl

theorem gormFirst_foldl_some {α : Type} (pk : α → Nat) (l : List α) :
    ∀ (best : Option α) (r : α),
      l.foldl (fun best r =>
          match best with
          | none => some r
          | some b => if pk r < pk b then some r else some b) best = some r →
      best = some r ∨ r ∈ l := by
  induction l with
  | nil => intro best r h; exact Or.inl h
  | cons x xs ih =>
    intro best r h
    rw [List.foldl_cons] at h
    rcases ih _ r h with h' | h'
    · cases best with
      | none =>
        simp only [Option.some.injEq] at h'
        exact Or.inr (by simp [h'])
      | some b =>
        by_cases hlt : pk x < pk b
        · simp only [hlt, if_true, Option.some.injEq] at h'
          exact Or.inr (by simp [h'])
        · simp only [hlt, if_false] at h'
          exact Or.inl h'
    · exact Or.inr (List.mem_cons_of_mem _ h')

theorem gormFirst_foldl_none {α : Type} (pk : α → Nat) (l : List α) :
    ∀ (best : Option α),
      l.foldl (fun best r =>
          match best with
          | none => some r
          | some b => if pk r < pk b then some r else some b) best = none →
      best = none ∧ l = [] := by
  induction l with
  | nil => intro best h; exact ⟨h, rfl⟩
  | cons x xs ih =>
    intro best h
    rw [List.foldl_cons] at h
    have h1 := (ih _ h).1
    cases best with
    | none => simp at h1
    | some b =>
      by_cases hlt : pk x < pk b
      · simp [hlt] at h1
      · simp [hlt] at h1

/-- What gorm `First` finds is a row of the table that satisfies the conditions. -/
theorem gormFirst_some {α : Type} (pk : α → Nat) (p : α → Bool) (rows : List α) (r : α)
    (h : gormFirst pk p rows = some r) : r ∈ rows ∧ p r = true := by
  unfold gormFirst at h
  rcases gormFirst_foldl_some pk _ none r h with h' | h'
  · exact Option.noConfusion h'
  · exact List.mem_filter.mp h'

/-- When gorm `First` finds nothing, no row satisfies the conditions. -/
theorem gormFirst_none {α : Type} (pk : α → Nat) (p : α → Bool) (rows : List α)
    (h : gormFirst pk p rows = none) : ∀ r ∈ rows, p r = false := by
  unfold gormFirst at h
  have hnil := (gormFirst_foldl_none pk _ none h).2
  intro r hr
  by_contra hp
  have : r ∈ rows.filter p := List.mem_filter.mpr ⟨hr, by simpa using hp⟩
  rw [hnil] at this
  exact List.not_mem_nil _ this

/-- The tables a successful `DeleteRoom` leaves: the rows of the room gone
from `rooms`, `room_devices`, `db_collections` and `db_environments`. -/
theorem RoomService.DeleteRoom_ok (env : RoomEnv) (w : RoomWorld) (roomID : Nat)
    (password : String) (h : (RoomService.DeleteRoom env w roomID password).2 = .ok ()) :
    (RoomService.DeleteRoom env w roomID password).1.DB =
      { rooms := { w.DB.rooms with
          rows := w.DB.rooms.rows.filter (fun r => !(r.ID == roomID)) },
        roomDevices := { w.DB.roomDevices with
          rows := w.DB.roomDevices.rows.filter (fun d => !(d.RoomID == roomID)) },
        collections := { w.DB.collections with
          rows := w.DB.collections.rows.filter (fun x => !(x.RoomID == roomID)) },
        environments := { w.DB.environments with
          rows := w.DB.environments.rows.filter (fun x => !(x.RoomID == roomID)) },
        requests := w.DB.requests } := by
  unfold RoomService.DeleteRoom at h ⊢
  simp only [] at h ⊢
  generalize hfind : (if (RoomWorld.dbCall env w).2 = true then none
      else gormFirst Room.ID (fun r => r.ID == roomID) (RoomWorld.dbCall env w).1.DB.rooms.rows)
    = found at h ⊢
  cases found with
  | none => simp at h
  | some room =>
    have hid : room.ID = roomID := by
      by_cases hf : (RoomWorld.dbCall env w).2 = true
      · simp [hf] at hfind
      · simp only [hf, if_false] at hfind
        have := (gormFirst_some _ _ _ _ hfind).2
        simpa using this
    simp only [] at h ⊢
    cases hpw : RoomService.CheckPassword env room.Password password with
    | some _ => simp [hpw] at h
    | none =>
      simp only [hpw] at h ⊢
      revert h
      simp only [Tx.DeleteDevicesOfRoom, Tx.DeleteCollectionsOfRoom,
        Tx.DeleteEnvironmentsOfRoom, Tx.DeleteRoom, Tx.Commit, Tx.call, Tx.Begin,
        RoomWorld.dbCall, Tx.Rollback, hid]
      by_cases h0 : env.dbFault (w.dbCalls + 1) = true
      · simp [h0]
      · by_cases h1 : env.dbFault (w.dbCalls + 1 + 1) = true
        · simp [h0, h1]
        · by_cases h2 : env.dbFault (w.dbCalls + 1 + 1 + 1) = true
          · simp [h0, h1, h2]
          · by_cases h3 : env.dbFault (w.dbCalls + 1 + 1 + 1 + 1) = true
            · simp [h0, h1, h2, h3]
            · by_cases h4 : env.dbFault (w.dbCalls + 1 + 1 + 1 + 1 + 1) = true
              · simp [h0, h1, h2, h3, h4]
              · by_cases h5 : env.dbFault (w.dbCalls + 1 + 1 + 1 + 1 + 1 + 1) = true
                · simp [h0, h1, h2, h3, h4, h5]
                · simp [h0, h1, h2, h3, h4, h5]

/-- A `DeleteRoom` that does not succeed leaves the tables as they were. -/
theorem RoomService.DeleteRoom_not_ok (env : RoomEnv) (w : RoomWorld) (roomID : Nat)
    (password : String) (h : (RoomService.DeleteRoom env w roomID password).2 ≠ .ok ()) :
    (RoomService.DeleteRoom env w roomID password).1.DB = w.DB := by
  unfold RoomService.DeleteRoom at h ⊢
  simp only [] at h ⊢
  generalize (if (RoomWorld.dbCall env w).2 = true then none
      else gormFirst Room.ID (fun r => r.ID == roomID) (RoomWorld.dbCall env w).1.DB.rooms.rows)
    = found at h ⊢
  cases found with
  | none => rfl
  | some room =>
    simp only [] at h ⊢
    cases hpw : RoomService.CheckPassword env room.Password password with
    | some _ => rfl
    | none =>
      simp only [hpw] at h ⊢
      have hsnap : (Tx.Begin env (RoomWorld.dbCall env w).1).2.snapshot = w.DB := rfl
      generalize Tx.Begin env (RoomWorld.dbCall env w).1 = b at h hsnap ⊢
      generalize Tx.DeleteDevicesOfRoom env b.1 b.2 roomID = d at h ⊢
      generalize Tx.DeleteCollectionsOfRoom env d.1 b.2 roomID = c at h ⊢
      generalize Tx.DeleteEnvironmentsOfRoom env c.1 b.2 roomID = e at h ⊢
      generalize Tx.DeleteRoom env e.1 b.2 room = r at h ⊢
      have hk := Tx.Commit_error env r.1 b.2
      generalize Tx.Commit env r.1 b.2 = k at h hk ⊢
      obtain ⟨dw, de⟩ := d
      obtain ⟨cw, ce⟩ := c
      obtain ⟨ew, ee⟩ := e
      obtain ⟨rw', re⟩ := r
      obtain ⟨kw, ke⟩ := k
      cases de with
      | some _ => simpa [Tx.Rollback] using hsnap
      | none =>
        cases ce with
        | some _ => simpa [Tx.Rollback] using hsnap
        | none =>
          cases ee with
          | some _ => simpa [Tx.Rollback] using hsnap
          | none =>
            cases re with
            | some _ => simpa [Tx.Rollback] using hsnap
            | none =>
              cases ke with
              | some _ => simpa [hsnap] using hk
              | none => simp at h

/-- `DeleteRoom` on a room the password does not open (or that does not
exist) returns an error. -/
theorem RoomService.DeleteRoom_refused (env : RoomEnv) (w : RoomWorld) (roomID : Nat)
    (password : String)
    (h : ∀ r ∈ w.DB.rooms.rows, r.ID = roomID → env.bcryptCompare r.Password password = false) :
    (RoomService.DeleteRoom env w roomID password).2 = .err "room not found" ∨
    (RoomService.DeleteRoom env w roomID password).2 = .err "invalid password" := by
  unfold RoomService.DeleteRoom
  simp only []
  generalize hfind : (if (RoomWorld.dbCall env w).2 = true then none
      else gormFirst Room.ID (fun r => r.ID == roomID) (RoomWorld.dbCall env w).1.DB.rooms.rows)
    = found
  cases found with
  | none => exact Or.inl rfl
  | some room =>
    right
    have hroom : room ∈ w.DB.rooms.rows ∧ room.ID = roomID := by
      by_cases hf : (RoomWorld.dbCall env w).2 = true
      · simp [hf] at hfind
      · simp only [hf, if_false] at hfind
        have := gormFirst_some _ _ _ _ hfind
        exact ⟨this.1, by simpa using this.2⟩
    have hpw := h room hroom.1 hroom.2
    simp [RoomService.CheckPassword, hpw]

theorem RoomService.DeleteRoom_unknown (env : RoomEnv) (w : RoomWorld) (roomID : Nat)
    (password : String) (h : ∀ r ∈ w.DB.rooms.rows, r.ID ≠ roomID) :
    (RoomService.DeleteRoom env w roomID password).2 = .err "room not found" := by
  unfold RoomService.DeleteRoom
  simp only []
  generalize hfind : (if (RoomWorld.dbCall env w).2 = true then none
      else gormFirst Room.ID (fun r => r.ID == roomID) (RoomWorld.dbCall env w).1.DB.rooms.rows)
    = found
  cases found with
  | none => rfl
  | some room =>
    exfalso
    by_cases hf : (RoomWorld.dbCall env w).2 = true
    · simp [hf] at hfind
    · simp only [hf, if_false] at hfind
      have := gormFirst_some _ _ _ _ hfind
      exact h room this.1 (by simpa using this.2)

/-! ## Helper lemmas: the device-limit invariant -/

theorem deviceCount_eq_count (w : RoomWorld) (roomID : Nat) :
    deviceCount w roomID = (deviceRooms w).count roomID := by
  unfold deviceCount deviceRooms
  rw [List.count, List.countP_map, List.countP_eq_length_filter]
  rfl

theorem RoomInv.of_sublist {w w' : RoomWorld} (hw : RoomInv w)
    (hseq : w'.DB.rooms.seq = w.DB.rooms.seq)
    (hrooms : w'.DB.rooms.rows.Sublist w.DB.rooms.rows)
    (hdev : (deviceRooms w').Sublist (deviceRooms w)) : RoomInv w' where
  ids_le := fun r hr => by rw [hseq]; exact hw.ids_le r (hrooms.subset hr)
  ids_nodup := (hrooms.map Room.ID).nodup hw.ids_nodup
  dev_le := fun i hi => by rw [hseq]; exact hw.dev_le i (hdev.subset hi)
  count_le := fun r hr => by
    have h1 := hw.count_le r (hrooms.subset hr)
    have h2 : (deviceRooms w').count r.ID ≤ (deviceRooms w).count r.ID := hdev.count_le r.ID
    omega

theorem RoomInv.of_add {w w' : RoomWorld} (hw : RoomInv w)
    (hrooms : w'.DB.rooms = w.DB.rooms) (room : Room) (hroom : room ∈ w.DB.rooms.rows)
    (hdev : deviceRooms w' = deviceRooms w ++ [room.ID])
    (hlt : ((deviceRooms w).count room.ID : Int) < room.DeviceLimit) : RoomInv w' where
  ids_le := by rw [hrooms]; exact hw.ids_le
  ids_nodup := by rw [hrooms]; exact hw.ids_nodup
  dev_le := fun i hi => by
    rw [hrooms]
    rw [hdev] at hi
    rcases List.mem_append.mp hi with h | h
    · exact hw.dev_le i h
    · have : i = room.ID := by simpa using h
      rw [this]; exact hw.ids_le room hroom
  count_le := fun r hr => by
    rw [hrooms] at hr
    rw [hdev, List.count_append]
    have h1 := hw.count_le r hr
    by_cases hid : r.ID = room.ID
    · have hr' : r = room :=
        List.inj_on_of_nodup_map hw.ids_nodup hr hroom hid
      subst hr'
      simp only [List.count_singleton, beq_self_eq_true, if_true]
      push_cast
      omega
    · have : List.count r.ID [room.ID] = 0 := by
        simp [List.count_singleton, Ne.symm hid]
      rw [this]
      simpa using h1

theorem RoomInv.of_create {w w' : RoomWorld} (hw : RoomInv w) (room : Room)
    (hid : room.ID = w.DB.rooms.seq + 1)
    (hrooms : w'.DB.rooms = { rows := w.DB.rooms.rows ++ [room], seq := w.DB.rooms.seq + 1 })
    (hdev : deviceRooms w' = deviceRooms w) : RoomInv w' where
  ids_le := fun r hr => by
    rw [hrooms] at hr ⊢
    rcases List.mem_append.mp hr with h | h
    · exact Nat.le_succ_of_le (hw.ids_le r h)
    · have : r = room := by simpa using h
      rw [this, hid]
  ids_nodup := by
    rw [hrooms]
    simp only [List.map_append, List.map_cons, List.map_nil]
    refine List.Nodup.append hw.ids_nodup (List.nodup_singleton _) ?_
    intro i hi hi'
    have hi2 : i = room.ID := by simpa using hi'
    obtain ⟨r, hr, hri⟩ := List.mem_map.mp hi
    have := hw.ids_le r hr
    omega
  dev_le := fun i hi => by
    rw [hrooms]
    rw [hdev] at hi
    exact Nat.le_succ_of_le (hw.dev_le i hi)
  count_le := fun r hr => by
    rw [hrooms] at hr
    rw [hdev]
    rcases List.mem_append.mp hr with h | h
    · exact hw.count_le r h
    · have hr' : r = room := by simpa using h
      have hz : (deviceRooms w).count r.ID = 0 := by
        rw [List.count_eq_zero]
        intro hmem
        have := hw.dev_le _ hmem
        rw [hr', hid] at this
        omega
      rw [hz]
      simp

theorem RoomService.CreateRoom_effect (env : RoomEnv) (w : RoomWorld) (req : CreateRoomRequest) :
    (RoomService.CreateRoom env w req).1.DB.roomDevices = w.DB.roomDevices ∧
    ((RoomService.CreateRoom env w req).1.DB.rooms = w.DB.rooms ∨
      ∃ room : Room, room.ID = w.DB.rooms.seq + 1 ∧
        (RoomService.CreateRoom env w req).1.DB.rooms =
          { rows := w.DB.rooms.rows ++ [room], seq := w.DB.rooms.seq + 1 }) := by
  unfold RoomService.CreateRoom
  simp only []
  split
  · exact ⟨rfl, Or.inl rfl⟩
  · split
    · exact ⟨rfl, Or.inl rfl⟩
    · split
      · exact ⟨rfl, Or.inl rfl⟩
      · split
        · simp [RoomService.generateRoomID]
          split <;> simp
        · split
          · simp [RoomService.generateRoomID, RoomService.HashPassword]
            split <;> simp
          · have hcreate : ∀ (w0 : RoomWorld) (room : Room),
                w0.DB = w.DB →
                (RoomService.dbCreateRoom env w0 room).1.DB.roomDevices = w.DB.roomDevices ∧
                ((RoomService.dbCreateRoom env w0 room).1.DB.rooms = w.DB.rooms ∨
                  ∃ r : Room, r.ID = w.DB.rooms.seq + 1 ∧
                    (RoomService.dbCreateRoom env w0 room).1.DB.rooms =
                      { rows := w.DB.rooms.rows ++ [r], seq := w.DB.rooms.seq + 1 }) := by
              intro w0 room hw0
              unfold RoomService.dbCreateRoom
              simp only [RoomWorld.dbCall, RoomWorld.now, Table.insert]
              split
              · simp [hw0]
              · split
                · simp [hw0]
                · refine ⟨by simp [hw0], Or.inr ⟨_, ?_, by simp [hw0]; rfl⟩⟩
                  simp [hw0]
            have hw0 : (RoomService.HashPassword env (RoomService.generateRoomID env w).1
                req.Password).1.DB = w.DB := by
              simp [RoomService.generateRoomID, RoomService.HashPassword]
              split <;> rfl
            have hc := fun room => hcreate _ room hw0
            split
            · exact hc _
            · split
              · simpa [RoomService.GenerateRoomToken] using hc _
              · simpa [RoomService.GenerateRoomToken] using hc _

theorem RoomService.RemoveDevice_effect (env : RoomEnv) (w : RoomWorld) (roomID : Nat)
    (deviceID : String) :
    (RoomService.RemoveDevice env w roomID deviceID).1.DB.rooms = w.DB.rooms ∧
    (deviceRooms (RoomService.RemoveDevice env w roomID deviceID).1).Sublist (deviceRooms w) := by
  unfold RoomService.RemoveDevice
  simp only [RoomWorld.dbCall]
  split
  · exact ⟨rfl, List.Sublist.refl _⟩
  · exact ⟨rfl, (List.filter_sublist _).map _⟩

theorem RoomService.DeleteRoom_effect (env : RoomEnv) (w : RoomWorld) (roomID : Nat)
    (password : String) :
    (RoomService.DeleteRoom env w roomID password).1.DB.rooms.seq = w.DB.rooms.seq ∧
    (RoomService.DeleteRoom env w roomID password).1.DB.rooms.rows.Sublist w.DB.rooms.rows ∧
    (deviceRooms (RoomService.DeleteRoom env w roomID password).1).Sublist (deviceRooms w) := by
  by_cases h : (RoomService.DeleteRoom env w roomID password).2 = .ok ()
  · have hdb := RoomService.DeleteRoom_ok env w roomID password h
    unfold deviceRooms
    rw [hdb]
    exact ⟨rfl, List.filter_sublist _, (List.filter_sublist _).map _⟩
  · have hdb := RoomService.DeleteRoom_not_ok env w roomID password h
    unfold deviceRooms
    rw [hdb]
    exact ⟨rfl, List.Sublist.refl _, List.Sublist.refl _⟩

theorem map_roomID_update (rows : List RoomDevice) (p : RoomDevice → Bool)
    (f : RoomDevice → RoomDevice) (hf : ∀ d, (f d).RoomID = d.RoomID) :
    (rows.map (fun d => if p d = true then f d else d)).map RoomDevice.RoomID =
      rows.map RoomDevice.RoomID := by
  rw [List.map_map]
  apply List.map_congr_left
  intro d _
  simp only [Function.comp]
  split
  · exact hf d
  · rfl

theorem RoomService.joinRoomResponse_DB (env : RoomEnv) (w : RoomWorld) (room : Room) :
    (RoomService.joinRoomResponse env w room).1.DB = w.DB := by
  unfold RoomService.joinRoomResponse
  simp only [RoomService.GenerateRoomToken]
  split <;> rfl

theorem RoomService.updateDevice_effect (env : RoomEnv) (w : RoomWorld) (existing : RoomDevice)
    (f : RoomDevice → RoomDevice) (hf : ∀ d, (f d).RoomID = d.RoomID) :
    (RoomService.updateDevice env w existing f).DB.rooms = w.DB.rooms ∧
    deviceRooms (RoomService.updateDevice env w existing f) = deviceRooms w := by
  unfold RoomService.updateDevice deviceRooms
  simp only [RoomWorld.dbCall]
  split
  · exact ⟨rfl, rfl⟩
  · exact ⟨rfl, map_roomID_update _ (fun d => d.ID == existing.ID) f hf⟩

theorem RoomService.JoinRoom_effect (env : RoomEnv) (hdb : ∀ i, env.dbFault i = false)
    (w : RoomWorld) (req : JoinRoomRequest) :
    (RoomService.JoinRoom env w req).1.DB.rooms = w.DB.rooms ∧
    (deviceRooms (RoomService.JoinRoom env w req).1 = deviceRooms w ∨
      ∃ room ∈ w.DB.rooms.rows,
        deviceRooms (RoomService.JoinRoom env w req).1 = deviceRooms w ++ [room.ID] ∧
        ((deviceRooms w).count room.ID : Int) < room.DeviceLimit) := by
  unfold RoomService.JoinRoom
  simp only []
  split
  · exact ⟨rfl, Or.inl rfl⟩
  split
  · exact ⟨rfl, Or.inl rfl⟩
  split
  · exact ⟨rfl, Or.inl rfl⟩
  simp only [RoomService.findRoomByRoomID, RoomWorld.dbCall, hdb, Bool.false_eq_true, if_false]
  cases hfind : gormFirst Room.ID (fun r => r.RoomID == req.RoomID) w.DB.rooms.rows with
  | none => exact ⟨rfl, Or.inl rfl⟩
  | some room =>
    have hmem := (gormFirst_some _ _ _ _ hfind).1
    simp only []
    split
    · exact ⟨rfl, Or.inl rfl⟩
    cases hpw : RoomService.CheckPassword env room.Password req.Password with
    | some _ => exact ⟨rfl, Or.inl rfl⟩
    | none =>
      simp only [RoomService.countDevices, RoomService.findDevice, RoomWorld.dbCall, hdb,
        Bool.false_eq_true, if_false]
      cases hx : gormFirst RoomDevice.ID
          (fun d => d.RoomID == room.ID && d.DeviceID == req.DeviceID)
          w.DB.roomDevices.rows with
      | none =>
        simp only []
        split
        · exact ⟨rfl, Or.inl rfl⟩
        · rename_i hlim
          cases hname : (if req.DeviceName = "" then
              (sliceTo req.DeviceID 8).map (fun p => "Device " ++ p)
            else some req.DeviceName) with
          | none => exact ⟨rfl, Or.inl rfl⟩
          | some deviceName =>
            simp only [RoomService.dbCreateDevice, RoomWorld.dbCall, RoomWorld.now, hdb,
              Bool.false_eq_true, if_false, Table.insert]
            rw [RoomService.joinRoomResponse_DB]
            refine ⟨rfl, Or.inr ⟨room, hmem, ?_, ?_⟩⟩
            · simp [deviceRooms, RoomService.joinRoomResponse_DB, RoomDevice.onCreate]
            · have := deviceCount_eq_count w room.ID
              unfold deviceCount at this
              rw [← this]
              simpa using hlim
      | some existing =>
        simp only []
        rw [RoomService.joinRoomResponse_DB]
        have hresp : ∀ v, deviceRooms (RoomService.joinRoomResponse env v room).1 =
            deviceRooms v := fun v => by
          unfold deviceRooms
          rw [RoomService.joinRoomResponse_DB]
        have h1 := RoomService.updateDevice_effect env (RoomWorld.now env
            { w with dbCalls := w.dbCalls + 1 + 1 + 1 }).1 existing
          (fun d => { d with LastActive := (RoomWorld.now env
            { w with dbCalls := w.dbCalls + 1 + 1 + 1 }).2 }) (fun _ => rfl)
        have h0 : deviceRooms (RoomWorld.now env
            { w with dbCalls := w.dbCalls + 1 + 1 + 1 }).1 = deviceRooms w := rfl
        split
        · have h2 := RoomService.updateDevice_effect env
            (RoomService.updateDevice env (RoomWorld.now env
              { w with dbCalls := w.dbCalls + 1 + 1 + 1 }).1 existing
              (fun d => { d with LastActive := (RoomWorld.now env
                { w with dbCalls := w.dbCalls + 1 + 1 + 1 }).2 })) existing
            (fun d => { d with DeviceName := req.DeviceName }) (fun _ => rfl)
          exact ⟨h2.1.trans h1.1, Or.inl ((hresp _).trans (h2.2.trans (h1.2.trans h0)))⟩
        · exact ⟨h1.1, Or.inl ((hresp _).trans (h1.2.trans h0))⟩

/-- Every reachable world satisfies the invariant, when no database call fails. -/
theorem RoomService.Reachable.inv (env : RoomEnv) (hdb : ∀ i, env.dbFault i = false)
    (w : RoomWorld) (hw : RoomService.Reachable env w) : RoomInv w := by
  induction hw with
  | start w h =>
    refine ⟨?_, ?_, ?_, ?_⟩ <;> simp [h, deviceRooms, RoomWorld.empty]
  | @createRoom w0 req _ ih =>
    obtain ⟨hdev, hrooms⟩ := RoomService.CreateRoom_effect env w0 req
    have hdev' : deviceRooms (RoomService.CreateRoom env w0 req).1 = deviceRooms w0 := by
      unfold deviceRooms; rw [hdev]
    rcases hrooms with h | ⟨r, hid, h⟩
    · exact ih.of_sublist (by rw [h]) (by rw [h]) (by rw [hdev'])
    · exact ih.of_create r hid h hdev'
  | @joinRoom w0 req _ ih =>
    obtain ⟨hrooms, hdev⟩ := RoomService.JoinRoom_effect env hdb w0 req
    rcases hdev with h | ⟨r, hr, h, hlt⟩
    · exact ih.of_sublist (by rw [hrooms]) (by rw [hrooms]) (by rw [h])
    · exact ih.of_add hrooms r hr h hlt
  | @removeDevice w0 roomID deviceID _ ih =>
    obtain ⟨hrooms, hdev⟩ := RoomService.RemoveDevice_effect env w0 roomID deviceID
    exact ih.of_sublist (by rw [hrooms]) (by rw [hrooms]) hdev
  | @deleteRoom w0 roomID password _ ih =>
    obtain ⟨hseq, hrooms, hdev⟩ := RoomService.DeleteRoom_effect env w0 roomID password
    exact ih.of_sublist hseq hrooms hdev

/-! ## Lemmas: the writes of a batch -/

/-- A statement run through a transaction handle leaves the tables alone by itself. -/
theorem Tx.call_DB (env : RoomEnv) (w : RoomWorld) (tx : Tx) :
    (Tx.call env w tx).1.DB = w.DB := by
  unfold Tx.call
  cases tx.broken <;> rfl

/-- One round of the loop over the collections of a batch. -/
theorem RoomService.syncCollections_step (env : RoomEnv) (tx : Tx) (w w1 : RoomWorld)
    (c : DBCollection)
    (h : (if c.ID > 0 then Tx.SaveCollection env w tx c
          else Tx.CreateCollection env w tx c) = (w1, none)) :
    ∃ now, w1.DB =
      { w.DB with
        collections := Table.upsert DBCollection.ID (fun i r => { r with ID := i })
          (fun now c => { c with UpdatedAt := now }) DBCollection.onCreate w.DB.collections c now } := by
  have hdb := Tx.call_DB env w tx
  unfold Tx.SaveCollection Tx.CreateCollection at h
  generalize Tx.call env w tx = k at h hdb
  obtain ⟨kw, ke⟩ := k
  cases ke with
  | some e => split at h <;> simp at h
  | none =>
    refine ⟨env.clock kw.clockReads + 1, ?_⟩
    simp only at hdb
    by_cases hpos : c.ID > 0
    · simp only [hpos, if_true, RoomWorld.now, Prod.mk.injEq, and_true] at h
      rw [← h]
      simp [Table.upsert, hpos, hdb]
    · simp only [hpos, if_false, RoomWorld.now, Prod.mk.injEq, and_true] at h
      rw [← h]
      simp [Table.upsert, hpos, hdb]

/-- One round of the loop over the environments of a batch. -/
theorem RoomService.syncEnvironments_step (env : RoomEnv) (tx : Tx) (w w1 : RoomWorld)
    (e : DBEnvironment)
    (h : (if e.ID > 0 then Tx.SaveEnvironment env w tx e
          else Tx.CreateEnvironment env w tx e) = (w1, none)) :
    ∃ now, w1.DB =
      { w.DB with
        environments := Table.upsert DBEnvironment.ID (fun i r => { r with ID := i })
          (fun now c => { c with UpdatedAt := now }) DBEnvironment.onCreate w.DB.environments e now } := by
  have hdb := Tx.call_DB env w tx
  unfold Tx.SaveEnvironment Tx.CreateEnvironment at h
  generalize Tx.call env w tx = k at h hdb
  obtain ⟨kw, ke⟩ := k
  cases ke with
  | some e => split at h <;> simp at h
  | none =>
    refine ⟨env.clock kw.clockReads + 1, ?_⟩
    simp only at hdb
    by_cases hpos : e.ID > 0
    · simp only [hpos, if_true, RoomWorld.now, Prod.mk.injEq, and_true] at h
      rw [← h]
      simp [Table.upsert, hpos, hdb]
    · simp only [hpos, if_false, RoomWorld.now, Prod.mk.injEq, and_true] at h
      rw [← h]
      simp [Table.upsert, hpos, hdb]

/-- One round of the loop over the requests of a batch. -/
theorem RoomService.syncRequests_step (env : RoomEnv) (tx : Tx) (w w1 : RoomWorld)
    (r : DBRequest)
    (h : (if r.ID > 0 then Tx.SaveRequest env w tx r
          else Tx.CreateRequest env w tx r) = (w1, none)) :
    ∃ now, w1.DB =
      { w.DB with
        requests := Table.upsert DBRequest.ID (fun i r => { r with ID := i })
          (fun now c => { c with UpdatedAt := now }) DBRequest.onCreate w.DB.requests r now } := by
  have hdb := Tx.call_DB env w tx
  unfold Tx.SaveRequest Tx.CreateRequest at h
  generalize Tx.call env w tx = k at h hdb
  obtain ⟨kw, ke⟩ := k
  cases ke with
  | some e => split at h <;> simp at h
  | none =>
    refine ⟨env.clock kw.clockReads + 1, ?_⟩
    simp only at hdb
    by_cases hpos : r.ID > 0
    · simp only [hpos, if_true, RoomWorld.now, Prod.mk.injEq, and_true] at h
      rw [← h]
      simp [Table.upsert, hpos, hdb]
    · simp only [hpos, if_false, RoomWorld.now, Prod.mk.injEq, and_true] at h
      rw [← h]
      simp [Table.upsert, hpos, hdb]

/-- The loop over the collections of a batch writes them one after the other,
each with the room key forced and the workspace key cleared. -/
theorem RoomService.syncCollections_upserts (env : RoomEnv) (tx : Tx) (roomID : Nat) :
    ∀ (cs : List DBCollection) (w w' : RoomWorld),
      RoomService.syncCollections env tx roomID cs w = (w', none) →
      Table.Upserts DBCollection.ID (fun i r => { r with ID := i })
        (fun now c => { c with UpdatedAt := now }) DBCollection.onCreate
        w.DB.collections
        (cs.map (fun c => { c with RoomID := roomID, WorkspaceID := 0 }))
        w'.DB.collections ∧
      w'.DB.environments = w.DB.environments ∧ w'.DB.requests = w.DB.requests := by
  intro cs
  induction cs with
  | nil =>
    intro w w' h
    simp only [RoomService.syncCollections, Prod.mk.injEq, and_true] at h
    subst h
    exact ⟨Table.Upserts.nil _, rfl, rfl⟩
  | cons c rest ih =>
    intro w w' h
    unfold RoomService.syncCollections at h
    simp only at h
    split at h
    · simp at h
    · rename_i heq
      obtain ⟨now, hdb⟩ := RoomService.syncCollections_step env tx w _
        { c with RoomID := roomID, WorkspaceID := 0 } (Prod.ext rfl heq)
      obtain ⟨hu, he, hr⟩ := ih _ _ h
      rw [hdb] at hu he hr
      exact ⟨Table.Upserts.cons _ _ now _ _ hu, he, hr⟩

/-- The loop over the environments of a batch. -/
theorem RoomService.syncEnvironments_upserts (env : RoomEnv) (tx : Tx) (roomID : Nat) :
    ∀ (es : List DBEnvironment) (w w' : RoomWorld),
      RoomService.syncEnvironments env tx roomID es w = (w', none) →
      Table.Upserts DBEnvironment.ID (fun i r => { r with ID := i })
        (fun now c => { c with UpdatedAt := now }) DBEnvironment.onCreate
        w.DB.environments
        (es.map (fun e => { e with RoomID := roomID, WorkspaceID := 0 }))
        w'.DB.environments ∧
      w'.DB.collections = w.DB.collections ∧ w'.DB.requests = w.DB.requests := by
  intro es
  induction es with
  | nil =>
    intro w w' h
    simp only [RoomService.syncEnvironments, Prod.mk.injEq, and_true] at h
    subst h
    exact ⟨Table.Upserts.nil _, rfl, rfl⟩
  | cons e rest ih =>
    intro w w' h
    unfold RoomService.syncEnvironments at h
    simp only at h
    split at h
    · simp at h
    · rename_i heq
      obtain ⟨now, hdb⟩ := RoomService.syncEnvironments_step env tx w _
        { e with RoomID := roomID, WorkspaceID := 0 } (Prod.ext rfl heq)
      obtain ⟨hu, hc, hr⟩ := ih _ _ h
      rw [hdb] at hu hc hr
      exact ⟨Table.Upserts.cons _ _ now _ _ hu, hc, hr⟩

/-- The loop over the requests of a batch. -/
theorem RoomService.syncRequests_upserts (env : RoomEnv) (tx : Tx) :
    ∀ (rs : List DBRequest) (w w' : RoomWorld),
      RoomService.syncRequests env tx rs w = (w', none) →
      Table.Upserts DBRequest.ID (fun i r => { r with ID := i })
        (fun now c => { c with UpdatedAt := now }) DBRequest.onCreate
        w.DB.requests rs w'.DB.requests ∧
      w'.DB.collections = w.DB.collections ∧ w'.DB.environments = w.DB.environments := by
  intro rs
  induction rs with
  | nil =>
    intro w w' h
    simp only [RoomService.syncRequests, Prod.mk.injEq, and_true] at h
    subst h
    exact ⟨Table.Upserts.nil _, rfl, rfl⟩
  | cons r rest ih =>
    intro w w' h
    unfold RoomService.syncRequests at h
    simp only at h
    split at h
    · simp at h
    · rename_i heq
      obtain ⟨now, hdb⟩ := RoomService.syncRequests_step env tx w _ r (Prod.ext rfl heq)
      obtain ⟨hu, hc, he⟩ := ih _ _ h
      rw [hdb] at hu hc he
      exact ⟨Table.Upserts.cons _ _ now _ _ hu, hc, he⟩

/-- A successful `SyncRoomData` leaves the three tables as the writes of the
batch, one entity after the other, leave them. -/
theorem RoomService.SyncRoomData_upserts (env : RoomEnv) (w : RoomWorld) (roomID : Nat)
    (data : RoomDataResponse)
    (hok : (RoomService.SyncRoomData env w roomID data).2 = .ok ()) :
    Table.Upserts DBCollection.ID (fun i r => { r with ID := i })
        (fun now c => { c with UpdatedAt := now }) DBCollection.onCreate
        w.DB.collections
        (data.Collections.map (fun c => { c with RoomID := roomID, WorkspaceID := 0 }))
        (RoomService.SyncRoomData env w roomID data).1.DB.collections ∧
    Table.Upserts DBEnvironment.ID (fun i r => { r with ID := i })
        (fun now c => { c with UpdatedAt := now }) DBEnvironment.onCreate
        w.DB.environments
        (data.Environments.map (fun e => { e with RoomID := roomID, WorkspaceID := 0 }))
        (RoomService.SyncRoomData env w roomID data).1.DB.environments ∧
    Table.Upserts DBRequest.ID (fun i r => { r with ID := i })
        (fun now c => { c with UpdatedAt := now }) DBRequest.onCreate
        w.DB.requests data.Requests
        (RoomService.SyncRoomData env w roomID data).1.DB.requests := by
  unfold RoomService.SyncRoomData at hok ⊢
  simp only at hok ⊢
  have hb : (Tx.Begin env w).1.DB = w.DB := rfl
  generalize Tx.Begin env w = b at hok hb ⊢
  have hc := RoomService.syncCollections_upserts env b.2 roomID data.Collections b.1
  generalize RoomService.syncCollections env b.2 roomID data.Collections b.1 = c at hok hc ⊢
  have he := RoomService.syncEnvironments_upserts env b.2 roomID data.Environments c.1
  generalize RoomService.syncEnvironments env b.2 roomID data.Environments c.1 = e at hok he ⊢
  have hr := RoomService.syncRequests_upserts env b.2 data.Requests e.1
  generalize RoomService.syncRequests env b.2 data.Requests e.1 = r at hok hr ⊢
  have hk : (Tx.Commit env r.1 b.2).2 = none → (Tx.Commit env r.1 b.2).1.DB = r.1.DB := by
    intro h
    unfold Tx.Commit at h ⊢
    have hdb := Tx.call_DB env r.1 b.2
    generalize Tx.call env r.1 b.2 = k at h hdb ⊢
    obtain ⟨kw, ke⟩ := k
    cases ke with
    | some _ => simp at h
    | none => simpa using hdb
  generalize Tx.Commit env r.1 b.2 = k at hok hk ⊢
  obtain ⟨cw, ce⟩ := c
  obtain ⟨ew, ee⟩ := e
  obtain ⟨rw', re⟩ := r
  obtain ⟨kw, ke⟩ := k
  cases ce with
  | some _ => simp at hok
  | none =>
    cases ee with
    | some _ => simp at hok
    | none =>
      cases re with
      | some _ => simp at hok
      | none =>
        cases ke with
        | some _ => simp at hok
        | none =>
          obtain ⟨c1, c2, c3⟩ := hc cw rfl
          obtain ⟨e1, e2, e3⟩ := he ew rfl
          obtain ⟨r1, r2, r3⟩ := hr rw' rfl
          have hk' := hk rfl
          simp only at hk' c1 c2 c3 e1 e2 e3 r1 r2 r3 ⊢
          refine ⟨?_, ?_, ?_⟩
          · rw [hk', r2, e2, ← hb]; exact c1
          · rw [hk', r3, ← hb, ← c2]; exact e1
          · rw [hk', ← hb, ← c3, ← e3]; exact r1

/-- The response of a join carries the room without its password. -/
theorem RoomService.joinRoomResponse_password (env : RoomEnv) (w : RoomWorld) (room : Room)
    (r : RoomResponse) (h : (RoomService.joinRoomResponse env w room).2 = .ok r) :
    r.Room.Password = "" := by
  unfold RoomService.joinRoomResponse at h
  simp only [] at h
  split at h
  · simp at h
  · simp only [Result.ok.injEq] at h
    rw [← h]

/-- `CreateRoom`, `JoinRoom` and `GetRoomByRoomID` hand the room out with an
empty `Password`. -/
theorem RoomService.responses_clear_password (env : RoomEnv) (w : RoomWorld) :
    (∀ req r, (RoomService.CreateRoom env w req).2 = .ok r → r.Room.Password = "") ∧
    (∀ req r, (RoomService.JoinRoom env w req).2 = .ok r → r.Room.Password = "") ∧
    (∀ roomID r, (RoomService.GetRoomByRoomID env w roomID).2 = .ok r → r.Password = "") := by
  refine ⟨?_, ?_, ?_⟩
  · intro req r h
    unfold RoomService.CreateRoom at h
    simp only [] at h
    repeat' split at h
    all_goals first
      | (simp only [Result.ok.injEq] at h; rw [← h])
      | simp at h
  · intro req r h
    unfold RoomService.JoinRoom at h
    simp only [] at h
    repeat' split at h
    all_goals first
      | exact RoomService.joinRoomResponse_password _ _ _ _ h
      | simp at h
  · intro roomID r h
    unfold RoomService.GetRoomByRoomID at h
    simp only [] at h
    split at h
    · simp at h
    · simp only [Result.ok.injEq] at h
      rw [← h]

/-- `CreateRoom` refuses a request whose name or password is empty or whose
password is shorter than six bytes, before it consults anything: the world,
its counters included, is the one it was given. -/
theorem RoomService.CreateRoom_rejects (env : RoomEnv) (w : RoomWorld) (req : CreateRoomRequest)
    (h : req.Name = "" ∨ req.Password = "" ∨ req.Password.utf8ByteSize < 6) :
    (RoomService.CreateRoom env w req).1 = w ∧
    ∃ msg, (RoomService.CreateRoom env w req).2 = .err msg := by
  unfold RoomService.CreateRoom
  by_cases h1 : req.Name = ""
  · simp [h1]
  · by_cases h2 : req.Password = ""
    · simp [h1, h2]
    · have h3 : req.Password.utf8ByteSize < 6 := by
        rcases h with h | h | h
        · exact absurd h h1
        · exact absurd h h2
        · exact h
      simp [h1, h2, h3]

/-- The room lookup of `JoinRoom` writes nothing and finds only stored rooms
with the public id asked for. -/
theorem RoomService.findRoomByRoomID_spec (env : RoomEnv) (w : RoomWorld) (roomID : String) :
    (RoomService.findRoomByRoomID env w roomID).1.DB = w.DB ∧
    ∀ room, (RoomService.findRoomByRoomID env w roomID).2 = some room →
      room ∈ w.DB.rooms.rows ∧ room.RoomID = roomID := by
  unfold RoomService.findRoomByRoomID
  refine ⟨rfl, ?_⟩
  intro room h
  simp only [RoomWorld.dbCall] at h
  split at h
  · simp at h
  · have := gormFirst_some _ _ _ _ h
    exact ⟨this.1, by simpa using this.2⟩

/-! ## Lemmas: the history queries -/

/-- Inserting into a list rearranges the list with the new entry. -/
theorem insertByTimeDesc_perm {α : Type} (ts : α → Time) (x : α) :
    ∀ l : List α, (insertByTimeDesc ts x l).Perm (x :: l)
  | [] => List.Perm.refl _
  | y :: ys => by
    unfold insertByTimeDesc
    split
    · exact ((insertByTimeDesc_perm ts x ys).cons y).trans (List.Perm.swap x y ys)
    · exact List.Perm.refl _

/-- Sorting rearranges the list. -/
theorem sortByTimeDesc_perm {α : Type} (ts : α → Time) :
    ∀ l : List α, (sortByTimeDesc ts l).Perm l
  | [] => List.Perm.refl _
  | x :: xs => by
    show (insertByTimeDesc ts x (sortByTimeDesc ts xs)).Perm (x :: xs)
    exact (insertByTimeDesc_perm ts x _).trans ((sortByTimeDesc_perm ts xs).cons x)

/-- Inserting into a list whose times never increase gives such a list. -/
theorem insertByTimeDesc_sorted {α : Type} (ts : α → Time) (x : α) :
    ∀ l : List α, l.Pairwise (fun a b => ts b ≤ ts a) →
      (insertByTimeDesc ts x l).Pairwise (fun a b => ts b ≤ ts a)
  | [], _ => List.pairwise_singleton _ _
  | y :: ys, h => by
    unfold insertByTimeDesc
    have hy := List.pairwise_cons.mp h
    split
    · rename_i hlt
      refine List.pairwise_cons.mpr ⟨?_, insertByTimeDesc_sorted ts x ys hy.2⟩
      intro z hz
      rcases List.mem_cons.mp ((insertByTimeDesc_perm ts x ys).subset hz) with rfl | hz
      · exact Nat.le_of_lt hlt
      · exact hy.1 z hz
    · rename_i hlt
      have hxy : ts y ≤ ts x := Nat.le_of_not_lt hlt
      refine List.pairwise_cons.mpr ⟨?_, h⟩
      intro z hz
      rcases List.mem_cons.mp hz with rfl | hz
      · exact hxy
      · exact le_trans (hy.1 z hz) hxy

/-- The times of a sorted list never increase. -/
theorem sortByTimeDesc_sorted {α : Type} (ts : α → Time) :
    ∀ l : List α, (sortByTimeDesc ts l).Pairwise (fun a b => ts b ≤ ts a)
  | [] => List.Pairwise.nil
  | x :: xs => by
    show (insertByTimeDesc ts x (sortByTimeDesc ts xs)).Pairwise _
    exact insertByTimeDesc_sorted ts x _ (sortByTimeDesc_sorted ts xs)

/-- The first `n` entries of the sorted list are the `n` newest, newest first. -/
theorem isNewestFirst_take_sort {α : Type} (ts : α → Time) (n : Nat) (l : List α) :
    IsNewestFirst ts n l ((sortByTimeDesc ts l).take n) := by
  refine ⟨(sortByTimeDesc ts l).drop n, ?_, ?_, ?_, ?_⟩
  · rw [List.take_append_drop]
    exact sortByTimeDesc_perm ts l
  · rw [List.length_take, (sortByTimeDesc_perm ts l).length_eq]
  · exact (sortByTimeDesc_sorted ts l).sublist (List.take_sublist _ _)
  · have h := sortByTimeDesc_sorted ts l
    rw [← List.take_append_drop n (sortByTimeDesc ts l)] at h
    intro x hx y hy
    exact (List.pairwise_append.mp h).2.2 y hy x hx

/-- The limit the adapters apply is `historyLimit`. -/
theorem historyLimit_eq (limit : Int) :
    (if limit ≤ 0 then (100 : Int) else limit).toNat = historyLimit limit := by
  unfold historyLimit
  by_cases h : limit ≤ 0
  · have : ¬ limit > 0 := by omega
    simp [h, this]
  · have : limit > 0 := by omega
    simp [h, this]

/-- For a non-empty value the equality filter on a string field selects the
documents that decode to that value. -/
theorem Document.matchesString_eq_str (d : Document) (k v : String) (hv : v ≠ "") :
    d.matchesString k v = (d.str k == v) := by
  unfold Document.matchesString Document.str
  cases h : List.lookup k d with
  | none =>
    have : ("" == v) = false := by simpa using fun h => hv h.symm
    simp [this]
  | some b =>
    cases b <;> simp [Ne.symm hv]

/-! ## Lemmas: documents, `$set`, and the identifiers of stored records -/

/-- Looking a key up in a document, entry by entry. -/
theorem Document.lookup_cons_eq (k' a : String) (b : BSONValue) (rest : Document) :
    List.lookup k' ((a, b) :: rest) = if k' = a then some b else List.lookup k' rest := by
  by_cases h : k' = a
  · simp [List.lookup, h]
  · have h' : (k' == a) = false := by simpa using h
    simp [List.lookup, h, h']

/-- Looking a key up in a document whose entries under `k` were overwritten. -/
theorem Document.lookup_map_set (k k' : String) (v : BSONValue) :
    ∀ d : Document,
      List.lookup k' (d.map (fun kv => if kv.1 == k then (k, v) else kv)) =
        if k' = k then (if d.any (fun kv => kv.1 == k) then some v else none)
        else List.lookup k' d
  | [] => by simp
  | (a, b) :: xs => by
    have ih := Document.lookup_map_set k k' v xs
    by_cases hak : a = k
    · have hg : (if ((a, b) : String × BSONValue).1 == k then (k, v) else (a, b)) = (k, v) := by
        simp [hak]
      rw [List.map_cons, hg, Document.lookup_cons_eq, Document.lookup_cons_eq, ih]
      by_cases hk : k' = k
      · simp [hk, hak]
      · have hk2 : ¬ k' = a := by rw [hak]; exact hk
        simp [hk, hk2]
    · have hak' : (a == k) = false := by simpa using hak
      have hg : (if ((a, b) : String × BSONValue).1 == k then (k, v) else (a, b)) = (a, b) := by
        simp [hak]
      rw [List.map_cons, hg, Document.lookup_cons_eq, Document.lookup_cons_eq, ih]
      by_cases hk : k' = k
      · have hk2 : ¬ k = a := fun h => hak h.symm
        subst hk
        simp only [hk2, if_false, if_true, List.any_cons, hak', Bool.false_or]
      · simp [hk]

/-- Looking a key up in a document with one entry appended. -/
theorem Document.lookup_append_entry (k k' : String) (v : BSONValue) :
    ∀ d : Document,
      List.lookup k' (d ++ [(k, v)]) =
        match List.lookup k' d with
        | some x => some x
        | none => if k' = k then some v else none
  | [] => by
    rw [List.nil_append, Document.lookup_cons_eq]
    rfl
  | (a, b) :: xs => by
    have ih := Document.lookup_append_entry k k' v xs
    rw [List.cons_append, Document.lookup_cons_eq, Document.lookup_cons_eq, ih]
    by_cases hka : k' = a
    · simp [hka]
    · simp [hka]

/-- A key no entry of the document carries is not found. -/
theorem Document.lookup_eq_none_of_not_any (k : String) :
    ∀ d : Document, d.any (fun kv => kv.1 == k) = false → List.lookup k d = none
  | [], _ => rfl
  | (a, b) :: xs, h => by
    simp only [List.any_cons, Bool.or_eq_false_iff] at h
    have hka : ¬ k = a := by
      have : a ≠ k := by simpa using h.1
      exact fun h' => this h'.symm
    rw [Document.lookup_cons_eq]
    simp only [hka, if_false]
    exact Document.lookup_eq_none_of_not_any k xs h.2

/-- Looking a key up after one field was assigned. -/
theorem Document.lookup_setField (d : Document) (k k' : String) (v : BSONValue) :
    List.lookup k' (d.setField k v) = if k' = k then some v else List.lookup k' d := by
  unfold Document.setField
  by_cases hany : d.any (fun kv => kv.1 == k) = true
  · simp only [hany, if_true, Document.lookup_map_set]
  · have hany' : d.any (fun kv => kv.1 == k) = false := Bool.eq_false_iff.mpr hany
    simp only [hany', Bool.false_eq_true, if_false, Document.lookup_append_entry]
    by_cases hk : k' = k
    · subst hk
      simp [Document.lookup_eq_none_of_not_any _ d hany']
    · simp only [hk, if_false]
      cases List.lookup k' d <;> rfl

/-- A `$set` whose entries under `k` all carry `v` leaves `v` under `k` in a
document that already holds it there. -/
theorem Document.lookup_applySet_keep (k : String) (v : BSONValue) :
    ∀ (fields d : Document), (∀ kv ∈ fields, kv.1 = k → kv.2 = v) →
      List.lookup k d = some v → List.lookup k (d.applySet fields) = some v
  | [], d, _, h => h
  | (a, b) :: fs, d, hf, h => by
    show List.lookup k (Document.applySet (d.setField a b) fs) = some v
    apply Document.lookup_applySet_keep k v fs _
      (fun kv hkv => hf kv (List.mem_cons_of_mem _ hkv))
    rw [Document.lookup_setField]
    by_cases hk : k = a
    · have := hf (a, b) (List.mem_cons_self _ _) hk.symm
      simp only [hk, if_true]
      exact congrArg some this
    · simp only [hk, if_false]
      exact h

/-- A `$set` assigns the value of its last entry under `k`; a key it does not
mention keeps its value. -/
theorem Document.lookup_applySet (k : String) :
    ∀ (fields d : Document),
      List.lookup k (d.applySet fields) =
        match List.lookup k fields.reverse with
        | some v => some v
        | none => List.lookup k d
  | [], d => rfl
  | (a, b) :: fs, d => by
    show List.lookup k (Document.applySet (d.setField a b) fs) = _
    rw [Document.lookup_applySet k fs, Document.lookup_setField, List.reverse_cons,
      Document.lookup_append_entry]
    cases List.lookup k fs.reverse with
    | some x => rfl
    | none =>
      by_cases hk : k = a
      · simp [hk]
      · simp [hk]

/-- A key all of whose entries carry `v`, and that has an entry, is found with `v`. -/
theorem Document.lookup_of_forall (k : String) (v : BSONValue) :
    ∀ d : Document, (∃ kv ∈ d, kv.1 = k) → (∀ kv ∈ d, kv.1 = k → kv.2 = v) →
      List.lookup k d = some v
  | [], h, _ => by
    obtain ⟨kv, hkv, _⟩ := h
    exact absurd hkv (List.not_mem_nil _)
  | (a, b) :: xs, h, hall => by
    rw [Document.lookup_cons_eq]
    by_cases hk : k = a
    · simp only [hk, if_true]
      exact congrArg some (hall (a, b) (List.mem_cons_self _ _) hk.symm)
    · simp only [hk, if_false]
      apply Document.lookup_of_forall k v xs
      · obtain ⟨kv, hkv, hkk⟩ := h
        rcases List.mem_cons.mp hkv with rfl | hkv
        · exact absurd hkk.symm hk
        · exact ⟨kv, hkv, hkk⟩
      · exact fun kv hkv => hall kv (List.mem_cons_of_mem _ hkv)

/-- The one entry an `omitempty` string field can contribute. -/
theorem bsonOmitEmptyString_mem {k s : String} {kv : String × BSONValue}
    (h : kv ∈ bsonOmitEmptyString k s) : kv = (k, .string s) := by
  unfold bsonOmitEmptyString at h
  split at h
  · exact absurd h (List.not_mem_nil _)
  · simpa using h

/-- The key of what a map field contributes. -/
theorem bsonMap_key {k : String} {m : StringMap} {kv : String × BSONValue}
    (h : kv ∈ bsonMap k m) : kv.1 = k := by
  unfold bsonMap at h
  split at h <;> simp at h <;> rw [h]

/-- The key of what an `omitempty` map field contributes. -/
theorem bsonOmitEmptyMap_key {k : String} {m : StringMap} {kv : String × BSONValue}
    (h : kv ∈ bsonOmitEmptyMap k m) : kv.1 = k := by
  unfold bsonOmitEmptyMap at h
  split at h
  · exact absurd h (List.not_mem_nil _)
  · exact absurd h (List.not_mem_nil _)
  · simp at h; rw [h]

/-- The key of what a slice field contributes. -/
theorem bsonStrings_key {k : String} {xs : StringSlice} {kv : String × BSONValue}
    (h : kv ∈ bsonStrings k xs) : kv.1 = k := by
  unfold bsonStrings at h
  split at h <;> simp at h <;> rw [h]

/-- The entries of an encoded collection under the keys `_id`, `createdAt`
and `updatedAt`. -/
theorem StorageCollection.collection_toBSON_entries (c : StorageCollection) (kv : String × BSONValue)
    (hkv : kv ∈ c.toBSON) :
    (kv.1 = "_id" → kv.2 = .string c.ID) ∧ (kv.1 = "createdAt" → kv.2 = .dateTime c.CreatedAt) ∧
    (kv.1 = "updatedAt" → kv.2 = .dateTime c.UpdatedAt) := by
  simp only [StorageCollection.toBSON, List.mem_append, List.mem_cons, List.mem_singleton,
    List.not_mem_nil, or_false, or_assoc] at hkv
  rcases hkv with h | h | h | h | h | h | h | h
  all_goals first
    | (have e := bsonOmitEmptyString_mem h; subst e
       refine ⟨?_, ?_, ?_⟩ <;> intro hk <;> first | rfl | simp at hk)
    | (have e := bsonStrings_key h
       refine ⟨?_, ?_, ?_⟩ <;> intro hk <;> rw [e] at hk <;> simp at hk)
    | (have e := bsonOmitEmptyMap_key h
       refine ⟨?_, ?_, ?_⟩ <;> intro hk <;> rw [e] at hk <;> simp at hk)
    | (subst h
       refine ⟨?_, ?_, ?_⟩ <;> intro hk <;> first | rfl | simp at hk)

/-- The entries of an encoded environment under the keys `_id`, `createdAt`
and `updatedAt`. -/
theorem StorageEnvironment.environment_toBSON_entries (c : StorageEnvironment) (kv : String × BSONValue)
    (hkv : kv ∈ c.toBSON) :
    (kv.1 = "_id" → kv.2 = .string c.ID) ∧ (kv.1 = "createdAt" → kv.2 = .dateTime c.CreatedAt) ∧
    (kv.1 = "updatedAt" → kv.2 = .dateTime c.UpdatedAt) := by
  simp only [StorageEnvironment.toBSON, List.mem_append, List.mem_cons, List.mem_singleton,
    List.not_mem_nil, or_false, or_assoc] at hkv
  rcases hkv with h | h | h | h | h | h | h
  all_goals first
    | (have e := bsonOmitEmptyString_mem h; subst e
       refine ⟨?_, ?_, ?_⟩ <;> intro hk <;> first | rfl | simp at hk)
    | (have e := bsonMap_key h
       refine ⟨?_, ?_, ?_⟩ <;> intro hk <;> rw [e] at hk <;> simp at hk)
    | (subst h
       refine ⟨?_, ?_, ?_⟩ <;> intro hk <;> first | rfl | simp at hk)

/-- The entries of an encoded request under the keys `_id`, `createdAt` and
`updatedAt`. -/
theorem StorageRequest.request_toBSON_entries (c : StorageRequest) (kv : String × BSONValue)
    (hkv : kv ∈ c.toBSON) :
    (kv.1 = "_id" → kv.2 = .string c.ID) ∧ (kv.1 = "createdAt" → kv.2 = .dateTime c.CreatedAt) ∧
    (kv.1 = "updatedAt" → kv.2 = .dateTime c.UpdatedAt) := by
  simp only [StorageRequest.toBSON, List.mem_append, List.mem_cons, List.mem_singleton,
    List.not_mem_nil, or_false, or_assoc] at hkv
  rcases hkv with h | h | h | h | h | h | h | h | h | h | h | h
  all_goals first
    | (have e := bsonOmitEmptyString_mem h; subst e
       refine ⟨?_, ?_, ?_⟩ <;> intro hk <;> first | rfl | simp at hk)
    | (have e := bsonMap_key h
       refine ⟨?_, ?_, ?_⟩ <;> intro hk <;> rw [e] at hk <;> simp at hk)
    | (have e := bsonOmitEmptyMap_key h
       refine ⟨?_, ?_, ?_⟩ <;> intro hk <;> rw [e] at hk <;> simp at hk)
    | (subst h
       refine ⟨?_, ?_, ?_⟩ <;> intro hk <;> first | rfl | simp at hk)

/-- What the head of `MongoStorage.SaveCollection` leaves: the stores and counters
untouched, the ID as given, `UpdatedAt` the first clock reading, and
`CreatedAt` the second reading when it came zero. -/
theorem MongoStorage.stampCollection_spec (env : Env) (w : World) (x : StorageCollection) :
    (MongoStorage.stampCollection env w x).1.mongo = w.mongo ∧
    (MongoStorage.stampCollection env w x).1.sqlite = w.sqlite ∧
    (MongoStorage.stampCollection env w x).1.objectIDs = w.objectIDs ∧
    (MongoStorage.stampCollection env w x).1.mongoCalls = w.mongoCalls ∧
    (MongoStorage.stampCollection env w x).2.ID = x.ID ∧
    (MongoStorage.stampCollection env w x).2.UpdatedAt = env.clock w.clockReads + 1 ∧
    (MongoStorage.stampCollection env w x).2.CreatedAt =
      (if x.CreatedAt = 0 then env.clock (w.clockReads + 1) + 1 else x.CreatedAt) := by
  unfold MongoStorage.stampCollection
  by_cases h : x.CreatedAt = 0
  · simp [Time.IsZero, timeNow, h]
  · simp [Time.IsZero, timeNow, h]

/-- What the head of `SQLiteStorage.SaveCollection` leaves: the stores untouched,
the ID minted when it came empty, `UpdatedAt` the first clock reading, and
`CreatedAt` the second reading when it came zero. -/
theorem SQLiteStorage.prepareCollection_shape (env : Env) (w : World) (x : StorageCollection) :
    (SQLiteStorage.prepareCollection env w x).1.mongo = w.mongo ∧
    (SQLiteStorage.prepareCollection env w x).1.sqlite = w.sqlite ∧
    (SQLiteStorage.prepareCollection env w x).1.sqliteCalls = w.sqliteCalls ∧
    w.clockReads < (SQLiteStorage.prepareCollection env w x).1.clockReads ∧
    (SQLiteStorage.prepareCollection env w x).2.ID =
      (if x.ID = "" then hexString 24 (env.objectID w.objectIDs) else x.ID) ∧
    (SQLiteStorage.prepareCollection env w x).2.UpdatedAt = env.clock w.clockReads + 1 ∧
    (SQLiteStorage.prepareCollection env w x).2.CreatedAt =
      (if x.CreatedAt = 0 then env.clock (w.clockReads + 1) + 1 else x.CreatedAt) := by
  unfold SQLiteStorage.prepareCollection
  by_cases h : x.CreatedAt = 0 <;> by_cases hid : x.ID = "" <;>
    simp [Time.IsZero, timeNow, NewObjectIDHex, h, hid] <;> omega

/-- What `SQLiteStorage.SaveCollection` returns and leaves stored, in terms of the
gorm call it makes. -/
theorem SQLiteStorage.sqlite_SaveCollection_shape (env : Env) (w : World) (x : StorageCollection) :
    (SQLiteStorage.SaveCollection env w x).2.1 = (SQLiteStorage.prepareCollection env w x).2 ∧
    (SQLiteStorage.SaveCollection env w x).1.sqlite.collections =
      (if env.sqliteFault (SQLiteStorage.prepareCollection env w x).1.sqliteCalls then
        (SQLiteStorage.prepareCollection env w x).1.sqlite.collections
       else gormSave SQLiteCollection.ID (fun now r => { r with UpdatedAt := now })
          id
          (SQLiteStorage.prepareCollection env w x).1.sqlite.collections
          (SQLiteStorage.collectionRow (SQLiteStorage.prepareCollection env w x).2)
          (env.clock (SQLiteStorage.prepareCollection env w x).1.clockReads + 1)) ∧
    (SQLiteStorage.SaveCollection env w x).2.2 =
      (if env.sqliteFault (SQLiteStorage.prepareCollection env w x).1.sqliteCalls then
        some sqliteUnavailable else none) ∧
    (SQLiteStorage.SaveCollection env w x).1.sqliteCalls =
      (SQLiteStorage.prepareCollection env w x).1.sqliteCalls + 1 := by
  unfold SQLiteStorage.SaveCollection
  generalize SQLiteStorage.prepareCollection env w x = m
  simp only [sqliteCall, timeNow]
  by_cases hf : env.sqliteFault m.1.sqliteCalls = true <;> simp [hf]

/-- What the head of `MongoStorage.SaveEnvironment` leaves: the stores and counters
untouched, the ID as given, `UpdatedAt` the first clock reading, and
`CreatedAt` the second reading when it came zero. -/
theorem MongoStorage.stampEnvironment_spec (env : Env) (w : World) (x : StorageEnvironment) :
    (MongoStorage.stampEnvironment env w x).1.mongo = w.mongo ∧
    (MongoStorage.stampEnvironment env w x).1.sqlite = w.sqlite ∧
    (MongoStorage.stampEnvironment env w x).1.objectIDs = w.objectIDs ∧
    (MongoStorage.stampEnvironment env w x).1.mongoCalls = w.mongoCalls ∧
    (MongoStorage.stampEnvironment env w x).2.ID = x.ID ∧
    (MongoStorage.stampEnvironment env w x).2.UpdatedAt = env.clock w.clockReads + 1 ∧
    (MongoStorage.stampEnvironment env w x).2.CreatedAt =
      (if x.CreatedAt = 0 then env.clock (w.clockReads + 1) + 1 else x.CreatedAt) := by
  unfold MongoStorage.stampEnvironment
  by_cases h : x.CreatedAt = 0
  · simp [Time.IsZero, timeNow, h]
  · simp [Time.IsZero, timeNow, h]

/-- What the head of `SQLiteStorage.SaveEnvironment` leaves: the stores untouched,
the ID minted when it came empty, `UpdatedAt` the first clock reading, and
`CreatedAt` the second reading when it came zero. -/
theorem SQLiteStorage.prepareEnvironment_shape (env : Env) (w : World) (x : StorageEnvironment) :
    (SQLiteStorage.prepareEnvironment env w x).1.mongo = w.mongo ∧
    (SQLiteStorage.prepareEnvironment env w x).1.sqlite = w.sqlite ∧
    (SQLiteStorage.prepareEnvironment env w x).1.sqliteCalls = w.sqliteCalls ∧
    w.clockReads < (SQLiteStorage.prepareEnvironment env w x).1.clockReads ∧
    (SQLiteStorage.prepareEnvironment env w x).2.ID =
      (if x.ID = "" then hexString 24 (env.objectID w.objectIDs) else x.ID) ∧
    (SQLiteStorage.prepareEnvironment env w x).2.UpdatedAt = env.clock w.clockReads + 1 ∧
    (SQLiteStorage.prepareEnvironment env w x).2.CreatedAt =
      (if x.CreatedAt = 0 then env.clock (w.clockReads + 1) + 1 else x.CreatedAt) := by
  unfold SQLiteStorage.prepareEnvironment
  by_cases h : x.CreatedAt = 0 <;> by_cases hid : x.ID = "" <;>
    simp [Time.IsZero, timeNow, NewObjectIDHex, h, hid] <;> omega

/-- What `SQLiteStorage.SaveEnvironment` returns and leaves stored, in terms of the
gorm call it makes. -/
theorem SQLiteStorage.sqlite_SaveEnvironment_shape (env : Env) (w : World) (x : StorageEnvironment) :
    (SQLiteStorage.SaveEnvironment env w x).2.1 = (SQLiteStorage.prepareEnvironment env w x).2 ∧
    (SQLiteStorage.SaveEnvironment env w x).1.sqlite.environments =
      (if env.sqliteFault (SQLiteStorage.prepareEnvironment env w x).1.sqliteCalls then
        (SQLiteStorage.prepareEnvironment env w x).1.sqlite.environments
       else gormSave SQLiteEnvironment.ID (fun now r => { r with UpdatedAt := now })
          (fun r => { r with IsActive := true })
          (SQLiteStorage.prepareEnvironment env w x).1.sqlite.environments
          (SQLiteStorage.environmentRow (SQLiteStorage.prepareEnvironment env w x).2)
          (env.clock (SQLiteStorage.prepareEnvironment env w x).1.clockReads + 1)) ∧
    (SQLiteStorage.SaveEnvironment env w x).2.2 =
      (if env.sqliteFault (SQLiteStorage.prepareEnvironment env w x).1.sqliteCalls then
        some sqliteUnavailable else none) ∧
    (SQLiteStorage.SaveEnvironment env w x).1.sqliteCalls =
      (SQLiteStorage.prepareEnvironment env w x).1.sqliteCalls + 1 := by
  unfold SQLiteStorage.SaveEnvironment
  generalize SQLiteStorage.prepareEnvironment env w x = m
  simp only [sqliteCall, timeNow]
  by_cases hf : env.sqliteFault m.1.sqliteCalls = true <;> simp [hf]

/-- What the head of `MongoStorage.SaveRequest` leaves: the stores and counters
untouched, the ID as given, `UpdatedAt` the first clock reading, and
`CreatedAt` the second reading when it came zero. -/
theorem MongoStorage.stampRequest_spec (env : Env) (w : World) (x : StorageRequest) :
    (MongoStorage.stampRequest env w x).1.mongo = w.mongo ∧
    (MongoStorage.stampRequest env w x).1.sqlite = w.sqlite ∧
    (MongoStorage.stampRequest env w x).1.objectIDs = w.objectIDs ∧
    (MongoStorage.stampRequest env w x).1.mongoCalls = w.mongoCalls ∧
    (MongoStorage.stampRequest env w x).2.ID = x.ID ∧
    (MongoStorage.stampRequest env w x).2.UpdatedAt = env.clock w.clockReads + 1 ∧
    (MongoStorage.stampRequest env w x).2.CreatedAt =
      (if x.CreatedAt = 0 then env.clock (w.clockReads + 1) + 1 else x.CreatedAt) := by
  unfold MongoStorage.stampRequest
  by_cases h : x.CreatedAt = 0
  · simp [Time.IsZero, timeNow, h]
  · simp [Time.IsZero, timeNow, h]

/-- What the head of `SQLiteStorage.SaveRequest` leaves: the stores untouched,
the ID minted when it came empty, `UpdatedAt` the first clock reading, and
`CreatedAt` the second reading when it came zero. -/
theorem SQLiteStorage.prepareRequest_shape (env : Env) (w : World) (x : StorageRequest) :
    (SQLiteStorage.prepareRequest env w x).1.mongo = w.mongo ∧
    (SQLiteStorage.prepareRequest env w x).1.sqlite = w.sqlite ∧
    (SQLiteStorage.prepareRequest env w x).1.sqliteCalls = w.sqliteCalls ∧
    w.clockReads < (SQLiteStorage.prepareRequest env w x).1.clockReads ∧
    (SQLiteStorage.prepareRequest env w x).2.ID =
      (if x.ID = "" then hexString 24 (env.objectID w.objectIDs) else x.ID) ∧
    (SQLiteStorage.prepareRequest env w x).2.UpdatedAt = env.clock w.clockReads + 1 ∧
    (SQLiteStorage.prepareRequest env w x).2.CreatedAt =
      (if x.CreatedAt = 0 then env.clock (w.clockReads + 1) + 1 else x.CreatedAt) := by
  unfold SQLiteStorage.prepareRequest
  by_cases h : x.CreatedAt = 0 <;> by_cases hid : x.ID = "" <;>
    simp [Time.IsZero, timeNow, NewObjectIDHex, h, hid] <;> omega

/-- What `SQLiteStorage.SaveRequest` returns and leaves stored, in terms of the
gorm call it makes. -/
theorem SQLiteStorage.sqlite_SaveRequest_shape (env : Env) (w : World) (x : StorageRequest) :
    (SQLiteStorage.SaveRequest env w x).2.1 = (SQLiteStorage.prepareRequest env w x).2 ∧
    (SQLiteStorage.SaveRequest env w x).1.sqlite.requests =
      (if env.sqliteFault (SQLiteStorage.prepareRequest env w x).1.sqliteCalls then
        (SQLiteStorage.prepareRequest env w x).1.sqlite.requests
       else gormSave SQLiteRequest.ID (fun now r => { r with UpdatedAt := now })
          id
          (SQLiteStorage.prepareRequest env w x).1.sqlite.requests
          (SQLiteStorage.requestRow (SQLiteStorage.prepareRequest env w x).2)
          (env.clock (SQLiteStorage.prepareRequest env w x).1.clockReads + 1)) ∧
    (SQLiteStorage.SaveRequest env w x).2.2 =
      (if env.sqliteFault (SQLiteStorage.prepareRequest env w x).1.sqliteCalls then
        some sqliteUnavailable else none) ∧
    (SQLiteStorage.SaveRequest env w x).1.sqliteCalls =
      (SQLiteStorage.prepareRequest env w x).1.sqliteCalls + 1 := by
  unfold SQLiteStorage.SaveRequest
  generalize SQLiteStorage.prepareRequest env w x = m
  simp only [sqliteCall, timeNow]
  by_cases hf : env.sqliteFault m.1.sqliteCalls = true <;> simp [hf]

/-- What `MongoStorage.SaveCollection` returns and leaves stored, in terms of the
driver call it makes. -/
theorem MongoStorage.mongo_SaveCollection_shape (env : Env) (w : World) (x : StorageCollection) :
    (MongoStorage.SaveCollection env w x).2.1 =
      (if (MongoStorage.stampCollection env w x).2.ID = "" then
        { (MongoStorage.stampCollection env w x).2 with
          ID := hexString 24 (env.objectID (MongoStorage.stampCollection env w x).1.objectIDs) }
       else (MongoStorage.stampCollection env w x).2) ∧
    (MongoStorage.SaveCollection env w x).1.mongo.collections =
      (if env.mongoFault (MongoStorage.stampCollection env w x).1.mongoCalls then
        (MongoStorage.stampCollection env w x).1.mongo.collections
       else if (MongoStorage.stampCollection env w x).2.ID = "" then
        (mongoInsertOne (MongoStorage.stampCollection env w x).1.mongo.collections
          (MongoStorage.SaveCollection env w x).2.1.toBSON).1
       else mongoUpsertSet (MongoStorage.stampCollection env w x).1.mongo.collections
          (MongoStorage.stampCollection env w x).2.ID
          (MongoStorage.stampCollection env w x).2.toBSON) ∧
    (MongoStorage.SaveCollection env w x).2.2 =
      (if env.mongoFault (MongoStorage.stampCollection env w x).1.mongoCalls then
        some mongoUnavailable
       else if (MongoStorage.stampCollection env w x).2.ID = "" then
        (mongoInsertOne (MongoStorage.stampCollection env w x).1.mongo.collections
          (MongoStorage.SaveCollection env w x).2.1.toBSON).2
       else none) ∧
    (MongoStorage.SaveCollection env w x).1.mongoCalls =
      (MongoStorage.stampCollection env w x).1.mongoCalls + 1 := by
  unfold MongoStorage.SaveCollection
  generalize MongoStorage.stampCollection env w x = s
  simp only [NewObjectIDHex, mongoCall]
  by_cases hid : s.2.ID = "" <;> by_cases hf : env.mongoFault s.1.mongoCalls = true <;>
    simp [hid, hf]

/-- What `MongoStorage.SaveEnvironment` returns and leaves stored, in terms of the
driver call it makes. -/
theorem MongoStorage.mongo_SaveEnvironment_shape (env : Env) (w : World) (x : StorageEnvironment) :
    (MongoStorage.SaveEnvironment env w x).2.1 =
      (if (MongoStorage.stampEnvironment env w x).2.ID = "" then
        { (MongoStorage.stampEnvironment env w x).2 with
          ID := hexString 24 (env.objectID (MongoStorage.stampEnvironment env w x).1.objectIDs) }
       else (MongoStorage.stampEnvironment env w x).2) ∧
    (MongoStorage.SaveEnvironment env w x).1.mongo.environments =
      (if env.mongoFault (MongoStorage.stampEnvironment env w x).1.mongoCalls then
        (MongoStorage.stampEnvironment env w x).1.mongo.environments
       else if (MongoStorage.stampEnvironment env w x).2.ID = "" then
        (mongoInsertOne (MongoStorage.stampEnvironment env w x).1.mongo.environments
          (MongoStorage.SaveEnvironment env w x).2.1.toBSON).1
       else mongoUpsertSet (MongoStorage.stampEnvironment env w x).1.mongo.environments
          (MongoStorage.stampEnvironment env w x).2.ID
          (MongoStorage.stampEnvironment env w x).2.toBSON) ∧
    (MongoStorage.SaveEnvironment env w x).2.2 =
      (if env.mongoFault (MongoStorage.stampEnvironment env w x).1.mongoCalls then
        some mongoUnavailable
       else if (MongoStorage.stampEnvironment env w x).2.ID = "" then
        (mongoInsertOne (MongoStorage.stampEnvironment env w x).1.mongo.environments
          (MongoStorage.SaveEnvironment env w x).2.1.toBSON).2
       else none) ∧
    (MongoStorage.SaveEnvironment env w x).1.mongoCalls =
      (MongoStorage.stampEnvironment env w x).1.mongoCalls + 1 := by
  unfold MongoStorage.SaveEnvironment
  generalize MongoStorage.stampEnvironment env w x = s
  simp only [NewObjectIDHex, mongoCall]
  by_cases hid : s.2.ID = "" <;> by_cases hf : env.mongoFault s.1.mongoCalls = true <;>
    simp [hid, hf]

/-- What `MongoStorage.SaveRequest` returns and leaves stored, in terms of the
driver call it makes. -/
theorem MongoStorage.mongo_SaveRequest_shape (env : Env) (w : World) (x : StorageRequest) :
    (MongoStorage.SaveRequest env w x).2.1 =
      (if (MongoStorage.stampRequest env w x).2.ID = "" then
        { (MongoStorage.stampRequest env w x).2 with
          ID := hexString 24 (env.objectID (MongoStorage.stampRequest env w x).1.objectIDs) }
       else (MongoStorage.stampRequest env w x).2) ∧
    (MongoStorage.SaveRequest env w x).1.mongo.requests =
      (if env.mongoFault (MongoStorage.stampRequest env w x).1.mongoCalls then
        (MongoStorage.stampRequest env w x).1.mongo.requests
       else if (MongoStorage.stampRequest env w x).2.ID = "" then
        (mongoInsertOne (MongoStorage.stampRequest env w x).1.mongo.requests
          (MongoStorage.SaveRequest env w x).2.1.toBSON).1
       else mongoUpsertSet (MongoStorage.stampRequest env w x).1.mongo.requests
          (MongoStorage.stampRequest env w x).2.ID
          (MongoStorage.stampRequest env w x).2.toBSON) ∧
    (MongoStorage.SaveRequest env w x).2.2 =
      (if env.mongoFault (MongoStorage.stampRequest env w x).1.mongoCalls then
        some mongoUnavailable
       else if (MongoStorage.stampRequest env w x).2.ID = "" then
        (mongoInsertOne (MongoStorage.stampRequest env w x).1.mongo.requests
          (MongoStorage.SaveRequest env w x).2.1.toBSON).2
       else none) ∧
    (MongoStorage.SaveRequest env w x).1.mongoCalls =
      (MongoStorage.stampRequest env w x).1.mongoCalls + 1 := by
  unfold MongoStorage.SaveRequest
  generalize MongoStorage.stampRequest env w x = s
  simp only [NewObjectIDHex, mongoCall]
  by_cases hid : s.2.ID = "" <;> by_cases hf : env.mongoFault s.1.mongoCalls = true <;>
    simp [hid, hf]

/-- The equality filter on a string field, as a statement about the field. -/
theorem Document.matchesString_iff (d : Document) (k v : String) :
    d.matchesString k v = true ↔ List.lookup k d = some (.string v) := by
  simp [Document.matchesString]

/-- The decoded string of a field that holds a string. -/
theorem Document.str_of_lookup (d : Document) (k v : String)
    (h : List.lookup k d = some (.string v)) : d.str k = v := by
  simp [Document.str, h]

/-- The `_id` field of an encoded collection that has an ID. -/
theorem StorageCollection.collection_toBSON_lookup_id (x : StorageCollection) (h : x.ID ≠ "") :
    List.lookup "_id" x.toBSON = some (.string x.ID) := by
  apply Document.lookup_of_forall
  · refine ⟨("_id", .string x.ID), ?_, rfl⟩
    simp [StorageCollection.toBSON, bsonOmitEmptyString, h]
  · exact fun kv hkv => (StorageCollection.collection_toBSON_entries x kv hkv).1

/-- The `_id` field of an encoded environment that has an ID. -/
theorem StorageEnvironment.environment_toBSON_lookup_id (x : StorageEnvironment) (h : x.ID ≠ "") :
    List.lookup "_id" x.toBSON = some (.string x.ID) := by
  apply Document.lookup_of_forall
  · refine ⟨("_id", .string x.ID), ?_, rfl⟩
    simp [StorageEnvironment.toBSON, bsonOmitEmptyString, h]
  · exact fun kv hkv => (StorageEnvironment.environment_toBSON_entries x kv hkv).1

/-- The `_id` field of an encoded request that has an ID. -/
theorem StorageRequest.request_toBSON_lookup_id (x : StorageRequest) (h : x.ID ≠ "") :
    List.lookup "_id" x.toBSON = some (.string x.ID) := by
  apply Document.lookup_of_forall
  · refine ⟨("_id", .string x.ID), ?_, rfl⟩
    simp [StorageRequest.toBSON, bsonOmitEmptyString, h]
  · exact fun kv hkv => (StorageRequest.request_toBSON_entries x kv hkv).1

/-- Looking for the first match after the first match was replaced by a
matching image finds the image. -/
theorem find?_modifyFirst {α : Type} (p : α → Bool) (f : α → α)
    (h : ∀ x, p x = true → p (f x) = true) :
    ∀ l : List α, (modifyFirst p f l).find? p = (l.find? p).map f
  | [] => rfl
  | x :: xs => by
    unfold modifyFirst
    by_cases hp : p x = true
    · simp [hp, h x hp]
    · simp [hp, find?_modifyFirst p f h xs]

/-- After the upsert, the document found under the ID is a document with the
fields assigned. -/
theorem mongoUpsertSet_find (docs : List Document) (id : String) (fields : Document)
    (hf : ∀ kv ∈ fields, kv.1 = "_id" → kv.2 = .string id) :
    ∃ d0 : Document, (mongoUpsertSet docs id fields).find? (fun d => d.matchesString "_id" id) =
      some (d0.applySet fields) := by
  have hkeep : ∀ d : Document, d.matchesString "_id" id = true →
      (d.applySet fields).matchesString "_id" id = true := fun d hd =>
    (Document.matchesString_iff _ _ _).mpr
      (Document.lookup_applySet_keep "_id" _ fields d hf
        ((Document.matchesString_iff _ _ _).mp hd))
  unfold mongoUpsertSet
  by_cases hany : docs.any (fun d => d.matchesString "_id" id) = true
  · simp only [hany, if_true]
    rw [find?_modifyFirst _ _ hkeep]
    obtain ⟨d, hd, hm⟩ := List.any_eq_true.mp hany
    cases hfind : docs.find? (fun d => d.matchesString "_id" id) with
    | none =>
      have := List.find?_eq_none.mp hfind d hd
      exact absurd hm this
    | some d0 => exact ⟨d0, rfl⟩
  · have hany' : docs.any (fun d => d.matchesString "_id" id) = false :=
      Bool.eq_false_iff.mpr hany
    simp only [hany, Bool.false_eq_true, if_false]
    refine ⟨[("_id", .string id)], ?_⟩
    have h0 : Document.matchesString [("_id", BSONValue.string id)] "_id" id = true :=
      (Document.matchesString_iff _ _ _).mpr (by simp [List.lookup])
    exact find?_append_new (fun d : Document => d.matchesString "_id" id)
      (Document.applySet [("_id", BSONValue.string id)] fields) (hkeep _ h0) docs hany'

/-- After a successful `InsertOne`, the document found under its ID is the
inserted one. -/
theorem mongoInsertOne_find (docs : List Document) (doc : Document) (id : String)
    (h : List.lookup "_id" doc = some (.string id))
    (hok : (mongoInsertOne docs doc).2 = none) :
    (mongoInsertOne docs doc).1.find? (fun d => d.matchesString "_id" id) = some doc := by
  unfold mongoInsertOne at hok ⊢
  simp only [h] at hok ⊢
  split at hok
  · simp at hok
  · rename_i hany
    simp only [hany, Bool.false_eq_true, if_false]
    have hany' : docs.any (fun d => d.matchesString "_id" id) = false := by
      have := Bool.eq_false_iff.mpr hany
      simpa [Document.matchesString] using this
    exact find?_append_new (fun d : Document => d.matchesString "_id" id) doc
      ((Document.matchesString_iff _ _ _).mpr h) docs hany'

/-- The time a field holds, from its lookup. -/
theorem Document.time_of_lookup (d : Document) (k : String) (t : Time)
    (h : List.lookup k d = some (.dateTime t)) : d.time k = t := by
  simp [Document.time, h]

/-- The times an encoded collection holds, and the times a document holds
after the encoding was assigned to it. -/
theorem StorageCollection.collection_toBSON_times (x : StorageCollection) :
    (Document.time x.toBSON "createdAt" = x.CreatedAt ∧
      Document.time x.toBSON "updatedAt" = x.UpdatedAt) ∧
    ∀ d : Document, Document.time (d.applySet x.toBSON) "createdAt" = x.CreatedAt ∧
      Document.time (d.applySet x.toBSON) "updatedAt" = x.UpdatedAt := by
  have hc : (("createdAt", BSONValue.dateTime x.CreatedAt) : String × BSONValue) ∈ x.toBSON := by
    simp [StorageCollection.toBSON]
  have hu : (("updatedAt", BSONValue.dateTime x.UpdatedAt) : String × BSONValue) ∈ x.toBSON := by
    simp [StorageCollection.toBSON]
  have ec := fun kv hkv => (StorageCollection.collection_toBSON_entries x kv hkv).2.1
  have eu := fun kv hkv => (StorageCollection.collection_toBSON_entries x kv hkv).2.2
  refine ⟨⟨?_, ?_⟩, fun d => ⟨?_, ?_⟩⟩
  · exact Document.time_of_lookup _ _ _ (Document.lookup_of_forall _ _ _ ⟨_, hc, rfl⟩ ec)
  · exact Document.time_of_lookup _ _ _ (Document.lookup_of_forall _ _ _ ⟨_, hu, rfl⟩ eu)
  · apply Document.time_of_lookup
    rw [Document.lookup_applySet, Document.lookup_of_forall "createdAt" _ x.toBSON.reverse
      ⟨_, List.mem_reverse.mpr hc, rfl⟩ (fun kv hkv => ec kv (List.mem_reverse.mp hkv))]
  · apply Document.time_of_lookup
    rw [Document.lookup_applySet, Document.lookup_of_forall "updatedAt" _ x.toBSON.reverse
      ⟨_, List.mem_reverse.mpr hu, rfl⟩ (fun kv hkv => eu kv (List.mem_reverse.mp hkv))]

/-- `MongoStorage.GetCollection` when the driver call goes through. -/
theorem MongoStorage.mongo_GetCollection_shape (env : Env) (w : World) (id : String)
    (hg : env.mongoFault w.mongoCalls = false) :
    (MongoStorage.GetCollection env w id).2 =
      match w.mongo.collections.find? (fun d => d.matchesString "_id" id) with
      | some d => (some (StorageCollection.fromBSON d), none)
      | none => (none, some "mongo: no documents in result") := by
  unfold MongoStorage.GetCollection
  simp only [mongoCall, hg, Bool.false_eq_true, if_false]
  split <;> rfl

/-- `SQLiteStorage.GetCollection` when the gorm call goes through. -/
theorem SQLiteStorage.sqlite_GetCollection_shape (env : Env) (w : World) (id : String)
    (hg : env.sqliteFault w.sqliteCalls = false) :
    (SQLiteStorage.GetCollection env w id).2 =
      match w.sqlite.collections.find? (fun r => r.ID == id) with
      | some row => (some row.toStorage, none)
      | none => (none, some "record not found") := by
  unfold SQLiteStorage.GetCollection
  simp only [sqliteCall, hg, Bool.false_eq_true, if_false]
  split <;> rfl

/-- The times an encoded environment holds, and the times a document holds
after the encoding was assigned to it. -/
theorem StorageEnvironment.environment_toBSON_times (x : StorageEnvironment) :
    (Document.time x.toBSON "createdAt" = x.CreatedAt ∧
      Document.time x.toBSON "updatedAt" = x.UpdatedAt) ∧
    ∀ d : Document, Document.time (d.applySet x.toBSON) "createdAt" = x.CreatedAt ∧
      Document.time (d.applySet x.toBSON) "updatedAt" = x.UpdatedAt := by
  have hc : (("createdAt", BSONValue.dateTime x.CreatedAt) : String × BSONValue) ∈ x.toBSON := by
    simp [StorageEnvironment.toBSON]
  have hu : (("updatedAt", BSONValue.dateTime x.UpdatedAt) : String × BSONValue) ∈ x.toBSON := by
    simp [StorageEnvironment.toBSON]
  have ec := fun kv hkv => (StorageEnvironment.environment_toBSON_entries x kv hkv).2.1
  have eu := fun kv hkv => (StorageEnvironment.environment_toBSON_entries x kv hkv).2.2
  refine ⟨⟨?_, ?_⟩, fun d => ⟨?_, ?_⟩⟩
  · exact Document.time_of_lookup _ _ _ (Document.lookup_of_forall _ _ _ ⟨_, hc, rfl⟩ ec)
  · exact Document.time_of_lookup _ _ _ (Document.lookup_of_forall _ _ _ ⟨_, hu, rfl⟩ eu)
  · apply Document.time_of_lookup
    rw [Document.lookup_applySet, Document.lookup_of_forall "createdAt" _ x.toBSON.reverse
      ⟨_, List.mem_reverse.mpr hc, rfl⟩ (fun kv hkv => ec kv (List.mem_reverse.mp hkv))]
  · apply Document.time_of_lookup
    rw [Document.lookup_applySet, Document.lookup_of_forall "updatedAt" _ x.toBSON.reverse
      ⟨_, List.mem_reverse.mpr hu, rfl⟩ (fun kv hkv => eu kv (List.mem_reverse.mp hkv))]

/-- `MongoStorage.GetEnvironment` when the driver call goes through. -/
theorem MongoStorage.mongo_GetEnvironment_shape (env : Env) (w : World) (id : String)
    (hg : env.mongoFault w.mongoCalls = false) :
    (MongoStorage.GetEnvironment env w id).2 =
      match w.mongo.environments.find? (fun d => d.matchesString "_id" id) with
      | some d => (some (StorageEnvironment.fromBSON d), none)
      | none => (none, some "mongo: no documents in result") := by
  unfold MongoStorage.GetEnvironment
  simp only [mongoCall, hg, Bool.false_eq_true, if_false]
  split <;> rfl

/-- `SQLiteStorage.GetEnvironment` when the gorm call goes through. -/
theorem SQLiteStorage.sqlite_GetEnvironment_shape (env : Env) (w : World) (id : String)
    (hg : env.sqliteFault w.sqliteCalls = false) :
    (SQLiteStorage.GetEnvironment env w id).2 =
      match w.sqlite.environments.find? (fun r => r.ID == id) with
      | some row => (some row.toStorage, none)
      | none => (none, some "record not found") := by
  unfold SQLiteStorage.GetEnvironment
  simp only [sqliteCall, hg, Bool.false_eq_true, if_false]
  split <;> rfl

/-- The times an encoded request holds, and the times a document holds
after the encoding was assigned to it. -/
theorem StorageRequest.request_toBSON_times (x : StorageRequest) :
    (Document.time x.toBSON "createdAt" = x.CreatedAt ∧
      Document.time x.toBSON "updatedAt" = x.UpdatedAt) ∧
    ∀ d : Document, Document.time (d.applySet x.toBSON) "createdAt" = x.CreatedAt ∧
      Document.time (d.applySet x.toBSON) "updatedAt" = x.UpdatedAt := by
  have hc : (("createdAt", BSONValue.dateTime x.CreatedAt) : String × BSONValue) ∈ x.toBSON := by
    simp [StorageRequest.toBSON]
  have hu : (("updatedAt", BSONValue.dateTime x.UpdatedAt) : String × BSONValue) ∈ x.toBSON := by
    simp [StorageRequest.toBSON]
  have ec := fun kv hkv => (StorageRequest.request_toBSON_entries x kv hkv).2.1
  have eu := fun kv hkv => (StorageRequest.request_toBSON_entries x kv hkv).2.2
  refine ⟨⟨?_, ?_⟩, fun d => ⟨?_, ?_⟩⟩
  · exact Document.time_of_lookup _ _ _ (Document.lookup_of_forall _ _ _ ⟨_, hc, rfl⟩ ec)
  · exact Document.time_of_lookup _ _ _ (Document.lookup_of_forall _ _ _ ⟨_, hu, rfl⟩ eu)
  · apply Document.time_of_lookup
    rw [Document.lookup_applySet, Document.lookup_of_forall "createdAt" _ x.toBSON.reverse
      ⟨_, List.mem_reverse.mpr hc, rfl⟩ (fun kv hkv => ec kv (List.mem_reverse.mp hkv))]
  · apply Document.time_of_lookup
    rw [Document.lookup_applySet, Document.lookup_of_forall "updatedAt" _ x.toBSON.reverse
      ⟨_, List.mem_reverse.mpr hu, rfl⟩ (fun kv hkv => eu kv (List.mem_reverse.mp hkv))]

/-- `MongoStorage.GetRequest` when the driver call goes through. -/
theorem MongoStorage.mongo_GetRequest_shape (env : Env) (w : World) (id : String)
    (hg : env.mongoFault w.mongoCalls = false) :
    (MongoStorage.GetRequest env w id).2 =
      match w.mongo.requests.find? (fun d => d.matchesString "_id" id) with
      | some d => (some (StorageRequest.fromBSON d), none)
      | none => (none, some "mongo: no documents in result") := by
  unfold MongoStorage.GetRequest
  simp only [mongoCall, hg, Bool.false_eq_true, if_false]
  split <;> rfl

/-- `SQLiteStorage.GetRequest` when the gorm call goes through. -/
theorem SQLiteStorage.sqlite_GetRequest_shape (env : Env) (w : World) (id : String)
    (hg : env.sqliteFault w.sqliteCalls = false) :
    (SQLiteStorage.GetRequest env w id).2 =
      match w.sqlite.requests.find? (fun r => r.ID == id) with
      | some row => (some row.toStorage, none)
      | none => (none, some "record not found") := by
  unfold SQLiteStorage.GetRequest
  simp only [sqliteCall, hg, Bool.false_eq_true, if_false]
  split <;> rfl

/-- On the document adapter, a `GetCollection` that goes through after a successful
`SaveCollection` returns a record with the times the save stamped. -/
theorem MongoStorage.mongo_SaveCollection_stored_times (env : Env) (w : World) (x : StorageCollection)
    (hs : (MongoStorage.SaveCollection env w x).2.2 = none)
    (hg : env.mongoFault (MongoStorage.SaveCollection env w x).1.mongoCalls = false) :
    ∃ r, (MongoStorage.GetCollection env (MongoStorage.SaveCollection env w x).1
            (MongoStorage.SaveCollection env w x).2.1.ID).2 = (some r, none) ∧
      r.CreatedAt = (MongoStorage.stampCollection env w x).2.CreatedAt ∧
      r.UpdatedAt = (MongoStorage.stampCollection env w x).2.UpdatedAt := by
  rw [MongoStorage.mongo_GetCollection_shape env _ _ hg]
  obtain ⟨h1, h2, h3, _⟩ := MongoStorage.mongo_SaveCollection_shape env w x
  rw [h3] at hs
  rw [h2]
  generalize MongoStorage.stampCollection env w x = s at h1 hs ⊢
  generalize MongoStorage.SaveCollection env w x = r at h1 hs ⊢
  by_cases hf : env.mongoFault s.1.mongoCalls = true
  · simp [hf] at hs
  · simp only [hf, Bool.false_eq_true, if_false] at hs ⊢
    by_cases hid : s.2.ID = ""
    · simp only [hid, if_true] at h1 hs ⊢
      have hne : r.2.1.ID ≠ "" := by rw [h1]; exact hexString_ne_empty _
      rw [mongoInsertOne_find _ _ _ (StorageCollection.collection_toBSON_lookup_id r.2.1 hne) hs]
      refine ⟨_, rfl, ?_, ?_⟩
      · show Document.time r.2.1.toBSON "createdAt" = _
        rw [(StorageCollection.collection_toBSON_times r.2.1).1.1, h1]
      · show Document.time r.2.1.toBSON "updatedAt" = _
        rw [(StorageCollection.collection_toBSON_times r.2.1).1.2, h1]
    · simp only [hid, if_false] at h1 hs ⊢
      rw [h1]
      obtain ⟨d0, hd0⟩ := mongoUpsertSet_find s.1.mongo.collections s.2.ID s.2.toBSON
        (fun kv hkv => (StorageCollection.collection_toBSON_entries s.2 kv hkv).1)
      rw [hd0]
      refine ⟨_, rfl, ?_, ?_⟩
      · exact ((StorageCollection.collection_toBSON_times s.2).2 d0).1
      · exact ((StorageCollection.collection_toBSON_times s.2).2 d0).2

/-- On the relational adapter, a `GetCollection` that goes through after a
successful `SaveCollection` returns a record with the creation time the save
prepared and, as update time, the reading gorm took for the write. -/
theorem SQLiteStorage.sqlite_SaveCollection_stored_times (env : Env) (w : World) (x : StorageCollection)
    (hs : (SQLiteStorage.SaveCollection env w x).2.2 = none)
    (hg : env.sqliteFault (SQLiteStorage.SaveCollection env w x).1.sqliteCalls = false) :
    ∃ r, (SQLiteStorage.GetCollection env (SQLiteStorage.SaveCollection env w x).1
            (SQLiteStorage.SaveCollection env w x).2.1.ID).2 = (some r, none) ∧
      r.CreatedAt = (SQLiteStorage.prepareCollection env w x).2.CreatedAt ∧
      r.UpdatedAt = env.clock (SQLiteStorage.prepareCollection env w x).1.clockReads + 1 := by
  rw [SQLiteStorage.sqlite_GetCollection_shape env _ _ hg]
  obtain ⟨h1, h2, h3, _⟩ := SQLiteStorage.sqlite_SaveCollection_shape env w x
  rw [h3] at hs
  rw [h2, h1]
  generalize SQLiteStorage.prepareCollection env w x = m at hs ⊢
  by_cases hf : env.sqliteFault m.1.sqliteCalls = true
  · simp [hf] at hs
  · simp only [hf, Bool.false_eq_true, if_false]
    have hk := gormSave_find? SQLiteCollection.ID (fun now r => { r with UpdatedAt := now })
      id m.1.sqlite.collections (SQLiteStorage.collectionRow m.2)
      (env.clock m.1.clockReads + 1) rfl rfl
    have hrow : (SQLiteStorage.collectionRow m.2).ID = m.2.ID := rfl
    rw [hrow] at hk
    rw [hk]
    refine ⟨_, rfl, ?_, ?_⟩
    · split <;> rfl
    · split <;> rfl

/-- On the document adapter, a `GetEnvironment` that goes through after a successful
`SaveEnvironment` returns a record with the times the save stamped. -/
theorem MongoStorage.mongo_SaveEnvironment_stored_times (env : Env) (w : World) (x : StorageEnvironment)
    (hs : (MongoStorage.SaveEnvironment env w x).2.2 = none)
    (hg : env.mongoFault (MongoStorage.SaveEnvironment env w x).1.mongoCalls = false) :
    ∃ r, (MongoStorage.GetEnvironment env (MongoStorage.SaveEnvironment env w x).1
            (MongoStorage.SaveEnvironment env w x).2.1.ID).2 = (some r, none) ∧
      r.CreatedAt = (MongoStorage.stampEnvironment env w x).2.CreatedAt ∧
      r.UpdatedAt = (MongoStorage.stampEnvironment env w x).2.UpdatedAt := by
  rw [MongoStorage.mongo_GetEnvironment_shape env _ _ hg]
  obtain ⟨h1, h2, h3, _⟩ := MongoStorage.mongo_SaveEnvironment_shape env w x
  rw [h3] at hs
  rw [h2]
  generalize MongoStorage.stampEnvironment env w x = s at h1 hs ⊢
  generalize MongoStorage.SaveEnvironment env w x = r at h1 hs ⊢
  by_cases hf : env.mongoFault s.1.mongoCalls = true
  · simp [hf] at hs
  · simp only [hf, Bool.false_eq_true, if_false] at hs ⊢
    by_cases hid : s.2.ID = ""
    · simp only [hid, if_true] at h1 hs ⊢
      have hne : r.2.1.ID ≠ "" := by rw [h1]; exact hexString_ne_empty _
      rw [mongoInsertOne_find _ _ _ (StorageEnvironment.environment_toBSON_lookup_id r.2.1 hne) hs]
      refine ⟨_, rfl, ?_, ?_⟩
      · show Document.time r.2.1.toBSON "createdAt" = _
        rw [(StorageEnvironment.environment_toBSON_times r.2.1).1.1, h1]
      · show Document.time r.2.1.toBSON "updatedAt" = _
        rw [(StorageEnvironment.environment_toBSON_times r.2.1).1.2, h1]
    · simp only [hid, if_false] at h1 hs ⊢
      rw [h1]
      obtain ⟨d0, hd0⟩ := mongoUpsertSet_find s.1.mongo.environments s.2.ID s.2.toBSON
        (fun kv hkv => (StorageEnvironment.environment_toBSON_entries s.2 kv hkv).1)
      rw [hd0]
      refine ⟨_, rfl, ?_, ?_⟩
      · exact ((StorageEnvironment.environment_toBSON_times s.2).2 d0).1
      · exact ((StorageEnvironment.environment_toBSON_times s.2).2 d0).2

/-- On the relational adapter, a `GetEnvironment` that goes through after a
successful `SaveEnvironment` returns a record with the creation time the save
prepared and, as update time, the reading gorm took for the write. -/
theorem SQLiteStorage.sqlite_SaveEnvironment_stored_times (env : Env) (w : World) (x : StorageEnvironment)
    (hs : (SQLiteStorage.SaveEnvironment env w x).2.2 = none)
    (hg : env.sqliteFault (SQLiteStorage.SaveEnvironment env w x).1.sqliteCalls = false) :
    ∃ r, (SQLiteStorage.GetEnvironment env (SQLiteStorage.SaveEnvironment env w x).1
            (SQLiteStorage.SaveEnvironment env w x).2.1.ID).2 = (some r, none) ∧
      r.CreatedAt = (SQLiteStorage.prepareEnvironment env w x).2.CreatedAt ∧
      r.UpdatedAt = env.clock (SQLiteStorage.prepareEnvironment env w x).1.clockReads + 1 := by
  rw [SQLiteStorage.sqlite_GetEnvironment_shape env _ _ hg]
  obtain ⟨h1, h2, h3, _⟩ := SQLiteStorage.sqlite_SaveEnvironment_shape env w x
  rw [h3] at hs
  rw [h2, h1]
  generalize SQLiteStorage.prepareEnvironment env w x = m at hs ⊢
  by_cases hf : env.sqliteFault m.1.sqliteCalls = true
  · simp [hf] at hs
  · simp only [hf, Bool.false_eq_true, if_false]
    have hk := gormSave_find? SQLiteEnvironment.ID (fun now r => { r with UpdatedAt := now })
      (fun r => { r with IsActive := true }) m.1.sqlite.environments (SQLiteStorage.environmentRow m.2)
      (env.clock m.1.clockReads + 1) rfl rfl
    have hrow : (SQLiteStorage.environmentRow m.2).ID = m.2.ID := rfl
    rw [hrow] at hk
    rw [hk]
    refine ⟨_, rfl, ?_, ?_⟩
    · split <;> rfl
    · split <;> rfl

/-- On the document adapter, a `GetRequest` that goes through after a successful
`SaveRequest` returns a record with the times the save stamped. -/
theorem MongoStorage.mongo_SaveRequest_stored_times (env : Env) (w : World) (x : StorageRequest)
    (hs : (MongoStorage.SaveRequest env w x).2.2 = none)
    (hg : env.mongoFault (MongoStorage.SaveRequest env w x).1.mongoCalls = false) :
    ∃ r, (MongoStorage.GetRequest env (MongoStorage.SaveRequest env w x).1
            (MongoStorage.SaveRequest env w x).2.1.ID).2 = (some r, none) ∧
      r.CreatedAt = (MongoStorage.stampRequest env w x).2.CreatedAt ∧
      r.UpdatedAt = (MongoStorage.stampRequest env w x).2.UpdatedAt := by
  rw [MongoStorage.mongo_GetRequest_shape env _ _ hg]
  obtain ⟨h1, h2, h3, _⟩ := MongoStorage.mongo_SaveRequest_shape env w x
  rw [h3] at hs
  rw [h2]
  generalize MongoStorage.stampRequest env w x = s at h1 hs ⊢
  generalize MongoStorage.SaveRequest env w x = r at h1 hs ⊢
  by_cases hf : env.mongoFault s.1.mongoCalls = true
  · simp [hf] at hs
  · simp only [hf, Bool.false_eq_true, if_false] at hs ⊢
    by_cases hid : s.2.ID = ""
    · simp only [hid, if_true] at h1 hs ⊢
      have hne : r.2.1.ID ≠ "" := by rw [h1]; exact hexString_ne_empty _
      rw [mongoInsertOne_find _ _ _ (StorageRequest.request_toBSON_lookup_id r.2.1 hne) hs]
      refine ⟨_, rfl, ?_, ?_⟩
      · show Document.time r.2.1.toBSON "createdAt" = _
        rw [(StorageRequest.request_toBSON_times r.2.1).1.1, h1]
      · show Document.time r.2.1.toBSON "updatedAt" = _
        rw [(StorageRequest.request_toBSON_times r.2.1).1.2, h1]
    · simp only [hid, if_false] at h1 hs ⊢
      rw [h1]
      obtain ⟨d0, hd0⟩ := mongoUpsertSet_find s.1.mongo.requests s.2.ID s.2.toBSON
        (fun kv hkv => (StorageRequest.request_toBSON_entries s.2 kv hkv).1)
      rw [hd0]
      refine ⟨_, rfl, ?_, ?_⟩
      · exact ((StorageRequest.request_toBSON_times s.2).2 d0).1
      · exact ((StorageRequest.request_toBSON_times s.2).2 d0).2

/-- On the relational adapter, a `GetRequest` that goes through after a
successful `SaveRequest` returns a record with the creation time the save
prepared and, as update time, the reading gorm took for the write. -/
theorem SQLiteStorage.sqlite_SaveRequest_stored_times (env : Env) (w : World) (x : StorageRequest)
    (hs : (SQLiteStorage.SaveRequest env w x).2.2 = none)
    (hg : env.sqliteFault (SQLiteStorage.SaveRequest env w x).1.sqliteCalls = false) :
    ∃ r, (SQLiteStorage.GetRequest env (SQLiteStorage.SaveRequest env w x).1
            (SQLiteStorage.SaveRequest env w x).2.1.ID).2 = (some r, none) ∧
      r.CreatedAt = (SQLiteStorage.prepareRequest env w x).2.CreatedAt ∧
      r.UpdatedAt = env.clock (SQLiteStorage.prepareRequest env w x).1.clockReads + 1 := by
  rw [SQLiteStorage.sqlite_GetRequest_shape env _ _ hg]
  obtain ⟨h1, h2, h3, _⟩ := SQLiteStorage.sqlite_SaveRequest_shape env w x
  rw [h3] at hs
  rw [h2, h1]
  generalize SQLiteStorage.prepareRequest env w x = m at hs ⊢
  by_cases hf : env.sqliteFault m.1.sqliteCalls = true
  · simp [hf] at hs
  · simp only [hf, Bool.false_eq_true, if_false]
    have hk := gormSave_find? SQLiteRequest.ID (fun now r => { r with UpdatedAt := now })
      id m.1.sqlite.requests (SQLiteStorage.requestRow m.2)
      (env.clock m.1.clockReads + 1) rfl rfl
    have hrow : (SQLiteStorage.requestRow m.2).ID = m.2.ID := rfl
    rw [hrow] at hk
    rw [hk]
    refine ⟨_, rfl, ?_, ?_⟩
    · split <;> rfl
    · split <;> rfl

/-! ## Lemmas: deletes and gets -/

/-- `DeleteOne` with a filter no document matches removes nothing. -/
theorem mongoDeleteOne_absent (docs : List Document) (id : String)
    (h : docs.any (fun d => d.matchesString "_id" id) = false) :
    mongoDeleteOne docs id = docs := by
  unfold mongoDeleteOne
  apply List.eraseP_of_forall_not
  intro d hd hm
  have : docs.any (fun d => d.matchesString "_id" id) = true := List.any_eq_true.mpr ⟨d, hd, hm⟩
  rw [h] at this
  exact Bool.noConfusion this

/-- A gorm `Delete` by a key no row carries removes nothing. -/
theorem filter_key_absent {α : Type} (key : α → String) (rows : List α) (id : String)
    (h : rows.any (fun r => key r == id) = false) :
    rows.filter (fun r => !(key r == id)) = rows := by
  apply List.filter_eq_self.mpr
  intro r hr
  have hk : (key r == id) = false := by
    cases hk : key r == id with
    | false => rfl
    | true =>
      have : rows.any (fun r => key r == id) = true := List.any_eq_true.mpr ⟨r, hr, hk⟩
      rw [h] at this
      exact Bool.noConfusion this
  simp [hk]

/-- A delete through the document adapter that goes through returns no
error, and leaves both stores as they were when nothing is stored under the id. -/
theorem MongoStorage.mongo_delete_spec (env : Env) (w : World) (k : EntityKind) (id : String)
    (hf : env.mongoFault w.mongoCalls = false) :
    ((MongoStorage.backend env).invoke w (k.deleteCall id)).2.err = none ∧
    ((MongoStorage.backend env).invoke w (k.deleteCall id)).1.sqlite = w.sqlite ∧
    ((MongoStorage.backend env).invoke w (k.deleteCall id)).1.sqliteCalls = w.sqliteCalls ∧
    (w.mongo.stores k id = false →
      ((MongoStorage.backend env).invoke w (k.deleteCall id)).1.mongo = w.mongo) := by
  cases k <;>
    simp only [EntityKind.deleteCall, StorageBackend.invoke, MongoStorage.backend,
      MongoStorage.DeleteCollection, MongoStorage.DeleteEnvironment,
      MongoStorage.DeleteRequest, MongoStorage.DeleteHistory, mongoCall, hf,
      Bool.false_eq_true, if_false, Reply.err, MongoDatabase.stores, true_and] <;>
    intro h <;> rw [mongoDeleteOne_absent _ _ h]

/-- A delete through the relational adapter that goes through returns no
error, and leaves both stores as they were when nothing is stored under the id. -/
theorem SQLiteStorage.sqlite_delete_spec (env : Env) (w : World) (k : EntityKind) (id : String)
    (hf : env.sqliteFault w.sqliteCalls = false) :
    ((SQLiteStorage.backend env).invoke w (k.deleteCall id)).2.err = none ∧
    ((SQLiteStorage.backend env).invoke w (k.deleteCall id)).1.mongo = w.mongo ∧
    (w.sqlite.stores k id = false →
      ((SQLiteStorage.backend env).invoke w (k.deleteCall id)).1.sqlite = w.sqlite) := by
  cases k <;>
    simp only [EntityKind.deleteCall, StorageBackend.invoke, SQLiteStorage.backend,
      SQLiteStorage.DeleteCollection, SQLiteStorage.DeleteEnvironment,
      SQLiteStorage.DeleteRequest, SQLiteStorage.DeleteHistory, sqliteCall, hf,
      Bool.false_eq_true, if_false, Reply.err, SQLiteTables.stores, true_and] <;>
    intro h <;> rw [filter_key_absent _ _ _ h]

/-- A delete through the document adapter whose driver call fails: the
error, and nothing but the call counted. -/
theorem MongoStorage.mongo_delete_fault (env : Env) (w : World) (k : EntityKind) (id : String)
    (hf : env.mongoFault w.mongoCalls = true) :
    (MongoStorage.backend env).invoke w (k.deleteCall id) =
      ({ w with mongoCalls := w.mongoCalls + 1 }, .done (some mongoUnavailable)) := by
  cases k <;>
    simp only [EntityKind.deleteCall, StorageBackend.invoke, MongoStorage.backend,
      MongoStorage.DeleteCollection, MongoStorage.DeleteEnvironment,
      MongoStorage.DeleteRequest, MongoStorage.DeleteHistory, mongoCall, hf, if_true]

/-- A delete through the relational adapter whose gorm call fails: the
error, and nothing but the call counted. -/
theorem SQLiteStorage.sqlite_delete_fault (env : Env) (w : World) (k : EntityKind) (id : String)
    (hf : env.sqliteFault w.sqliteCalls = true) :
    (SQLiteStorage.backend env).invoke w (k.deleteCall id) =
      ({ w with sqliteCalls := w.sqliteCalls + 1 }, .done (some sqliteUnavailable)) := by
  cases k <;>
    simp only [EntityKind.deleteCall, StorageBackend.invoke, SQLiteStorage.backend,
      SQLiteStorage.DeleteCollection, SQLiteStorage.DeleteEnvironment,
      SQLiteStorage.DeleteRequest, SQLiteStorage.DeleteHistory, sqliteCall, hf, if_true]

/-- The call a manager retries after a failed delete is the delete itself. -/
theorem EntityKind.deleteCall_after (k : EntityKind) (id : String) (reply : Reply) :
    (k.deleteCall id).after reply = k.deleteCall id := by
  cases k <;> rfl

/-- The contract of a get, from its first half. -/
theorem GetContract.intro {α : Type} (idOf : α → String) (stored : List α) (id : String)
    (res : Option α × GoError)
    (h : (∃ r, res = (some r, none) ∧ r ∈ stored ∧ idOf r = id) ∨ (∃ e, res = (none, some e))) :
    GetContract idOf stored id res := by
  refine ⟨h, fun habs => ?_⟩
  rcases h with ⟨r, _, hr, hid⟩ | h
  · exact absurd hid (habs r hr)
  · exact h

/-- The contract of a get over more stored records. -/
theorem GetContract.of_subset {α : Type} (idOf : α → String) (stored stored' : List α)
    (id : String) (res : Option α × GoError) (hsub : ∀ r ∈ stored, r ∈ stored')
    (h : GetContract idOf stored id res) : GetContract idOf stored' id res := by
  apply GetContract.intro
  rcases h.1 with ⟨r, hres, hr, hid⟩ | h
  · exact Or.inl ⟨r, hres, hsub r hr, hid⟩
  · exact Or.inr h

/-- `MongoStorage.GetCollection` keeps the contract of a get over the decoded
documents, and leaves both stores and the gorm counter alone. -/
theorem MongoStorage.mongo_GetCollection_contract (env : Env) (w : World) (id : String) :
    GetContract StorageCollection.ID (w.mongo.collections.map StorageCollection.fromBSON) id
      (MongoStorage.GetCollection env w id).2 ∧
    (MongoStorage.GetCollection env w id).1.sqlite = w.sqlite ∧
    (MongoStorage.GetCollection env w id).1.mongo = w.mongo ∧
    (MongoStorage.GetCollection env w id).1.sqliteCalls = w.sqliteCalls := by
  refine ⟨GetContract.intro _ _ _ _ ?_, ?_, ?_, ?_⟩
  · by_cases hf : env.mongoFault w.mongoCalls = true
    · right
      refine ⟨mongoUnavailable, ?_⟩
      simp [MongoStorage.GetCollection, mongoCall, hf]
    · rw [MongoStorage.mongo_GetCollection_shape env w id (Bool.eq_false_iff.mpr hf)]
      cases hfind : w.mongo.collections.find? (fun d => d.matchesString "_id" id) with
      | none => exact Or.inr ⟨_, rfl⟩
      | some d =>
        refine Or.inl ⟨_, rfl, List.mem_map.mpr ⟨d, List.mem_of_find?_eq_some hfind, rfl⟩, ?_⟩
        have hm : d.matchesString "_id" id = true :=
          @List.find?_some _ (fun d : Document => d.matchesString "_id" id) d _ hfind
        exact Document.str_of_lookup d "_id" id ((Document.matchesString_iff d "_id" id).mp hm)
  all_goals
    unfold MongoStorage.GetCollection
    simp only [mongoCall]
    split
    · rfl
    · split <;> rfl

/-- `SQLiteStorage.GetCollection` keeps the contract of a get over the decoded
rows, and leaves both stores alone. -/
theorem SQLiteStorage.sqlite_GetCollection_contract (env : Env) (w : World) (id : String) :
    GetContract StorageCollection.ID (w.sqlite.collections.map SQLiteCollection.toStorage) id
      (SQLiteStorage.GetCollection env w id).2 ∧
    (SQLiteStorage.GetCollection env w id).1.sqlite = w.sqlite ∧
    (SQLiteStorage.GetCollection env w id).1.mongo = w.mongo := by
  refine ⟨GetContract.intro _ _ _ _ ?_, ?_, ?_⟩
  · by_cases hf : env.sqliteFault w.sqliteCalls = true
    · right
      refine ⟨sqliteUnavailable, ?_⟩
      simp [SQLiteStorage.GetCollection, sqliteCall, hf]
    · rw [SQLiteStorage.sqlite_GetCollection_shape env w id (Bool.eq_false_iff.mpr hf)]
      cases hfind : w.sqlite.collections.find? (fun r => r.ID == id) with
      | none => exact Or.inr ⟨_, rfl⟩
      | some row =>
        refine Or.inl ⟨_, rfl, List.mem_map.mpr ⟨row, List.mem_of_find?_eq_some hfind, rfl⟩, ?_⟩
        have := List.find?_some hfind
        simpa [SQLiteCollection.toStorage] using this
  all_goals
    unfold SQLiteStorage.GetCollection
    simp only [sqliteCall]
    split
    · rfl
    · split <;> rfl

/-- `MongoStorage.GetEnvironment` keeps the contract of a get over the decoded
documents, and leaves both stores and the gorm counter alone. -/
theorem MongoStorage.mongo_GetEnvironment_contract (env : Env) (w : World) (id : String) :
    GetContract StorageEnvironment.ID (w.mongo.environments.map StorageEnvironment.fromBSON) id
      (MongoStorage.GetEnvironment env w id).2 ∧
    (MongoStorage.GetEnvironment env w id).1.sqlite = w.sqlite ∧
    (MongoStorage.GetEnvironment env w id).1.mongo = w.mongo ∧
    (MongoStorage.GetEnvironment env w id).1.sqliteCalls = w.sqliteCalls := by
  refine ⟨GetContract.intro _ _ _ _ ?_, ?_, ?_, ?_⟩
  · by_cases hf : env.mongoFault w.mongoCalls = true
    · right
      refine ⟨mongoUnavailable, ?_⟩
      simp [MongoStorage.GetEnvironment, mongoCall, hf]
    · rw [MongoStorage.mongo_GetEnvironment_shape env w id (Bool.eq_false_iff.mpr hf)]
      cases hfind : w.mongo.environments.find? (fun d => d.matchesString "_id" id) with
      | none => exact Or.inr ⟨_, rfl⟩
      | some d =>
        refine Or.inl ⟨_, rfl, List.mem_map.mpr ⟨d, List.mem_of_find?_eq_some hfind, rfl⟩, ?_⟩
        have hm : d.matchesString "_id" id = true :=
          @List.find?_some _ (fun d : Document => d.matchesString "_id" id) d _ hfind
        exact Document.str_of_lookup d "_id" id ((Document.matchesString_iff d "_id" id).mp hm)
  all_goals
    unfold MongoStorage.GetEnvironment
    simp only [mongoCall]
    split
    · rfl
    · split <;> rfl

/-- `SQLiteStorage.GetEnvironment` keeps the contract of a get over the decoded
rows, and leaves both stores alone. -/
theorem SQLiteStorage.sqlite_GetEnvironment_contract (env : Env) (w : World) (id : String) :
    GetContract StorageEnvironment.ID (w.sqlite.environments.map SQLiteEnvironment.toStorage) id
      (SQLiteStorage.GetEnvironment env w id).2 ∧
    (SQLiteStorage.GetEnvironment env w id).1.sqlite = w.sqlite ∧
    (SQLiteStorage.GetEnvironment env w id).1.mongo = w.mongo := by
  refine ⟨GetContract.intro _ _ _ _ ?_, ?_, ?_⟩
  · by_cases hf : env.sqliteFault w.sqliteCalls = true
    · right
      refine ⟨sqliteUnavailable, ?_⟩
      simp [SQLiteStorage.GetEnvironment, sqliteCall, hf]
    · rw [SQLiteStorage.sqlite_GetEnvironment_shape env w id (Bool.eq_false_iff.mpr hf)]
      cases hfind : w.sqlite.environments.find? (fun r => r.ID == id) with
      | none => exact Or.inr ⟨_, rfl⟩
      | some row =>
        refine Or.inl ⟨_, rfl, List.mem_map.mpr ⟨row, List.mem_of_find?_eq_some hfind, rfl⟩, ?_⟩
        have := List.find?_some hfind
        simpa [SQLiteEnvironment.toStorage] using this
  all_goals
    unfold SQLiteStorage.GetEnvironment
    simp only [sqliteCall]
    split
    · rfl
    · split <;> rfl

/-- `MongoStorage.GetRequest` keeps the contract of a get over the decoded
documents, and leaves both stores and the gorm counter alone. -/
theorem MongoStorage.mongo_GetRequest_contract (env : Env) (w : World) (id : String) :
    GetContract StorageRequest.ID (w.mongo.requests.map StorageRequest.fromBSON) id
      (MongoStorage.GetRequest env w id).2 ∧
    (MongoStorage.GetRequest env w id).1.sqlite = w.sqlite ∧
    (MongoStorage.GetRequest env w id).1.mongo = w.mongo ∧
    (MongoStorage.GetRequest env w id).1.sqliteCalls = w.sqliteCalls := by
  refine ⟨GetContract.intro _ _ _ _ ?_, ?_, ?_, ?_⟩
  · by_cases hf : env.mongoFault w.mongoCalls = true
    · right
      refine ⟨mongoUnavailable, ?_⟩
      simp [MongoStorage.GetRequest, mongoCall, hf]
    · rw [MongoStorage.mongo_GetRequest_shape env w id (Bool.eq_false_iff.mpr hf)]
      cases hfind : w.mongo.requests.find? (fun d => d.matchesString "_id" id) with
      | none => exact Or.inr ⟨_, rfl⟩
      | some d =>
        refine Or.inl ⟨_, rfl, List.mem_map.mpr ⟨d, List.mem_of_find?_eq_some hfind, rfl⟩, ?_⟩
        have hm : d.matchesString "_id" id = true :=
          @List.find?_some _ (fun d : Document => d.matchesString "_id" id) d _ hfind
        exact Document.str_of_lookup d "_id" id ((Document.matchesString_iff d "_id" id).mp hm)
  all_goals
    unfold MongoStorage.GetRequest
    simp only [mongoCall]
    split
    · rfl
    · split <;> rfl

/-- `SQLiteStorage.GetRequest` keeps the contract of a get over the decoded
rows, and leaves both stores alone. -/
theorem SQLiteStorage.sqlite_GetRequest_contract (env : Env) (w : World) (id : String) :
    GetContract StorageRequest.ID (w.sqlite.requests.map SQLiteRequest.toStorage) id
      (SQLiteStorage.GetRequest env w id).2 ∧
    (SQLiteStorage.GetRequest env w id).1.sqlite = w.sqlite ∧
    (SQLiteStorage.GetRequest env w id).1.mongo = w.mongo := by
  refine ⟨GetContract.intro _ _ _ _ ?_, ?_, ?_⟩
  · by_cases hf : env.sqliteFault w.sqliteCalls = true
    · right
      refine ⟨sqliteUnavailable, ?_⟩
      simp [SQLiteStorage.GetRequest, sqliteCall, hf]
    · rw [SQLiteStorage.sqlite_GetRequest_shape env w id (Bool.eq_false_iff.mpr hf)]
      cases hfind : w.sqlite.requests.find? (fun r => r.ID == id) with
      | none => exact Or.inr ⟨_, rfl⟩
      | some row =>
        refine Or.inl ⟨_, rfl, List.mem_map.mpr ⟨row, List.mem_of_find?_eq_some hfind, rfl⟩, ?_⟩
        have := List.find?_some hfind
        simpa [SQLiteRequest.toStorage] using this
  all_goals
    unfold SQLiteStorage.GetRequest
    simp only [sqliteCall]
    split
    · rfl
    · split <;> rfl

/-! ## Lemmas: the outcomes of `CreateRoom` -/

/-- The two outcomes of the insert `CreateRoom` runs: an error with the
tables as they were, or the room appended to the rooms table under the next
key with the columns gorm fills; the token counter is not touched. -/
theorem RoomService.dbCreateRoom_cases (env : RoomEnv) (w : RoomWorld) (room : Room) :
    (RoomService.dbCreateRoom env w room).1.tokenCalls = w.tokenCalls ∧
    (((RoomService.dbCreateRoom env w room).2.2 ≠ none ∧
        (RoomService.dbCreateRoom env w room).1.DB = w.DB) ∨
      ((RoomService.dbCreateRoom env w room).2.2 = none ∧
        (RoomService.dbCreateRoom env w room).2.1 =
          { (room.onCreate (env.clock w.clockReads + 1)) with ID := w.DB.rooms.seq + 1 } ∧
        (RoomService.dbCreateRoom env w room).1.DB =
          { w.DB with
            rooms := { rows := w.DB.rooms.rows ++ [(RoomService.dbCreateRoom env w room).2.1],
                       seq := w.DB.rooms.seq + 1 } })) := by
  unfold RoomService.dbCreateRoom
  simp only [RoomWorld.dbCall, RoomWorld.now, Table.insert]
  by_cases hf : env.dbFault w.dbCalls = true
  · simp [hf]
  · by_cases hu : w.DB.rooms.rows.any (fun r => r.RoomID == room.RoomID) = true
    · simp [hf, hu]
    · simp [hf, hu]

/-- The outcomes of `CreateRoom`: an error before anything was written and
before a token was asked for; or the room row written, a token asked for, and
then either an error or the response for that row. -/
theorem RoomService.CreateRoom_cases (env : RoomEnv) (w : RoomWorld) (req : CreateRoomRequest) :
    (∃ msg, (RoomService.CreateRoom env w req).2 = .err msg ∧
      (RoomService.CreateRoom env w req).1.DB = w.DB ∧
      (RoomService.CreateRoom env w req).1.tokenCalls = w.tokenCalls) ∨
    (∃ row : Room,
      (RoomService.CreateRoom env w req).1.DB =
        { w.DB with rooms := { rows := w.DB.rooms.rows ++ [row],
                               seq := w.DB.rooms.seq + 1 } } ∧
      (RoomService.CreateRoom env w req).1.tokenCalls = w.tokenCalls + 1 ∧
      row.ID = w.DB.rooms.seq + 1 ∧ row.Name = req.Name ∧ row.Description = req.Description ∧
      row.DeviceLimit = (if req.DeviceLimit = 0 then 3 else req.DeviceLimit) ∧
      row.RoomType = (if req.RoomType = "" then "free" else req.RoomType) ∧
      row.IsActive = true ∧
      ((∃ msg, (RoomService.CreateRoom env w req).2 = .err msg ∧
          (RoomService.GenerateRoomToken env w row.ID row.RoomID).2.2 = some msg) ∨
        ∃ token, (RoomService.CreateRoom env w req).2 =
          .ok { Room := { row with Password := "" }, Token := token, RoomID := row.RoomID })) := by
  unfold RoomService.CreateRoom
  by_cases h1 : req.Name = ""
  · exact Or.inl ⟨"room name is required", by simp [h1]⟩
  by_cases h2 : req.Password = ""
  · exact Or.inl ⟨"password is required", by simp [h1, h2]⟩
  by_cases h3 : req.Password.utf8ByteSize < 6
  · exact Or.inl ⟨"password must be at least 6 characters", by simp [h1, h2, h3]⟩
  simp only [h1, h2, h3, if_false]
  have hg : (RoomService.generateRoomID env w).1.DB = w.DB ∧
      (RoomService.generateRoomID env w).1.tokenCalls = w.tokenCalls := by
    unfold RoomService.generateRoomID
    split <;> exact ⟨rfl, rfl⟩
  generalize RoomService.generateRoomID env w = g at hg ⊢
  obtain ⟨gw, gid, ge⟩ := g
  cases ge with
  | some e => exact Or.inl ⟨e, rfl, hg.1, hg.2⟩
  | none =>
    simp only
    have hh : (RoomService.HashPassword env gw req.Password).1.DB = gw.DB ∧
        (RoomService.HashPassword env gw req.Password).1.tokenCalls = gw.tokenCalls :=
      ⟨rfl, rfl⟩
    generalize RoomService.HashPassword env gw req.Password = h at hh ⊢
    obtain ⟨hw, hp, he⟩ := h
    simp only at hg hh
    cases he with
    | some e => exact Or.inl ⟨e, rfl, hh.1.trans hg.1, hh.2.trans hg.2⟩
    | none =>
      simp only
      obtain ⟨ct, cc⟩ := RoomService.dbCreateRoom_cases env hw
        { ID := 0, RoomID := gid, Name := req.Name, Password := hp,
          Description := req.Description,
          RoomType := if req.RoomType = "" then "free" else req.RoomType,
          DeviceLimit := if req.DeviceLimit = 0 then 3 else req.DeviceLimit,
          IsActive := true, CreatedAt := 0, UpdatedAt := 0 }
      generalize RoomService.dbCreateRoom env hw
        { ID := 0, RoomID := gid, Name := req.Name, Password := hp,
          Description := req.Description,
          RoomType := if req.RoomType = "" then "free" else req.RoomType,
          DeviceLimit := if req.DeviceLimit = 0 then 3 else req.DeviceLimit,
          IsActive := true, CreatedAt := 0, UpdatedAt := 0 } = c at ct cc ⊢
      obtain ⟨cw, crow, ce⟩ := c
      simp only at ct cc
      rcases cc with ⟨hne, hdb⟩ | ⟨hnone, hrow, hdb⟩
      · cases ce with
        | none => exact absurd rfl hne
        | some e =>
          exact Or.inl ⟨e, rfl, hdb.trans (hh.1.trans hg.1), ct.trans (hh.2.trans hg.2)⟩
      · subst hnone
        simp only
        right
        refine ⟨crow, ?_, ?_, ?_, ?_, ?_, ?_, ?_, ?_, ?_⟩
        · have hwdb : hw.DB = w.DB := hh.1.trans hg.1
          rw [hwdb] at hdb
          unfold RoomService.GenerateRoomToken
          split <;> exact hdb
        · unfold RoomService.GenerateRoomToken
          have : cw.tokenCalls = w.tokenCalls := ct.trans (hh.2.trans hg.2)
          split <;> simp [this]
        · rw [hrow, hh.1.trans hg.1]
        · rw [hrow]; rfl
        · rw [hrow]; rfl
        · rw [hrow]
          simp only [Room.onCreate]
          by_cases hd : req.DeviceLimit = 0
          · simp [hd]
          · simp [hd]
        · rw [hrow]
          simp only [Room.onCreate]
          by_cases hd : req.RoomType = ""
          · simp [hd]
          · simp [hd]
        · rw [hrow]; rfl
        · have hrid : crow.RoomID = gid := by rw [hrow]; rfl
          have htc : cw.tokenCalls = w.tokenCalls := ct.trans (hh.2.trans hg.2)
          unfold RoomService.GenerateRoomToken
          simp only [hrid, htc]
          split
          · rename_i e he
            exact Or.inl ⟨e, rfl, he⟩
          · exact Or.inr ⟨_, rfl⟩

/-- `CreateRoom` returns a response when the request passes validation and
every collaborator answers: the random source, bcrypt, the insert (no stored
room carries the generated public id) and the token service. -/
theorem RoomService.CreateRoom_succeeds (env : RoomEnv) (w : RoomWorld)
    (req : CreateRoomRequest)
    (hname : req.Name ≠ "") (hpw : req.Password ≠ "") (hlen : 6 ≤ req.Password.utf8ByteSize)
    (hrand : (RoomService.generateRoomID env w).2.2 = none)
    (hhash : (env.bcryptGenerate w.bcryptCalls req.Password).2 = none)
    (hdb : env.dbFault w.dbCalls = false)
    (huniq : ∀ r ∈ w.DB.rooms.rows, r.RoomID ≠ (RoomService.generateRoomID env w).2.1)
    (htok : ∀ user ws, (env.GenerateToken w.tokenCalls user ws).2 = none) :
    ∃ resp, (RoomService.CreateRoom env w req).2 = .ok resp := by
  have hany : w.DB.rooms.rows.any
      (fun r => r.RoomID == (RoomService.generateRoomID env w).2.1) = false := by
    cases hp : w.DB.rooms.rows.any
        (fun r => r.RoomID == (RoomService.generateRoomID env w).2.1) with
    | false => rfl
    | true =>
      obtain ⟨r, hr, hq⟩ := List.any_eq_true.mp hp
      exact absurd (by simpa using hq) (huniq r hr)
  have hgw : (RoomService.generateRoomID env w).1 = { w with randReads := w.randReads + 1 } := by
    unfold RoomService.generateRoomID
    split <;> rfl
  unfold RoomService.CreateRoom
  rw [if_neg hname, if_neg hpw, if_neg (by omega)]
  simp only [hrand, RoomService.HashPassword, hgw, hhash, RoomService.dbCreateRoom,
    RoomWorld.dbCall, hdb, Bool.false_eq_true, if_false, hany, RoomWorld.now, Table.insert,
    RoomService.GenerateRoomToken, htok]
  exact ⟨_, rfl⟩

/-! ## The device a join registers -/

theorem takeBytes_single_byte (n : Nat) (cs : List Char)
    (h : ∀ c ∈ cs.take n, c.utf8Size = 1) : takeBytes n cs = cs.take n := by
  induction cs generalizing n with
  | nil => simp [takeBytes]
  | cons c cs ih =>
    cases n with
    | zero =>
      have := Char.utf8Size_pos c
      simp only [takeBytes, List.take_zero]
      rw [if_neg (by omega)]
    | succ m =>
      have hc : c.utf8Size = 1 := h c (by simp)
      have ih' := ih m (fun x hx => h x (by simp [hx]))
      simp only [takeBytes, List.take_succ_cons, hc]
      rw [if_pos (by omega)]
      simp [ih']

theorem RoomService.updateDevice_length (env : RoomEnv) (w : RoomWorld) (existing : RoomDevice)
    (f : RoomDevice → RoomDevice) :
    (RoomService.updateDevice env w existing f).DB.roomDevices.rows.length =
      w.DB.roomDevices.rows.length := by
  unfold RoomService.updateDevice
  simp only [RoomWorld.dbCall]
  split
  · rfl
  · simp

/-- What `JoinRoom` does to the device table: it keeps the number of rows, or
it appends one row for the joining device whose name is the supplied one,
or "Device " and the slice `DeviceID[:8]` when the supplied one is blank. -/
theorem RoomService.JoinRoom_devices (env : RoomEnv) (w : RoomWorld) (req : JoinRoomRequest) :
    (RoomService.JoinRoom env w req).1.DB.roomDevices.rows.length =
        w.DB.roomDevices.rows.length ∨
    ∃ d : RoomDevice,
      (RoomService.JoinRoom env w req).1.DB.roomDevices.rows = w.DB.roomDevices.rows ++ [d] ∧
      d.DeviceID = req.DeviceID ∧
      (if req.DeviceName = "" then (sliceTo req.DeviceID 8).map (fun p => "Device " ++ p)
        else some req.DeviceName) = some d.DeviceName := by
  unfold RoomService.JoinRoom
  simp only []
  split
  · exact Or.inl rfl
  split
  · exact Or.inl rfl
  split
  · exact Or.inl rfl
  cases hfind : (RoomService.findRoomByRoomID env w req.RoomID).2 with
  | none =>
    simp only []
    exact Or.inl (by simp [RoomService.findRoomByRoomID, RoomWorld.dbCall])
  | some room =>
    simp only []
    have h0 : (RoomService.findRoomByRoomID env w req.RoomID).1.DB = w.DB := by
      simp [RoomService.findRoomByRoomID, RoomWorld.dbCall]
    split
    · exact Or.inl (by rw [h0])
    cases hpw : RoomService.CheckPassword env room.Password req.Password with
    | some _ => exact Or.inl (by simp only []; rw [h0])
    | none =>
      simp only []
      generalize hk : RoomService.countDevices env
        (RoomService.findRoomByRoomID env w req.RoomID).1 room.ID = k
      have h1 : k.1.DB = w.DB := by
        rw [← hk, ← h0]
        simp [RoomService.countDevices, RoomWorld.dbCall]
      generalize hx : RoomService.findDevice env k.1 room.ID req.DeviceID = x
      have h2 : x.1.DB = w.DB := by
        rw [← hx, ← h1]
        simp [RoomService.findDevice, RoomWorld.dbCall]
      cases hx2 : x.2 with
      | none =>
        simp only []
        split
        · exact Or.inl (by rw [h2])
        · cases hname : (if req.DeviceName = "" then
              (sliceTo req.DeviceID 8).map (fun p => "Device " ++ p)
            else some req.DeviceName) with
          | none => exact Or.inl (by simp only []; rw [h2])
          | some deviceName =>
            simp only [RoomService.dbCreateDevice, RoomWorld.dbCall, RoomWorld.now]
            by_cases hc : env.dbFault x.1.dbCalls = true
            · simp only [hc, if_true]
              exact Or.inl (by rw [h2])
            · simp only [hc, Bool.false_eq_true, if_false]
              rw [RoomService.joinRoomResponse_DB]
              refine Or.inr ⟨{ (RoomDevice.onCreate (env.clock (x.1.clockReads + 1) + 1)
                { ID := 0, RoomID := room.ID, DeviceName := deviceName, DeviceID := req.DeviceID,
                  LastActive := env.clock x.1.clockReads + 1, CreatedAt := 0 }) with
                  ID := x.1.DB.roomDevices.seq + 1 }, ?_, ?_, ?_⟩
              · simp only [Table.insert, h2]
              · rfl
              · rfl
      | some existing =>
        simp only []
        rw [RoomService.joinRoomResponse_DB]
        refine Or.inl ?_
        split
        · rw [RoomService.updateDevice_length, RoomService.updateDevice_length]
          simp [RoomWorld.now, h2]
        · rw [RoomService.updateDevice_length]
          simp [RoomWorld.now, h2]

/-! ## What a batch leaves alone -/

theorem filter_map_update {α : Type} (p q : α → Bool) (u : α) (hu : p u = false)
    (hpq : ∀ r, p r = true → q r = false) (rows : List α) :
    (rows.map (fun r => if q r then u else r)).filter p = rows.filter p := by
  induction rows with
  | nil => rfl
  | cons r rs ih =>
    simp only [List.map_cons, List.filter_cons]
    by_cases hq : q r = true
    · have hp : p r = false := by
        cases hpr : p r with
        | false => rfl
        | true => rw [hpq r hpr] at hq; simp at hq
      simp [hq, hu, hp, ih]
    · simp [hq, ih]

/-- One write of a batch entity whose key is not `k` leaves the rows under a
key `k` the sequence had handed out as they were. -/
theorem Table.upsert_frame {α : Type} (pk : α → Nat) (setID : Nat → α → α)
    (touch onCreate : Time → α → α)
    (hpkT : ∀ now x, pk (touch now x) = pk x) (hpkC : ∀ now x, pk (onCreate now x) = pk x)
    (hpkS : ∀ k r, pk (setID k r) = k)
    (t : Table α) (x : α) (now : Time) (k : Nat) (hk : k ≤ t.seq) (hx : pk x ≠ k) :
    Table.rowsAt pk (Table.upsert pk setID touch onCreate t x now) k = Table.rowsAt pk t k ∧
    t.seq ≤ (Table.upsert pk setID touch onCreate t x now).seq := by
  unfold Table.upsert Table.rowsAt
  split
  · unfold Table.save
    split
    · refine ⟨?_, le_refl _⟩
      simp only []
      apply filter_map_update
      · simp [hpkT, hx]
      · intro r hr
        have : pk r = k := by simpa using hr
        simp [this, Ne.symm hx]
    · refine ⟨?_, le_max_left _ _⟩
      simp [List.filter_append, hpkC, hpkT, hx]
  · refine ⟨?_, Nat.le_succ _⟩
    simp only [Table.insert, List.filter_append]
    have : (pk (setID (t.seq + 1) (onCreate now x)) == k) = false := by
      rw [hpkS]
      simp
      omega
    simp [this]

/-- The writes of a batch none of whose entities has the key `k` leave the
rows under a key `k` the sequence had handed out as they were. -/
theorem Table.Upserts.frame {α : Type} (pk : α → Nat) (setID : Nat → α → α)
    (touch onCreate : Time → α → α)
    (hpkT : ∀ now x, pk (touch now x) = pk x) (hpkC : ∀ now x, pk (onCreate now x) = pk x)
    (hpkS : ∀ k r, pk (setID k r) = k)
    {t : Table α} {xs : List α} {t' : Table α}
    (h : Table.Upserts pk setID touch onCreate t xs t') (k : Nat) (hk : k ≤ t.seq)
    (hx : ∀ x ∈ xs, pk x ≠ k) :
    Table.rowsAt pk t' k = Table.rowsAt pk t k := by
  induction h with
  | nil t => rfl
  | cons t x now xs t' _ ih =>
    obtain ⟨h1, h2⟩ := Table.upsert_frame pk setID touch onCreate hpkT hpkC hpkS t x now k hk
      (hx x (by simp))
    rw [ih (le_trans hk h2) (fun y hy => hx y (by simp [hy])), h1]

/-- A `SyncRoomData` that does not succeed leaves the tables as they were. -/
theorem RoomService.SyncRoomData_failure_keeps (env : RoomEnv) (w : RoomWorld) (roomID : Nat)
    (data : RoomDataResponse)
    (h : (RoomService.SyncRoomData env w roomID data).2 ≠ .ok ()) :
    (RoomService.SyncRoomData env w roomID data).1.DB = w.DB := by
  unfold RoomService.SyncRoomData at h ⊢
  simp only [] at h ⊢
  have hsnap := Tx.Begin_snapshot env w
  generalize Tx.Begin env w = b at h hsnap ⊢
  generalize RoomService.syncCollections env b.2 roomID data.Collections b.1 = c at h ⊢
  generalize RoomService.syncEnvironments env b.2 roomID data.Environments c.1 = e at h ⊢
  generalize RoomService.syncRequests env b.2 data.Requests e.1 = r at h ⊢
  have hk := Tx.Commit_error env r.1 b.2
  generalize Tx.Commit env r.1 b.2 = k at h hk ⊢
  obtain ⟨cw, ce⟩ := c
  obtain ⟨ew, ee⟩ := e
  obtain ⟨rw', re⟩ := r
  obtain ⟨kw, ke⟩ := k
  cases ce with
  | some _ => simpa [Tx.Rollback] using hsnap
  | none =>
    cases ee with
    | some _ => simpa [Tx.Rollback] using hsnap
    | none =>
      cases re with
      | some _ => simpa [Tx.Rollback] using hsnap
      | none =>
        cases ke with
        | some _ => simpa [hsnap] using hk
        | none => simp at h

/-- The frame of `SyncRoomData`: the rows stored under a key that no batch
entity of the kind carries are as they were. -/
theorem RoomService.SyncRoomData_frame (env : RoomEnv) (w : RoomWorld) (roomID : Nat)
    (data : RoomDataResponse) :
    (∀ k, k ≤ w.DB.collections.seq → (∀ c ∈ data.Collections, c.ID ≠ k) →
      Table.rowsAt DBCollection.ID (RoomService.SyncRoomData env w roomID data).1.DB.collections k
        = Table.rowsAt DBCollection.ID w.DB.collections k) ∧
    (∀ k, k ≤ w.DB.environments.seq → (∀ e ∈ data.Environments, e.ID ≠ k) →
      Table.rowsAt DBEnvironment.ID
          (RoomService.SyncRoomData env w roomID data).1.DB.environments k
        = Table.rowsAt DBEnvironment.ID w.DB.environments k) ∧
    (∀ k, k ≤ w.DB.requests.seq → (∀ r ∈ data.Requests, r.ID ≠ k) →
      Table.rowsAt DBRequest.ID (RoomService.SyncRoomData env w roomID data).1.DB.requests k
        = Table.rowsAt DBRequest.ID w.DB.requests k) := by
  by_cases hok : (RoomService.SyncRoomData env w roomID data).2 = .ok ()
  · obtain ⟨uc, ue, ur⟩ := RoomService.SyncRoomData_upserts env w roomID data hok
    refine ⟨fun k hk hx => ?_, fun k hk hx => ?_, fun k hk hx => ?_⟩
    · refine Table.Upserts.frame DBCollection.ID (fun i r => { r with ID := i })
        (fun now c => { c with UpdatedAt := now }) DBCollection.onCreate
        (fun _ _ => rfl) (fun _ _ => rfl) (fun _ _ => rfl) uc k hk ?_
      intro x hx'
      obtain ⟨c, hc, rfl⟩ := List.mem_map.mp hx'
      exact hx c hc
    · refine Table.Upserts.frame DBEnvironment.ID (fun i r => { r with ID := i })
        (fun now c => { c with UpdatedAt := now }) DBEnvironment.onCreate
        (fun _ _ => rfl) (fun _ _ => rfl) (fun _ _ => rfl) ue k hk ?_
      intro x hx'
      obtain ⟨c, hc, rfl⟩ := List.mem_map.mp hx'
      exact hx c hc
    · exact Table.Upserts.frame DBRequest.ID (fun i r => { r with ID := i })
        (fun now c => { c with UpdatedAt := now }) DBRequest.onCreate
        (fun _ _ => rfl) (fun _ _ => rfl) (fun _ _ => rfl) ur k hk hx
  · rw [RoomService.SyncRoomData_failure_keeps env w roomID data hok]
    exact ⟨fun _ _ _ => rfl, fun _ _ _ => rfl, fun _ _ _ => rfl⟩

/-! ## A get after a delete -/

theorem eraseP_any_false {α : Type} (p : α → Bool) (l : List α)
    (h : (l.filter p).length ≤ 1) : (l.eraseP p).any p = false := by
  induction l with
  | nil => rfl
  | cons a l ih =>
    by_cases hp : p a = true
    · rw [List.eraseP_cons_of_pos hp]
      rw [List.filter_cons_of_pos hp] at h
      have hnil : l.filter p = [] := List.length_eq_zero.mp (by rw [List.length_cons] at h; omega)
      cases hany : l.any p with
      | false => rfl
      | true =>
        obtain ⟨x, hx, hpx⟩ := List.any_eq_true.mp hany
        have : x ∈ l.filter p := List.mem_filter.mpr ⟨hx, hpx⟩
        rw [hnil] at this
        simp at this
    · rw [List.eraseP_cons_of_neg hp]
      rw [List.filter_cons_of_neg hp] at h
      simp [hp, ih h]

theorem filter_key_removed {α : Type} (key : α → String) (rows : List α) (id : String) :
    (rows.filter (fun r => !(key r == id))).any (fun r => key r == id) = false := by
  cases hany : (rows.filter (fun r => !(key r == id))).any (fun r => key r == id) with
  | false => rfl
  | true =>
    obtain ⟨x, hx, hpx⟩ := List.any_eq_true.mp hany
    have := (List.mem_filter.mp hx).2
    simp [hpx] at this

/-- A delete through the document adapter that goes through leaves no
document under the id, when at most one was there. -/
theorem MongoStorage.mongo_delete_removes (env : Env) (w : World) (k : EntityKind)
    (id : String) (hf : env.mongoFault w.mongoCalls = false)
    (hone : (w.mongo.matching k id).length ≤ 1) :
    ((MongoStorage.backend env).invoke w (k.deleteCall id)).1.mongo.stores k id = false := by
  cases k <;>
    simp only [EntityKind.deleteCall, StorageBackend.invoke, MongoStorage.backend,
      MongoStorage.DeleteCollection, MongoStorage.DeleteEnvironment,
      MongoStorage.DeleteRequest, MongoStorage.DeleteHistory, mongoCall, hf,
      Bool.false_eq_true, if_false, MongoDatabase.stores, mongoDeleteOne] <;>
    exact eraseP_any_false _ _ hone

/-- A delete through the relational adapter that goes through leaves no row
under the id. -/
theorem SQLiteStorage.sqlite_delete_removes (env : Env) (w : World) (k : EntityKind)
    (id : String) (hf : env.sqliteFault w.sqliteCalls = false) :
    ((SQLiteStorage.backend env).invoke w (k.deleteCall id)).1.sqlite.stores k id = false := by
  cases k <;>
    simp only [EntityKind.deleteCall, StorageBackend.invoke, SQLiteStorage.backend,
      SQLiteStorage.DeleteCollection, SQLiteStorage.DeleteEnvironment,
      SQLiteStorage.DeleteRequest, SQLiteStorage.DeleteHistory, sqliteCall, hf,
      Bool.false_eq_true, if_false, SQLiteTables.stores] <;>
    exact filter_key_removed _ _ _

theorem find?_none_of_any_false {α : Type} (p : α → Bool) (l : List α)
    (h : l.any p = false) : l.find? p = none := by
  apply List.find?_eq_none.mpr
  intro x hx hpx
  have : l.any p = true := List.any_eq_true.mpr ⟨x, hx, hpx⟩
  rw [h] at this
  exact Bool.noConfusion this

/-- A get through the document adapter of an id it holds no document under
returns an error and leaves the stores as they were. -/
theorem MongoStorage.mongo_get_absent (env : Env) (w : World) (k : EntityKind) (id : String)
    (call : Call) (hcall : k.getCall id = some call) (h : w.mongo.stores k id = false) :
    ((MongoStorage.backend env).invoke w call).2.err ≠ none ∧
    ((MongoStorage.backend env).invoke w call).1.mongo = w.mongo ∧
    ((MongoStorage.backend env).invoke w call).1.sqlite = w.sqlite ∧
    call.after ((MongoStorage.backend env).invoke w call).2 = call := by
  cases k <;> simp only [EntityKind.getCall, Option.some.injEq] at hcall <;>
    first
    | exact absurd hcall (by simp)
    | (subst hcall
       simp only [MongoDatabase.stores] at h
       have hfind := find?_none_of_any_false _ _ h
       by_cases hf : env.mongoFault w.mongoCalls = true <;>
         simp [StorageBackend.invoke, MongoStorage.backend, MongoStorage.GetCollection,
           MongoStorage.GetEnvironment, MongoStorage.GetRequest, mongoCall, hf, hfind,
           Reply.err, Call.after])

/-- A get through the relational adapter of an id it holds no row under
returns an error and leaves the stores as they were. -/
theorem SQLiteStorage.sqlite_get_absent (env : Env) (w : World) (k : EntityKind) (id : String)
    (call : Call) (hcall : k.getCall id = some call) (h : w.sqlite.stores k id = false) :
    ((SQLiteStorage.backend env).invoke w call).2.err ≠ none ∧
    ((SQLiteStorage.backend env).invoke w call).1.mongo = w.mongo ∧
    ((SQLiteStorage.backend env).invoke w call).1.sqlite = w.sqlite ∧
    call.after ((SQLiteStorage.backend env).invoke w call).2 = call := by
  cases k <;> simp only [EntityKind.getCall, Option.some.injEq] at hcall <;>
    first
    | exact absurd hcall (by simp)
    | (subst hcall
       simp only [SQLiteTables.stores] at h
       have hfind := find?_none_of_any_false _ _ h
       by_cases hf : env.sqliteFault w.sqliteCalls = true <;>
         simp [StorageBackend.invoke, SQLiteStorage.backend, SQLiteStorage.GetCollection,
           SQLiteStorage.GetEnvironment, SQLiteStorage.GetRequest, sqliteCall, hf, hfind,
           Reply.err, Call.after])

/-! ## The rows a batch adds -/

/-- The writes of a batch, cut at one of its entities. -/
theorem Table.Upserts.split {α : Type} (pk : α → Nat) (setID : Nat → α → α)
    (touch onCreate : Time → α → α) (x : α) (post : List α) :
    ∀ (pre : List α) (t t' : Table α),
      Table.Upserts pk setID touch onCreate t (pre ++ x :: post) t' →
      ∃ (t1 : Table α) (now : Time),
        Table.Upserts pk setID touch onCreate t pre t1 ∧
        Table.Upserts pk setID touch onCreate
          (Table.upsert pk setID touch onCreate t1 x now) post t' := by
  intro pre
  induction pre with
  | nil =>
    intro t t' h
    cases h with
    | cons _ _ now _ _ h' => exact ⟨t, now, Table.Upserts.nil t, h'⟩
  | cons a pre ih =>
    intro t t' h
    cases h with
    | cons _ _ now0 _ _ h' =>
      obtain ⟨t1, now, h1, h2⟩ := ih _ _ h'
      exact ⟨t1, now, Table.Upserts.cons t a now0 pre t1 h1, h2⟩

theorem StorageManager.invoke_routing {ω : Type} (sm : StorageManager ω) (w : ω)
    (call : Call) :
    ((sm.primary.invoke w call).2.err = none →
      sm.invoke w call = sm.primary.invoke w call) ∧
    (∀ fb, (sm.primary.invoke w call).2.err ≠ none → sm.fallback = some fb →
      sm.invoke w call =
        fb.invoke (sm.primary.invoke w call).1 (call.after (sm.primary.invoke w call).2)) ∧
    ((sm.primary.invoke w call).2.err ≠ none → sm.fallback = none →
      sm.invoke w call = sm.primary.invoke w call) := by
  cases call <;>
    simp only [StorageBackend.invoke, StorageManager.invoke, Reply.err, Call.after,
      StorageManager.SaveCollection, StorageManager.GetCollection,
      StorageManager.GetCollectionsByRoom, StorageManager.GetAllCollections,
      StorageManager.DeleteCollection, StorageManager.SaveEnvironment,
      StorageManager.GetEnvironment, StorageManager.GetEnvironmentsByRoom,
      StorageManager.GetAllEnvironments, StorageManager.DeleteEnvironment,
      StorageManager.SaveRequest, StorageManager.GetRequest,
      StorageManager.GetRequestsByCollection, StorageManager.GetAllRequests,
      StorageManager.DeleteRequest, StorageManager.SaveHistory,
      StorageManager.GetHistoryByRoom, StorageManager.GetAllHistory,
      StorageManager.DeleteHistory] <;>
    refine ⟨fun h => ?_, fun fb h hf => ?_, fun h hf => ?_⟩
  all_goals first
    | (simp only [h])
    | (obtain ⟨e, he⟩ := Option.ne_none_iff_exists'.mp h
       simp only [he, hf])

/-- C1. Routing of every StorageManager operation: when the primary returns
no error the manager returns the primary's result and leaves the world as the
primary left it (the fallback is not invoked); when the primary returns an
error and a fallback is configured the manager returns exactly what the
fallback returns for the same call, run after the primary's attempt on the
same pointer argument; when the primary returns an error and there is no
fallback the manager returns the primary's error. -/
theorem C1_manager_routes_primary_then_fallback {ω : Type} (sm : StorageManager ω) (w : ω)
    (call : Call) :
    ((sm.primary.invoke w call).2.err = none →
      sm.invoke w call = sm.primary.invoke w call) ∧
    (∀ fb, (sm.primary.invoke w call).2.err ≠ none → sm.fallback = some fb →
      sm.invoke w call =
        fb.invoke (sm.primary.invoke w call).1 (call.after (sm.primary.invoke w call).2)) ∧
    ((sm.primary.invoke w call).2.err ≠ none → sm.fallback = none →
      sm.invoke w call = sm.primary.invoke w call) :=
  StorageManager.invoke_routing sm w call

/-- C1, witness: the manager over the two adapters, the document store
failing its first call; the save is answered by the relational adapter. -/
theorem C1_manager_routes_primary_then_fallback_witness :
    (failoverManager (exampleEnv [0] [] "mongodb://db")).invoke World.empty
        (.SaveCollection (exampleCollection "new" "" none)) =
      (SQLiteStorage.backend (exampleEnv [0] [] "mongodb://db")).invoke
        ((MongoStorage.backend (exampleEnv [0] [] "mongodb://db")).invoke World.empty
          (.SaveCollection (exampleCollection "new" "" none))).1
        ((Call.SaveCollection (exampleCollection "new" "" none)).after
          ((MongoStorage.backend (exampleEnv [0] [] "mongodb://db")).invoke World.empty
            (.SaveCollection (exampleCollection "new" "" none))).2) :=
  (C1_manager_routes_primary_then_fallback (failoverManager (exampleEnv [0] [] "mongodb://db"))
    World.empty (.SaveCollection (exampleCollection "new" "" none))).2.1
    (SQLiteStorage.backend (exampleEnv [0] [] "mongodb://db")) (by decide) rfl
/-- C2, counterexample. The document store holds collection `c1` under the
name "old"; its first driver call fails, the next one goes through. Saving
`c1` under the name "new" through the manager succeeds by way of the
relational store, and the following `GetCollection "c1"` is answered by the
document store with the record named "old", not the one written to the
fallback. -/
theorem C2_get_after_failover_returns_stale_record :
    let env := exampleEnv [0] [] "mongodb://db"
    let w := worldWithMongoCollection (exampleCollection "old" "" none)
    let c := exampleCollection "new" "" none
    let sm := failoverManager env
    let p := MongoStorage.SaveCollection env w c
    (p.2.2 ≠ none) ∧
    ((SQLiteStorage.SaveCollection env p.1 p.2.1).2.2 = none) ∧
    ((sm.SaveCollection w c).2.2 = none) ∧
    ((sm.SaveCollection w c).1.sqlite.collections.map (fun r => (r.ID, r.Name))
        = [("c1", "new")]) ∧
    ((sm.GetCollection (sm.SaveCollection w c).1 (sm.SaveCollection w c).2.1.ID).2.2 = none) ∧
    ((sm.GetCollection (sm.SaveCollection w c).1 (sm.SaveCollection w c).2.1.ID).2.1.map
        (fun r => r.Name) = some "old") := by
  decide

/-- With the relational adapter as both primary and fallback, a save whose
first gorm call fails is repeated on the same store and written there: the
primary's records do change. -/
theorem relationalOnlyManager_retry_writes_primary :
    ((SQLiteStorage.SaveCollection (exampleEnv [] [0] "") World.empty
        (exampleCollection "new" "" none)).2.2 ≠ none) ∧
    (((relationalOnlyManager (exampleEnv [] [0] "")).SaveCollection World.empty
        (exampleCollection "new" "" none)).2.2 = none) ∧
    (((relationalOnlyManager (exampleEnv [] [0] "")).SaveCollection World.empty
        (exampleCollection "new" "" none)).1.sqlite.collections.map (fun r => r.ID)
      = ["c1"]) :=
  ⟨by decide, by decide, by decide⟩

/-- C2, as amended. For the manager with the document adapter as primary `P`
and the relational adapter as fallback `F`, every world and every collection
`c`: if `P.SaveCollection(c)` returns an error and `F.SaveCollection` then
succeeds, the manager's `SaveCollection(c)` returns no error and the records
stored in `P` are unchanged; a following manager `GetCollection(c.ID)` returns
the record written to `F` (equal to `c` in every field but `UpdatedAt`)
provided `P.GetCollection(c.ID)` returns an error at that moment, the read of
`F` goes through and the metadata map of `c` is one that `encoding/json`
decodes (the relational adapter keeps it as JSON text); when `P.GetCollection(c.ID)` returns no error, the
manager returns `P`'s answer. -/
theorem C2_failover_save_then_get (env : Env) (w : World) (c : StorageCollection)
    (hP : (MongoStorage.SaveCollection env w c).2.2 ≠ none)
    (hF : (SQLiteStorage.SaveCollection env (MongoStorage.SaveCollection env w c).1
            (MongoStorage.SaveCollection env w c).2.1).2.2 = none) :
    ((failoverManager env).SaveCollection w c).2.2 = none ∧
    ((failoverManager env).SaveCollection w c).1.mongo = w.mongo ∧
    ((MongoStorage.GetCollection env ((failoverManager env).SaveCollection w c).1
          ((failoverManager env).SaveCollection w c).2.1.ID).2.2 ≠ none →
      env.sqliteFault ((failoverManager env).SaveCollection w c).1.sqliteCalls = false →
      StringMap.IsDecoded c.Metadata →
      ∃ r, ((failoverManager env).GetCollection ((failoverManager env).SaveCollection w c).1
              ((failoverManager env).SaveCollection w c).2.1.ID).2 = (some r, none) ∧
        r.agreesWith ((failoverManager env).SaveCollection w c).2.1 ∧
        r.Name = c.Name ∧ r.Description = c.Description ∧ r.RoomID = c.RoomID ∧
        r.Requests = c.Requests ∧ r.Metadata = c.Metadata) ∧
    ((MongoStorage.GetCollection env ((failoverManager env).SaveCollection w c).1
          ((failoverManager env).SaveCollection w c).2.1.ID).2.2 = none →
      (failoverManager env).GetCollection ((failoverManager env).SaveCollection w c).1
          ((failoverManager env).SaveCollection w c).2.1.ID =
        MongoStorage.GetCollection env ((failoverManager env).SaveCollection w c).1
          ((failoverManager env).SaveCollection w c).2.1.ID) := by
  obtain ⟨e, he⟩ := Option.ne_none_iff_exists'.mp hP
  have hsave : (failoverManager env).SaveCollection w c =
      SQLiteStorage.SaveCollection env (MongoStorage.SaveCollection env w c).1
        (MongoStorage.SaveCollection env w c).2.1 := by
    simp only [StorageManager.SaveCollection, failoverManager, MongoStorage.backend,
      SQLiteStorage.backend, he]
  rw [hsave]
  refine ⟨hF, ?_, ?_, ?_⟩
  · rw [SQLiteStorage.SaveCollection_mongo]
    exact (MongoStorage.SaveCollection_error_unchanged env w c hP).1
  · intro hget hfault hdec
    obtain ⟨e', he'⟩ := Option.ne_none_iff_exists'.mp hget
    have hmgr : ∀ w' id, (MongoStorage.GetCollection env w' id).2.2 = some e' →
        ((failoverManager env).GetCollection w' id).2 =
          (SQLiteStorage.GetCollection env w' id).2 := by
      intro w' id h
      simp only [StorageManager.GetCollection, failoverManager, MongoStorage.backend,
        SQLiteStorage.backend, h, MongoStorage.GetCollection_world,
        SQLiteStorage.GetCollection_mongoCalls]
    rw [hmgr _ _ he']
    have hmeta : (SQLiteStorage.prepareCollection env (MongoStorage.SaveCollection env w c).1
        (MongoStorage.SaveCollection env w c).2.1).2.Metadata = c.Metadata := by
      rw [(SQLiteStorage.prepareCollection_spec env _ _).2.2.2.2.2]
      unfold MongoStorage.SaveCollection MongoStorage.stampCollection
      simp only []
      split <;> split <;> split <;> simp
    obtain ⟨r, hr, hagree⟩ := SQLiteStorage.get_after_save_collection env _ _ hF hfault
      (by rw [hmeta]; exact hdec)
    refine ⟨r, hr, hagree, ?_⟩
    have hprep : ∀ w0 (c0 : StorageCollection),
        (SQLiteStorage.SaveCollection env w0 c0).2.1.Name = c0.Name ∧
        (SQLiteStorage.SaveCollection env w0 c0).2.1.Description = c0.Description ∧
        (SQLiteStorage.SaveCollection env w0 c0).2.1.RoomID = c0.RoomID ∧
        (SQLiteStorage.SaveCollection env w0 c0).2.1.Requests = c0.Requests ∧
        (SQLiteStorage.SaveCollection env w0 c0).2.1.Metadata = c0.Metadata := by
      intro w0 c0
      unfold SQLiteStorage.SaveCollection SQLiteStorage.prepareCollection
      simp only []
      split <;> split <;> split <;> simp
    have hmongo : (MongoStorage.SaveCollection env w c).2.1.Name = c.Name ∧
        (MongoStorage.SaveCollection env w c).2.1.Description = c.Description ∧
        (MongoStorage.SaveCollection env w c).2.1.RoomID = c.RoomID ∧
        (MongoStorage.SaveCollection env w c).2.1.Requests = c.Requests ∧
        (MongoStorage.SaveCollection env w c).2.1.Metadata = c.Metadata := by
      unfold MongoStorage.SaveCollection MongoStorage.stampCollection
      simp only []
      split <;> split <;> split <;> simp
    obtain ⟨_, h2, h3, h4, h5, h6, _⟩ := hagree
    obtain ⟨p2, p3, p4, p5, p6⟩ := hprep (MongoStorage.SaveCollection env w c).1
      (MongoStorage.SaveCollection env w c).2.1
    obtain ⟨m2, m3, m4, m5, m6⟩ := hmongo
    exact ⟨by rw [h2, p2, m2], by rw [h3, p3, m3], by rw [h4, p4, m4],
      by rw [h5, p5, m5], by rw [h6, p6, m6]⟩
  · intro hget
    simp only [StorageManager.GetCollection, failoverManager, MongoStorage.backend,
      SQLiteStorage.backend, hget]

/-- C2, witness: the hypotheses hold when the first driver call of the
document store fails and both stores are empty. -/
theorem C2_failover_save_then_get_witness :
    ((failoverManager (exampleEnv [0, 1] [] "mongodb://db")).SaveCollection World.empty
        (exampleCollection "new" "" none)).2.2 = none ∧
    ((failoverManager (exampleEnv [0, 1] [] "mongodb://db")).SaveCollection World.empty
        (exampleCollection "new" "" none)).1.mongo = World.empty.mongo :=
  ⟨(C2_failover_save_then_get (exampleEnv [0, 1] [] "mongodb://db") World.empty
      (exampleCollection "new" "" none) (by decide) (by decide)).1,
   (C2_failover_save_then_get (exampleEnv [0, 1] [] "mongodb://db") World.empty
      (exampleCollection "new" "" none) (by decide) (by decide)).2.1⟩
/-! ## Properties of the room service -/

/-- C3. Whenever `SyncRoomData` does not return success (the write of some
collection, environment or request of the batch failed, or the transaction
could not be opened or committed), the tables are exactly as they were before
the call: nothing of the batch is persisted or modified, the entities
processed before the failing one included. -/
theorem C3_sync_room_data_all_or_nothing (env : RoomEnv) (w : RoomWorld) (roomID : Nat)
    (data : RoomDataResponse)
    (h : (RoomService.SyncRoomData env w roomID data).2 ≠ .ok ()) :
    (RoomService.SyncRoomData env w roomID data).1.DB = w.DB := by
  unfold RoomService.SyncRoomData at h ⊢
  simp only [] at h ⊢
  have hsnap := Tx.Begin_snapshot env w
  generalize Tx.Begin env w = b at h hsnap ⊢
  generalize RoomService.syncCollections env b.2 roomID data.Collections b.1 = c at h ⊢
  generalize RoomService.syncEnvironments env b.2 roomID data.Environments c.1 = e at h ⊢
  generalize RoomService.syncRequests env b.2 data.Requests e.1 = r at h ⊢
  have hk := Tx.Commit_error env r.1 b.2
  generalize Tx.Commit env r.1 b.2 = k at h hk ⊢
  obtain ⟨cw, ce⟩ := c
  obtain ⟨ew, ee⟩ := e
  obtain ⟨rw', re⟩ := r
  obtain ⟨kw, ke⟩ := k
  cases ce with
  | some _ => simpa [Tx.Rollback] using hsnap
  | none =>
    cases ee with
    | some _ => simpa [Tx.Rollback] using hsnap
    | none =>
      cases re with
      | some _ => simpa [Tx.Rollback] using hsnap
      | none =>
        cases ke with
        | some _ => simpa [hsnap] using hk
        | none => simp at h

/-- C3, witness: a batch of three new collections whose second write fails
(gorm call number 2, after `Begin` and the first write). -/
theorem C3_sync_room_data_all_or_nothing_witness :
    (RoomService.SyncRoomData (exampleRoomEnv [2]) (worldWithRoom 2) 1
        { Collections := [exampleDBCollection 0 "a", exampleDBCollection 0 "b",
                          exampleDBCollection 0 "c"],
          Environments := [], Requests := [] }).2 = .err dbUnavailable ∧
    (RoomService.SyncRoomData (exampleRoomEnv [2]) (worldWithRoom 2) 1
        { Collections := [exampleDBCollection 0 "a", exampleDBCollection 0 "b",
                          exampleDBCollection 0 "c"],
          Environments := [], Requests := [] }).1.DB = (worldWithRoom 2).DB :=
  ⟨by decide,
   C3_sync_room_data_all_or_nothing (exampleRoomEnv [2]) (worldWithRoom 2) 1
    { Collections := [exampleDBCollection 0 "a", exampleDBCollection 0 "b",
                      exampleDBCollection 0 "c"],
      Environments := [], Requests := [] } (by decide)⟩
/-- C4, evaluated at the failing input. In a room with deviceLimit 2 and no
device, a join with the correct password, the unregistered deviceId "A" and
a blank device name ends in a run-time panic (the default name takes the first
8 bytes of a 1-byte deviceId) and registers nothing. With device names
supplied the scenario of the claim runs as stated: "A" and "B" join, "C" is
refused with the device-limit error, "A" joins again and two devices remain. -/
theorem C4_join_with_short_device_id_and_blank_name_panics :
    ((RoomService.JoinRoom (exampleRoomEnv []) (worldWithRoom 2) (exampleJoin "A" "")).2
      = .panic "runtime error: slice bounds out of range") ∧
    ((RoomService.JoinRoom (exampleRoomEnv []) (worldWithRoom 2)
        (exampleJoin "A" "")).1.DB.roomDevices.rows = []) ∧
    ((RoomService.JoinRoom (exampleRoomEnv []) (worldWithRoom 2)
        (exampleJoin "A" "phone")).2.isOk = true) ∧
    ((RoomService.JoinRoom (exampleRoomEnv [])
        (joinAll (exampleRoomEnv []) (worldWithRoom 2) [exampleJoin "A" "phone"])
        (exampleJoin "B" "tablet")).2.isOk = true) ∧
    ((RoomService.JoinRoom (exampleRoomEnv [])
        (joinAll (exampleRoomEnv []) (worldWithRoom 2)
          [exampleJoin "A" "phone", exampleJoin "B" "tablet"])
        (exampleJoin "C" "laptop")).2 = .err "device limit reached for this room") ∧
    ((RoomService.JoinRoom (exampleRoomEnv [])
        (joinAll (exampleRoomEnv []) (worldWithRoom 2)
          [exampleJoin "A" "phone", exampleJoin "B" "tablet", exampleJoin "C" "laptop"])
        (exampleJoin "A" "phone")).2.isOk = true) ∧
    ((joinAll (exampleRoomEnv []) (worldWithRoom 2)
        [exampleJoin "A" "phone", exampleJoin "B" "tablet", exampleJoin "C" "laptop",
         exampleJoin "A" "phone"]).DB.roomDevices.rows.map (fun d => d.DeviceID)
      = ["A", "B"]) :=
  ⟨by decide, by decide, by decide, by decide, by decide, by decide, by decide⟩
/-- C5, counterexample. `CreateRoom` with deviceLimit -1 on the empty store
persists a room whose limit is -1: the room is reachable, has no device, and
its device count 0 is not at most its deviceLimit. -/
theorem C5_room_created_with_negative_limit :
    RoomService.Reachable (exampleRoomEnv []) (worldWithRoom (-1)) ∧
    ∃ room ∈ (worldWithRoom (-1)).DB.rooms.rows,
      room.DeviceLimit = -1 ∧
      ¬ ((deviceCount (worldWithRoom (-1)) room.ID : Int) ≤ room.DeviceLimit) :=
  ⟨RoomService.Reachable.createRoom _ (RoomService.Reachable.start _ rfl), by decide⟩

/-- A run in which one database call fails: in a room with deviceLimit 1 that
already holds device "A", the join of "B" whose device Count query fails
(gorm call number 6) is admitted, and the room then holds two devices. -/
theorem join_with_failing_count_exceeds_limit :
    (joinAll (exampleRoomEnv [6])
        (RoomService.CreateRoom (exampleRoomEnv [6]) RoomWorld.empty
          { Name := "team", Password := "secret1", Description := "", RoomType := "",
            DeviceLimit := 1 }).1
        [exampleJoin "A" "phone", exampleJoin "B" "tablet"]).DB.roomDevices.rows.map
      (fun d => (d.RoomID, d.DeviceID)) = [(1, "A"), (1, "B")] := by
  decide

/-- C5, as amended. In every state reachable from an empty store by a
sequential run of `CreateRoom`, `JoinRoom`, `RemoveDevice` and `DeleteRoom`
calls with arbitrary requests, in which no database call fails, the number
of devices registered in each room is at most the room's deviceLimit when
that limit is not negative, and is 0 when it is negative. -/
theorem C5_device_count_within_limit (env : RoomEnv) (hdb : ∀ i, env.dbFault i = false)
    (w : RoomWorld) (hw : RoomService.Reachable env w) (room : Room)
    (hroom : room ∈ w.DB.rooms.rows) :
    (deviceCount w room.ID : Int) ≤ max room.DeviceLimit 0 := by
  have hinv : RoomInv w := RoomService.Reachable.inv env hdb w hw
  rw [deviceCount_eq_count]
  exact hinv.count_le room hroom

/-- C5, witness: the room with deviceLimit 2 after the joins of "A", "B" and
"C" holds at most two devices. -/
theorem C5_device_count_within_limit_witness :
    (deviceCount
        (joinAll (exampleRoomEnv []) (worldWithRoom 2)
          [exampleJoin "A" "phone", exampleJoin "B" "tablet", exampleJoin "C" "laptop"]) 1 : Int)
      ≤ max 2 0 :=
  C5_device_count_within_limit (exampleRoomEnv []) (fun _ => rfl)
    (joinAll (exampleRoomEnv []) (worldWithRoom 2)
      [exampleJoin "A" "phone", exampleJoin "B" "tablet", exampleJoin "C" "laptop"])
    (RoomService.Reachable.joinRoom _ (RoomService.Reachable.joinRoom _
      (RoomService.Reachable.joinRoom _
        (RoomService.Reachable.createRoom _ (RoomService.Reachable.start _ rfl)))))
    { ID := 1, RoomID := "000000000000", Name := "team", Password := exampleDigest "secret1",
      Description := "", RoomType := "free", DeviceLimit := 2, IsActive := true,
      CreatedAt := 1, UpdatedAt := 1 }
    (by decide)
/-- C6, evaluated at the failing input. Collection `c1` is stored with roomId
"room-1" and a metadata entry; it is saved again under the same ID with an
empty roomId and nil metadata, and read back. The document adapter returns
the new name with the old roomId and the old metadata (its `$set` leaves out
the `omitempty` fields that are empty), where the relational adapter, given
the same two saves, returns the record as saved. -/
theorem C6_document_save_keeps_fields_left_empty :
    ((MongoStorage.SaveCollection (exampleEnv [] [] "")
        (worldWithMongoCollection
          (exampleCollection "old" "room-1" (some [("k", JSONValue.string "v")])))
        (exampleCollection "new" "" none)).2.2 = none) ∧
    ((MongoStorage.GetCollection (exampleEnv [] [] "")
        (MongoStorage.SaveCollection (exampleEnv [] [] "")
          (worldWithMongoCollection
            (exampleCollection "old" "room-1" (some [("k", JSONValue.string "v")])))
          (exampleCollection "new" "" none)).1 "c1").2.1.map
        (fun r => (r.Name, r.RoomID, r.Metadata))
      = some ("new", "room-1", some [("k", JSONValue.string "v")])) ∧
    ((SQLiteStorage.SaveCollection (exampleEnv [] [] "")
        (worldWithSQLiteCollection
          (exampleCollection "old" "room-1" (some [("k", JSONValue.string "v")])))
        (exampleCollection "new" "" none)).2.2 = none) ∧
    ((SQLiteStorage.GetCollection (exampleEnv [] [] "")
        (SQLiteStorage.SaveCollection (exampleEnv [] [] "")
          (worldWithSQLiteCollection
            (exampleCollection "old" "room-1" (some [("k", JSONValue.string "v")])))
          (exampleCollection "new" "" none)).1 "c1").2.1.map
        (fun r => (r.Name, r.RoomID, r.Metadata))
      = some ("new", "", none)) :=
  ⟨by decide, by decide, by decide, by decide⟩
/-- C7, counterexample: a collection saved with an empty ID through the
relational adapter whose metadata map holds the Go integer 9007199254740993
(2^53 + 1) is read back with the float64 9007199254740992 under that key: the
text column holds the digits, and `fromJSON` decodes every number into a
float64. And a collection whose metadata map holds a NaN is saved without
error and read back with a nil metadata map: `json.Marshal` refuses the map,
`toJSON` drops the error and stores the empty string, which `fromJSON`
leaves undecoded. -/
theorem C7_relational_round_trip_changes_metadata :
    (SQLiteStorage.SaveCollection (exampleEnv [] [] "") World.empty
        { exampleCollection "fresh" "room-1" (some [("n", .integer 9007199254740993)])
          with ID := "" }).2.2 = none ∧
    ((SQLiteStorage.GetCollection (exampleEnv [] [] "")
        (SQLiteStorage.SaveCollection (exampleEnv [] [] "") World.empty
          { exampleCollection "fresh" "room-1" (some [("n", .integer 9007199254740993)])
            with ID := "" }).1
        (SQLiteStorage.SaveCollection (exampleEnv [] [] "") World.empty
          { exampleCollection "fresh" "room-1" (some [("n", .integer 9007199254740993)])
            with ID := "" }).2.1.ID).2.1.map (fun r => r.Metadata))
      = some (some [("n", .number 9007199254740992)]) ∧
    (SQLiteStorage.SaveCollection (exampleEnv [] [] "") World.empty
        { exampleCollection "fresh" "room-1" (some [("x", .notANumber)])
          with ID := "" }).2.2 = none ∧
    ((SQLiteStorage.GetCollection (exampleEnv [] [] "")
        (SQLiteStorage.SaveCollection (exampleEnv [] [] "") World.empty
          { exampleCollection "fresh" "room-1" (some [("x", .notANumber)])
            with ID := "" }).1
        (SQLiteStorage.SaveCollection (exampleEnv [] [] "") World.empty
          { exampleCollection "fresh" "room-1" (some [("x", .notANumber)])
            with ID := "" }).2.1.ID).2.1.map (fun r => r.Metadata))
      = some none :=
  ⟨by decide, by decide, by decide, by decide⟩

/-- C7, amended. Round trip through the relational adapter: a collection saved
with an empty ID comes out of a successful `SaveCollection` with a non-empty
ID, and a `GetCollection` of that ID (whose read goes through) returns a
record equal to it in ID, name, description, roomId, the ordered request-id
list and createdAt, and in the metadata map when that map is one that
`encoding/json` decodes (nil, or a map whose values are nil, booleans,
strings, float64 numbers, and slices and maps of these); `fromJSON` decodes
what `toJSON` encoded back to the same request-id list, and to the same map
when it is such a map, nil and empty ones included. The same holds for
`Environment.Variables` and for the `Headers`, `QueryParams` and `AuthData` of
a request. -/
theorem C7_relational_save_get_round_trip (env : Env) (w : World) :
    (∀ c : StorageCollection, c.ID = "" → StringMap.IsDecoded c.Metadata →
      (SQLiteStorage.SaveCollection env w c).2.2 = none →
      env.sqliteFault (SQLiteStorage.SaveCollection env w c).1.sqliteCalls = false →
      (SQLiteStorage.SaveCollection env w c).2.1.ID ≠ "" ∧
      ∃ r, (SQLiteStorage.GetCollection env (SQLiteStorage.SaveCollection env w c).1
              (SQLiteStorage.SaveCollection env w c).2.1.ID).2 = (some r, none) ∧
        r.agreesWith (SQLiteStorage.SaveCollection env w c).2.1 ∧
        r.Name = c.Name ∧ r.Description = c.Description ∧ r.RoomID = c.RoomID ∧
        r.Requests = c.Requests ∧ r.Metadata = c.Metadata) ∧
    (∀ e : StorageEnvironment, e.ID = "" → StringMap.IsDecoded e.Variables →
      (SQLiteStorage.SaveEnvironment env w e).2.2 = none →
      env.sqliteFault (SQLiteStorage.SaveEnvironment env w e).1.sqliteCalls = false →
      (SQLiteStorage.SaveEnvironment env w e).2.1.ID ≠ "" ∧
      ∃ r, (SQLiteStorage.GetEnvironment env (SQLiteStorage.SaveEnvironment env w e).1
              (SQLiteStorage.SaveEnvironment env w e).2.1.ID).2 = (some r, none) ∧
        r.ID = (SQLiteStorage.SaveEnvironment env w e).2.1.ID ∧
        r.Variables = e.Variables) ∧
    (∀ q : StorageRequest, q.ID = "" → StringMap.IsDecoded q.Headers →
      StringMap.IsDecoded q.QueryParams → StringMap.IsDecoded q.AuthData →
      (SQLiteStorage.SaveRequest env w q).2.2 = none →
      env.sqliteFault (SQLiteStorage.SaveRequest env w q).1.sqliteCalls = false →
      (SQLiteStorage.SaveRequest env w q).2.1.ID ≠ "" ∧
      ∃ r, (SQLiteStorage.GetRequest env (SQLiteStorage.SaveRequest env w q).1
              (SQLiteStorage.SaveRequest env w q).2.1.ID).2 = (some r, none) ∧
        r.ID = (SQLiteStorage.SaveRequest env w q).2.1.ID ∧
        r.Headers = q.Headers ∧ r.QueryParams = q.QueryParams ∧ r.AuthData = q.AuthData) ∧
    (∀ xs : StringSlice, (fromJSONStrings (toJSON (some (.strings xs))) none).1 = xs) ∧
    (∀ m : StringMap, StringMap.IsDecoded m →
      (fromJSONMap (toJSON (some (.stringMap m))) none).1 = m) := by
  refine ⟨?_, ?_, ?_, ?_, ?_⟩
  · intro c _ hm hs hg
    obtain ⟨hid, p2, p3, p4, p5, p6⟩ := SQLiteStorage.prepareCollection_spec env w c
    obtain ⟨r, hr, hagree⟩ := SQLiteStorage.get_after_save_collection env w c hs hg
      (by rw [p6]; exact hm)
    have hent := SQLiteStorage.SaveCollection_entity env w c
    refine ⟨by rw [hent]; exact hid, r, hr, hagree, ?_⟩
    obtain ⟨_, h2, h3, h4, h5, h6, _⟩ := hagree
    rw [hent] at h2 h3 h4 h5 h6
    exact ⟨h2.trans p2, h3.trans p3, h4.trans p4, h5.trans p5, h6.trans p6⟩
  · intro e _ hm hs hg
    obtain ⟨hid, _, p3, _⟩ := SQLiteStorage.prepareEnvironment_spec env w e
    obtain ⟨r, hr, hagree⟩ := SQLiteStorage.get_after_save_environment env w e hs hg
      (by rw [p3]; exact hm)
    have hent := SQLiteStorage.SaveEnvironment_entity env w e
    refine ⟨by rw [hent]; exact hid, r, hr, hagree.1, ?_⟩
    obtain ⟨_, _, h3, _⟩ := hagree
    rw [hent] at h3
    exact h3.trans p3
  · intro q _ hh hp ha hs hg
    obtain ⟨hid, _, _, _, _, p6, _, p8, _, p10⟩ := SQLiteStorage.prepareRequest_spec env w q
    obtain ⟨r, hr, hagree⟩ := SQLiteStorage.get_after_save_request env w q hs hg
      (by rw [p6]; exact hh) (by rw [p8]; exact hp) (by rw [p10]; exact ha)
    have hent := SQLiteStorage.SaveRequest_entity env w q
    refine ⟨by rw [hent]; exact hid, r, hr, hagree.1, ?_⟩
    obtain ⟨_, _, _, _, _, h6, _, h8, _, h10, _⟩ := hagree
    rw [hent] at h6 h8 h10
    exact ⟨h6.trans p6, h8.trans p8, h10.trans p10⟩
  · intro xs
    rw [fromJSONStrings_toJSON]
  · intro m hm
    rw [fromJSONMap_toJSON m hm]

/-- C7, witness: a collection with a nil request list and a metadata map of a
string, a number and a nested empty map, saved without ID into the empty
relational store. -/
theorem C7_relational_save_get_round_trip_witness :
    StringMap.IsDecoded
      (some [("k", .string "v"), ("n", .number 3), ("o", .object [])]) ∧
    (SQLiteStorage.SaveCollection (exampleEnv [] [] "") World.empty
        { exampleCollection "fresh" "room-1"
            (some [("k", .string "v"), ("n", .number 3), ("o", .object [])])
          with ID := "", Requests := none }).2.1.ID ≠ "" ∧
    ∃ r, (SQLiteStorage.GetCollection (exampleEnv [] [] "")
            (SQLiteStorage.SaveCollection (exampleEnv [] [] "") World.empty
              { exampleCollection "fresh" "room-1"
                  (some [("k", .string "v"), ("n", .number 3), ("o", .object [])])
                with ID := "", Requests := none }).1
            (SQLiteStorage.SaveCollection (exampleEnv [] [] "") World.empty
              { exampleCollection "fresh" "room-1"
                  (some [("k", .string "v"), ("n", .number 3), ("o", .object [])])
                with ID := "", Requests := none }).2.1.ID).2
          = (some r, none) ∧
      r.Name = "fresh" ∧ r.Requests = none ∧
      r.Metadata = some [("k", .string "v"), ("n", .number 3), ("o", .object [])] := by
  obtain ⟨hid, r, hr, _, hn, _, _, hq, hm⟩ :=
    (C7_relational_save_get_round_trip (exampleEnv [] [] "") World.empty).1
      { exampleCollection "fresh" "room-1"
          (some [("k", .string "v"), ("n", .number 3), ("o", .object [])])
        with ID := "", Requests := none }
      rfl (by decide) (by decide) (by decide)
  exact ⟨by decide, hid, r, hr, hn, hq, hm⟩
/-- C8, evaluated at the failing input. Starting from empty stores, with the
same clock and no failing driver call, a history entry carrying the ID `h1`
is saved twice: the document adapter accepts both saves (the second replaces
the stored entry), the relational adapter accepts the first and refuses the
second with a uniqueness error. -/
theorem C8_adapters_differ_on_repeated_history_save :
    ((MongoStorage.SaveHistory (exampleEnv [] [] "") World.empty (exampleHistory "/a")).2.2
      = none) ∧
    ((SQLiteStorage.SaveHistory (exampleEnv [] [] "") World.empty (exampleHistory "/a")).2.2
      = none) ∧
    ((MongoStorage.SaveHistory (exampleEnv [] [] "")
        (MongoStorage.SaveHistory (exampleEnv [] [] "") World.empty (exampleHistory "/a")).1
        (exampleHistory "/b")).2.2 = none) ∧
    ((SQLiteStorage.SaveHistory (exampleEnv [] [] "")
        (SQLiteStorage.SaveHistory (exampleEnv [] [] "") World.empty (exampleHistory "/a")).1
        (exampleHistory "/b")).2.2 = some "UNIQUE constraint failed: storage_history.id") ∧
    ((MongoStorage.GetAllHistory (exampleEnv [] [] "")
        (MongoStorage.SaveHistory (exampleEnv [] [] "")
          (MongoStorage.SaveHistory (exampleEnv [] [] "") World.empty (exampleHistory "/a")).1
          (exampleHistory "/b")).1 0).2.1.map (fun h => h.URL) = ["/b"]) ∧
    ((SQLiteStorage.GetAllHistory (exampleEnv [] [] "")
        (SQLiteStorage.SaveHistory (exampleEnv [] [] "")
          (SQLiteStorage.SaveHistory (exampleEnv [] [] "") World.empty (exampleHistory "/a")).1
          (exampleHistory "/b")).1 0).2.1.map (fun h => h.URL) = ["/a"]) :=
  ⟨by decide, by decide, by decide, by decide, by decide, by decide⟩
/-- C9, counterexample. With `MONGODB_URI` empty, the manager that
`NewStorageManager` returns has a fallback configured, and a `GetCollection`
that fails on the primary (nothing is stored) is run a second time: two gorm
calls are made on the relational store. -/
theorem C9_relational_only_manager_retries_on_itself :
    (match NewStorageManager (exampleEnv [] [] "") with
      | .ok sm => some (sm.fallback.isSome,
          (sm.GetCollection World.empty "missing").1.sqliteCalls,
          (sm.GetCollection World.empty "missing").2.2)
      | .error _ => none) = some (true, 2, some "record not found") := by
  decide

/-- C9, as amended. Provided the relational store opens: when no
document-store connection string is configured, or one is configured but the
connection fails, `NewStorageManager` returns a manager whose primary is the
relational adapter and whose fallback is that same relational adapter, so a
call that fails on the primary is run once more on the relational backend and
that second result is returned; when the string is configured and the
connection succeeds, the primary is the document adapter and the fallback the
relational adapter. -/
theorem C9_new_storage_manager_backends (env : Env)
    (hopen : env.sqliteOpens (if env.getenv "SQLITE_PATH" = "" then "resterx_storage.db"
                              else env.getenv "SQLITE_PATH") = true) :
    ((env.getenv "MONGODB_URI" = "" ∨
        env.mongoConnects (env.getenv "MONGODB_URI") (env.getenv "MONGODB_DATABASE") = false) →
      ∃ sm, NewStorageManager env = .ok sm ∧
        sm.primary = SQLiteStorage.backend env ∧
        sm.fallback = some (SQLiteStorage.backend env) ∧
        ∀ (w : World) (call : Call),
          ((SQLiteStorage.backend env).invoke w call).2.err ≠ none →
          sm.invoke w call =
            (SQLiteStorage.backend env).invoke ((SQLiteStorage.backend env).invoke w call).1
              (call.after ((SQLiteStorage.backend env).invoke w call).2)) ∧
    ((env.getenv "MONGODB_URI" ≠ "" ∧
        env.mongoConnects (env.getenv "MONGODB_URI") (env.getenv "MONGODB_DATABASE") = true) →
      ∃ sm, NewStorageManager env = .ok sm ∧
        sm.primary = MongoStorage.backend env ∧
        sm.fallback = some (SQLiteStorage.backend env)) := by
  refine ⟨fun h => ?_, fun h => ?_⟩
  · have hsm : NewStorageManager env =
        .ok { primary := SQLiteStorage.backend env,
              fallback := some (SQLiteStorage.backend env), usePrimary := true } := by
      unfold NewStorageManager
      simp only [hopen, if_true]
      rcases h with h | h
      · simp [h]
      · by_cases hu : env.getenv "MONGODB_URI" = ""
        · simp [hu]
        · simp [hu, h]
    refine ⟨_, hsm, rfl, rfl, ?_⟩
    intro w call herr
    exact (StorageManager.invoke_routing
      { primary := SQLiteStorage.backend env, fallback := some (SQLiteStorage.backend env),
        usePrimary := true } w call).2.1 (SQLiteStorage.backend env) herr rfl
  · have hsm : NewStorageManager env =
        .ok { primary := MongoStorage.backend env,
              fallback := some (SQLiteStorage.backend env), usePrimary := true } := by
      unfold NewStorageManager
      simp [hopen, h.1, h.2]
    exact ⟨_, hsm, rfl, rfl⟩

/-- C9, witness: no connection string configured, the relational store opens. -/
theorem C9_new_storage_manager_backends_witness :
    ∃ sm, NewStorageManager (exampleEnv [] [] "") = .ok sm ∧
      sm.primary = SQLiteStorage.backend (exampleEnv [] [] "") ∧
      sm.fallback = some (SQLiteStorage.backend (exampleEnv [] [] "")) := by
  obtain ⟨sm, h1, h2, h3, _⟩ :=
    (C9_new_storage_manager_backends (exampleEnv [] [] "") (by decide)).1 (Or.inl (by decide))
  exact ⟨sm, h1, h2, h3⟩
/-- C10, counterexample: the room "team" has two devices, and the collection
`c1` was saved through the storage manager with the room's public id as its
`roomId`. `DeleteRoom` with the correct password succeeds and the room's
device list is then empty, but `GetCollectionsByRoom` of the storage manager
for that room still returns `c1`, without error: `DeleteRoom` works on the
tables behind `DB` and never on the storage backends. -/
theorem C10_storage_collections_survive_delete_room :
    (serverWithRoomAndCollection.rooms.DB.rooms.rows.map (fun r => (r.ID, r.RoomID))
      = [(1, "000000000000")]) ∧
    (deviceCount serverWithRoomAndCollection.rooms 1 = 2) ∧
    (((failoverManager (exampleEnv [] [] "")).GetCollectionsByRoom
        serverWithRoomAndCollection.storage "000000000000").2.1.map (fun c => c.ID) = ["c1"]) ∧
    ((Server.DeleteRoom (exampleRoomEnv []) serverWithRoomAndCollection 1 "secret1").2
      = .ok ()) ∧
    ((Server.DeleteRoom (exampleRoomEnv []) serverWithRoomAndCollection 1
        "secret1").1.rooms.DB.rooms.rows = []) ∧
    ((Server.GetRoomDevices (exampleRoomEnv [])
        (Server.DeleteRoom (exampleRoomEnv []) serverWithRoomAndCollection 1 "secret1").1 1).2
      = .ok []) ∧
    ((Server.GetCollectionsByRoom (failoverManager (exampleEnv [] [] ""))
        (Server.DeleteRoom (exampleRoomEnv []) serverWithRoomAndCollection 1 "secret1").1
        "000000000000").2.2 = none) ∧
    ((Server.GetCollectionsByRoom (failoverManager (exampleEnv [] [] ""))
        (Server.DeleteRoom (exampleRoomEnv []) serverWithRoomAndCollection 1 "secret1").1
        "000000000000").2.1.map (fun c => (c.ID, c.Name, c.RoomID))
      = [("c1", "a", "000000000000")]) :=
  ⟨by decide, by decide, by decide, by decide, by decide, by decide, by decide, by decide⟩

/-- C10, amended. `DeleteRoom(roomID, password)`: after it succeeds no room has
that id, and `GetRoomDevices` and the room-scoped collection and environment
queries of `GetRoomData` for that room (the queries on the tables behind `DB`,
when their reads go through) return empty lists without error, while
the devices, collections and environments of every other room, and the other
rooms, are unchanged; for an unknown room, or a password that does not match
the room's hash, it returns an error; and whenever it does not succeed (be it
a refusal or a failing step of the cascade) nothing is deleted. -/
theorem C10_delete_room_cascade (env : RoomEnv) (w : RoomWorld) (roomID : Nat)
    (password : String) :
    ((RoomService.DeleteRoom env w roomID password).2 = .ok () →
      (∀ r ∈ (RoomService.DeleteRoom env w roomID password).1.DB.rooms.rows, r.ID ≠ roomID) ∧
      (env.dbFault (RoomService.DeleteRoom env w roomID password).1.dbCalls = false →
        (RoomService.GetRoomDevices env (RoomService.DeleteRoom env w roomID password).1
          roomID).2 = .ok []) ∧
      (env.dbFault (RoomService.DeleteRoom env w roomID password).1.dbCalls = false →
        env.dbFault ((RoomService.DeleteRoom env w roomID password).1.dbCalls + 1) = false →
        ∃ d, (RoomService.GetRoomData env (RoomService.DeleteRoom env w roomID password).1
                roomID).2 = .ok d ∧ d.Collections = [] ∧ d.Environments = []) ∧
      (∀ other, other ≠ roomID →
        (RoomService.DeleteRoom env w roomID password).1.DB.roomDevices.rows.filter
            (fun (d : RoomDevice) => d.RoomID == other) =
          w.DB.roomDevices.rows.filter (fun (d : RoomDevice) => d.RoomID == other) ∧
        (RoomService.DeleteRoom env w roomID password).1.DB.collections.rows.filter
            (fun (x : DBCollection) => x.RoomID == other) =
          w.DB.collections.rows.filter (fun (x : DBCollection) => x.RoomID == other) ∧
        (RoomService.DeleteRoom env w roomID password).1.DB.environments.rows.filter
            (fun (x : DBEnvironment) => x.RoomID == other) =
          w.DB.environments.rows.filter (fun (x : DBEnvironment) => x.RoomID == other) ∧
        (RoomService.DeleteRoom env w roomID password).1.DB.rooms.rows.filter
            (fun (r : Room) => r.ID == other) =
          w.DB.rooms.rows.filter (fun (r : Room) => r.ID == other))) ∧
    ((∀ r ∈ w.DB.rooms.rows, r.ID ≠ roomID) →
      (RoomService.DeleteRoom env w roomID password).2 = .err "room not found") ∧
    ((∀ r ∈ w.DB.rooms.rows, r.ID = roomID → env.bcryptCompare r.Password password = false) →
      (RoomService.DeleteRoom env w roomID password).2 = .err "room not found" ∨
      (RoomService.DeleteRoom env w roomID password).2 = .err "invalid password") ∧
    ((RoomService.DeleteRoom env w roomID password).2 ≠ .ok () →
      (RoomService.DeleteRoom env w roomID password).1.DB = w.DB) := by
  refine ⟨fun hok => ?_, RoomService.DeleteRoom_unknown env w roomID password,
    RoomService.DeleteRoom_refused env w roomID password,
    RoomService.DeleteRoom_not_ok env w roomID password⟩
  have hdb := RoomService.DeleteRoom_ok env w roomID password hok
  generalize RoomService.DeleteRoom env w roomID password = res at hok hdb ⊢
  refine ⟨?_, ?_, ?_, ?_⟩
  · intro r hr
    rw [hdb] at hr
    simpa using (List.mem_filter.mp hr).2
  · intro hf
    simp [RoomService.GetRoomDevices, RoomWorld.dbCall, hf, hdb, List.filter_filter,
      sortByTimeDesc]
  · intro hf hf'
    simp [RoomService.GetRoomData, RoomWorld.dbCall, hf, hf', hdb, List.filter_filter]
  · intro other hne
    rw [hdb]
    simp only [List.filter_filter]
    refine ⟨?_, ?_, ?_, ?_⟩
    · apply List.filter_congr
      intro x _
      by_cases hx : x.RoomID = other <;> simp_all
    · apply List.filter_congr
      intro x _
      by_cases hx : x.RoomID = other <;> simp_all
    · apply List.filter_congr
      intro x _
      by_cases hx : x.RoomID = other <;> simp_all
    · apply List.filter_congr
      intro x _
      by_cases hx : x.ID = other <;> simp_all

/-- C10, witness: a room with two devices and one collection is deleted with
the correct password; its device list is then empty. -/
theorem C10_delete_room_cascade_witness :
    (deviceCount worldWithRoomData 1 = 2) ∧
    (worldWithRoomData.DB.collections.rows.map (fun x => x.RoomID) = [1]) ∧
    (RoomService.GetRoomDevices (exampleRoomEnv [])
      (RoomService.DeleteRoom (exampleRoomEnv []) worldWithRoomData 1 "secret1").1 1).2
      = .ok [] :=
  ⟨by decide, by decide,
   ((C10_delete_room_cascade (exampleRoomEnv []) worldWithRoomData 1 "secret1").1
      (by decide)).2.1 (by decide)⟩

/-! ## C11: what a successful `SyncRoomData` leaves stored -/

/-- C12, evaluated: in the world where the room "team" was created with the
password "secret1", `CreateRoom` and `GetRoomByRoomID` hand the room out with
an empty `Password` and the stored row holds the digest, not the password;
`ValidateRoomToken` on the token `CreateRoom` issued hands the room out with
the stored digest in `Password`. -/
theorem C12_validate_room_token_returns_password_hash :
    ((RoomService.CreateRoom (exampleRoomEnv []) RoomWorld.empty
        { Name := "team", Password := "secret1", Description := "", RoomType := "",
          DeviceLimit := 2 }).2.value.map (fun r => (r.Token, r.Room.Password)))
      = some ("token-for-room_000000000000", "") ∧
    (worldWithRoom 2).DB.rooms.rows.map Room.Password = [exampleDigest "secret1"] ∧
    exampleDigest "secret1" ≠ "secret1" ∧ exampleDigest "secret1" ≠ "" ∧
    ((RoomService.GetRoomByRoomID (exampleRoomEnv []) (worldWithRoom 2)
        "000000000000").2.value.map Room.Password) = some "" ∧
    ((RoomService.ValidateRoomToken (exampleRoomEnv []) (worldWithRoom 2)
        "token-for-room_000000000000").2.value.map Room.Password)
      = some (exampleDigest "secret1") :=
  ⟨by decide, by decide, by decide, by decide, by decide, by decide⟩

/-! ## C13: the requests `CreateRoom` refuses -/

/-- C13, evaluated: the password of three two-byte characters has three
characters and six bytes; `CreateRoom` measures it in bytes, accepts the
request, stores the room and issues a token. -/
theorem C13_create_room_accepts_three_two_byte_characters :
    "ééé".length = 3 ∧ "ééé".utf8ByteSize = 6 ∧
    ((RoomService.CreateRoom (exampleRoomEnv []) RoomWorld.empty
        { Name := "team", Password := "ééé", Description := "", RoomType := "",
          DeviceLimit := 2 }).2.value.map RoomResponse.Token)
      = some "token-for-room_000000000000" ∧
    (RoomService.CreateRoom (exampleRoomEnv []) RoomWorld.empty
        { Name := "team", Password := "ééé", Description := "", RoomType := "",
          DeviceLimit := 2 }).1.DB.rooms.rows.map Room.Name = ["team"] ∧
    (RoomService.CreateRoom (exampleRoomEnv []) RoomWorld.empty
        { Name := "team", Password := "éé", Description := "", RoomType := "",
          DeviceLimit := 2 }).2 = .err "password must be at least 6 characters" :=
  ⟨by decide, by decide, by decide, by decide, by decide⟩

/-! ## C14: the joins `JoinRoom` refuses -/

/-- C14: when every stored room with the public id of the request is inactive
or holds a password hash the supplied password does not match (in particular
when there is no such room), `JoinRoom` returns an error and leaves every
table as it was: no device is registered and none is updated. -/
theorem C14_join_room_refusals_leave_devices (env : RoomEnv) (w : RoomWorld)
    (req : JoinRoomRequest)
    (h : ∀ room ∈ w.DB.rooms.rows, room.RoomID = req.RoomID →
      room.IsActive = false ∨ env.bcryptCompare room.Password req.Password = false) :
    (∃ msg, (RoomService.JoinRoom env w req).2 = .err msg) ∧
    (RoomService.JoinRoom env w req).1.DB = w.DB := by
  unfold RoomService.JoinRoom
  by_cases h1 : req.RoomID = ""
  · simp [h1]
  by_cases h2 : req.Password = ""
  · simp [h1, h2]
  by_cases h3 : req.DeviceID = ""
  · simp [h1, h2, h3]
  simp only [h1, h2, h3, if_false]
  obtain ⟨hdb, hfind⟩ := RoomService.findRoomByRoomID_spec env w req.RoomID
  generalize RoomService.findRoomByRoomID env w req.RoomID = f at hdb hfind ⊢
  obtain ⟨fw, fr⟩ := f
  cases fr with
  | none => exact ⟨⟨_, rfl⟩, hdb⟩
  | some room =>
    obtain ⟨hmem, hid⟩ := hfind room rfl
    by_cases hact : room.IsActive = true
    · have hpw : env.bcryptCompare room.Password req.Password = false := by
        rcases h room hmem hid with hin | hpw
        · rw [hact] at hin; exact absurd hin (by decide)
        · exact hpw
      simp only [hact, RoomService.CheckPassword, hpw]
      exact ⟨⟨_, rfl⟩, hdb⟩
    · have hact' : room.IsActive = false := by simpa using hact
      simp only [hact']
      exact ⟨⟨_, rfl⟩, hdb⟩

/-- C14, witness: against the room "team" a join with a wrong password, and
the device table after it. -/
theorem C14_join_room_refusals_leave_devices_witness :
    (RoomService.JoinRoom (exampleRoomEnv []) (worldWithRoom 2)
        { RoomID := "000000000000", Password := "wrong-password", DeviceID := "device-0001",
          DeviceName := "phone" }).2 = .err "invalid password" ∧
    (∃ msg, (RoomService.JoinRoom (exampleRoomEnv []) (worldWithRoom 2)
        { RoomID := "000000000000", Password := "wrong-password", DeviceID := "device-0001",
          DeviceName := "phone" }).2 = .err msg) ∧
    (RoomService.JoinRoom (exampleRoomEnv []) (worldWithRoom 2)
        { RoomID := "000000000000", Password := "wrong-password", DeviceID := "device-0001",
          DeviceName := "phone" }).1.DB = (worldWithRoom 2).DB :=
  ⟨by decide,
   C14_join_room_refusals_leave_devices (exampleRoomEnv []) (worldWithRoom 2)
    { RoomID := "000000000000", Password := "wrong-password", DeviceID := "device-0001",
      DeviceName := "phone" } (by decide)⟩
/-! ## C15: the history queries -/

/-- Through the document adapter, when the driver call goes through,
`GetHistoryByRoom` for a non-empty room and `GetAllHistory` return the `L`
newest stored entries (of the room), newest first by instant. -/
theorem MongoStorage.mongo_history_newest_first (env : Env) (w : World) (roomID : String)
    (limit : Int) (hm : env.mongoFault w.mongoCalls = false) :
    (roomID ≠ "" →
      ∃ chosen, (MongoStorage.GetHistoryByRoom env w roomID limit).2 =
        (chosen.map StorageHistory.fromBSON, none) ∧
      IsNewestFirst (fun d => (StorageHistory.fromBSON d).Timestamp) (historyLimit limit)
        (w.mongo.history.filter (fun d => (StorageHistory.fromBSON d).RoomID == roomID))
        chosen) ∧
    (∃ chosen, (MongoStorage.GetAllHistory env w limit).2 =
        (chosen.map StorageHistory.fromBSON, none) ∧
      IsNewestFirst (fun d => (StorageHistory.fromBSON d).Timestamp) (historyLimit limit)
        w.mongo.history chosen) := by
  refine ⟨fun hroom => ?_, ?_⟩
  · refine ⟨_, ?_, isNewestFirst_take_sort _ _ _⟩
    have hf : (fun d : Document => d.matchesString "roomId" roomID) =
        (fun d => (StorageHistory.fromBSON d).RoomID == roomID) := by
      funext d
      exact Document.matchesString_eq_str d "roomId" roomID hroom
    simp only [MongoStorage.GetHistoryByRoom, mongoCall, hm, historyLimit_eq, hf]
    rfl
  · refine ⟨_, ?_, isNewestFirst_take_sort _ _ _⟩
    simp only [MongoStorage.GetAllHistory, mongoCall, hm, historyLimit_eq]
    rfl

/-- C15, evaluated. Two entries of the room "room-1": `h1` sent at the instant
10 with a time stamp in a zone 3 units east of UTC (wall clock 13), then `h2`
sent at the later instant 11 with a time stamp in UTC. Asked for the room
with the limit 2, the relational adapter returns `h1` before `h2`, the older
entry first, and with the limit 1 it returns the older entry `h1` alone; so
does its `GetAllHistory`. The document adapter returns `h2` before `h1`, and
`h2` alone. Besides, an entry saved without a room is returned for the room
"" by the relational adapter and not by the document adapter, which stores
it without a `roomId` field. With three entries of increasing time stamps of
one zone in a room and the limit 2, both adapters return the two newest,
newest first. -/
theorem C15_adapters_disagree_on_history_queries :
    ((SQLiteStorage.GetHistoryByRoom (exampleEnv [] [] "")
        (sqliteHistoryWorld (exampleEnv [] [] "") World.empty
          [{ historyAt "h1" "room-1" 10 with TimestampZone := 3 }, historyAt "h2" "room-1" 11])
        "room-1" 2).2.1.map (fun h => (h.ID, h.Timestamp)) = [("h1", 10), ("h2", 11)]) ∧
    ((SQLiteStorage.GetHistoryByRoom (exampleEnv [] [] "")
        (sqliteHistoryWorld (exampleEnv [] [] "") World.empty
          [{ historyAt "h1" "room-1" 10 with TimestampZone := 3 }, historyAt "h2" "room-1" 11])
        "room-1" 1).2.1.map (fun h => (h.ID, h.Timestamp)) = [("h1", 10)]) ∧
    ((SQLiteStorage.GetAllHistory (exampleEnv [] [] "")
        (sqliteHistoryWorld (exampleEnv [] [] "") World.empty
          [{ historyAt "h1" "room-1" 10 with TimestampZone := 3 }, historyAt "h2" "room-1" 11])
        1).2.1.map (fun h => (h.ID, h.Timestamp)) = [("h1", 10)]) ∧
    ((MongoStorage.GetHistoryByRoom (exampleEnv [] [] "")
        (mongoHistoryWorld (exampleEnv [] [] "") World.empty
          [{ historyAt "h1" "room-1" 10 with TimestampZone := 3 }, historyAt "h2" "room-1" 11])
        "room-1" 2).2.1.map (fun h => (h.ID, h.Timestamp)) = [("h2", 11), ("h1", 10)]) ∧
    ((MongoStorage.GetHistoryByRoom (exampleEnv [] [] "")
        (mongoHistoryWorld (exampleEnv [] [] "") World.empty
          [{ historyAt "h1" "room-1" 10 with TimestampZone := 3 }, historyAt "h2" "room-1" 11])
        "room-1" 1).2.1.map (fun h => (h.ID, h.Timestamp)) = [("h2", 11)]) ∧
    ((MongoStorage.GetAllHistory (exampleEnv [] [] "")
        (mongoHistoryWorld (exampleEnv [] [] "") World.empty [historyAt "h1" "" 10]) 10).2
      = ([historyAt "h1" "" 10], none)) ∧
    ((MongoStorage.GetHistoryByRoom (exampleEnv [] [] "")
        (mongoHistoryWorld (exampleEnv [] [] "") World.empty [historyAt "h1" "" 10]) "" 10).2
      = ([], none)) ∧
    ((SQLiteStorage.GetHistoryByRoom (exampleEnv [] [] "")
        (sqliteHistoryWorld (exampleEnv [] [] "") World.empty [historyAt "h1" "" 10]) "" 10).2
      = ([historyAt "h1" "" 10], none)) ∧
    ((SQLiteStorage.GetHistoryByRoom (exampleEnv [] [] "")
        (sqliteHistoryWorld (exampleEnv [] [] "") World.empty
          [historyAt "h1" "room-1" 10, historyAt "h2" "room-1" 20, historyAt "h4" "room-2" 40,
           historyAt "h3" "room-1" 30]) "room-1" 2).2.1.map StorageHistory.ID = ["h3", "h2"]) ∧
    ((MongoStorage.GetHistoryByRoom (exampleEnv [] [] "")
        (mongoHistoryWorld (exampleEnv [] [] "") World.empty
          [historyAt "h1" "room-1" 10, historyAt "h2" "room-1" 20, historyAt "h4" "room-2" 40,
           historyAt "h3" "room-1" 30]) "room-1" 2).2.1.map StorageHistory.ID = ["h3", "h2"]) :=
  ⟨by decide, by decide, by decide, by decide, by decide, by decide, by decide, by decide,
   by decide, by decide⟩

/-! ## C16: the identifiers of saved entities -/

/-- C17, counterexample: a collection that comes with a `CreatedAt` ahead of
the clock is stored, by either adapter, with that `CreatedAt` and an earlier
`UpdatedAt`. Besides, on a ticking clock a collection that comes without time
stamps is stored by the document adapter with `UpdatedAt` the first reading
and `CreatedAt` the second, later one, while the relational adapter stores
the reading gorm takes for the write as `UpdatedAt`, after both. -/
theorem C17_created_at_stored_later_than_updated_at :
    ((SQLiteStorage.GetCollection (exampleEnv [] [] "")
        (SQLiteStorage.SaveCollection (exampleEnv [] [] "") World.empty
          { exampleCollection "a" "room-1" none with CreatedAt := 1000 }).1
        "c1").2.1.map (fun r => (r.CreatedAt, r.UpdatedAt))) = some (1000, 2) ∧
    ((MongoStorage.GetCollection (exampleEnv [] [] "")
        (MongoStorage.SaveCollection (exampleEnv [] [] "") World.empty
          { exampleCollection "a" "room-1" none with CreatedAt := 1000 }).1
        "c1").2.1.map (fun r => (r.CreatedAt, r.UpdatedAt))) = some (1000, 1) ∧
    ((MongoStorage.GetCollection (exampleEnv [] [] "")
        (MongoStorage.SaveCollection (exampleEnv [] [] "") World.empty
          { exampleCollection "a" "room-1" none with CreatedAt := 0, UpdatedAt := 0 }).1
        "c1").2.1.map (fun r => (r.CreatedAt, r.UpdatedAt))) = some (2, 1) ∧
    ((SQLiteStorage.GetCollection (exampleEnv [] [] "")
        (SQLiteStorage.SaveCollection (exampleEnv [] [] "") World.empty
          { exampleCollection "a" "room-1" none with CreatedAt := 0, UpdatedAt := 0 }).1
        "c1").2.1.map (fun r => (r.CreatedAt, r.UpdatedAt))) = some (2, 3) :=
  ⟨by decide, by decide, by decide, by decide⟩

/-- C17, amended: on a clock whose readings never decrease, after a
successful save of a collection, environment or request whose `CreatedAt`
is not later than the clock reading of the save, a get of the saved ID that
goes through returns a record whose `CreatedAt` is not later than its
`UpdatedAt`: from the relational adapter for every such entity, a zero
`CreatedAt` being replaced by the reading the save took for it; from the
document adapter for every such entity that came with a non-zero
`CreatedAt`, which is kept. -/
theorem C17_updated_at_not_before_created_at (env : Env) (w : World)
    (hmono : ∀ i j, i ≤ j → env.clock i ≤ env.clock j) :
    (∀ x : StorageCollection, x.CreatedAt ≠ 0 → x.CreatedAt ≤ env.clock w.clockReads + 1 →
      (MongoStorage.SaveCollection env w x).2.2 = none →
      env.mongoFault (MongoStorage.SaveCollection env w x).1.mongoCalls = false →
      ReadBackInOrder StorageCollection.CreatedAt StorageCollection.UpdatedAt x.CreatedAt
        (MongoStorage.GetCollection env (MongoStorage.SaveCollection env w x).1 (MongoStorage.SaveCollection env w x).2.1.ID).2) ∧
    (∀ x : StorageEnvironment, x.CreatedAt ≠ 0 → x.CreatedAt ≤ env.clock w.clockReads + 1 →
      (MongoStorage.SaveEnvironment env w x).2.2 = none →
      env.mongoFault (MongoStorage.SaveEnvironment env w x).1.mongoCalls = false →
      ReadBackInOrder StorageEnvironment.CreatedAt StorageEnvironment.UpdatedAt x.CreatedAt
        (MongoStorage.GetEnvironment env (MongoStorage.SaveEnvironment env w x).1 (MongoStorage.SaveEnvironment env w x).2.1.ID).2) ∧
    (∀ x : StorageRequest, x.CreatedAt ≠ 0 → x.CreatedAt ≤ env.clock w.clockReads + 1 →
      (MongoStorage.SaveRequest env w x).2.2 = none →
      env.mongoFault (MongoStorage.SaveRequest env w x).1.mongoCalls = false →
      ReadBackInOrder StorageRequest.CreatedAt StorageRequest.UpdatedAt x.CreatedAt
        (MongoStorage.GetRequest env (MongoStorage.SaveRequest env w x).1 (MongoStorage.SaveRequest env w x).2.1.ID).2) ∧
    (∀ x : StorageCollection, x.CreatedAt ≤ env.clock w.clockReads + 1 →
      (SQLiteStorage.SaveCollection env w x).2.2 = none →
      env.sqliteFault (SQLiteStorage.SaveCollection env w x).1.sqliteCalls = false →
      ReadBackInOrder StorageCollection.CreatedAt StorageCollection.UpdatedAt
        (if x.CreatedAt = 0 then env.clock (w.clockReads + 1) + 1 else x.CreatedAt)
        (SQLiteStorage.GetCollection env (SQLiteStorage.SaveCollection env w x).1 (SQLiteStorage.SaveCollection env w x).2.1.ID).2) ∧
    (∀ x : StorageEnvironment, x.CreatedAt ≤ env.clock w.clockReads + 1 →
      (SQLiteStorage.SaveEnvironment env w x).2.2 = none →
      env.sqliteFault (SQLiteStorage.SaveEnvironment env w x).1.sqliteCalls = false →
      ReadBackInOrder StorageEnvironment.CreatedAt StorageEnvironment.UpdatedAt
        (if x.CreatedAt = 0 then env.clock (w.clockReads + 1) + 1 else x.CreatedAt)
        (SQLiteStorage.GetEnvironment env (SQLiteStorage.SaveEnvironment env w x).1 (SQLiteStorage.SaveEnvironment env w x).2.1.ID).2) ∧
    (∀ x : StorageRequest, x.CreatedAt ≤ env.clock w.clockReads + 1 →
      (SQLiteStorage.SaveRequest env w x).2.2 = none →
      env.sqliteFault (SQLiteStorage.SaveRequest env w x).1.sqliteCalls = false →
      ReadBackInOrder StorageRequest.CreatedAt StorageRequest.UpdatedAt
        (if x.CreatedAt = 0 then env.clock (w.clockReads + 1) + 1 else x.CreatedAt)
        (SQLiteStorage.GetRequest env (SQLiteStorage.SaveRequest env w x).1 (SQLiteStorage.SaveRequest env w x).2.1.ID).2) := by
  have hrel : ∀ (c reads : Nat), c ≤ env.clock w.clockReads + 1 → w.clockReads < reads →
      (if c = 0 then env.clock (w.clockReads + 1) + 1 else c) ≤ env.clock reads + 1 := by
    intro c reads hle hlt
    split
    · exact Nat.succ_le_succ (hmono _ _ hlt)
    · exact le_trans hle (Nat.succ_le_succ (hmono _ _ (Nat.le_of_lt hlt)))
  refine ⟨?_, ?_, ?_, ?_, ?_, ?_⟩
  · intro x hnz hle hs hg
    obtain ⟨r, hr, hc, hu⟩ := MongoStorage.mongo_SaveCollection_stored_times env w x hs hg
    have hsp := MongoStorage.stampCollection_spec env w x
    rw [hsp.2.2.2.2.2.2, if_neg hnz] at hc
    rw [hsp.2.2.2.2.2.1] at hu
    exact ⟨r, hr, hc, by rw [hc, hu]; exact hle⟩
  · intro x hnz hle hs hg
    obtain ⟨r, hr, hc, hu⟩ := MongoStorage.mongo_SaveEnvironment_stored_times env w x hs hg
    have hsp := MongoStorage.stampEnvironment_spec env w x
    rw [hsp.2.2.2.2.2.2, if_neg hnz] at hc
    rw [hsp.2.2.2.2.2.1] at hu
    exact ⟨r, hr, hc, by rw [hc, hu]; exact hle⟩
  · intro x hnz hle hs hg
    obtain ⟨r, hr, hc, hu⟩ := MongoStorage.mongo_SaveRequest_stored_times env w x hs hg
    have hsp := MongoStorage.stampRequest_spec env w x
    rw [hsp.2.2.2.2.2.2, if_neg hnz] at hc
    rw [hsp.2.2.2.2.2.1] at hu
    exact ⟨r, hr, hc, by rw [hc, hu]; exact hle⟩
  · intro x hle hs hg
    obtain ⟨r, hr, hc, hu⟩ := SQLiteStorage.sqlite_SaveCollection_stored_times env w x hs hg
    have hsp := SQLiteStorage.prepareCollection_shape env w x
    rw [hsp.2.2.2.2.2.2] at hc
    refine ⟨r, hr, hc, ?_⟩
    rw [hc, hu]
    exact hrel _ _ hle hsp.2.2.2.1
  · intro x hle hs hg
    obtain ⟨r, hr, hc, hu⟩ := SQLiteStorage.sqlite_SaveEnvironment_stored_times env w x hs hg
    have hsp := SQLiteStorage.prepareEnvironment_shape env w x
    rw [hsp.2.2.2.2.2.2] at hc
    refine ⟨r, hr, hc, ?_⟩
    rw [hc, hu]
    exact hrel _ _ hle hsp.2.2.2.1
  · intro x hle hs hg
    obtain ⟨r, hr, hc, hu⟩ := SQLiteStorage.sqlite_SaveRequest_stored_times env w x hs hg
    have hsp := SQLiteStorage.prepareRequest_shape env w x
    rw [hsp.2.2.2.2.2.2] at hc
    refine ⟨r, hr, hc, ?_⟩
    rw [hc, hu]
    exact hrel _ _ hle hsp.2.2.2.1

/-- C17, witness: a collection created at time 5, saved through the
relational adapter when the clock reads 11. -/
theorem C17_updated_at_not_before_created_at_witness :
    ReadBackInOrder StorageCollection.CreatedAt StorageCollection.UpdatedAt
      (if (5 : Time) = 0 then (exampleEnv [] [] "").clock (10 + 1) + 1 else 5)
      (SQLiteStorage.GetCollection (exampleEnv [] [] "")
        (SQLiteStorage.SaveCollection (exampleEnv [] [] "") { World.empty with clockReads := 10 }
          (exampleCollection "a" "room-1" none)).1
        (SQLiteStorage.SaveCollection (exampleEnv [] [] "") { World.empty with clockReads := 10 }
          (exampleCollection "a" "room-1" none)).2.1.ID).2 :=
  (C17_updated_at_not_before_created_at (exampleEnv [] [] "")
    { World.empty with clockReads := 10 } (fun _ _ h => h)).2.2.2.1
    (exampleCollection "a" "room-1" none) (by decide) (by decide) (by decide)

/-! ## C18: stored history entries under later saves -/

/-- C18, evaluated: the entry `h1` of the room "room-1" is stored, then an
entry with other contents is saved under the same ID. Through the document
adapter the second save succeeds and the record stored under `h1` now holds
the other method, URL, status and time; through the relational adapter the
second save is refused and the stored record is the first entry. -/
theorem C18_document_adapter_overwrites_stored_history :
    (MongoStorage.GetHistoryByRoom (exampleEnv [] [] "")
        (mongoHistoryWorld (exampleEnv [] [] "") World.empty [historyAt "h1" "room-1" 10])
        "room-1" 0).2 = ([historyAt "h1" "room-1" 10], none) ∧
    (MongoStorage.SaveHistory (exampleEnv [] [] "")
        (mongoHistoryWorld (exampleEnv [] [] "") World.empty [historyAt "h1" "room-1" 10])
        { historyAt "h1" "room-1" 99 with
          Method := "POST", URL := "/other", StatusCode := 500 }).2.2 = none ∧
    (MongoStorage.GetHistoryByRoom (exampleEnv [] [] "")
        (mongoHistoryWorld (exampleEnv [] [] "") World.empty
          [historyAt "h1" "room-1" 10,
           { historyAt "h1" "room-1" 99 with
             Method := "POST", URL := "/other", StatusCode := 500 }])
        "room-1" 0).2 =
      ([{ historyAt "h1" "room-1" 99 with
          Method := "POST", URL := "/other", StatusCode := 500 }], none) ∧
    (SQLiteStorage.SaveHistory (exampleEnv [] [] "")
        (sqliteHistoryWorld (exampleEnv [] [] "") World.empty [historyAt "h1" "room-1" 10])
        { historyAt "h1" "room-1" 99 with
          Method := "POST", URL := "/other", StatusCode := 500 }).2.2 = some "UNIQUE constraint failed: storage_history.id" ∧
    (SQLiteStorage.GetHistoryByRoom (exampleEnv [] [] "")
        (sqliteHistoryWorld (exampleEnv [] [] "") World.empty
          [historyAt "h1" "room-1" 10,
           { historyAt "h1" "room-1" 99 with
             Method := "POST", URL := "/other", StatusCode := 500 }])
        "room-1" 0).2 = ([historyAt "h1" "room-1" 10], none) :=
  ⟨by decide, by decide, by decide, by decide, by decide⟩

/-! ## C19: deleting what is not stored -/

/-- A delete through the manager with both adapters returns no error when
the document adapter answers or, that failing, the relational adapter does;
and it leaves both stores as they were when neither holds the id. -/
theorem failoverManager_delete (env : Env) (w : World) (k : EntityKind) (id : String)
    (hgo : env.mongoFault w.mongoCalls = false ∨ env.sqliteFault w.sqliteCalls = false) :
    ((failoverManager env).invoke w (k.deleteCall id)).2.err = none ∧
    (w.mongo.stores k id = false → w.sqlite.stores k id = false →
      ((failoverManager env).invoke w (k.deleteCall id)).1.mongo = w.mongo ∧
      ((failoverManager env).invoke w (k.deleteCall id)).1.sqlite = w.sqlite) := by
  obtain ⟨r1, r2, _⟩ := StorageManager.invoke_routing (failoverManager env) w (k.deleteCall id)
  have hprim : (failoverManager env).primary = MongoStorage.backend env := rfl
  rw [hprim] at r1 r2
  by_cases hm : env.mongoFault w.mongoCalls = true
  · have hs : env.sqliteFault w.sqliteCalls = false := by
      rcases hgo with h | h
      · rw [hm] at h; exact Bool.noConfusion h
      · exact h
    have hp := MongoStorage.mongo_delete_fault env w k id hm
    rw [r2 (SQLiteStorage.backend env) (by rw [hp]; simp [Reply.err]) rfl, hp,
      EntityKind.deleteCall_after]
    obtain ⟨d1, d2, d3⟩ :=
      SQLiteStorage.sqlite_delete_spec env { w with mongoCalls := w.mongoCalls + 1 } k id hs
    exact ⟨d1, fun _ hsq => ⟨d2, d3 hsq⟩⟩
  · have hm' : env.mongoFault w.mongoCalls = false := Bool.eq_false_iff.mpr hm
    obtain ⟨d1, d2, _, d4⟩ := MongoStorage.mongo_delete_spec env w k id hm'
    rw [r1 d1]
    exact ⟨d1, fun hmg _ => ⟨d4 hmg, d2⟩⟩

/-- A delete through the manager with the relational adapter only returns no
error when the adapter answers at the first attempt or at the retry; and it
leaves both stores as they were when the relational store does not hold the id. -/
theorem relationalOnlyManager_delete (env : Env) (w : World) (k : EntityKind) (id : String)
    (hgo : env.sqliteFault w.sqliteCalls = false ∨ env.sqliteFault (w.sqliteCalls + 1) = false) :
    ((relationalOnlyManager env).invoke w (k.deleteCall id)).2.err = none ∧
    (w.sqlite.stores k id = false →
      ((relationalOnlyManager env).invoke w (k.deleteCall id)).1.mongo = w.mongo ∧
      ((relationalOnlyManager env).invoke w (k.deleteCall id)).1.sqlite = w.sqlite) := by
  obtain ⟨r1, r2, _⟩ :=
    StorageManager.invoke_routing (relationalOnlyManager env) w (k.deleteCall id)
  have hprim : (relationalOnlyManager env).primary = SQLiteStorage.backend env := rfl
  rw [hprim] at r1 r2
  by_cases hm : env.sqliteFault w.sqliteCalls = true
  · have hs : env.sqliteFault (w.sqliteCalls + 1) = false := by
      rcases hgo with h | h
      · rw [hm] at h; exact Bool.noConfusion h
      · exact h
    have hp := SQLiteStorage.sqlite_delete_fault env w k id hm
    rw [r2 (SQLiteStorage.backend env) (by rw [hp]; simp [Reply.err]) rfl, hp,
      EntityKind.deleteCall_after]
    obtain ⟨d1, d2, d3⟩ :=
      SQLiteStorage.sqlite_delete_spec env { w with sqliteCalls := w.sqliteCalls + 1 } k id hs
    exact ⟨d1, fun hsq => ⟨d2, d3 hsq⟩⟩
  · have hm' : env.sqliteFault w.sqliteCalls = false := Bool.eq_false_iff.mpr hm
    obtain ⟨d1, d2, d3⟩ := SQLiteStorage.sqlite_delete_spec env w k id hm'
    rw [r1 d1]
    exact ⟨d1, fun hsq => ⟨d2, d3 hsq⟩⟩

/-- C19: for each of the four entity kinds, a delete whose backend call goes
through returns no error whether or not the id is stored, in every state (so
also right after a delete of the same id), and leaves the stores as they
were when the id is not stored: through the document adapter, through the
relational adapter, and through the manager built on both or on the
relational adapter alone, where it is enough that the backend the manager
ends up asking answers. -/
theorem C19_delete_of_absent_id_is_noop (env : Env) (w : World) (k : EntityKind)
    (id : String) :
    (env.mongoFault w.mongoCalls = false →
      ((MongoStorage.backend env).invoke w (k.deleteCall id)).2.err = none ∧
      (w.mongo.stores k id = false →
        ((MongoStorage.backend env).invoke w (k.deleteCall id)).1.mongo = w.mongo ∧
        ((MongoStorage.backend env).invoke w (k.deleteCall id)).1.sqlite = w.sqlite)) ∧
    (env.sqliteFault w.sqliteCalls = false →
      ((SQLiteStorage.backend env).invoke w (k.deleteCall id)).2.err = none ∧
      (w.sqlite.stores k id = false →
        ((SQLiteStorage.backend env).invoke w (k.deleteCall id)).1.mongo = w.mongo ∧
        ((SQLiteStorage.backend env).invoke w (k.deleteCall id)).1.sqlite = w.sqlite)) ∧
    ((env.mongoFault w.mongoCalls = false ∨ env.sqliteFault w.sqliteCalls = false) →
      ((failoverManager env).invoke w (k.deleteCall id)).2.err = none ∧
      (w.mongo.stores k id = false → w.sqlite.stores k id = false →
        ((failoverManager env).invoke w (k.deleteCall id)).1.mongo = w.mongo ∧
        ((failoverManager env).invoke w (k.deleteCall id)).1.sqlite = w.sqlite)) ∧
    ((env.sqliteFault w.sqliteCalls = false ∨ env.sqliteFault (w.sqliteCalls + 1) = false) →
      ((relationalOnlyManager env).invoke w (k.deleteCall id)).2.err = none ∧
      (w.sqlite.stores k id = false →
        ((relationalOnlyManager env).invoke w (k.deleteCall id)).1.mongo = w.mongo ∧
        ((relationalOnlyManager env).invoke w (k.deleteCall id)).1.sqlite = w.sqlite)) := by
  refine ⟨fun hf => ?_, fun hf => ?_, failoverManager_delete env w k id,
    relationalOnlyManager_delete env w k id⟩
  · obtain ⟨d1, d2, _, d4⟩ := MongoStorage.mongo_delete_spec env w k id hf
    exact ⟨d1, fun h => ⟨d4 h, d2⟩⟩
  · obtain ⟨d1, d2, d3⟩ := SQLiteStorage.sqlite_delete_spec env w k id hf
    exact ⟨d1, fun h => ⟨d2, d3 h⟩⟩

/-- C19, witness: in the world that holds the collection `c1` in the document
store, the manager deletes `c1` and then deletes it again: the second delete
returns no error and changes nothing; so does a delete of an id never stored. -/
theorem C19_delete_of_absent_id_is_noop_witness :
    (((failoverManager (exampleEnv [] [] "")).invoke
        (worldWithMongoCollection (exampleCollection "a" "room-1" none)) (.DeleteCollection "c1")).1.mongo.collections
      = []) ∧
    (((failoverManager (exampleEnv [] [] "")).invoke
        ((failoverManager (exampleEnv [] [] "")).invoke
          (worldWithMongoCollection (exampleCollection "a" "room-1" none)) (.DeleteCollection "c1")).1
        (EntityKind.collection.deleteCall "c1")).2.err = none) ∧
    (((failoverManager (exampleEnv [] [] "")).invoke
        (worldWithMongoCollection (exampleCollection "a" "room-1" none))
        (EntityKind.collection.deleteCall "never")).2.err = none ∧
      ((failoverManager (exampleEnv [] [] "")).invoke
        (worldWithMongoCollection (exampleCollection "a" "room-1" none))
        (EntityKind.collection.deleteCall "never")).1.mongo =
        (worldWithMongoCollection (exampleCollection "a" "room-1" none)).mongo ∧
      ((failoverManager (exampleEnv [] [] "")).invoke
        (worldWithMongoCollection (exampleCollection "a" "room-1" none))
        (EntityKind.collection.deleteCall "never")).1.sqlite =
        (worldWithMongoCollection (exampleCollection "a" "room-1" none)).sqlite) :=
  ⟨by decide,
   ((C19_delete_of_absent_id_is_noop (exampleEnv [] [] "")
      ((failoverManager (exampleEnv [] [] "")).invoke
        (worldWithMongoCollection (exampleCollection "a" "room-1" none)) (.DeleteCollection "c1")).1
      .collection "c1").2.2.1 (Or.inl (by decide))).1,
   ((C19_delete_of_absent_id_is_noop (exampleEnv [] [] "")
      (worldWithMongoCollection (exampleCollection "a" "room-1" none)) .collection "never").2.2.1
        (Or.inl (by decide))).1,
   (((C19_delete_of_absent_id_is_noop (exampleEnv [] [] "")
      (worldWithMongoCollection (exampleCollection "a" "room-1" none)) .collection "never").2.2.1
        (Or.inl (by decide))).2 (by decide) (by decide))⟩

/-! ## C20: what a get by id returns -/

/-- `GetCollection` through the manager with both adapters keeps the contract of a
get over the records of both stores. -/
theorem failoverManager_GetCollection (env : Env) (w : World) (id : String) :
    GetContract StorageCollection.ID
      (w.mongo.collections.map StorageCollection.fromBSON ++ w.sqlite.collections.map SQLiteCollection.toStorage) id
      ((failoverManager env).GetCollection w id).2 := by
  obtain ⟨cm, ms, _, _⟩ := MongoStorage.mongo_GetCollection_contract env w id
  unfold StorageManager.GetCollection
  simp only [failoverManager, MongoStorage.backend, SQLiteStorage.backend]
  generalize MongoStorage.GetCollection env w id = r at cm ms ⊢
  obtain ⟨rw', rr, re⟩ := r
  cases re with
  | none =>
    exact GetContract.of_subset _ _ _ _ _ (fun r hr => List.mem_append.mpr (Or.inl hr)) cm
  | some e =>
    obtain ⟨cs, _, _⟩ := SQLiteStorage.sqlite_GetCollection_contract env rw' id
    simp only at ms
    rw [ms] at cs
    exact GetContract.of_subset _ _ _ _ _ (fun r hr => List.mem_append.mpr (Or.inr hr)) cs

/-- `GetCollection` through the manager with the relational adapter only keeps the
contract of a get over the records of the relational store. -/
theorem relationalOnlyManager_GetCollection (env : Env) (w : World) (id : String) :
    GetContract StorageCollection.ID (w.sqlite.collections.map SQLiteCollection.toStorage) id
      ((relationalOnlyManager env).GetCollection w id).2 := by
  obtain ⟨cm, ms, _⟩ := SQLiteStorage.sqlite_GetCollection_contract env w id
  unfold StorageManager.GetCollection
  simp only [relationalOnlyManager, SQLiteStorage.backend]
  generalize SQLiteStorage.GetCollection env w id = r at cm ms ⊢
  obtain ⟨rw', rr, re⟩ := r
  cases re with
  | none => exact cm
  | some e =>
    obtain ⟨cs, _, _⟩ := SQLiteStorage.sqlite_GetCollection_contract env rw' id
    simp only at ms
    rw [ms] at cs
    exact cs

/-- `GetEnvironment` through the manager with both adapters keeps the contract of a
get over the records of both stores. -/
theorem failoverManager_GetEnvironment (env : Env) (w : World) (id : String) :
    GetContract StorageEnvironment.ID
      (w.mongo.environments.map StorageEnvironment.fromBSON ++ w.sqlite.environments.map SQLiteEnvironment.toStorage) id
      ((failoverManager env).GetEnvironment w id).2 := by
  obtain ⟨cm, ms, _, _⟩ := MongoStorage.mongo_GetEnvironment_contract env w id
  unfold StorageManager.GetEnvironment
  simp only [failoverManager, MongoStorage.backend, SQLiteStorage.backend]
  generalize MongoStorage.GetEnvironment env w id = r at cm ms ⊢
  obtain ⟨rw', rr, re⟩ := r
  cases re with
  | none =>
    exact GetContract.of_subset _ _ _ _ _ (fun r hr => List.mem_append.mpr (Or.inl hr)) cm
  | some e =>
    obtain ⟨cs, _, _⟩ := SQLiteStorage.sqlite_GetEnvironment_contract env rw' id
    simp only at ms
    rw [ms] at cs
    exact GetContract.of_subset _ _ _ _ _ (fun r hr => List.mem_append.mpr (Or.inr hr)) cs

/-- `GetEnvironment` through the manager with the relational adapter only keeps the
contract of a get over the records of the relational store. -/
theorem relationalOnlyManager_GetEnvironment (env : Env) (w : World) (id : String) :
    GetContract StorageEnvironment.ID (w.sqlite.environments.map SQLiteEnvironment.toStorage) id
      ((relationalOnlyManager env).GetEnvironment w id).2 := by
  obtain ⟨cm, ms, _⟩ := SQLiteStorage.sqlite_GetEnvironment_contract env w id
  unfold StorageManager.GetEnvironment
  simp only [relationalOnlyManager, SQLiteStorage.backend]
  generalize SQLiteStorage.GetEnvironment env w id = r at cm ms ⊢
  obtain ⟨rw', rr, re⟩ := r
  cases re with
  | none => exact cm
  | some e =>
    obtain ⟨cs, _, _⟩ := SQLiteStorage.sqlite_GetEnvironment_contract env rw' id
    simp only at ms
    rw [ms] at cs
    exact cs

/-- `GetRequest` through the manager with both adapters keeps the contract of a
get over the records of both stores. -/
theorem failoverManager_GetRequest (env : Env) (w : World) (id : String) :
    GetContract StorageRequest.ID
      (w.mongo.requests.map StorageRequest.fromBSON ++ w.sqlite.requests.map SQLiteRequest.toStorage) id
      ((failoverManager env).GetRequest w id).2 := by
  obtain ⟨cm, ms, _, _⟩ := MongoStorage.mongo_GetRequest_contract env w id
  unfold StorageManager.GetRequest
  simp only [failoverManager, MongoStorage.backend, SQLiteStorage.backend]
  generalize MongoStorage.GetRequest env w id = r at cm ms ⊢
  obtain ⟨rw', rr, re⟩ := r
  cases re with
  | none =>
    exact GetContract.of_subset _ _ _ _ _ (fun r hr => List.mem_append.mpr (Or.inl hr)) cm
  | some e =>
    obtain ⟨cs, _, _⟩ := SQLiteStorage.sqlite_GetRequest_contract env rw' id
    simp only at ms
    rw [ms] at cs
    exact GetContract.of_subset _ _ _ _ _ (fun r hr => List.mem_append.mpr (Or.inr hr)) cs

/-- `GetRequest` through the manager with the relational adapter only keeps the
contract of a get over the records of the relational store. -/
theorem relationalOnlyManager_GetRequest (env : Env) (w : World) (id : String) :
    GetContract StorageRequest.ID (w.sqlite.requests.map SQLiteRequest.toStorage) id
      ((relationalOnlyManager env).GetRequest w id).2 := by
  obtain ⟨cm, ms, _⟩ := SQLiteStorage.sqlite_GetRequest_contract env w id
  unfold StorageManager.GetRequest
  simp only [relationalOnlyManager, SQLiteStorage.backend]
  generalize SQLiteStorage.GetRequest env w id = r at cm ms ⊢
  obtain ⟨rw', rr, re⟩ := r
  cases re with
  | none => exact cm
  | some e =>
    obtain ⟨cs, _, _⟩ := SQLiteStorage.sqlite_GetRequest_contract env rw' id
    simp only at ms
    rw [ms] at cs
    exact cs

/-- C20: `GetCollection`, `GetEnvironment` and `GetRequest`, through the
document adapter, the relational adapter, the manager built on both and the
manager built on the relational adapter alone, return either a record with a
nil error or a nil record with an error, never a nil record with a nil
error; a record returned without error is the decoding of a record stored
under the requested id in a backend of the subject; and when no backend of
the subject stores a record under the id, the get returns an error and a nil
record. -/
theorem C20_get_by_id_contract (env : Env) (w : World) (id : String) :
    GetContract StorageCollection.ID (w.mongo.collections.map StorageCollection.fromBSON) id
      (MongoStorage.GetCollection env w id).2 ∧
    GetContract StorageCollection.ID (w.sqlite.collections.map SQLiteCollection.toStorage) id
      (SQLiteStorage.GetCollection env w id).2 ∧
    GetContract StorageCollection.ID
      (w.mongo.collections.map StorageCollection.fromBSON ++ w.sqlite.collections.map SQLiteCollection.toStorage) id
      ((failoverManager env).GetCollection w id).2 ∧
    GetContract StorageCollection.ID (w.sqlite.collections.map SQLiteCollection.toStorage) id
      ((relationalOnlyManager env).GetCollection w id).2 ∧
    GetContract StorageEnvironment.ID (w.mongo.environments.map StorageEnvironment.fromBSON) id
      (MongoStorage.GetEnvironment env w id).2 ∧
    GetContract StorageEnvironment.ID (w.sqlite.environments.map SQLiteEnvironment.toStorage) id
      (SQLiteStorage.GetEnvironment env w id).2 ∧
    GetContract StorageEnvironment.ID
      (w.mongo.environments.map StorageEnvironment.fromBSON ++ w.sqlite.environments.map SQLiteEnvironment.toStorage) id
      ((failoverManager env).GetEnvironment w id).2 ∧
    GetContract StorageEnvironment.ID (w.sqlite.environments.map SQLiteEnvironment.toStorage) id
      ((relationalOnlyManager env).GetEnvironment w id).2 ∧
    GetContract StorageRequest.ID (w.mongo.requests.map StorageRequest.fromBSON) id
      (MongoStorage.GetRequest env w id).2 ∧
    GetContract StorageRequest.ID (w.sqlite.requests.map SQLiteRequest.toStorage) id
      (SQLiteStorage.GetRequest env w id).2 ∧
    GetContract StorageRequest.ID
      (w.mongo.requests.map StorageRequest.fromBSON ++ w.sqlite.requests.map SQLiteRequest.toStorage) id
      ((failoverManager env).GetRequest w id).2 ∧
    GetContract StorageRequest.ID (w.sqlite.requests.map SQLiteRequest.toStorage) id
      ((relationalOnlyManager env).GetRequest w id).2 :=
  ⟨(MongoStorage.mongo_GetCollection_contract env w id).1,
   (SQLiteStorage.sqlite_GetCollection_contract env w id).1,
   failoverManager_GetCollection env w id,
   relationalOnlyManager_GetCollection env w id,
   (MongoStorage.mongo_GetEnvironment_contract env w id).1,
   (SQLiteStorage.sqlite_GetEnvironment_contract env w id).1,
   failoverManager_GetEnvironment env w id,
   relationalOnlyManager_GetEnvironment env w id,
   (MongoStorage.mongo_GetRequest_contract env w id).1,
   (SQLiteStorage.sqlite_GetRequest_contract env w id).1,
   failoverManager_GetRequest env w id,
   relationalOnlyManager_GetRequest env w id⟩

/-- C20, witness: the manager built on both adapters asked for the collection
`c1` held by the document store, and for an id nothing is stored under. -/
theorem C20_get_by_id_contract_witness :
    GetContract StorageCollection.ID
      ((worldWithMongoCollection (exampleCollection "a" "room-1" none)).mongo.collections.map
          StorageCollection.fromBSON ++
        (worldWithMongoCollection (exampleCollection "a" "room-1" none)).sqlite.collections.map
          SQLiteCollection.toStorage) "c1"
      ((failoverManager (exampleEnv [] [] "")).GetCollection
        (worldWithMongoCollection (exampleCollection "a" "room-1" none)) "c1").2 ∧
    ((failoverManager (exampleEnv [] [] "")).GetCollection
        (worldWithMongoCollection (exampleCollection "a" "room-1" none)) "c1").2 =
      (some (exampleCollection "a" "room-1" none), none) ∧
    ((failoverManager (exampleEnv [] [] "")).GetCollection
        (worldWithMongoCollection (exampleCollection "a" "room-1" none)) "never").2 =
      (none, some "record not found") :=
  ⟨(C20_get_by_id_contract (exampleEnv [] [] "")
      (worldWithMongoCollection (exampleCollection "a" "room-1" none)) "c1").2.2.1,
   by decide, by decide⟩

/-! ## C21: what `GetRoomData` returns -/

/-- C21: when its two reads go through `GetRoomData roomID` returns a result,
and whenever it returns one, the collections and the environments in it are
exactly the stored ones whose `RoomID` is `roomID`, in storage order, and its
requests are the concatenation, in the order of the returned collections, of
the stored requests of each of them: a stored request is in the result if
and only if its `CollectionID` is the ID of a stored collection of the room. -/
theorem C21_get_room_data_contents (env : RoomEnv) (w : RoomWorld) (roomID : Nat) :
    (env.dbFault w.dbCalls = false → env.dbFault (w.dbCalls + 1) = false →
      ∃ data, (RoomService.GetRoomData env w roomID).2 = .ok data) ∧
    (∀ data, (RoomService.GetRoomData env w roomID).2 = .ok data →
      data.Collections = w.DB.collections.rows.filter (fun c => c.RoomID == roomID) ∧
      data.Environments = w.DB.environments.rows.filter (fun e => e.RoomID == roomID) ∧
      data.Requests = data.Collections.flatMap
        (fun col => w.DB.requests.rows.filter (fun r => r.CollectionID == col.ID)) ∧
      (∀ c, c ∈ data.Collections ↔ c ∈ w.DB.collections.rows ∧ c.RoomID = roomID) ∧
      (∀ e, e ∈ data.Environments ↔ e ∈ w.DB.environments.rows ∧ e.RoomID = roomID) ∧
      (∀ r, r ∈ data.Requests ↔
        r ∈ w.DB.requests.rows ∧
          ∃ c ∈ w.DB.collections.rows, c.RoomID = roomID ∧ r.CollectionID = c.ID)) := by
  unfold RoomService.GetRoomData
  simp only [RoomWorld.dbCall]
  refine ⟨fun h1 h2 => ?_, fun data h => ?_⟩
  · simp [h1, h2]
  · by_cases h1 : env.dbFault w.dbCalls = true
    · simp [h1] at h
    · by_cases h2 : env.dbFault (w.dbCalls + 1) = true
      · simp [h1, h2] at h
      · simp only [h1, h2, Bool.false_eq_true, if_false, Result.ok.injEq] at h
        subst h
        refine ⟨rfl, rfl, rfl, ?_, ?_, ?_⟩
        · intro c; simp [List.mem_filter]
        · intro e; simp [List.mem_filter]
        · intro r
          simp only [List.mem_flatMap, List.mem_filter, beq_iff_eq]
          constructor
          · rintro ⟨c, ⟨hc, hroom⟩, hr, hcol⟩
            exact ⟨hr, c, hc, hroom, hcol⟩
          · rintro ⟨hr, c, hc, hroom, hcol⟩
            exact ⟨c, ⟨hc, hroom⟩, hr, hcol⟩

/-- C21, witness: the room 1 holds a collection with one request, and a
collection of another room holds a request of its own. -/
theorem C21_get_room_data_contents_witness :
    (∃ data, (RoomService.GetRoomData (exampleRoomEnv []) worldWithTwoRooms 1).2 = .ok data) ∧
    ((RoomService.GetRoomData (exampleRoomEnv []) worldWithTwoRooms 1).2.value.map
        (fun data => (data.Collections.map DBCollection.Name,
          data.Requests.map DBRequest.Name))) = some (["shared"], ["list"]) :=
  ⟨(C21_get_room_data_contents (exampleRoomEnv []) worldWithTwoRooms 1).1
      (by decide) (by decide),
   by decide⟩

/-! ## C22: `ValidateRoomToken` -/

/-- gorm `First` finds nothing when no row satisfies the conditions. -/
theorem gormFirst_eq_none {α : Type} (pk : α → Nat) (p : α → Bool) (rows : List α)
    (h : ∀ r ∈ rows, p r = false) : gormFirst pk p rows = none := by
  unfold gormFirst
  have : rows.filter p = [] := by
    apply List.filter_eq_nil_iff.mpr
    intro r hr
    simp [h r hr]
  rw [this]
  rfl

/-- gorm `First` finds a row when one satisfies the conditions. -/
theorem gormFirst_exists {α : Type} (pk : α → Nat) (p : α → Bool) (rows : List α)
    (h : ∃ r ∈ rows, p r = true) : ∃ r, gormFirst pk p rows = some r ∧ r ∈ rows ∧ p r = true := by
  cases hf : gormFirst pk p rows with
  | none =>
    obtain ⟨r, hr, hp⟩ := h
    have := gormFirst_none pk p rows hf r hr
    rw [hp] at this
    exact Bool.noConfusion this
  | some r => exact ⟨r, rfl, gormFirst_some pk p rows r hf⟩

/-- The token service of `invertingRoomEnv` decodes what it issued. -/
theorem invertingRoomEnv_inverts : invertingRoomEnv.DecodingInvertsIssuing := by
  intro i user workspaceID token h
  have htok : token = String.mk (List.replicate workspaceID 'w' ++ '.' :: user.Role.data) := by
    have := congrArg Prod.fst h
    exact this.symm
  have hdrop : ∀ n : Nat, ∀ rest : List Char,
      (List.replicate n 'w' ++ '.' :: rest).dropWhile (fun c => c == 'w') = '.' :: rest := by
    intro n rest
    induction n with
    | zero => simp [List.dropWhile]
    | succ n ih => simp [List.replicate_succ, List.dropWhile]
  have htake : ∀ n : Nat, ∀ rest : List Char,
      ((List.replicate n 'w' ++ '.' :: rest).takeWhile (fun c => c == 'w')).length = n := by
    intro n rest
    induction n with
    | zero => simp [List.takeWhile]
    | succ n ih => simp [List.replicate_succ, List.takeWhile]
  subst htok
  show (match (List.replicate workspaceID 'w' ++ '.' :: user.Role.data).dropWhile
      (fun c => c == 'w') with
    | '.' :: role =>
      Except.ok ({ Role := String.mk role,
                   WorkspaceID := ((List.replicate workspaceID 'w' ++
                     '.' :: user.Role.data).takeWhile (fun c => c == 'w')).length } : Claims)
    | _ => Except.error "token is malformed") = _
  rw [hdrop, htake]
  rfl

/-- C22: `ValidateRoomToken` returns the collaborator's error when the
collaborator rejects the token, and an error when the decoded role is not
"room"; when the role is "room" it returns 'room not found' if no stored room
has the numeric id the token carries, and, the read going through, a stored
room with that id if there is one. Consequently, given a collaborator whose
decoding inverts its issuing (every token it issued for a user and a
workspace key decodes to that user's role and that key), the token
`GenerateRoomToken` issues for a stored room validates to that room (the
numeric id being the key of the table). -/
theorem C22_validate_room_token (env : RoomEnv) (w : RoomWorld) :
    (∀ token err, env.ValidateToken token = .error err →
      (RoomService.ValidateRoomToken env w token).2 = .err err) ∧
    (∀ token claims, env.ValidateToken token = .ok claims → claims.Role ≠ "room" →
      (RoomService.ValidateRoomToken env w token).2 = .err "invalid room token") ∧
    (∀ token claims, env.ValidateToken token = .ok claims → claims.Role = "room" →
      ((∀ r ∈ w.DB.rooms.rows, r.ID ≠ claims.WorkspaceID) →
        (RoomService.ValidateRoomToken env w token).2 = .err "room not found") ∧
      (env.dbFault w.dbCalls = false → (∃ r ∈ w.DB.rooms.rows, r.ID = claims.WorkspaceID) →
        ∃ room, (RoomService.ValidateRoomToken env w token).2 = .ok room ∧
          room ∈ w.DB.rooms.rows ∧ room.ID = claims.WorkspaceID)) ∧
    (env.DecodingInvertsIssuing →
      ∀ (w0 : RoomWorld) (room : Room), room ∈ w.DB.rooms.rows →
        (∀ r ∈ w.DB.rooms.rows, r.ID = room.ID → r = room) →
        (RoomService.GenerateRoomToken env w0 room.ID room.RoomID).2.2 = none →
        env.dbFault w.dbCalls = false →
        (RoomService.ValidateRoomToken env w
          (RoomService.GenerateRoomToken env w0 room.ID room.RoomID).2.1).2 = .ok room) := by
  have hfound : ∀ token claims, env.ValidateToken token = .ok claims → claims.Role = "room" →
      env.dbFault w.dbCalls = false → (∃ r ∈ w.DB.rooms.rows, r.ID = claims.WorkspaceID) →
      ∃ room, (RoomService.ValidateRoomToken env w token).2 = .ok room ∧
        room ∈ w.DB.rooms.rows ∧ room.ID = claims.WorkspaceID := by
    intro token claims hc hrole hdb hex
    obtain ⟨r0, hr0, hk0⟩ := hex
    obtain ⟨room, hfind, hmem, hp⟩ := gormFirst_exists Room.ID
      (fun r => r.ID == claims.WorkspaceID) w.DB.rooms.rows ⟨r0, hr0, by simp [hk0]⟩
    refine ⟨room, ?_, hmem, by simpa using hp⟩
    unfold RoomService.ValidateRoomToken
    simp only [hc, hrole, RoomWorld.dbCall, hdb, ne_eq, not_true_eq_false, if_false,
      Bool.false_eq_true, hfind]
  refine ⟨?_, ?_, ?_, ?_⟩
  · intro token err h
    unfold RoomService.ValidateRoomToken
    simp only [h]
  · intro token claims h hrole
    unfold RoomService.ValidateRoomToken
    simp only [h, hrole, ne_eq, not_false_eq_true, if_true]
  · intro token claims hc hrole
    refine ⟨fun habs => ?_, hfound token claims hc hrole⟩
    have hnone := gormFirst_eq_none Room.ID (fun r => r.ID == claims.WorkspaceID)
      w.DB.rooms.rows (fun r hr => by simpa using habs r hr)
    unfold RoomService.ValidateRoomToken
    simp only [hc, hrole, RoomWorld.dbCall, ne_eq, not_true_eq_false, if_false, hnone,
      ite_self]
  · intro hlaw w0 room hmem huniq hissued hdb
    have hinv := hlaw w0.tokenCalls
      { ID := (room.ID + 1000000) % 2 ^ 64, Username := "room_" ++ room.RoomID,
        Email := room.RoomID ++ "@room.resterx.com", Role := "room" }
      room.ID (RoomService.GenerateRoomToken env w0 room.ID room.RoomID).2.1
      (Prod.ext rfl hissued)
    obtain ⟨r, hr, hrmem, hrid⟩ := hfound _ _ hinv rfl hdb ⟨room, hmem, rfl⟩
    rw [hr, huniq r hrmem hrid]

/-- C22, witness: with the token service of `invertingRoomEnv`, the token
`GenerateRoomToken` issues for the stored room "team" validates to that room;
and a token the collaborator rejects is refused with the collaborator's error. -/
theorem C22_validate_room_token_witness :
    (RoomService.ValidateRoomToken (exampleRoomEnv []) (worldWithRoom 2)
        "not-a-token").2 = .err "token is malformed" ∧
    invertingRoomEnv.DecodingInvertsIssuing ∧
    (RoomService.GenerateRoomToken invertingRoomEnv RoomWorld.empty
        (1 : Nat) "000000000000").2 = ("w.room", none) ∧
    (RoomService.ValidateRoomToken invertingRoomEnv (worldWithRoom 2)
        (RoomService.GenerateRoomToken invertingRoomEnv RoomWorld.empty
          (1 : Nat) "000000000000").2.1).2 =
      .ok { ID := 1, RoomID := "000000000000", Name := "team",
            Password := exampleDigest "secret1", Description := "", RoomType := "free",
            DeviceLimit := 2, IsActive := true, CreatedAt := 1, UpdatedAt := 1 } :=
  ⟨((C22_validate_room_token (exampleRoomEnv []) (worldWithRoom 2)).1
      "not-a-token" "token is malformed" rfl),
   invertingRoomEnv_inverts, by decide,
   (C22_validate_room_token invertingRoomEnv (worldWithRoom 2)).2.2.2
      invertingRoomEnv_inverts RoomWorld.empty
      { ID := 1, RoomID := "000000000000", Name := "team",
        Password := exampleDigest "secret1", Description := "", RoomType := "free",
        DeviceLimit := 2, IsActive := true, CreatedAt := 1, UpdatedAt := 1 }
      (by decide) (by decide) (by decide) (by decide)⟩

/-! ## C23: the room `CreateRoom` persists and returns -/

/-- C23: `CreateRoom` returns a response for every request that passes
validation when its collaborators answer (random source, bcrypt, the insert
of a room whose generated public id is not taken, token service); and
whenever it returns a response, the room in it has `DeviceLimit` 3 when the
request left it 0 and the requested value otherwise, `RoomType` "free" when
the request left it empty and the requested value otherwise, `IsActive`
true, and the requested name and description; the rooms table gained exactly
one row, which is the returned room with the password hash in place of the
empty password, and the `RoomID` of the response is the `RoomID` of that row. -/
theorem C23_create_room_defaults (env : RoomEnv) (w : RoomWorld) (req : CreateRoomRequest) :
    (req.Name ≠ "" → req.Password ≠ "" → 6 ≤ req.Password.utf8ByteSize →
      (RoomService.generateRoomID env w).2.2 = none →
      (env.bcryptGenerate w.bcryptCalls req.Password).2 = none →
      env.dbFault w.dbCalls = false →
      (∀ r ∈ w.DB.rooms.rows, r.RoomID ≠ (RoomService.generateRoomID env w).2.1) →
      (∀ user ws, (env.GenerateToken w.tokenCalls user ws).2 = none) →
      ∃ resp, (RoomService.CreateRoom env w req).2 = .ok resp) ∧
    (∀ resp, (RoomService.CreateRoom env w req).2 = .ok resp →
      resp.Room.DeviceLimit = (if req.DeviceLimit = 0 then 3 else req.DeviceLimit) ∧
      resp.Room.RoomType = (if req.RoomType = "" then "free" else req.RoomType) ∧
      resp.Room.IsActive = true ∧ resp.Room.Name = req.Name ∧
      resp.Room.Description = req.Description ∧
      ∃ row : Room,
        (RoomService.CreateRoom env w req).1.DB.rooms.rows = w.DB.rooms.rows ++ [row] ∧
        resp.Room = { row with Password := "" } ∧ resp.RoomID = row.RoomID ∧
        row.DeviceLimit = (if req.DeviceLimit = 0 then 3 else req.DeviceLimit) ∧
        row.RoomType = (if req.RoomType = "" then "free" else req.RoomType) ∧
        row.IsActive = true ∧ row.Name = req.Name ∧ row.Description = req.Description) := by
  refine ⟨RoomService.CreateRoom_succeeds env w req, fun resp h => ?_⟩
  rcases RoomService.CreateRoom_cases env w req with
    ⟨msg, hm, _, _⟩ | ⟨row, hdb, _, _, hn, hd, hl, ht, ha, hres⟩
  · rw [hm] at h
    exact Result.noConfusion h
  · rcases hres with ⟨msg, hm, _⟩ | ⟨token, hok⟩
    · rw [hm] at h
      exact Result.noConfusion h
    · rw [hok] at h
      simp only [Result.ok.injEq] at h
      subst h
      exact ⟨hl, ht, ha, hn, hd, row, by rw [hdb], rfl, rfl, hl, ht, ha, hn, hd⟩

/-- C23, witness: a request that leaves the device limit and the room type
unset. -/
theorem C23_create_room_defaults_witness :
    (∃ resp, (RoomService.CreateRoom (exampleRoomEnv []) RoomWorld.empty
        { Name := "team", Password := "secret1", Description := "shared", RoomType := "",
          DeviceLimit := 0 }).2 = .ok resp) ∧
    (RoomService.CreateRoom (exampleRoomEnv []) RoomWorld.empty
        { Name := "team", Password := "secret1", Description := "shared", RoomType := "",
          DeviceLimit := 0 }).2 =
      .ok { Room := { ID := 1, RoomID := "000000000000", Name := "team", Password := "",
                      Description := "shared", RoomType := "free", DeviceLimit := 3,
                      IsActive := true, CreatedAt := 1, UpdatedAt := 1 },
            Token := "token-for-room_000000000000", RoomID := "000000000000" } ∧
    (3 : Int) = (if (0 : Int) = 0 then 3 else 0) :=
  ⟨(C23_create_room_defaults (exampleRoomEnv []) RoomWorld.empty
      { Name := "team", Password := "secret1", Description := "shared", RoomType := "",
        DeviceLimit := 0 }).1 (by decide) (by decide) (by decide) (by decide) (by decide)
      (by decide) (by simp [RoomWorld.empty]) (fun _ _ => rfl),
   by decide,
   ((C23_create_room_defaults (exampleRoomEnv []) RoomWorld.empty
      { Name := "team", Password := "secret1", Description := "shared", RoomType := "",
        DeviceLimit := 0 }).2
      { Room := { ID := 1, RoomID := "000000000000", Name := "team", Password := "",
                  Description := "shared", RoomType := "free", DeviceLimit := 3,
                  IsActive := true, CreatedAt := 1, UpdatedAt := 1 },
        Token := "token-for-room_000000000000", RoomID := "000000000000" } (by decide)).1⟩

/-! ## C24: the name a new device is stored under -/

/-- C24, counterexample: in a room with room for three devices, a join of the
unregistered deviceId "éééééééé" (8 characters, 16 bytes) with a blank
device name succeeds and stores the name "Device éééé": the slice
`DeviceID[:8]` takes the first 8 bytes, which are the first 4 characters. -/
theorem C24_blank_name_takes_eight_bytes_not_characters :
    (exampleJoin "éééééééé" "").DeviceID.length = 8 ∧
    (RoomService.JoinRoom (exampleRoomEnv []) (worldWithRoom 3)
        (exampleJoin "éééééééé" "")).2.isOk = true ∧
    (RoomService.JoinRoom (exampleRoomEnv []) (worldWithRoom 3)
        (exampleJoin "éééééééé" "")).1.DB.roomDevices.rows.map RoomDevice.DeviceName
      = ["Device éééé"] ∧
    "Device éééé" ≠ "Device " ++ String.mk ((exampleJoin "éééééééé" "").DeviceID.data.take 8) :=
  ⟨by decide, by decide, by decide, by decide⟩

/-- C24, amended: whenever `JoinRoom` registers a new device `d` (the device
table after the call is the table before it with the row `d` appended), `d`
carries the deviceId of the request; a non-blank deviceName is stored
unchanged; with a blank deviceName the deviceId has at least 8 bytes and,
when its 8th byte ends a character, the stored name is "Device " followed by
the first 8 bytes of deviceId, which are its first 8 characters when each of
these is a single byte. -/
theorem C24_new_device_name (env : RoomEnv) (w : RoomWorld) (req : JoinRoomRequest)
    (d : RoomDevice)
    (h : (RoomService.JoinRoom env w req).1.DB.roomDevices.rows =
      w.DB.roomDevices.rows ++ [d]) :
    d.DeviceID = req.DeviceID ∧
    (req.DeviceName ≠ "" → d.DeviceName = req.DeviceName) ∧
    (req.DeviceName = "" →
      8 ≤ req.DeviceID.utf8ByteSize ∧
      ((String.mk (takeBytes 8 req.DeviceID.data)).utf8ByteSize = 8 →
        d.DeviceName = "Device " ++ String.mk (takeBytes 8 req.DeviceID.data)) ∧
      ((∀ c ∈ req.DeviceID.data.take 8, c.utf8Size = 1) →
        d.DeviceName = "Device " ++ String.mk (req.DeviceID.data.take 8))) := by
  rcases RoomService.JoinRoom_devices env w req with hlen | ⟨d', hrows, hid, hname⟩
  · rw [h] at hlen
    simp at hlen
  · have hd : d' = d := by
      rw [h] at hrows
      simpa using (List.append_cancel_left hrows).symm
    subst hd
    refine ⟨hid, ?_, ?_⟩
    · intro hne
      rw [if_neg hne] at hname
      exact (Option.some.inj hname).symm
    · intro hblank
      rw [if_pos hblank] at hname
      unfold sliceTo at hname
      by_cases hshort : req.DeviceID.utf8ByteSize < 8
      · rw [if_pos hshort] at hname
        simp at hname
      · rw [if_neg hshort] at hname
        have hn : d'.DeviceName = "Device " ++ String.mk (takeBytes 8 req.DeviceID.data) := by
          simpa using hname.symm
        refine ⟨by omega, fun _ => hn, fun hsingle => ?_⟩
        rw [hn, takeBytes_single_byte 8 _ hsingle]

theorem C24_new_device_name_witness :
    (RoomService.JoinRoom (exampleRoomEnv []) (worldWithRoom 3)
        (exampleJoin "device-0001" "")).1.DB.roomDevices.rows =
      (worldWithRoom 3).DB.roomDevices.rows ++
        [{ ID := 1, RoomID := 1, DeviceName := "Device device-0", DeviceID := "device-0001",
           LastActive := 2, CreatedAt := 3 }] ∧
    ("" = "" → 8 ≤ "device-0001".utf8ByteSize ∧
      ((String.mk (takeBytes 8 "device-0001".data)).utf8ByteSize = 8 →
        "Device device-0" = "Device " ++ String.mk (takeBytes 8 "device-0001".data)) ∧
      ((∀ c ∈ "device-0001".data.take 8, c.utf8Size = 1) →
        "Device device-0" = "Device " ++ String.mk ("device-0001".data.take 8))) :=
  ⟨by decide,
    (C24_new_device_name (exampleRoomEnv []) (worldWithRoom 3) (exampleJoin "device-0001" "")
      { ID := 1, RoomID := 1, DeviceName := "Device device-0", DeviceID := "device-0001",
        LastActive := 2, CreatedAt := 3 } (by decide)).2.2⟩

/-! ## C25: `StorageManager.Close` -/

/-- C25: `StorageManager.Close` closes the primary and then, when a fallback
is configured, the fallback, on the world the primary's `Close` left and
whether or not that `Close` failed; it returns nil exactly when every `Close`
it attempted returned nil, and the error "failed to close storage backends"
otherwise. -/
theorem C25_close_attempts_every_backend {ω : Type} (sm : StorageManager ω) (w : ω) :
    (∀ fb, sm.fallback = some fb →
      (sm.Close w).1 = (fb.Close (sm.primary.Close w).1).1) ∧
    (sm.fallback = none → (sm.Close w).1 = (sm.primary.Close w).1) ∧
    ((sm.Close w).2 = none ↔
      (sm.primary.Close w).2 = none ∧
        ∀ fb, sm.fallback = some fb → (fb.Close (sm.primary.Close w).1).2 = none) ∧
    ((sm.Close w).2 = none ∨ (sm.Close w).2 = some "failed to close storage backends") := by
  unfold StorageManager.Close
  cases hp : (sm.primary.Close w).2 with
  | none =>
    cases hfb : sm.fallback with
    | none => simp [hp]
    | some fb =>
      cases hf : (fb.Close (sm.primary.Close w).1).2 with
      | none => simp [hp, hf]
      | some e => simp [hp, hf]
  | some e =>
    cases hfb : sm.fallback with
    | none => simp [hp]
    | some fb =>
      cases hf : (fb.Close (sm.primary.Close w).1).2 with
      | none => simp [hp, hf]
      | some e' => simp [hp, hf]

/-- C25, witness: the document store fails to close (driver call number 0);
the relational store is closed all the same, and the manager reports the
failure. With both closing, the manager returns nil. -/
theorem C25_close_attempts_every_backend_witness :
    ((failoverManager (exampleEnv [0] [] "")).Close World.empty).2 =
      some "failed to close storage backends" ∧
    ((failoverManager (exampleEnv [0] [] "")).Close World.empty).1.sqliteCalls = 1 ∧
    ((failoverManager (exampleEnv [] [] "")).Close World.empty).2 = none ∧
    ((failoverManager (exampleEnv [0] [] "")).Close World.empty).1 =
      ((SQLiteStorage.backend (exampleEnv [0] [] "")).Close
        ((failoverManager (exampleEnv [0] [] "")).primary.Close World.empty).1).1 :=
  ⟨by decide, by decide, by decide,
   (C25_close_attempts_every_backend (failoverManager (exampleEnv [0] [] "")) World.empty).1
      (SQLiteStorage.backend (exampleEnv [0] [] "")) rfl⟩

/-! ## C26: the records `SyncRoomData` leaves alone -/

/-- C26, counterexample: the store holds the collection 1 "shared" and the
environment 1 "staging" of the room 1, and the request 1 "list" of that
collection; the room 2 holds the collection 2. A batch synchronised into the
room 2 that carries a collection and an environment with the ID 1 and a
request with the ID 1 succeeds, and the collection 1 and the environment 1
are replaced and now belong to the room 2, and the request 1 is replaced and
now belongs to the collection 2. -/
theorem C26_sync_room_data_rescopes_records_of_another_room :
    worldWithTwoRooms.DB.collections.rows.map (fun c => (c.ID, c.RoomID, c.Name))
      = [(1, 1, "shared"), (2, 2, "other")] ∧
    worldWithTwoRooms.DB.environments.rows.map (fun e => (e.ID, e.RoomID, e.Name))
      = [(1, 1, "staging")] ∧
    worldWithTwoRooms.DB.requests.rows.map (fun r => (r.ID, r.CollectionID, r.Name))
      = [(1, 1, "list"), (2, 2, "foreign")] ∧
    (RoomService.SyncRoomData (exampleRoomEnv []) worldWithTwoRooms 2
        { Collections := [exampleDBCollection 1 "hijacked"],
          Environments := [exampleDBEnvironment 1 "taken"],
          Requests := [exampleDBRequest 1 2 "moved"] }).2 = .ok () ∧
    (RoomService.SyncRoomData (exampleRoomEnv []) worldWithTwoRooms 2
        { Collections := [exampleDBCollection 1 "hijacked"],
          Environments := [exampleDBEnvironment 1 "taken"],
          Requests := [exampleDBRequest 1 2 "moved"] }).1.DB.collections.rows.map
        (fun c => (c.ID, c.RoomID, c.Name))
      = [(1, 2, "hijacked"), (2, 2, "other")] ∧
    (RoomService.SyncRoomData (exampleRoomEnv []) worldWithTwoRooms 2
        { Collections := [exampleDBCollection 1 "hijacked"],
          Environments := [exampleDBEnvironment 1 "taken"],
          Requests := [exampleDBRequest 1 2 "moved"] }).1.DB.environments.rows.map
        (fun e => (e.ID, e.RoomID, e.Name))
      = [(1, 2, "taken")] ∧
    (RoomService.SyncRoomData (exampleRoomEnv []) worldWithTwoRooms 2
        { Collections := [exampleDBCollection 1 "hijacked"],
          Environments := [exampleDBEnvironment 1 "taken"],
          Requests := [exampleDBRequest 1 2 "moved"] }).1.DB.requests.rows.map
        (fun r => (r.ID, r.CollectionID, r.Name))
      = [(1, 2, "moved"), (2, 2, "foreign")] :=
  ⟨by decide, by decide, by decide, by decide, by decide, by decide, by decide⟩

/-- C26, amended: on tables whose keys were all handed out by their
sequences, `SyncRoomData roomID data` changes only records whose key is the
ID of a batch entity of their kind: every stored collection whose ID is not
the ID of a batch collection is still stored, and the rows under its key are
exactly the rows that were there before the call, whatever room or workspace
it belongs to; likewise every stored environment whose ID is not the ID of a
batch environment, and every stored request whose ID is not the ID of a
batch request. -/
theorem C26_sync_room_data_keeps_records_outside_batch (env : RoomEnv) (w : RoomWorld)
    (roomID : Nat) (data : RoomDataResponse)
    (hc : Table.KeysIssued DBCollection.ID w.DB.collections)
    (he : Table.KeysIssued DBEnvironment.ID w.DB.environments)
    (hr : Table.KeysIssued DBRequest.ID w.DB.requests) :
    (∀ r ∈ w.DB.collections.rows, (∀ c ∈ data.Collections, c.ID ≠ r.ID) →
      r ∈ (RoomService.SyncRoomData env w roomID data).1.DB.collections.rows ∧
      Table.rowsAt DBCollection.ID
          (RoomService.SyncRoomData env w roomID data).1.DB.collections r.ID
        = Table.rowsAt DBCollection.ID w.DB.collections r.ID) ∧
    (∀ r ∈ w.DB.environments.rows, (∀ e ∈ data.Environments, e.ID ≠ r.ID) →
      r ∈ (RoomService.SyncRoomData env w roomID data).1.DB.environments.rows ∧
      Table.rowsAt DBEnvironment.ID
          (RoomService.SyncRoomData env w roomID data).1.DB.environments r.ID
        = Table.rowsAt DBEnvironment.ID w.DB.environments r.ID) ∧
    (∀ r ∈ w.DB.requests.rows, (∀ q ∈ data.Requests, q.ID ≠ r.ID) →
      r ∈ (RoomService.SyncRoomData env w roomID data).1.DB.requests.rows ∧
      Table.rowsAt DBRequest.ID (RoomService.SyncRoomData env w roomID data).1.DB.requests r.ID
        = Table.rowsAt DBRequest.ID w.DB.requests r.ID) := by
  obtain ⟨fc, fe, fr⟩ := RoomService.SyncRoomData_frame env w roomID data
  refine ⟨fun r hmem hx => ?_, fun r hmem hx => ?_, fun r hmem hx => ?_⟩
  · have h := fc r.ID (hc r hmem) hx
    refine ⟨?_, h⟩
    have : r ∈ Table.rowsAt DBCollection.ID w.DB.collections r.ID := by
      simp [Table.rowsAt, hmem]
    rw [← h] at this
    exact (List.mem_filter.mp this).1
  · have h := fe r.ID (he r hmem) hx
    refine ⟨?_, h⟩
    have : r ∈ Table.rowsAt DBEnvironment.ID w.DB.environments r.ID := by
      simp [Table.rowsAt, hmem]
    rw [← h] at this
    exact (List.mem_filter.mp this).1
  · have h := fr r.ID (hr r hmem) hx
    refine ⟨?_, h⟩
    have : r ∈ Table.rowsAt DBRequest.ID w.DB.requests r.ID := by
      simp [Table.rowsAt, hmem]
    rw [← h] at this
    exact (List.mem_filter.mp this).1

/-- C26, witness: a batch for the room 2 that carries the collection 2 and a
new request leaves the collection 1 of the room 1 and the stored requests as
they were. -/
theorem C26_sync_room_data_keeps_records_outside_batch_witness :
    Table.KeysIssued DBCollection.ID worldWithTwoRooms.DB.collections ∧
    Table.KeysIssued DBEnvironment.ID worldWithTwoRooms.DB.environments ∧
    Table.KeysIssued DBRequest.ID worldWithTwoRooms.DB.requests ∧
    (RoomService.SyncRoomData (exampleRoomEnv []) worldWithTwoRooms 2
        { Collections := [exampleDBCollection 2 "renamed"], Environments := [],
          Requests := [exampleDBRequest 0 2 "added"] }).2 = .ok () ∧
    ∀ r ∈ worldWithTwoRooms.DB.collections.rows,
      (∀ c ∈ [exampleDBCollection 2 "renamed"], c.ID ≠ r.ID) →
      r ∈ (RoomService.SyncRoomData (exampleRoomEnv []) worldWithTwoRooms 2
        { Collections := [exampleDBCollection 2 "renamed"], Environments := [],
          Requests := [exampleDBRequest 0 2 "added"] }).1.DB.collections.rows ∧
      Table.rowsAt DBCollection.ID
          (RoomService.SyncRoomData (exampleRoomEnv []) worldWithTwoRooms 2
            { Collections := [exampleDBCollection 2 "renamed"], Environments := [],
              Requests := [exampleDBRequest 0 2 "added"] }).1.DB.collections r.ID
        = Table.rowsAt DBCollection.ID worldWithTwoRooms.DB.collections r.ID :=
  ⟨by unfold Table.KeysIssued; decide, by unfold Table.KeysIssued; decide,
   by unfold Table.KeysIssued; decide, by decide,
   (C26_sync_room_data_keeps_records_outside_batch (exampleRoomEnv []) worldWithTwoRooms 2
      { Collections := [exampleDBCollection 2 "renamed"], Environments := [],
        Requests := [exampleDBRequest 0 2 "added"] }
      (by unfold Table.KeysIssued; decide) (by unfold Table.KeysIssued; decide)
      (by unfold Table.KeysIssued; decide)).1⟩

/-! ## C27: the joins `JoinRoom` does not survive -/

/-- C27, evaluated: in a room with room for three devices, a join of the
unregistered deviceId "dev-1" (5 bytes) or "1234567" (7 bytes) with a blank
device name ends in the run-time panic of the slice `DeviceID[:8]` and
registers nothing; the 8-byte deviceId "12345678" joins and is named after
itself, and a deviceId already registered joins again with a blank name
without reaching the slice. -/
theorem C27_join_room_panics_on_short_unregistered_device_id :
    (RoomService.JoinRoom (exampleRoomEnv []) (worldWithRoom 3) (exampleJoin "dev-1" "")).2
      = .panic "runtime error: slice bounds out of range" ∧
    (RoomService.JoinRoom (exampleRoomEnv []) (worldWithRoom 3)
        (exampleJoin "dev-1" "")).1.DB.roomDevices.rows = [] ∧
    (RoomService.JoinRoom (exampleRoomEnv []) (worldWithRoom 3) (exampleJoin "1234567" "")).2
      = .panic "runtime error: slice bounds out of range" ∧
    (RoomService.JoinRoom (exampleRoomEnv []) (worldWithRoom 3)
        (exampleJoin "12345678" "")).2.isOk = true ∧
    (RoomService.JoinRoom (exampleRoomEnv []) (worldWithRoom 3)
        (exampleJoin "12345678" "")).1.DB.roomDevices.rows.map RoomDevice.DeviceName
      = ["Device 12345678"] ∧
    (RoomService.JoinRoom (exampleRoomEnv [])
        (joinAll (exampleRoomEnv []) (worldWithRoom 3) [exampleJoin "dev-1" "phone"])
        (exampleJoin "dev-1" "")).2.isOk = true :=
  ⟨by decide, by decide, by decide, by decide, by decide, by decide⟩

/-! ## C28: a get after a delete through the manager -/

/-- A get through the manager with both adapters of an id neither store
holds returns an error. -/
theorem failoverManager_get_absent (env : Env) (w : World) (k : EntityKind) (id : String)
    (call : Call) (hcall : k.getCall id = some call)
    (hm : w.mongo.stores k id = false) (hs : w.sqlite.stores k id = false) :
    ((failoverManager env).invoke w call).2.err ≠ none := by
  obtain ⟨_, r2, _⟩ := StorageManager.invoke_routing (failoverManager env) w call
  have hprim : (failoverManager env).primary = MongoStorage.backend env := rfl
  rw [hprim] at r2
  obtain ⟨g1, _, g3, g4⟩ := MongoStorage.mongo_get_absent env w k id call hcall hm
  rw [r2 (SQLiteStorage.backend env) g1 rfl, g4]
  exact (SQLiteStorage.sqlite_get_absent env _ k id call hcall (by rw [g3]; exact hs)).1

/-- A get through the manager with the relational adapter only of an id the
relational store does not hold returns an error. -/
theorem relationalOnlyManager_get_absent (env : Env) (w : World) (k : EntityKind)
    (id : String) (call : Call) (hcall : k.getCall id = some call)
    (hs : w.sqlite.stores k id = false) :
    ((relationalOnlyManager env).invoke w call).2.err ≠ none := by
  obtain ⟨_, r2, _⟩ := StorageManager.invoke_routing (relationalOnlyManager env) w call
  have hprim : (relationalOnlyManager env).primary = SQLiteStorage.backend env := rfl
  rw [hprim] at r2
  obtain ⟨g1, _, g3, g4⟩ := SQLiteStorage.sqlite_get_absent env w k id call hcall hs
  rw [r2 (SQLiteStorage.backend env) g1 rfl, g4]
  exact (SQLiteStorage.sqlite_get_absent env _ k id call hcall (by rw [g3]; exact hs)).1

/-- A delete through the manager with both adapters that returned no error
emptied the store of the adapter that answered and left the other store as
it was. -/
theorem failoverManager_delete_removes (env : Env) (w : World) (k : EntityKind) (id : String)
    (hdel : ((failoverManager env).invoke w (k.deleteCall id)).2.err = none)
    (hone : (w.mongo.matching k id).length ≤ 1) :
    (env.mongoFault w.mongoCalls = false →
      ((failoverManager env).invoke w (k.deleteCall id)).1.mongo.stores k id = false ∧
      ((failoverManager env).invoke w (k.deleteCall id)).1.sqlite = w.sqlite) ∧
    (env.mongoFault w.mongoCalls = true →
      ((failoverManager env).invoke w (k.deleteCall id)).1.sqlite.stores k id = false ∧
      ((failoverManager env).invoke w (k.deleteCall id)).1.mongo = w.mongo) := by
  obtain ⟨r1, r2, _⟩ := StorageManager.invoke_routing (failoverManager env) w (k.deleteCall id)
  have hprim : (failoverManager env).primary = MongoStorage.backend env := rfl
  rw [hprim] at r1 r2
  refine ⟨fun hf => ?_, fun hf => ?_⟩
  · obtain ⟨d1, d2, _, _⟩ := MongoStorage.mongo_delete_spec env w k id hf
    rw [r1 d1]
    exact ⟨MongoStorage.mongo_delete_removes env w k id hf hone, d2⟩
  · have hp := MongoStorage.mongo_delete_fault env w k id hf
    have hr := r2 (SQLiteStorage.backend env) (by rw [hp]; simp [Reply.err]) rfl
    rw [hp, EntityKind.deleteCall_after] at hr
    rw [hr] at hdel ⊢
    have hs : env.sqliteFault ({ w with mongoCalls := w.mongoCalls + 1 } : World).sqliteCalls
        = false := by
      cases hsf : env.sqliteFault ({ w with mongoCalls := w.mongoCalls + 1 } : World).sqliteCalls
        with
      | false => rfl
      | true =>
        rw [SQLiteStorage.sqlite_delete_fault env _ k id hsf] at hdel
        simp [Reply.err] at hdel
    exact ⟨SQLiteStorage.sqlite_delete_removes env _ k id hs,
      (SQLiteStorage.sqlite_delete_spec env _ k id hs).2.1⟩

/-- A delete through the manager with the relational adapter only that
returned no error left no row under the id. -/
theorem relationalOnlyManager_delete_removes (env : Env) (w : World) (k : EntityKind)
    (id : String)
    (hdel : ((relationalOnlyManager env).invoke w (k.deleteCall id)).2.err = none) :
    ((relationalOnlyManager env).invoke w (k.deleteCall id)).1.sqlite.stores k id = false := by
  obtain ⟨r1, r2, _⟩ :=
    StorageManager.invoke_routing (relationalOnlyManager env) w (k.deleteCall id)
  have hprim : (relationalOnlyManager env).primary = SQLiteStorage.backend env := rfl
  rw [hprim] at r1 r2
  cases hf : env.sqliteFault w.sqliteCalls with
  | false =>
    rw [r1 (SQLiteStorage.sqlite_delete_spec env w k id hf).1]
    exact SQLiteStorage.sqlite_delete_removes env w k id hf
  | true =>
    have hp := SQLiteStorage.sqlite_delete_fault env w k id hf
    have hr := r2 (SQLiteStorage.backend env) (by rw [hp]; simp [Reply.err]) rfl
    rw [hp, EntityKind.deleteCall_after] at hr
    rw [hr] at hdel ⊢
    have hs : env.sqliteFault ({ w with sqliteCalls := w.sqliteCalls + 1 } : World).sqliteCalls
        = false := by
      cases hsf : env.sqliteFault ({ w with sqliteCalls := w.sqliteCalls + 1 } : World).sqliteCalls
        with
      | false => rfl
      | true =>
        rw [SQLiteStorage.sqlite_delete_fault env _ k id hsf] at hdel
        simp [Reply.err] at hdel
    exact SQLiteStorage.sqlite_delete_removes env _ k id hs

/-- C28, counterexample: with the collection `c1` held by the relational
store only and both stores reachable, `DeleteCollection "c1"` through the
manager returns no error (the document adapter answered, it had nothing to
remove) and the following `GetCollection "c1"` returns the collection with
no error, from the fallback. Likewise with `c1` held by the document store
only and the document store unreachable during the delete: the fallback
answers the delete, and the following get finds `c1` in the document store. -/
theorem C28_record_of_the_other_backend_survives_delete :
    ((failoverManager (exampleEnv [] [] "")).DeleteCollection
        (worldWithSQLiteCollection (exampleCollection "a" "room-1" none)) "c1").2 = none ∧
    ((failoverManager (exampleEnv [] [] "")).GetCollection
        ((failoverManager (exampleEnv [] [] "")).DeleteCollection
          (worldWithSQLiteCollection (exampleCollection "a" "room-1" none)) "c1").1 "c1").2.2
      = none ∧
    (((failoverManager (exampleEnv [] [] "")).GetCollection
        ((failoverManager (exampleEnv [] [] "")).DeleteCollection
          (worldWithSQLiteCollection (exampleCollection "a" "room-1" none)) "c1").1 "c1").2.1.map
        (fun c => (c.ID, c.Name))) = some ("c1", "a") ∧
    ((failoverManager (exampleEnv [0] [] "")).DeleteCollection
        (worldWithMongoCollection (exampleCollection "a" "room-1" none)) "c1").2 = none ∧
    ((failoverManager (exampleEnv [0] [] "")).GetCollection
        ((failoverManager (exampleEnv [0] [] "")).DeleteCollection
          (worldWithMongoCollection (exampleCollection "a" "room-1" none)) "c1").1 "c1").2.2
      = none ∧
    (((failoverManager (exampleEnv [0] [] "")).GetCollection
        ((failoverManager (exampleEnv [0] [] "")).DeleteCollection
          (worldWithMongoCollection (exampleCollection "a" "room-1" none)) "c1").1 "c1").2.1.map
        (fun c => (c.ID, c.Name))) = some ("c1", "a") :=
  ⟨by decide, by decide, by decide, by decide, by decide, by decide⟩

/-- C28, amended: for collections, environments and requests, after a delete
of `id` through the manager returned no error, a following get of `id`
through the manager returns an error when the backend that did not answer
the delete holds no record under `id`: with the document adapter as primary
and the relational adapter as fallback, when the document store held at most
one document under `id` and, the document adapter having answered the delete,
the relational store holds none, or, the document adapter having failed, the
document store holds none; with the relational adapter alone, always. -/
theorem C28_get_after_delete_fails_when_other_backend_is_clear (env : Env) (w : World)
    (k : EntityKind) (id : String) (call : Call) (hcall : k.getCall id = some call) :
    (((failoverManager env).invoke w (k.deleteCall id)).2.err = none →
      (w.mongo.matching k id).length ≤ 1 →
      (env.mongoFault w.mongoCalls = false → w.sqlite.stores k id = false) →
      (env.mongoFault w.mongoCalls = true → w.mongo.stores k id = false) →
      ((failoverManager env).invoke
        ((failoverManager env).invoke w (k.deleteCall id)).1 call).2.err ≠ none) ∧
    (((relationalOnlyManager env).invoke w (k.deleteCall id)).2.err = none →
      ((relationalOnlyManager env).invoke
        ((relationalOnlyManager env).invoke w (k.deleteCall id)).1 call).2.err ≠ none) := by
  refine ⟨fun hdel hone hsq hmg => ?_, fun hdel => ?_⟩
  · obtain ⟨a1, a2⟩ := failoverManager_delete_removes env w k id hdel hone
    cases hf : env.mongoFault w.mongoCalls with
    | false =>
      obtain ⟨b1, b2⟩ := a1 hf
      exact failoverManager_get_absent env _ k id call hcall b1 (by rw [b2]; exact hsq hf)
    | true =>
      obtain ⟨b1, b2⟩ := a2 hf
      exact failoverManager_get_absent env _ k id call hcall (by rw [b2]; exact hmg hf) b1
  · exact relationalOnlyManager_get_absent env _ k id call hcall
      (relationalOnlyManager_delete_removes env w k id hdel)

/-- C28, witness: the collection `c1` held by the document store only is
deleted through the manager, and the following get returns an error. -/
theorem C28_get_after_delete_fails_when_other_backend_is_clear_witness :
    EntityKind.collection.getCall "c1" = some (.GetCollection "c1") ∧
    ((failoverManager (exampleEnv [] [] "")).invoke
        (worldWithMongoCollection (exampleCollection "a" "room-1" none))
        (EntityKind.collection.deleteCall "c1")).2.err = none ∧
    ((failoverManager (exampleEnv [] [] "")).invoke
        ((failoverManager (exampleEnv [] [] "")).invoke
          (worldWithMongoCollection (exampleCollection "a" "room-1" none))
          (EntityKind.collection.deleteCall "c1")).1 (.GetCollection "c1")).2.err ≠ none :=
  ⟨rfl, by decide,
   (C28_get_after_delete_fails_when_other_backend_is_clear (exampleEnv [] [] "")
      (worldWithMongoCollection (exampleCollection "a" "room-1" none))
      .collection "c1" (.GetCollection "c1") rfl).1
      (by decide) (by decide) (fun _ => by decide) (fun h => absurd h (by decide))⟩

/-! ## C29: the requests of a deleted room -/

/-- C29, evaluated: the room 1 holds the collection 1 with the request "list".
`DeleteRoom` of the room succeeds and removes the room and the collection;
the request "list" stays stored, its `CollectionID` still the key of the
deleted collection. -/
theorem C29_delete_room_leaves_requests_of_its_collections :
    worldWithTwoRooms.DB.collections.rows.map (fun c => (c.ID, c.RoomID, c.Name)) =
      [(1, 1, "shared"), (2, 2, "other")] ∧
    worldWithTwoRooms.DB.requests.rows.map (fun r => (r.ID, r.CollectionID, r.Name)) =
      [(1, 1, "list"), (2, 2, "foreign")] ∧
    (RoomService.DeleteRoom (exampleRoomEnv []) worldWithTwoRooms 1 "secret1").2 = .ok () ∧
    (RoomService.DeleteRoom (exampleRoomEnv []) worldWithTwoRooms 1 "secret1").1.DB.rooms.rows
      = [] ∧
    (RoomService.DeleteRoom (exampleRoomEnv []) worldWithTwoRooms 1
        "secret1").1.DB.collections.rows.map (fun c => (c.ID, c.RoomID, c.Name)) =
      [(2, 2, "other")] ∧
    (RoomService.DeleteRoom (exampleRoomEnv []) worldWithTwoRooms 1
        "secret1").1.DB.requests.rows.map (fun r => (r.ID, r.CollectionID, r.Name)) =
      [(1, 1, "list"), (2, 2, "foreign")] :=
  ⟨by decide, by decide, by decide, by decide, by decide, by decide⟩

/-! ## C30: what a failing `CreateRoom` leaves behind -/

/-- C30, counterexample: with a token service that refuses to issue,
`CreateRoom` returns the token error after the room row was written, and the
row stays in the rooms table. -/
theorem C30_room_stays_when_token_issuance_fails :
    (RoomService.CreateRoom tokenFailingRoomEnv RoomWorld.empty
        { Name := "team", Password := "secret1", Description := "", RoomType := "",
          DeviceLimit := 2 }).2 = .err "token signing failed" ∧
    RoomWorld.empty.DB.rooms.rows = [] ∧
    (RoomService.CreateRoom tokenFailingRoomEnv RoomWorld.empty
        { Name := "team", Password := "secret1", Description := "", RoomType := "",
          DeviceLimit := 2 }).1.DB.rooms.rows.map (fun r => (r.ID, r.RoomID, r.Name)) =
      [(1, "000000000000", "team")] :=
  ⟨by decide, by decide, by decide⟩

/-- C30, amended: whenever `CreateRoom` returns an error, either every table
is as it was before the call (the request was refused, or the id generation,
the hashing or the insert failed), or the error is the one of the token
issuance and the rooms table holds the rows it held before and, after them,
the row of the request, written before the token was asked for. -/
theorem C30_create_room_error_before_token_leaves_store (env : RoomEnv) (w : RoomWorld)
    (req : CreateRoomRequest) (msg : String)
    (h : (RoomService.CreateRoom env w req).2 = .err msg) :
    (RoomService.CreateRoom env w req).1.DB = w.DB ∨
    ∃ row : Room,
      (RoomService.CreateRoom env w req).1.DB.rooms.rows = w.DB.rooms.rows ++ [row] ∧
      row.Name = req.Name ∧
      (RoomService.GenerateRoomToken env w row.ID row.RoomID).2.2 = some msg := by
  rcases RoomService.CreateRoom_cases env w req with
    ⟨_, _, hdb, _⟩ | ⟨row, hdb, _, _, hn, _, _, _, _, hres⟩
  · exact Or.inl hdb
  · rcases hres with ⟨m, hm, htok⟩ | ⟨token, hok⟩
    · rw [hm] at h
      simp only [Result.err.injEq] at h
      subst h
      exact Or.inr ⟨row, by rw [hdb], hn, htok⟩
    · rw [hok] at h
      exact Result.noConfusion h

/-- C30, witness: the insert of the room fails (gorm call number 0), the
token service being one that would issue. -/
theorem C30_create_room_error_before_token_leaves_store_witness :
    (RoomService.CreateRoom (exampleRoomEnv [0]) RoomWorld.empty
        { Name := "team", Password := "secret1", Description := "", RoomType := "",
          DeviceLimit := 2 }).2 = .err dbUnavailable ∧
    ((RoomService.CreateRoom (exampleRoomEnv [0]) RoomWorld.empty
        { Name := "team", Password := "secret1", Description := "", RoomType := "",
          DeviceLimit := 2 }).1.DB = RoomWorld.empty.DB ∨
      ∃ row : Room,
        (RoomService.CreateRoom (exampleRoomEnv [0]) RoomWorld.empty
          { Name := "team", Password := "secret1", Description := "", RoomType := "",
            DeviceLimit := 2 }).1.DB.rooms.rows = RoomWorld.empty.DB.rooms.rows ++ [row] ∧
        row.Name = "team" ∧
        (RoomService.GenerateRoomToken (exampleRoomEnv [0]) RoomWorld.empty row.ID
          row.RoomID).2.2 = some dbUnavailable) ∧
    (RoomService.CreateRoom (exampleRoomEnv [0]) RoomWorld.empty
        { Name := "team", Password := "secret1", Description := "", RoomType := "",
          DeviceLimit := 2 }).1.DB = RoomWorld.empty.DB :=
  ⟨by decide,
   C30_create_room_error_before_token_leaves_store (exampleRoomEnv [0]) RoomWorld.empty
      { Name := "team", Password := "secret1", Description := "", RoomType := "",
        DeviceLimit := 2 } dbUnavailable (by decide),
   by decide⟩

end RESTerX
